import Mathlib

/-! # Border painter and text painter: shallow embedding and verified properties

Embedding of `src/04_paint/border_painter` (`types.h`, `border_painter.h`,
`src/border_painter.cc`) together with the operation types of
`draw_commands.h`, in the namespace `BorderPainter`, and of the text painter
and its decoration painters, in the namespace `TextPainter`.  The
definitions of both come first; the facts proved about them follow.

Modelling conventions

* C++ `float` values are exact rationals (`ℚ`): rounding, infinities and NaN
  are outside the model.  The literal `0.7f` is the rational `7/10`.
* `std::array<float, n>` is a function `Fin n → ℚ`; a braced initialiser
  `{a, b, c, d}` is the vector `![a, b, c, d]`.
* `std::optional<T>` is `Option T`.  Dereferencing an empty optional and
  indexing an array out of bounds are undefined behaviour in C++; the
  functions that do either return `Option`, with `none` standing for the
  undefined run.
* A `PaintOpList&` out-parameter becomes explicit state passing: the list is
  an argument and the extended list is the result.
* `unsigned` counters are `Nat` (they never exceed 4), `int` identifiers are
  `Int` (they are only copied).
-/

namespace BorderPainter

/-! ## types.h -/

/-- RGBA colour, C++ struct Color. -/
structure Color where
  r : ℚ := 0
  g : ℚ := 0
  b : ℚ := 0
  a : ℚ := 1
  deriving DecidableEq, Repr

/-- C++ Color::operator==. -/
def Color.eq (c other : Color) : Bool :=
  decide (c.r = other.r) && decide (c.g = other.g) && decide (c.b = other.b) &&
    decide (c.a = other.a)

/-- C++ Color::IsFullyTransparent. -/
def Color.IsFullyTransparent (c : Color) : Bool := decide (c.a = 0)

/-- C++ Color::IsOpaque. -/
def Color.IsOpaque (c : Color) : Bool := decide (c.a = 1)

/-- C++ Color::Dark: darken for inset/outset/ridge/groove borders. -/
def Color.Dark (c : Color) : Color :=
  { r := c.r * (7 / 10), g := c.g * (7 / 10), b := c.b * (7 / 10), a := c.a }

/-- Rectangle with float coordinates, C++ struct RectF. -/
structure RectF where
  x : ℚ := 0
  y : ℚ := 0
  width : ℚ := 0
  height : ℚ := 0
  deriving DecidableEq, Repr

/-- Border side enumeration (kTop = 0, kRight = 1, kBottom = 2, kLeft = 3). -/
inductive BoxSide where
  | kTop
  | kRight
  | kBottom
  | kLeft
  deriving DecidableEq, Repr

/-- Border style enumeration, in the order of the C++ enum. -/
inductive EBorderStyle where
  | kNone
  | kHidden
  | kInset
  | kGroove
  | kOutset
  | kRidge
  | kDotted
  | kDashed
  | kSolid
  | kDouble
  deriving DecidableEq, Repr

/-- Border edge data for one side, C++ struct BorderEdge. -/
structure BorderEdge where
  width : ℚ := 0
  color : Color := {}
  style : EBorderStyle := EBorderStyle.kNone
  deriving DecidableEq, Repr

/-- C++ BorderEdge::ShouldRender. -/
def BorderEdge.ShouldRender (e : BorderEdge) : Bool :=
  decide (e.width > 0) && e.style != EBorderStyle.kNone &&
    e.style != EBorderStyle.kHidden && !e.color.IsFullyTransparent

/-- C++ BorderEdge::PresentButInvisible. -/
def BorderEdge.PresentButInvisible (e : BorderEdge) : Bool :=
  decide (e.width > 0) &&
    (e.style == EBorderStyle.kHidden || e.color.IsFullyTransparent)

/-- C++ BorderEdge::SharesColorWith. -/
def BorderEdge.SharesColorWith (e other : BorderEdge) : Bool :=
  e.color.eq other.color

/-- Border widths for each side, C++ struct BorderWidths. -/
structure BorderWidths where
  top : ℚ := 0
  right : ℚ := 0
  bottom : ℚ := 0
  left : ℚ := 0
  deriving DecidableEq, Repr

/-- C++ BorderWidths::IsZero. -/
def BorderWidths.IsZero (w : BorderWidths) : Bool :=
  decide (w.top = 0) && decide (w.right = 0) && decide (w.bottom = 0) &&
    decide (w.left = 0)

/-- Border colours for each side, C++ struct BorderColors. -/
structure BorderColors where
  top : Color := {}
  right : Color := {}
  bottom : Color := {}
  left : Color := {}
  deriving DecidableEq, Repr

/-- Border styles for each side, C++ struct BorderStyles (default solid). -/
structure BorderStyles where
  top : EBorderStyle := EBorderStyle.kSolid
  right : EBorderStyle := EBorderStyle.kSolid
  bottom : EBorderStyle := EBorderStyle.kSolid
  left : EBorderStyle := EBorderStyle.kSolid
  deriving DecidableEq, Repr

/-- Border radii: [tl_x, tl_y, tr_x, tr_y, br_x, br_y, bl_x, bl_y]. -/
abbrev BorderRadii := Fin 8 → ℚ

/-- C++ IsZeroRadii: false as soon as one component is greater than zero. -/
def IsZeroRadii (radii : BorderRadii) : Bool :=
  (List.finRange 8).all (fun i => !decide (radii i > 0))

/-- Visibility enum. -/
inductive Visibility where
  | kVisible
  | kHidden
  | kCollapse
  deriving DecidableEq, Repr

/-- Property tree state ids, C++ struct GraphicsStateIds. -/
structure GraphicsStateIds where
  transform_id : Int := 0
  clip_id : Int := 0
  effect_id : Int := 0
  deriving DecidableEq, Repr

/-- Paint style. -/
inductive PaintStyle where
  | kFill
  | kStroke
  | kStrokeAndFill
  deriving DecidableEq, Repr

/-- Stroke cap style. -/
inductive StrokeCap where
  | kButt
  | kRound
  | kSquare
  deriving DecidableEq, Repr

/-- Stroke join style. -/
inductive StrokeJoin where
  | kMiter
  | kRound
  | kBevel
  deriving DecidableEq, Repr

/-- Dash pattern for dashed/dotted borders, C++ struct DashPattern. -/
structure DashPattern where
  intervals : Fin 2 → ℚ := ![0, 0]
  phase : ℚ := 0
  has_pattern : Bool := false
  deriving DecidableEq

/-! ## draw_commands.h -/

/-- Draw flags for paint operations, C++ struct DrawFlags. -/
structure DrawFlags where
  color : Color := {}
  style : PaintStyle := PaintStyle.kFill
  stroke_width : ℚ := 0
  stroke_cap : StrokeCap := StrokeCap.kButt
  stroke_join : StrokeJoin := StrokeJoin.kMiter
  dash_pattern : DashPattern := {}
  deriving DecidableEq

/-- Rectangle operation; rect is [left, top, right, bottom]. -/
structure DrawRectOp where
  rect : Fin 4 → ℚ
  flags : DrawFlags := {}
  transform_id : Int := 0
  clip_id : Int := 0
  effect_id : Int := 0
  deriving DecidableEq

/-- Rounded rectangle operation. -/
structure DrawRRectOp where
  rect : Fin 4 → ℚ
  radii : BorderRadii
  flags : DrawFlags := {}
  transform_id : Int := 0
  clip_id : Int := 0
  effect_id : Int := 0
  deriving DecidableEq

/-- Line operation (for individual border edges). -/
structure DrawLineOp where
  x0 : ℚ := 0
  y0 : ℚ := 0
  x1 : ℚ := 0
  y1 : ℚ := 0
  flags : DrawFlags := {}
  transform_id : Int := 0
  clip_id : Int := 0
  effect_id : Int := 0
  deriving DecidableEq

/-- Double rounded rect operation (outer minus inner). -/
structure DrawDRRectOp where
  outer_rect : Fin 4 → ℚ
  outer_radii : BorderRadii
  inner_rect : Fin 4 → ℚ
  inner_radii : BorderRadii
  flags : DrawFlags := {}
  transform_id : Int := 0
  clip_id : Int := 0
  effect_id : Int := 0
  deriving DecidableEq

/-- Paint operation variant,
std::variant of DrawRectOp, DrawRRectOp, DrawLineOp, DrawDRRectOp. -/
inductive PaintOp where
  | DrawRect (op : DrawRectOp)
  | DrawRRect (op : DrawRRectOp)
  | DrawLine (op : DrawLineOp)
  | DrawDRRect (op : DrawDRRectOp)
  deriving DecidableEq

/-- Container for paint operations: the vector inside C++ class PaintOpList. -/
abbrev PaintOpList := List PaintOp

/-- C++ PaintOpList::AddDrawRect (push_back). -/
def PaintOpList.AddDrawRect (ops : PaintOpList) (op : DrawRectOp) : PaintOpList :=
  ops ++ [PaintOp.DrawRect op]

/-- C++ PaintOpList::AddDrawRRect (push_back). -/
def PaintOpList.AddDrawRRect (ops : PaintOpList) (op : DrawRRectOp) : PaintOpList :=
  ops ++ [PaintOp.DrawRRect op]

/-- C++ PaintOpList::AddDrawLine (push_back). -/
def PaintOpList.AddDrawLine (ops : PaintOpList) (op : DrawLineOp) : PaintOpList :=
  ops ++ [PaintOp.DrawLine op]

/-- C++ PaintOpList::AddDrawDRRect (push_back). -/
def PaintOpList.AddDrawDRRect (ops : PaintOpList) (op : DrawDRRectOp) : PaintOpList :=
  ops ++ [PaintOp.DrawDRRect op]

/-! ## border_painter.h -/

/-- Render hint: which strategy the painter is told to use. -/
inductive BorderRenderHint where
  | kAuto
  | kStrokedRect
  | kDrawLine
  | kFilledThinRect
  | kDoubleStroked
  | kDottedLines
  | kGrooveRidge
  deriving DecidableEq, Repr

/-- Input data for border painting, C++ struct BorderPaintInput. -/
structure BorderPaintInput where
  geometry : RectF := {}
  border_widths : BorderWidths := {}
  border_colors : BorderColors := {}
  border_styles : Option BorderStyles := none
  border_radii : Option BorderRadii := none
  visibility : Visibility := Visibility.kVisible
  node_id : Int := -1
  state_ids : GraphicsStateIds := {}
  render_hint : BorderRenderHint := BorderRenderHint.kAuto

/-- C++ BorderPainter::BorderProperties. -/
structure BorderProperties where
  is_uniform_width : Bool := true
  is_uniform_color : Bool := true
  is_uniform_style : Bool := true
  is_rounded : Bool := false
  has_transparency : Bool := false
  visible_edge_count : Nat := 0
  first_visible_edge : Nat := 0
  deriving DecidableEq, Repr

/-! ## border_painter.cc -/

/-- C++ DarkenBoxSide: whether a side darkens for inset/outset effects. -/
def DarkenBoxSide (side : BoxSide) (style : EBorderStyle) : Bool :=
  (side == BoxSide.kTop || side == BoxSide.kLeft) == (style == EBorderStyle.kInset)

/-- C++ BorderPainter::GetEdge. -/
def GetEdge (input : BorderPaintInput) (side : BoxSide) : BorderEdge :=
  match side with
  | BoxSide.kTop =>
    { width := input.border_widths.top
      color := input.border_colors.top
      style := match input.border_styles with
        | some styles => styles.top
        | none => EBorderStyle.kSolid }
  | BoxSide.kRight =>
    { width := input.border_widths.right
      color := input.border_colors.right
      style := match input.border_styles with
        | some styles => styles.right
        | none => EBorderStyle.kSolid }
  | BoxSide.kBottom =>
    { width := input.border_widths.bottom
      color := input.border_colors.bottom
      style := match input.border_styles with
        | some styles => styles.bottom
        | none => EBorderStyle.kSolid }
  | BoxSide.kLeft =>
    { width := input.border_widths.left
      color := input.border_colors.left
      style := match input.border_styles with
        | some styles => styles.left
        | none => EBorderStyle.kSolid }

/-- The call GetEdge(input, static_cast<BoxSide>(n)) for an unsigned n: a
value outside 0..3 matches no case of the switch, which leaves the
default-constructed edge. -/
def GetEdgeOfIndex (input : BorderPaintInput) (n : Nat) : BorderEdge :=
  match n with
  | 0 => GetEdge input BoxSide.kTop
  | 1 => GetEdge input BoxSide.kRight
  | 2 => GetEdge input BoxSide.kBottom
  | 3 => GetEdge input BoxSide.kLeft
  | _ => {}

/-- C++ BorderPainter::HasBorderRadius. -/
def HasBorderRadius (input : BorderPaintInput) : Bool :=
  match input.border_radii with
  | none => false
  | some radii => !IsZeroRadii radii

/-- Body of the loop of AnalyzeBorder for index i; none when an array
access is out of bounds. -/
def AnalyzeEdge (edges : List BorderEdge) (props : BorderProperties) (i : Nat) :
    Option BorderProperties := do
  let edge ← edges[i]?
  if !edge.ShouldRender then
    if edge.PresentButInvisible then
      some { props with is_uniform_width := false, is_uniform_color := false }
    else
      some props
  else
    let props : BorderProperties :=
      if !edge.color.IsOpaque then { props with has_transparency := true } else props
    let props : BorderProperties :=
      { props with visible_edge_count := props.visible_edge_count + 1 }
    if props.visible_edge_count = 1 then
      some { props with first_visible_edge := i }
    else
      let first ← edges[props.first_visible_edge]?
      some { props with
        is_uniform_style := props.is_uniform_style && (edge.style == first.style)
        is_uniform_width := props.is_uniform_width && decide (edge.width = first.width)
        is_uniform_color := props.is_uniform_color && edge.SharesColorWith first }

/-- C++ BorderPainter::AnalyzeBorder. -/
def AnalyzeBorder (input : BorderPaintInput) : Option BorderProperties := do
  let edges : List BorderEdge :=
    [GetEdge input BoxSide.kTop, GetEdge input BoxSide.kRight,
     GetEdge input BoxSide.kBottom, GetEdge input BoxSide.kLeft]
  let props ← (List.range 4).foldlM (AnalyzeEdge edges) {}
  some { props with is_rounded := HasBorderRadius input }

/-- C++ BorderPainter::AdjustRadiiForStroke. -/
def AdjustRadiiForStroke (radii : BorderRadii) (stroke_width : ℚ) : BorderRadii :=
  let adjustment := stroke_width / 2
  fun i => max 0 (radii i - adjustment)

/-- C++ BorderPainter::CalculateStrokeRect. -/
def CalculateStrokeRect (geometry : RectF) (stroke_width : ℚ) : Fin 4 → ℚ :=
  let inset := stroke_width / 2
  ![geometry.x + inset,
    geometry.y + inset,
    geometry.x + geometry.width - inset,
    geometry.y + geometry.height - inset]

/-- C++ BorderPainter::CalculateInnerRect. -/
def CalculateInnerRect (geometry : RectF) (widths : BorderWidths) : Fin 4 → ℚ :=
  ![geometry.x + widths.left,
    geometry.y + widths.top,
    geometry.x + geometry.width - widths.right,
    geometry.y + geometry.height - widths.bottom]

/-- C++ BorderPainter::AdjustRadiiForInner. -/
def AdjustRadiiForInner (radii : BorderRadii) (widths : BorderWidths) : BorderRadii :=
  ![max 0 (radii 0 - widths.left),
    max 0 (radii 1 - widths.top),
    max 0 (radii 2 - widths.right),
    max 0 (radii 3 - widths.top),
    max 0 (radii 4 - widths.right),
    max 0 (radii 5 - widths.bottom),
    max 0 (radii 6 - widths.left),
    max 0 (radii 7 - widths.bottom)]

/-- C++ BorderPainter::BuildStrokeFlags. -/
def BuildStrokeFlags (color : Color) (stroke_width : ℚ)
    (style : EBorderStyle := EBorderStyle.kSolid) : DrawFlags :=
  let flags : DrawFlags :=
    { color := color
      style := PaintStyle.kStroke
      stroke_width := stroke_width
      stroke_cap := StrokeCap.kButt
      stroke_join := StrokeJoin.kMiter }
  if style = EBorderStyle.kDotted then
    { flags with
      dash_pattern := { flags.dash_pattern with
        has_pattern := true, intervals := ![stroke_width, stroke_width] }
      stroke_cap := StrokeCap.kRound }
  else if style = EBorderStyle.kDashed then
    { flags with
      dash_pattern := { flags.dash_pattern with
        has_pattern := true, intervals := ![stroke_width * 3, stroke_width] } }
  else
    flags

/-- C++ BorderPainter::BuildFillFlags. -/
def BuildFillFlags (color : Color) : DrawFlags :=
  { color := color, style := PaintStyle.kFill }

/-- C++ BorderPainter::CalculateBorderColor. -/
def CalculateBorderColor (color : Color) (side : BoxSide) (style : EBorderStyle) : Color :=
  if style = EBorderStyle.kInset ∨ style = EBorderStyle.kOutset then
    let darken := DarkenBoxSide side style
    if darken then color.Dark else color
  else if style = EBorderStyle.kRidge ∨ style = EBorderStyle.kGroove then
    let darken := DarkenBoxSide side
      (if style = EBorderStyle.kGroove then EBorderStyle.kInset else EBorderStyle.kOutset)
    if darken then color.Dark else color
  else
    color

/-- C++ BorderPainter::PaintSideAsFilledRect. -/
def PaintSideAsFilledRect (input : BorderPaintInput) (side : BoxSide)
    (ops : PaintOpList) : PaintOpList :=
  let edge := GetEdge input side
  let color := CalculateBorderColor edge.color side edge.style
  let g := input.geometry
  let rect : Fin 4 → ℚ :=
    match side with
    | BoxSide.kTop => ![g.x, g.y, g.x + g.width, g.y + edge.width]
    | BoxSide.kRight => ![g.x + g.width - edge.width, g.y, g.x + g.width, g.y + g.height]
    | BoxSide.kBottom => ![g.x, g.y + g.height - edge.width, g.x + g.width, g.y + g.height]
    | BoxSide.kLeft => ![g.x, g.y, g.x + edge.width, g.y + g.height]
  ops.AddDrawRect
    { rect := rect
      flags := BuildFillFlags color
      transform_id := input.state_ids.transform_id
      clip_id := input.state_ids.clip_id
      effect_id := input.state_ids.effect_id }

/-- C++ BorderPainter::PaintSideAsLine. -/
def PaintSideAsLine (input : BorderPaintInput) (side : BoxSide)
    (ops : PaintOpList) : PaintOpList :=
  let edge := GetEdge input side
  let color := CalculateBorderColor edge.color side edge.style
  let half_width := edge.width / 2
  let g := input.geometry
  let pts : ℚ × ℚ × ℚ × ℚ :=
    match side with
    | BoxSide.kTop => (g.x, g.y + half_width, g.x + g.width, g.y + half_width)
    | BoxSide.kRight =>
      (g.x + g.width - half_width, g.y, g.x + g.width - half_width, g.y + g.height)
    | BoxSide.kBottom =>
      (g.x, g.y + g.height - half_width, g.x + g.width, g.y + g.height - half_width)
    | BoxSide.kLeft => (g.x + half_width, g.y, g.x + half_width, g.y + g.height)
  ops.AddDrawLine
    { x0 := pts.1
      y0 := pts.2.1
      x1 := pts.2.2.1
      y1 := pts.2.2.2
      flags := BuildStrokeFlags color edge.width edge.style
      transform_id := input.state_ids.transform_id
      clip_id := input.state_ids.clip_id
      effect_id := input.state_ids.effect_id }

/-- C++ BorderPainter::PaintSide: filled rect below 10, stroked line otherwise. -/
def PaintSide (input : BorderPaintInput) (side : BoxSide) (ops : PaintOpList) :
    PaintOpList :=
  let edge := GetEdge input side
  if edge.width < 10 then
    PaintSideAsFilledRect input side ops
  else
    PaintSideAsLine input side ops

/-- The initializer list {kTop, kRight, kBottom, kLeft} the per-side loops
range over. -/
def sideOrder : List BoxSide :=
  [BoxSide.kTop, BoxSide.kRight, BoxSide.kBottom, BoxSide.kLeft]

/-- C++ BorderPainter::PaintSides (slow path). -/
def PaintSides (input : BorderPaintInput) (_props : BorderProperties)
    (ops : PaintOpList) : PaintOpList :=
  sideOrder.foldl
    (fun ops side =>
      if !(GetEdge input side).ShouldRender then ops else PaintSide input side ops)
    ops

/-- C++ BorderPainter::PaintSidesAsLines. -/
def PaintSidesAsLines (input : BorderPaintInput) (_props : BorderProperties)
    (ops : PaintOpList) : PaintOpList :=
  sideOrder.foldl
    (fun ops side =>
      if !(GetEdge input side).ShouldRender then ops else PaintSideAsLine input side ops)
    ops

/-- C++ BorderPainter::PaintSidesAsFilledRects. -/
def PaintSidesAsFilledRects (input : BorderPaintInput) (_props : BorderProperties)
    (ops : PaintOpList) : PaintOpList :=
  sideOrder.foldl
    (fun ops side =>
      if !(GetEdge input side).ShouldRender then ops
      else PaintSideAsFilledRect input side ops)
    ops

/-- C++ BorderPainter::PaintFastPath: the Bool is the return value, the list
is the out-parameter afterwards; none when the radii are dereferenced while
absent. -/
def PaintFastPath (input : BorderPaintInput) (props : BorderProperties)
    (ops : PaintOpList) : Option (Bool × PaintOpList) :=
  if !props.is_uniform_color || !props.is_uniform_style then
    some (false, ops)
  else
    let first_edge := GetEdgeOfIndex input props.first_visible_edge
    if first_edge.style ≠ EBorderStyle.kSolid then
      some (false, ops)
    else if props.visible_edge_count ≠ 4 then
      some (false, ops)
    else
      let stroke_width := first_edge.width
      let color := first_edge.color
      if props.is_uniform_width && !props.is_rounded then
        some (true, ops.AddDrawRect
          { rect := CalculateStrokeRect input.geometry stroke_width
            flags := BuildStrokeFlags color stroke_width first_edge.style
            transform_id := input.state_ids.transform_id
            clip_id := input.state_ids.clip_id
            effect_id := input.state_ids.effect_id })
      else if props.is_uniform_width && props.is_rounded then do
        let radii ← input.border_radii
        some (true, ops.AddDrawRRect
          { rect := CalculateStrokeRect input.geometry stroke_width
            radii := AdjustRadiiForStroke radii stroke_width
            flags := BuildStrokeFlags color stroke_width first_edge.style
            transform_id := input.state_ids.transform_id
            clip_id := input.state_ids.clip_id
            effect_id := input.state_ids.effect_id })
      else if props.is_rounded then do
        let radii ← input.border_radii
        some (true, ops.AddDrawDRRect
          { outer_rect :=
              ![input.geometry.x,
                input.geometry.y,
                input.geometry.x + input.geometry.width,
                input.geometry.y + input.geometry.height]
            outer_radii := radii
            inner_rect := CalculateInnerRect input.geometry input.border_widths
            inner_radii := AdjustRadiiForInner radii input.border_widths
            flags := BuildFillFlags color
            transform_id := input.state_ids.transform_id
            clip_id := input.state_ids.clip_id
            effect_id := input.state_ids.effect_id })
      else
        some (false, ops)

/-- C++ BorderPainter::PaintDoubleBorder: two stroked rects or rrects. -/
def PaintDoubleBorder (input : BorderPaintInput) (props : BorderProperties)
    (ops : PaintOpList) : PaintOpList :=
  let first_edge := GetEdgeOfIndex input props.first_visible_edge
  let border_width := first_edge.width
  let color := first_edge.color
  let sw : ℚ := (⌈border_width / 3⌉ : ℤ)
  let outer_inset := sw / 2
  let inner_inset := border_width - sw / 2
  match props.is_rounded, input.border_radii with
  | true, some radii =>
    let ops := ops.AddDrawRRect
      { rect :=
          ![input.geometry.x + outer_inset,
            input.geometry.y + outer_inset,
            input.geometry.x + input.geometry.width - outer_inset,
            input.geometry.y + input.geometry.height - outer_inset]
        radii := AdjustRadiiForStroke radii sw
        flags := BuildStrokeFlags color sw EBorderStyle.kSolid
        transform_id := input.state_ids.transform_id
        clip_id := input.state_ids.clip_id
        effect_id := input.state_ids.effect_id }
    ops.AddDrawRRect
      { rect :=
          ![input.geometry.x + inner_inset,
            input.geometry.y + inner_inset,
            input.geometry.x + input.geometry.width - inner_inset,
            input.geometry.y + input.geometry.height - inner_inset]
        radii := AdjustRadiiForStroke radii (border_width + sw)
        flags := BuildStrokeFlags color sw EBorderStyle.kSolid
        transform_id := input.state_ids.transform_id
        clip_id := input.state_ids.clip_id
        effect_id := input.state_ids.effect_id }
  | _, _ =>
    let ops := ops.AddDrawRect
      { rect :=
          ![input.geometry.x + outer_inset,
            input.geometry.y + outer_inset,
            input.geometry.x + input.geometry.width - outer_inset,
            input.geometry.y + input.geometry.height - outer_inset]
        flags := BuildStrokeFlags color sw EBorderStyle.kSolid
        transform_id := input.state_ids.transform_id
        clip_id := input.state_ids.clip_id
        effect_id := input.state_ids.effect_id }
    ops.AddDrawRect
      { rect :=
          ![input.geometry.x + inner_inset,
            input.geometry.y + inner_inset,
            input.geometry.x + input.geometry.width - inner_inset,
            input.geometry.y + input.geometry.height - inner_inset]
        flags := BuildStrokeFlags color sw EBorderStyle.kSolid
        transform_id := input.state_ids.transform_id
        clip_id := input.state_ids.clip_id
        effect_id := input.state_ids.effect_id }

/-- C++ BorderPainter::PaintDottedBorder: one dotted stroked line per
rendering side. -/
def PaintDottedBorder (input : BorderPaintInput) (_props : BorderProperties)
    (ops : PaintOpList) : PaintOpList :=
  sideOrder.foldl
    (fun ops side =>
      let edge := GetEdge input side
      if !edge.ShouldRender then ops
      else
        let half_width := edge.width / 2
        let g := input.geometry
        let pts : ℚ × ℚ × ℚ × ℚ :=
          match side with
          | BoxSide.kTop => (g.x, g.y + half_width, g.x + g.width, g.y + half_width)
          | BoxSide.kRight =>
            (g.x + g.width - half_width, g.y, g.x + g.width - half_width, g.y + g.height)
          | BoxSide.kBottom =>
            (g.x, g.y + g.height - half_width, g.x + g.width, g.y + g.height - half_width)
          | BoxSide.kLeft => (g.x + half_width, g.y, g.x + half_width, g.y + g.height)
        ops.AddDrawLine
          { x0 := pts.1
            y0 := pts.2.1
            x1 := pts.2.2.1
            y1 := pts.2.2.2
            flags := BuildStrokeFlags edge.color edge.width EBorderStyle.kDotted
            transform_id := input.state_ids.transform_id
            clip_id := input.state_ids.clip_id
            effect_id := input.state_ids.effect_id })
    ops

/-- C++ BorderPainter::PaintGrooveRidgeBorder: two thin rects per rendering
side, outer half first. -/
def PaintGrooveRidgeBorder (input : BorderPaintInput) (props : BorderProperties)
    (ops : PaintOpList) : PaintOpList :=
  let first_edge := GetEdgeOfIndex input props.first_visible_edge
  let border_width := first_edge.width
  let color := first_edge.color
  let half_width := border_width / 2
  let is_groove : Bool := first_edge.style == EBorderStyle.kGroove
  let dark_color := color.Dark
  let light_color := color
  let g := input.geometry
  sideOrder.foldl
    (fun ops side =>
      let edge := GetEdge input side
      if !edge.ShouldRender then ops
      else
        let is_top_or_left : Bool := side == BoxSide.kTop || side == BoxSide.kLeft
        let outer_color := if is_groove == is_top_or_left then dark_color else light_color
        let inner_color := if is_groove == is_top_or_left then light_color else dark_color
        let rects : (Fin 4 → ℚ) × (Fin 4 → ℚ) :=
          match side with
          | BoxSide.kTop =>
            (![g.x, g.y, g.x + g.width, g.y + half_width],
             ![g.x, g.y + half_width, g.x + g.width, g.y + border_width])
          | BoxSide.kBottom =>
            (![g.x, g.y + g.height - half_width, g.x + g.width, g.y + g.height],
             ![g.x, g.y + g.height - border_width, g.x + g.width,
               g.y + g.height - half_width])
          | BoxSide.kRight =>
            (![g.x + g.width - half_width, g.y, g.x + g.width, g.y + g.height],
             ![g.x + g.width - border_width, g.y, g.x + g.width - half_width,
               g.y + g.height])
          | BoxSide.kLeft =>
            (![g.x, g.y, g.x + half_width, g.y + g.height],
             ![g.x + half_width, g.y, g.x + border_width, g.y + g.height])
        let ops := ops.AddDrawRect
          { rect := rects.1
            flags := BuildFillFlags outer_color
            transform_id := input.state_ids.transform_id
            clip_id := input.state_ids.clip_id
            effect_id := input.state_ids.effect_id }
        ops.AddDrawRect
          { rect := rects.2
            flags := BuildFillFlags inner_color
            transform_id := input.state_ids.transform_id
            clip_id := input.state_ids.clip_id
            effect_id := input.state_ids.effect_id })
    ops

/-- C++ BorderPainter::Paint; none stands for a run with undefined
behaviour (see AnalyzeEdge and PaintFastPath). -/
def Paint (input : BorderPaintInput) : Option PaintOpList :=
  let ops : PaintOpList := []
  if input.visibility ≠ Visibility.kVisible then
    some ops
  else if input.border_widths.IsZero then
    some ops
  else do
    let props ← AnalyzeBorder input
    if props.visible_edge_count = 0 then
      some ops
    else if input.render_hint = BorderRenderHint.kDrawLine then
      some (PaintSidesAsLines input props ops)
    else if input.render_hint = BorderRenderHint.kFilledThinRect then
      some (PaintSidesAsFilledRects input props ops)
    else if input.render_hint = BorderRenderHint.kDoubleStroked then
      some (PaintDoubleBorder input props ops)
    else if input.render_hint = BorderRenderHint.kDottedLines then
      some (PaintDottedBorder input props ops)
    else if input.render_hint = BorderRenderHint.kGrooveRidge then
      some (PaintGrooveRidgeBorder input props ops)
    else if input.render_hint = BorderRenderHint.kAuto ∨
        input.render_hint = BorderRenderHint.kStrokedRect then do
      let fast ← PaintFastPath input props ops
      if fast.1 then
        some fast.2
      else
        some (PaintSides input props fast.2)
    else
      some (PaintSides input props ops)

/-! ## Auxiliary definitions used to state the properties -/

/-- The four edges in loop order, as AnalyzeBorder collects them. -/
def edgesOf (input : BorderPaintInput) : List BorderEdge :=
  [GetEdge input BoxSide.kTop, GetEdge input BoxSide.kRight,
   GetEdge input BoxSide.kBottom, GetEdge input BoxSide.kLeft]

/-- The sides whose edge should render, in the order top, right, bottom, left. -/
def renderingSides (input : BorderPaintInput) : List BoxSide :=
  sideOrder.filter (fun side => (GetEdge input side).ShouldRender)

/-- Closed form of the flags the loop of AnalyzeBorder leaves behind; it is
proved equal to the loop in analyze_loop_closed. -/
def analyzeClosed (es : List BorderEdge) : BorderProperties :=
  let vis := es.filter BorderEdge.ShouldRender
  let first : BorderEdge := vis.headD {}
  let noHidden : Bool := es.all (fun e => e.ShouldRender || !e.PresentButInvisible)
  { is_uniform_width := noHidden && vis.all (fun e => decide (e.width = first.width))
    is_uniform_color := noHidden && vis.all (fun e => e.SharesColorWith first)
    is_uniform_style := vis.all (fun e => e.style == first.style)
    is_rounded := false
    has_transparency := vis.any (fun e => !e.color.IsOpaque)
    visible_edge_count := vis.length
    first_visible_edge := if vis.isEmpty then 0 else es.findIdx BorderEdge.ShouldRender }

/-- The record AnalyzeBorder returns (see AnalyzeBorder_propsOf). -/
def propsOf (input : BorderPaintInput) : BorderProperties :=
  { analyzeClosed (edgesOf input) with is_rounded := HasBorderRadius input }

/-- A fast-path operation: a stroked rect, a stroked rounded rect or a filled
double rounded rect. -/
def IsFastPathOp (op : PaintOp) : Prop :=
  match op with
  | PaintOp.DrawRect o => o.flags.style = PaintStyle.kStroke
  | PaintOp.DrawRRect o => o.flags.style = PaintStyle.kStroke
  | PaintOp.DrawDRRect o => o.flags.style = PaintStyle.kFill
  | PaintOp.DrawLine _ => False

/-- The condition under which the code takes the fast path: all four edges
render, all styles are solid, all colours are equal, and the widths are all
equal or some radius component is greater than zero. -/
def FastPathCondition (input : BorderPaintInput) : Prop :=
  (∀ side, (GetEdge input side).ShouldRender = true) ∧
  (∀ side, (GetEdge input side).style = EBorderStyle.kSolid) ∧
  (∀ side side', (GetEdge input side).color = (GetEdge input side').color) ∧
  ((∀ side side', (GetEdge input side).width = (GetEdge input side').width) ∨
    ∃ r, input.border_radii = some r ∧ ∃ i, 0 < r i)

/-- The fast-path condition with the last alternative read as "the radii are
present and not all zero"; on radii that are all >= 0 it is equivalent to
FastPathCondition. -/
def ClaimedFastPathCondition (input : BorderPaintInput) : Prop :=
  (∀ side, (GetEdge input side).ShouldRender = true) ∧
  (∀ side, (GetEdge input side).style = EBorderStyle.kSolid) ∧
  (∀ side side', (GetEdge input side).color = (GetEdge input side').color) ∧
  ((∀ side side', (GetEdge input side).width = (GetEdge input side').width) ∨
    ∃ r, input.border_radii = some r ∧ ¬ ∀ i, r i = 0)

/-- The strip of thickness w along a side of the box g, as
[left, top, right, bottom]: top [x, y, x+width, y+w]; right
[x+width-w, y, x+width, y+height]; bottom [x, y+height-w, x+width, y+height];
left [x, y, x+w, y+height]. -/
def edgeStrip (g : RectF) (side : BoxSide) (w : ℚ) : Fin 4 → ℚ :=
  match side with
  | BoxSide.kTop => ![g.x, g.y, g.x + g.width, g.y + w]
  | BoxSide.kRight => ![g.x + g.width - w, g.y, g.x + g.width, g.y + g.height]
  | BoxSide.kBottom => ![g.x, g.y + g.height - w, g.x + g.width, g.y + g.height]
  | BoxSide.kLeft => ![g.x, g.y, g.x + w, g.y + g.height]

/-- The centreline of the strip of thickness w along a side of the box g, as
(x0, y0, x1, y1): the segment at distance w/2 from the outer edge, running
the full length of the side. -/
def edgeCentreline (g : RectF) (side : BoxSide) (w : ℚ) : ℚ × ℚ × ℚ × ℚ :=
  match side with
  | BoxSide.kTop => (g.x, g.y + w / 2, g.x + g.width, g.y + w / 2)
  | BoxSide.kRight => (g.x + g.width - w / 2, g.y, g.x + g.width - w / 2, g.y + g.height)
  | BoxSide.kBottom => (g.x, g.y + g.height - w / 2, g.x + g.width, g.y + g.height - w / 2)
  | BoxSide.kLeft => (g.x + w / 2, g.y, g.x + w / 2, g.y + g.height)

/-- The first edge, in the order top, right, bottom, left, that should
render (the default edge when none does). -/
def firstRenderingEdge (input : BorderPaintInput) : BorderEdge :=
  match renderingSides input with
  | [] => {}
  | side :: _ => GetEdge input side

/-- The box g inset by d on every side, as [left, top, right, bottom]. -/
def insetRect (g : RectF) (d : ℚ) : Fin 4 → ℚ :=
  ![g.x + d, g.y + d, g.x + g.width - d, g.y + g.height - d]

/-- The three state identifiers an operation carries, as
(transform_id, clip_id, effect_id). -/
def PaintOp.ids (op : PaintOp) : Int × Int × Int :=
  match op with
  | PaintOp.DrawRect o => (o.transform_id, o.clip_id, o.effect_id)
  | PaintOp.DrawRRect o => (o.transform_id, o.clip_id, o.effect_id)
  | PaintOp.DrawLine o => (o.transform_id, o.clip_id, o.effect_id)
  | PaintOp.DrawDRRect o => (o.transform_id, o.clip_id, o.effect_id)

/-- The operation carries the three state identifiers of the input. -/
def CarriesStateIds (input : BorderPaintInput) (op : PaintOp) : Prop :=
  op.ids = (input.state_ids.transform_id, input.state_ids.clip_id, input.state_ids.effect_id)

/-- The inner half of the strip of thickness w along a side of the box g, as
[left, top, right, bottom]: the part between distance w/2 and distance w from
the outer edge. -/
def edgeInnerHalf (g : RectF) (side : BoxSide) (w : ℚ) : Fin 4 → ℚ :=
  match side with
  | BoxSide.kTop => ![g.x, g.y + w / 2, g.x + g.width, g.y + w]
  | BoxSide.kRight => ![g.x + g.width - w, g.y, g.x + g.width - w / 2, g.y + g.height]
  | BoxSide.kBottom => ![g.x, g.y + g.height - w, g.x + g.width, g.y + g.height - w / 2]
  | BoxSide.kLeft => ![g.x + w / 2, g.y, g.x + w, g.y + g.height]

/-- The rectangles an operation carries, each as [left, top, right, bottom]. -/
def PaintOp.rects (op : PaintOp) : List (Fin 4 → ℚ) :=
  match op with
  | PaintOp.DrawRect o => [o.rect]
  | PaintOp.DrawRRect o => [o.rect]
  | PaintOp.DrawLine _ => []
  | PaintOp.DrawDRRect o => [o.outer_rect, o.inner_rect]

/-- The radii arrays an operation carries. -/
def PaintOp.radii (op : PaintOp) : List BorderRadii :=
  match op with
  | PaintOp.DrawRect _ => []
  | PaintOp.DrawRRect o => [o.radii]
  | PaintOp.DrawLine _ => []
  | PaintOp.DrawDRRect o => [o.outer_radii, o.inner_radii]

/-- A rectangle [left, top, right, bottom] is not inverted: right >= left and
bottom >= top. -/
def NonInverted (r : Fin 4 → ℚ) : Prop := r 0 ≤ r 2 ∧ r 1 ≤ r 3

/-- Box size, border widths and radii of the input are all non-negative. -/
def NonNegativeInput (input : BorderPaintInput) : Prop :=
  0 ≤ input.geometry.width ∧ 0 ≤ input.geometry.height ∧
  0 ≤ input.border_widths.top ∧ 0 ≤ input.border_widths.right ∧
  0 ≤ input.border_widths.bottom ∧ 0 ≤ input.border_widths.left ∧
  ∀ r, input.border_radii = some r → ∀ i, 0 ≤ r i

/-- The border fits into the box: opposite widths sum to at most the extent of
the box, and under the double-stroke override, with W the width of the first
rendering edge and s = ceil(W/3), both s and 2W - s are at most the width and
the height of the box. -/
def BorderFits (input : BorderPaintInput) : Prop :=
  input.border_widths.left + input.border_widths.right ≤ input.geometry.width ∧
  input.border_widths.top + input.border_widths.bottom ≤ input.geometry.height ∧
  (input.render_hint = BorderRenderHint.kDoubleStroked →
    ((⌈(firstRenderingEdge input).width / 3⌉ : ℤ) : ℚ) ≤ input.geometry.width ∧
    ((⌈(firstRenderingEdge input).width / 3⌉ : ℤ) : ℚ) ≤ input.geometry.height ∧
    2 * (firstRenderingEdge input).width - ((⌈(firstRenderingEdge input).width / 3⌉ : ℤ) : ℚ) ≤
      input.geometry.width ∧
    2 * (firstRenderingEdge input).width - ((⌈(firstRenderingEdge input).width / 3⌉ : ℤ) : ℚ) ≤
      input.geometry.height)

/-- Every radius the operation carries is non-negative. -/
def RadiiNonNegative (op : PaintOp) : Prop := ∀ rad ∈ op.radii, ∀ i, 0 ≤ rad i

/-- Every rectangle the operation carries is not inverted. -/
def RectsNonInverted (op : PaintOp) : Prop := ∀ r ∈ op.rects, NonInverted r

/-- The operation has non-negative radii and, when the border fits the box,
rectangles that are not inverted. -/
def GeometryOk (input : BorderPaintInput) (op : PaintOp) : Prop :=
  RadiiNonNegative op ∧ (BorderFits input → RectsNonInverted op)

/-! ## Concrete inputs -/

/-- Every side solid. -/
def allSolid : BorderStyles :=
  { top := EBorderStyle.kSolid, right := EBorderStyle.kSolid,
    bottom := EBorderStyle.kSolid, left := EBorderStyle.kSolid }

/-- Geometry {0, 0, 100, 40} with a uniform 2px solid black border and zero
radii. -/
def uniformInput : BorderPaintInput :=
  { geometry := { x := 0, y := 0, width := 100, height := 40 }
    border_widths := { top := 2, right := 2, bottom := 2, left := 2 }
    border_colors := {}
    border_styles := some allSolid
    border_radii := some (fun _ => 0) }

/-- The uniform input, not visible, with the groove/ridge override. -/
def hiddenInput : BorderPaintInput :=
  { uniformInput with
    visibility := Visibility.kHidden
    render_hint := BorderRenderHint.kGrooveRidge }

/-- Geometry {0, 0, 100, 40}, solid black, widths top 4, right 2, bottom 4,
left 2, zero radii. -/
def mixedWidthInput : BorderPaintInput :=
  { geometry := { x := 0, y := 0, width := 100, height := 40 }
    border_widths := { top := 4, right := 2, bottom := 4, left := 2 }
    border_colors := {}
    border_styles := some allSolid
    border_radii := some (fun _ => 0) }

/-- The mixed-width input with every radius component equal to -1. -/
def negRadiiMixedInput : BorderPaintInput :=
  { mixedWidthInput with border_radii := some (fun _ => -1) }

/-- The uniform input with every radius component equal to 5. -/
def roundedUniformInput : BorderPaintInput :=
  { uniformInput with border_radii := some (fun _ => 5) }

/-- The mixed-width input with every radius component equal to 3. -/
def roundedMixedInput : BorderPaintInput :=
  { mixedWidthInput with border_radii := some (fun _ => 3) }

/-- Geometry {0, 0, 100, 40} with a uniform 6px solid black border, every
radius component 5, under the double-border override. -/
def doubleRoundedInput : BorderPaintInput :=
  { geometry := { x := 0, y := 0, width := 100, height := 40 }
    border_widths := { top := 6, right := 6, bottom := 6, left := 6 }
    border_colors := {}
    border_styles := some allSolid
    border_radii := some (fun _ => 5)
    render_hint := BorderRenderHint.kDoubleStroked }

/-- Geometry {0, 0, 100, 40} where only the left edge has a width (3px, solid
black). -/
def leftOnlyInput : BorderPaintInput :=
  { geometry := { x := 0, y := 0, width := 100, height := 40 }
    border_widths := { top := 0, right := 0, bottom := 0, left := 3 }
    border_colors := {}
    border_styles := some allSolid }

/-- The uniform 2px input whose top colour is fully transparent. -/
def transparentTopInput : BorderPaintInput :=
  { geometry := { x := 0, y := 0, width := 100, height := 40 }
    border_widths := { top := 2, right := 2, bottom := 2, left := 2 }
    border_colors := { top := { r := 0, g := 0, b := 0, a := 0 } }
    border_styles := some allSolid }

/-- The uniform input carrying the state identifiers 3, 5 and 7. -/
def idsInput : BorderPaintInput :=
  { uniformInput with
    border_radii := none
    state_ids := { transform_id := 3, clip_id := 5, effect_id := 7 } }

/-- A colour with distinct components. -/
def sampleColor : Color := { r := 1, g := 1 / 2, b := 0, a := 1 }

/-- The mixed-width input under the draw-line override. -/
def drawLineInput : BorderPaintInput :=
  { mixedWidthInput with render_hint := BorderRenderHint.kDrawLine }

/-- Every side groove. -/
def allGroove : BorderStyles :=
  { top := EBorderStyle.kGroove, right := EBorderStyle.kGroove,
    bottom := EBorderStyle.kGroove, left := EBorderStyle.kGroove }

/-- Geometry {0, 0, 100, 40} with a uniform 4px groove border in sampleColor
under the groove/ridge override. -/
def grooveInput : BorderPaintInput :=
  { geometry := { x := 0, y := 0, width := 100, height := 40 }
    border_widths := { top := 4, right := 4, bottom := 4, left := 4 }
    border_colors :=
      { top := sampleColor, right := sampleColor, bottom := sampleColor, left := sampleColor }
    border_styles := some allGroove
    render_hint := BorderRenderHint.kGrooveRidge }

/-- Geometry {0, 0, 100, 40} with a uniform 60px solid black border and zero
radii: the border is wider than the box is high. -/
def wideBorderInput : BorderPaintInput :=
  { geometry := { x := 0, y := 0, width := 100, height := 40 }
    border_widths := { top := 60, right := 60, bottom := 60, left := 60 }
    border_colors := {}
    border_styles := some allSolid
    border_radii := some (fun _ => 0) }

end BorderPainter

namespace TextPainter

/-! # Text painter: shallow embedding

Embedding of `src/04_paint/text_painter/src/types.h`,
`src/text_painter/draw_commands.h`, `src/text_painter/text_decoration_info.cc`,
`src/04_paint/text_painter/decoration_line_painter.cc`,
`src/text_painter/text_shadow_painter.h`,
`src/04_paint/text_painter/src/text_decoration_painter.cc` and
`src/text_painter/text_painter.cc`.

Conventions as for the border painter: `float` is `ℚ`, `uint8_t`, `uint16_t`,
`unsigned` and `size_t` values are `Nat`, `int` is `Int`, `std::vector` is
`List`, `std::optional` is `Option`.  An object with mutable members becomes a
structure and each method a function returning the updated structure.
`std::cos` and `std::sin` are library functions outside the repository; the
functions that call them take them as the parameter `FloatMath`.
-/

/-! ## C library rounding -/

/-- C roundf / std::round: to the nearest integer, halves away from zero. -/
def cround (x : ℚ) : ℚ :=
  if 0 ≤ x then ((⌊x + 1 / 2⌋ : ℤ) : ℚ) else ((⌈x - 1 / 2⌉ : ℤ) : ℚ)

/-- C floorf. -/
def cfloor (x : ℚ) : ℚ := ((⌊x⌋ : ℤ) : ℚ)

/-- C ceilf. -/
def cceil (x : ℚ) : ℚ := ((⌈x⌉ : ℤ) : ℚ)

/-- C static_cast<int>: truncation toward zero. -/
def ctrunc (x : ℚ) : ℤ := if 0 ≤ x then ⌊x⌋ else ⌈x⌉

/-- The library functions std::cos and std::sin on float. -/
structure FloatMath where
  cos : ℚ → ℚ
  sin : ℚ → ℚ

/-! ## types.h -/

/-- RGBA colour with 8-bit components, C++ struct Color. -/
structure Color where
  r : Nat := 0
  g : Nat := 0
  b : Nat := 0
  a : Nat := 255
  deriving DecidableEq, Repr

/-- C++ Color::Black. -/
def Color.Black : Color := { r := 0, g := 0, b := 0, a := 255 }

/-- C++ struct PointF. -/
structure PointF where
  x : ℚ := 0
  y : ℚ := 0
  deriving DecidableEq, Repr

/-- C++ struct RectF. -/
structure RectF where
  x : ℚ := 0
  y : ℚ := 0
  width : ℚ := 0
  height : ℚ := 0
  deriving DecidableEq, Repr

/-- C++ struct ShadowData. -/
structure ShadowData where
  offset_x : ℚ := 0
  offset_y : ℚ := 0
  blur : ℚ := 0
  color : Color := {}
  deriving DecidableEq, Repr

/-- C++ ShadowData::BlurAsSigma. -/
def ShadowData.BlurAsSigma (s : ShadowData) : ℚ := s.blur / 2

inductive ColorScheme where
  | kLight
  | kDark
  deriving DecidableEq, Repr

inductive EPaintOrder where
  | kPaintOrderNormal
  | kPaintOrderFillStrokeMarkers
  | kPaintOrderFillMarkersStroke
  | kPaintOrderStrokeFillMarkers
  | kPaintOrderStrokeMarkersFill
  | kPaintOrderMarkersFillStroke
  | kPaintOrderMarkersStrokeFill
  deriving DecidableEq, Repr

inductive PaintStyle where
  | kFill
  | kStroke
  | kStrokeAndFill
  deriving DecidableEq, Repr

inductive WritingMode where
  | kHorizontalTb
  | kVerticalRl
  | kVerticalLr
  deriving DecidableEq, Repr

inductive PaintPhase where
  | kForeground
  | kTextClip
  | kSelectionDragImage
  deriving DecidableEq, Repr

inductive Visibility where
  | kVisible
  | kHidden
  | kCollapse
  deriving DecidableEq, Repr

/-- Text decoration line types, combined as bit flags over unsigned. -/
abbrev TextDecorationLine := Nat

def TextDecorationLine.kNone : TextDecorationLine := 0
def TextDecorationLine.kUnderline : TextDecorationLine := 1
def TextDecorationLine.kOverline : TextDecorationLine := 2
def TextDecorationLine.kLineThrough : TextDecorationLine := 4
def TextDecorationLine.kSpellingError : TextDecorationLine := 8
def TextDecorationLine.kGrammarError : TextDecorationLine := 16

/-- C++ HasFlag: the two flag sets share a bit. -/
def HasFlag (lines flag : TextDecorationLine) : Bool :=
  (lines &&& flag) != 0

inductive TextDecorationStyle where
  | kSolid
  | kDouble
  | kDotted
  | kDashed
  | kWavy
  deriving DecidableEq, Repr

inductive StrokeStyle where
  | kNoStroke
  | kSolidStroke
  | kDottedStroke
  | kDashedStroke
  | kDoubleStroke
  | kWavyStroke
  deriving DecidableEq, Repr

/-- C++ TextDecorationStyleToStrokeStyle. -/
def TextDecorationStyleToStrokeStyle (style : TextDecorationStyle) : StrokeStyle :=
  match style with
  | TextDecorationStyle.kSolid => StrokeStyle.kSolidStroke
  | TextDecorationStyle.kDouble => StrokeStyle.kDoubleStroke
  | TextDecorationStyle.kDotted => StrokeStyle.kDottedStroke
  | TextDecorationStyle.kDashed => StrokeStyle.kDashedStroke
  | TextDecorationStyle.kWavy => StrokeStyle.kWavyStroke

/-- C++ struct WaveDefinition. -/
structure WaveDefinition where
  wavelength : ℚ := 0
  control_point_distance : ℚ := 0
  phase : ℚ := 0
  deriving DecidableEq, Repr

/-- C++ MakeWave. -/
def MakeWave (thickness : ℚ) : WaveDefinition :=
  let clamped_thickness := max 1 thickness
  let wavelength := 1 + 2 * cround (2 * clamped_thickness + 1 / 2)
  let cp_distance := 1 / 2 + cround (3 * clamped_thickness + 1 / 2)
  { wavelength := wavelength, control_point_distance := cp_distance, phase := -wavelength }

/-- C++ struct DecorationGeometry. -/
structure DecorationGeometry where
  style : StrokeStyle := StrokeStyle.kSolidStroke
  line : RectF := {}
  double_offset : ℚ := 0
  wavy_offset : ℚ := 0
  wavy_wave : WaveDefinition := {}
  antialias : Bool := false
  deriving DecidableEq, Repr

/-- C++ DecorationGeometry::Thickness. -/
def DecorationGeometry.Thickness (g : DecorationGeometry) : ℚ := g.line.height

/-- C++ DecorationGeometry::Make; an absent custom_wave is the null pointer. -/
def DecorationGeometry.Make (style : StrokeStyle) (line_rect : RectF)
    (double_offset wavy_offset : ℚ) (custom_wave : Option WaveDefinition := none) :
    DecorationGeometry :=
  let geometry : DecorationGeometry :=
    { style := style, line := line_rect, double_offset := double_offset }
  if style = StrokeStyle.kWavyStroke then
    { geometry with
      wavy_wave := match custom_wave with
        | some wave => wave
        | none => MakeWave geometry.Thickness
      wavy_offset := wavy_offset }
  else
    geometry

/-- C++ struct TextDecoration. -/
structure TextDecoration where
  line : TextDecorationLine := TextDecorationLine.kNone
  style : TextDecorationStyle := TextDecorationStyle.kSolid
  color : Color := {}
  thickness : ℚ := 1
  underline_offset : ℚ := 0
  deriving DecidableEq, Repr

/-- C++ TextDecoration::GetStrokeStyle. -/
def TextDecoration.GetStrokeStyle (d : TextDecoration) : StrokeStyle :=
  TextDecorationStyleToStrokeStyle d.style

inductive LineLogicalSide where
  | kOver
  | kUnder
  deriving DecidableEq, Repr

inductive PhysicalDirection where
  | kLeft
  | kRight
  | kUp
  | kDown
  deriving DecidableEq, Repr

inductive SymbolMarkerType where
  | kNone
  | kDisc
  | kCircle
  | kSquare
  | kDisclosureOpen
  | kDisclosureClosed
  deriving DecidableEq, Repr

/-- C++ struct AffineTransform. -/
structure AffineTransform where
  a : ℚ := 1
  b : ℚ := 0
  c : ℚ := 0
  d : ℚ := 1
  e : ℚ := 0
  f : ℚ := 0
  deriving DecidableEq, Repr

def AffineTransform.Identity : AffineTransform := {}

def AffineTransform.MakeTranslation (tx ty : ℚ) : AffineTransform :=
  { a := 1, b := 0, c := 0, d := 1, e := tx, f := ty }

/-- C++ AffineTransform::MakeRotation; the literal for pi is the decimal
written in the source. -/
def AffineTransform.MakeRotation (m : FloatMath) (angle_degrees : ℚ) : AffineTransform :=
  let rad := angle_degrees * (314159265358979323846 / 100000000000000000000) / 180
  let cos_a := m.cos rad
  let sin_a := m.sin rad
  { a := cos_a, b := sin_a, c := -sin_a, d := cos_a, e := 0, f := 0 }

/-- C++ AffineTransform::Concat. -/
def AffineTransform.Concat (t other : AffineTransform) : AffineTransform :=
  { a := t.a * other.a + t.c * other.b
    b := t.b * other.a + t.d * other.b
    c := t.a * other.c + t.c * other.d
    d := t.b * other.c + t.d * other.d
    e := t.a * other.e + t.c * other.f + t.e
    f := t.b * other.e + t.d * other.f + t.f }

/-- C++ AffineTransform::ToArray. -/
def AffineTransform.ToArray (t : AffineTransform) : Fin 6 → ℚ :=
  ![t.a, t.b, t.c, t.d, t.e, t.f]

/-- C++ struct SvgTextInfo. -/
structure SvgTextInfo where
  scaling_factor : ℚ := 1
  has_transform : Bool := false
  transform : AffineTransform := {}
  length_adjust_scale : ℚ := 1

/-- C++ struct TextCombineInfo. -/
structure TextCombineInfo where
  is_combined : Bool := false
  compressed_font_scale : ℚ := 1
  text_left_adjustment : ℚ := 0
  text_top_adjustment : ℚ := 0

/-- C++ struct EmphasisMarkInfo. -/
structure EmphasisMarkInfo where
  mark : String := ""
  side : LineLogicalSide := LineLogicalSide.kOver
  offset : ℚ := 0
  has_annotation_on_same_side : Bool := false

/-- C++ struct FontInfo. -/
structure FontInfo where
  family : String := ""
  size : ℚ := 16
  weight : Int := 400
  width : Int := 5
  slant : Int := 0
  scale_x : ℚ := 1
  skew_x : ℚ := 0
  embolden : Bool := false
  linear_metrics : Bool := true
  subpixel : Bool := true
  force_auto_hinting : Bool := false
  typeface_id : Int := 0
  ascent : ℚ := 0
  descent : ℚ := 0
  underline_position : Option ℚ := none
  underline_thickness : Option ℚ := none

/-- C++ struct GlyphRun. -/
structure GlyphRun where
  font : FontInfo := {}
  glyphs : List Nat := []
  positions : List ℚ := []
  offset_x : ℚ := 0
  offset_y : ℚ := 0
  positioning : Int := 1

/-- C++ GlyphRun::GlyphCount. -/
def GlyphRun.GlyphCount (run : GlyphRun) : Nat := run.glyphs.length

/-- C++ struct ShapeResult. -/
structure ShapeResult where
  runs : List GlyphRun := []
  bounds : RectF := {}

/-- C++ ShapeResult::IsEmpty. -/
def ShapeResult.IsEmpty (s : ShapeResult) : Bool := s.runs.isEmpty

/-- C++ struct TextFragmentPaintInfo; the members from and to are from_ and
to_ here. -/
structure TextFragmentPaintInfo where
  text : String := ""
  from_ : Nat := 0
  to_ : Nat := 0
  shape_result : ShapeResult := {}

/-- C++ TextFragmentPaintInfo::HasShapeResult. -/
def TextFragmentPaintInfo.HasShapeResult (frag : TextFragmentPaintInfo) : Bool :=
  !frag.shape_result.IsEmpty

/-- C++ struct TextPaintStyle. -/
structure TextPaintStyle where
  current_color : Color := {}
  fill_color : Color := {}
  stroke_color : Color := {}
  emphasis_mark_color : Color := {}
  stroke_width : ℚ := 0
  color_scheme : ColorScheme := ColorScheme.kLight
  shadow : Option (List ShadowData) := none
  paint_order : EPaintOrder := EPaintOrder.kPaintOrderNormal

/-- C++ struct AutoDarkMode. -/
structure AutoDarkMode where
  enabled : Bool := false

/-- C++ struct SymbolMarkerInfo. -/
structure SymbolMarkerInfo where
  type : SymbolMarkerType := SymbolMarkerType.kNone
  marker_rect : RectF := {}
  color : Color := {}
  is_open : Bool := false

/-- C++ struct GraphicsStateIds. -/
structure GraphicsStateIds where
  transform_id : Int := 0
  clip_id : Int := 0
  effect_id : Int := 0
  deriving DecidableEq, Repr

/-- C++ struct PaintFlags. -/
structure PaintFlags where
  color : Color := {}
  style : PaintStyle := PaintStyle.kFill
  stroke_width : ℚ := 0
  deriving DecidableEq, Repr

/-! ## draw_commands.h -/

/-- C++ struct RunFont. -/
structure RunFont where
  size : ℚ := 16
  scale_x : ℚ := 1
  skew_x : ℚ := 0
  embolden : Bool := false
  linear_metrics : Bool := true
  subpixel : Bool := true
  force_auto_hinting : Bool := false
  family : String := ""
  typeface_id : Int := 0
  weight : Int := 400
  width : Int := 5
  slant : Int := 0

/-- C++ struct TextBlobRun. -/
structure TextBlobRun where
  glyph_count : Nat := 0
  glyphs : List Nat := []
  positioning : Int := 1
  offset_x : ℚ := 0
  offset_y : ℚ := 0
  positions : List ℚ := []
  font : RunFont := {}

/-- C++ struct DrawTextBlobOp. -/
structure DrawTextBlobOp where
  x : ℚ := 0
  y : ℚ := 0
  node_id : Int := 0
  flags : PaintFlags := {}
  bounds : Fin 4 → ℚ
  runs : List TextBlobRun := []
  transform_id : Int := 0
  clip_id : Int := 0
  effect_id : Int := 0

/-- C++ struct ClipRectOp. -/
structure ClipRectOp where
  rect : RectF := {}
  antialias : Bool := true

/-- C++ struct TranslateOp. -/
structure TranslateOp where
  dx : ℚ := 0
  dy : ℚ := 0

/-- C++ struct ScaleOp. -/
structure ScaleOp where
  sx : ℚ := 1
  sy : ℚ := 1

/-- C++ struct ConcatOp; matrix is [a, b, c, d, e, f]. -/
structure ConcatOp where
  matrix : Fin 6 → ℚ

/-- C++ struct SetMatrixOp. -/
structure SetMatrixOp where
  matrix : Fin 9 → ℚ

/-- C++ struct DrawLineOp: solid and double line decorations, drawn as rect. -/
structure DrawLineOp where
  rect : RectF := {}
  color : Color := {}
  snapped : Bool := true
  transform_id : Int := 0
  clip_id : Int := 0
  effect_id : Int := 0

/-- C++ struct DrawStrokeLineOp: dotted and dashed decorations. -/
structure DrawStrokeLineOp where
  p1 : PointF := {}
  p2 : PointF := {}
  thickness : ℚ := 1
  style : StrokeStyle := StrokeStyle.kDottedStroke
  color : Color := {}
  antialias : Bool := true
  transform_id : Int := 0
  clip_id : Int := 0
  effect_id : Int := 0

inductive PathCommandType where
  | kMoveTo
  | kLineTo
  | kCubicTo
  | kQuadTo
  | kClose
  deriving DecidableEq, Repr

/-- C++ struct PathCommand. -/
structure PathCommand where
  type : PathCommandType := PathCommandType.kMoveTo
  points : List PointF := []
  deriving DecidableEq, Repr

def PathCommand.MoveTo (x y : ℚ) : PathCommand :=
  { type := PathCommandType.kMoveTo, points := [{ x := x, y := y }] }

def PathCommand.CubicTo (cp1x cp1y cp2x cp2y x y : ℚ) : PathCommand :=
  { type := PathCommandType.kCubicTo
    points := [{ x := cp1x, y := cp1y }, { x := cp2x, y := cp2y }, { x := x, y := y }] }

/-- C++ struct Path: a sequence of commands. -/
structure Path where
  commands : List PathCommand := []
  deriving DecidableEq, Repr

/-- C++ Path::MoveTo (push_back). -/
def Path.MoveTo (p : Path) (x y : ℚ) : Path :=
  { commands := p.commands ++ [PathCommand.MoveTo x y] }

/-- C++ Path::CubicTo (push_back). -/
def Path.CubicTo (p : Path) (cp1x cp1y cp2x cp2y x y : ℚ) : Path :=
  { commands := p.commands ++ [PathCommand.CubicTo cp1x cp1y cp2x cp2y x y] }

/-- C++ struct DrawWavyLineOp. -/
structure DrawWavyLineOp where
  paint_rect : RectF := {}
  tile_rect : RectF := {}
  tile_path : Path := {}
  stroke_thickness : ℚ := 1
  color : Color := {}
  wave : WaveDefinition := {}
  transform_id : Int := 0
  clip_id : Int := 0
  effect_id : Int := 0

/-- C++ struct DrawDecorationLineOp. -/
structure DrawDecorationLineOp where
  x : ℚ := 0
  y : ℚ := 0
  width : ℚ := 0
  thickness : ℚ := 1
  line_type : TextDecorationLine := TextDecorationLine.kUnderline
  style : TextDecorationStyle := TextDecorationStyle.kSolid
  color : Color := {}
  double_offset : ℚ := 0
  wave : WaveDefinition := {}
  antialias : Bool := false
  transform_id : Int := 0
  clip_id : Int := 0
  effect_id : Int := 0

/-- C++ struct DrawEmphasisMarksOp. -/
structure DrawEmphasisMarksOp where
  x : ℚ := 0
  y : ℚ := 0
  mark : String := ""
  positions : List ℚ := []
  color : Color := {}
  font_size : ℚ := 16
  transform_id : Int := 0
  clip_id : Int := 0
  effect_id : Int := 0

/-- C++ struct FillEllipseOp. -/
structure FillEllipseOp where
  rect : RectF := {}
  color : Color := {}
  transform_id : Int := 0
  clip_id : Int := 0
  effect_id : Int := 0

/-- C++ struct StrokeEllipseOp. -/
structure StrokeEllipseOp where
  rect : RectF := {}
  color : Color := {}
  stroke_width : ℚ := 1
  transform_id : Int := 0
  clip_id : Int := 0
  effect_id : Int := 0

/-- C++ struct FillRectOp. -/
structure FillRectOp where
  rect : RectF := {}
  color : Color := {}
  transform_id : Int := 0
  clip_id : Int := 0
  effect_id : Int := 0

/-- C++ struct FillPathOp. -/
structure FillPathOp where
  points : List PointF := []
  color : Color := {}
  transform_id : Int := 0
  clip_id : Int := 0
  effect_id : Int := 0

/-- C++ struct SaveLayerAlphaOp. -/
structure SaveLayerAlphaOp where
  bounds : RectF := {}
  alpha : ℚ := 1

/-- C++ struct DrawShadowOp. -/
structure DrawShadowOp where
  offset_x : ℚ := 0
  offset_y : ℚ := 0
  blur_sigma : ℚ := 0
  color : Color := {}
  deriving DecidableEq, Repr

/-- The std::variant PaintOp of the text painter, in the order of its
alternatives. -/
inductive PaintOp where
  | Save
  | Restore
  | ClipRect (op : ClipRectOp)
  | Translate (op : TranslateOp)
  | Scale (op : ScaleOp)
  | Concat (op : ConcatOp)
  | SetMatrix (op : SetMatrixOp)
  | DrawTextBlob (op : DrawTextBlobOp)
  | DrawLine (op : DrawLineOp)
  | DrawStrokeLine (op : DrawStrokeLineOp)
  | DrawWavyLine (op : DrawWavyLineOp)
  | DrawDecorationLine (op : DrawDecorationLineOp)
  | DrawEmphasisMarks (op : DrawEmphasisMarksOp)
  | FillEllipse (op : FillEllipseOp)
  | StrokeEllipse (op : StrokeEllipseOp)
  | FillRect (op : FillRectOp)
  | FillPath (op : FillPathOp)
  | SaveLayerAlpha (op : SaveLayerAlphaOp)
  | DrawShadow (op : DrawShadowOp)
  | ClearShadow

/-- The vector inside C++ struct PaintOpList. -/
abbrev PaintOpList := List PaintOp

/-- C++ PaintOpList::Save. -/
def PaintOpList.Save (ops : PaintOpList) : PaintOpList := ops ++ [PaintOp.Save]

/-- C++ PaintOpList::Restore. -/
def PaintOpList.Restore (ops : PaintOpList) : PaintOpList := ops ++ [PaintOp.Restore]

/-- C++ PaintOpList::Scale. -/
def PaintOpList.Scale (ops : PaintOpList) (sx sy : ℚ) : PaintOpList :=
  ops ++ [PaintOp.Scale { sx := sx, sy := sy }]

/-- C++ PaintOpList::Concat. -/
def PaintOpList.Concat (ops : PaintOpList) (transform : AffineTransform) : PaintOpList :=
  ops ++ [PaintOp.Concat { matrix := transform.ToArray }]

/-- C++ PaintOpList::DrawTextBlob. -/
def PaintOpList.DrawTextBlob (ops : PaintOpList) (x y : ℚ) (node_id : Int)
    (flags : PaintFlags) (bounds : Fin 4 → ℚ) (runs : List TextBlobRun)
    (transform_id clip_id effect_id : Int) : PaintOpList :=
  ops ++ [PaintOp.DrawTextBlob
    { x := x, y := y, node_id := node_id, flags := flags, bounds := bounds, runs := runs
      transform_id := transform_id, clip_id := clip_id, effect_id := effect_id }]

/-- C++ PaintOpList::DrawEmphasisMarks. -/
def PaintOpList.DrawEmphasisMarks (ops : PaintOpList) (x y : ℚ) (mark : String)
    (positions : List ℚ) (color : Color) (font_size : ℚ)
    (transform_id clip_id effect_id : Int) : PaintOpList :=
  ops ++ [PaintOp.DrawEmphasisMarks
    { x := x, y := y, mark := mark, positions := positions, color := color
      font_size := font_size
      transform_id := transform_id, clip_id := clip_id, effect_id := effect_id }]

/-- C++ PaintOpList::FillEllipse. -/
def PaintOpList.FillEllipse (ops : PaintOpList) (rect : RectF) (color : Color)
    (transform_id clip_id effect_id : Int) : PaintOpList :=
  ops ++ [PaintOp.FillEllipse
    { rect := rect, color := color
      transform_id := transform_id, clip_id := clip_id, effect_id := effect_id }]

/-- C++ PaintOpList::StrokeEllipse. -/
def PaintOpList.StrokeEllipse (ops : PaintOpList) (rect : RectF) (color : Color)
    (stroke_width : ℚ) (transform_id clip_id effect_id : Int) : PaintOpList :=
  ops ++ [PaintOp.StrokeEllipse
    { rect := rect, color := color, stroke_width := stroke_width
      transform_id := transform_id, clip_id := clip_id, effect_id := effect_id }]

/-- C++ PaintOpList::FillRect. -/
def PaintOpList.FillRect (ops : PaintOpList) (rect : RectF) (color : Color)
    (transform_id clip_id effect_id : Int) : PaintOpList :=
  ops ++ [PaintOp.FillRect
    { rect := rect, color := color
      transform_id := transform_id, clip_id := clip_id, effect_id := effect_id }]

/-- C++ PaintOpList::FillPath. -/
def PaintOpList.FillPath (ops : PaintOpList) (points : List PointF) (color : Color)
    (transform_id clip_id effect_id : Int) : PaintOpList :=
  ops ++ [PaintOp.FillPath
    { points := points, color := color
      transform_id := transform_id, clip_id := clip_id, effect_id := effect_id }]

/-- C++ PaintOpList::AddShadow. -/
def PaintOpList.AddShadow (ops : PaintOpList) (offset_x offset_y blur_sigma : ℚ)
    (color : Color) : PaintOpList :=
  ops ++ [PaintOp.DrawShadow
    { offset_x := offset_x, offset_y := offset_y, blur_sigma := blur_sigma, color := color }]

/-- C++ PaintOpList::ClearShadow. -/
def PaintOpList.ClearShadow (ops : PaintOpList) : PaintOpList := ops ++ [PaintOp.ClearShadow]

/-! ## text_decoration_info.h and text_decoration_info.cc -/

/-- C++ ComputeDecorationThickness (anonymous namespace). -/
def ComputeDecorationThickness (thickness font_size : ℚ) : ℚ :=
  if thickness > 0 then cround thickness else font_size / 10

/-- C++ class TextDecorationInfo: the input parameters, the cached state for
the current decoration and the current line geometry. -/
structure TextDecorationInfo where
  local_origin_x_ : ℚ
  local_origin_y_ : ℚ
  width_ : ℚ
  font_size_ : ℚ
  ascent_ : ℚ
  descent_ : ℚ
  decorations_ : List TextDecoration
  scaling_factor_ : ℚ
  font_underline_position_ : Option ℚ
  font_underline_thickness_ : Option ℚ
  decoration_index_ : Nat := 0
  lines_ : TextDecorationLine := TextDecorationLine.kNone
  union_all_lines_ : TextDecorationLine := TextDecorationLine.kNone
  has_underline_ : Bool := false
  has_overline_ : Bool := false
  resolved_thickness_ : ℚ := 1
  antialias_ : Bool := false
  line_geometry_ : DecorationGeometry := {}

namespace TextDecorationInfo

/-- C++ TextDecorationInfo::DecorationCount. -/
def DecorationCount (info : TextDecorationInfo) : Nat := info.decorations_.length

/-- C++ TextDecorationInfo::HasAnyLine. -/
def HasAnyLine (info : TextDecorationInfo) (lines : TextDecorationLine) : Bool :=
  HasFlag info.union_all_lines_ lines

/-- C++ TextDecorationInfo::HasUnderline. -/
def HasUnderline (info : TextDecorationInfo) : Bool := info.has_underline_

/-- C++ TextDecorationInfo::HasOverline. -/
def HasOverline (info : TextDecorationInfo) : Bool := info.has_overline_

/-- C++ TextDecorationInfo::HasLineThrough. -/
def HasLineThrough (info : TextDecorationInfo) : Bool :=
  HasFlag info.lines_ TextDecorationLine.kLineThrough

/-- C++ TextDecorationInfo::HasSpellingOrGrammarError. -/
def HasSpellingOrGrammarError (info : TextDecorationInfo) : Bool :=
  HasFlag info.lines_
    (TextDecorationLine.kSpellingError ||| TextDecorationLine.kGrammarError)

/-- C++ TextDecorationInfo::GetGeometry. -/
def GetGeometry (info : TextDecorationInfo) : DecorationGeometry := info.line_geometry_

/-- C++ TextDecorationInfo::ResolvedThickness. -/
def ResolvedThickness (info : TextDecorationInfo) : ℚ := info.resolved_thickness_

/-- C++ TextDecorationInfo::ComputeThickness; the lookup decorations_[i]? is
none exactly when decoration_index_ >= decorations_.size(). -/
def ComputeThickness (info : TextDecorationInfo) : ℚ :=
  match info.decorations_[info.decoration_index_]? with
  | none =>
    match info.font_underline_thickness_ with
    | some t => t
    | none => info.font_size_ / 10
  | some decoration =>
    if decoration.thickness > 0 then
      ComputeDecorationThickness decoration.thickness info.font_size_
    else
      match info.font_underline_thickness_ with
      | some t => t
      | none => ComputeDecorationThickness decoration.thickness info.font_size_

/-- C++ TextDecorationInfo::UpdateForDecorationIndex. -/
def UpdateForDecorationIndex (info : TextDecorationInfo) : TextDecorationInfo :=
  match info.decorations_[info.decoration_index_]? with
  | none => info
  | some decoration =>
    let info : TextDecorationInfo := { info with lines_ := decoration.line }
    let info : TextDecorationInfo :=
      { info with has_underline_ := HasFlag info.lines_ TextDecorationLine.kUnderline }
    let info : TextDecorationInfo :=
      { info with has_overline_ := HasFlag info.lines_ TextDecorationLine.kOverline }
    { info with resolved_thickness_ := info.ComputeThickness }

/-- The constructor TextDecorationInfo::TextDecorationInfo. -/
def create (local_origin_x local_origin_y width font_size ascent descent : ℚ)
    (decorations : List TextDecoration) (scaling_factor : ℚ := 1)
    (font_underline_position : Option ℚ := none)
    (font_underline_thickness : Option ℚ := none) : TextDecorationInfo :=
  let info : TextDecorationInfo :=
    { local_origin_x_ := local_origin_x
      local_origin_y_ := local_origin_y
      width_ := width
      font_size_ := font_size
      ascent_ := ascent
      descent_ := descent
      decorations_ := decorations
      scaling_factor_ := scaling_factor
      font_underline_position_ := font_underline_position
      font_underline_thickness_ := font_underline_thickness }
  let info : TextDecorationInfo :=
    { info with
      union_all_lines_ :=
        info.decorations_.foldl (fun u decoration => u ||| decoration.line)
          info.union_all_lines_ }
  let info : TextDecorationInfo :=
    { info with
      antialias_ :=
        if info.decorations_.any (fun decoration =>
            decide (decoration.style = TextDecorationStyle.kDotted) ||
            decide (decoration.style = TextDecorationStyle.kDashed))
        then true else info.antialias_ }
  info.UpdateForDecorationIndex

/-- C++ TextDecorationInfo::SetDecorationIndex. -/
def SetDecorationIndex (info : TextDecorationInfo) (index : Nat) : TextDecorationInfo :=
  if info.decoration_index_ = index then info
  else
    let info : TextDecorationInfo := { info with decoration_index_ := index }
    info.UpdateForDecorationIndex

/-- C++ TextDecorationInfo::SetLineData. -/
def SetLineData (info : TextDecorationInfo) (line : TextDecorationLine)
    (line_offset : ℚ) : TextDecorationInfo :=
  let double_offset_from_thickness := info.ResolvedThickness + 1
  let offsets : ℚ × ℚ :=
    if line = TextDecorationLine.kUnderline then
      (double_offset_from_thickness, double_offset_from_thickness)
    else if line = TextDecorationLine.kOverline then
      (-double_offset_from_thickness, -double_offset_from_thickness)
    else if line = TextDecorationLine.kLineThrough then
      (cfloor double_offset_from_thickness, 0)
    else
      (0, 0)
  let double_offset := offsets.1
  let wavy_offset := offsets.2
  let style : StrokeStyle :=
    match info.decorations_[info.decoration_index_]? with
    | some decoration => decoration.GetStrokeStyle
    | none => StrokeStyle.kSolidStroke
  let start_point : PointF :=
    { x := info.local_origin_x_, y := info.local_origin_y_ + line_offset }
  let line_rect : RectF :=
    { x := start_point.x, y := start_point.y, width := info.width_
      height := info.ResolvedThickness }
  let info : TextDecorationInfo :=
    { info with
      line_geometry_ :=
        DecorationGeometry.Make style line_rect double_offset wavy_offset none }
  { info with line_geometry_ := { info.line_geometry_ with antialias := info.antialias_ } }

/-- C++ TextDecorationInfo::SetUnderlineLineData. -/
def SetUnderlineLineData (info : TextDecorationInfo) : TextDecorationInfo :=
  if !info.HasUnderline then info
  else
    let underline_offset : ℚ :=
      match info.font_underline_position_ with
      | some position => position
      | none => info.descent_
    let underline_offset : ℚ :=
      match info.decorations_[info.decoration_index_]? with
      | some decoration => underline_offset + decoration.underline_offset
      | none => underline_offset
    info.SetLineData TextDecorationLine.kUnderline underline_offset

/-- C++ TextDecorationInfo::SetOverlineLineData. -/
def SetOverlineLineData (info : TextDecorationInfo) : TextDecorationInfo :=
  if !info.HasOverline then info
  else
    let overline_offset := -info.ascent_
    info.SetLineData TextDecorationLine.kOverline overline_offset

/-- C++ TextDecorationInfo::SetLineThroughLineData. -/
def SetLineThroughLineData (info : TextDecorationInfo) : TextDecorationInfo :=
  if !info.HasLineThrough then info
  else
    let line_through_offset := 2 * info.ascent_ / 3 - info.ResolvedThickness / 2
    info.SetLineData TextDecorationLine.kLineThrough (-line_through_offset)

/-- C++ TextDecorationInfo::SetSpellingOrGrammarErrorLineData. -/
def SetSpellingOrGrammarErrorLineData (info : TextDecorationInfo) : TextDecorationInfo :=
  if !info.HasSpellingOrGrammarError then info
  else
    let underline_offset : ℚ := info.descent_
    let underline_offset : ℚ :=
      match info.decorations_[info.decoration_index_]? with
      | some decoration => underline_offset + decoration.underline_offset
      | none => underline_offset
    let double_offset_from_thickness := info.ResolvedThickness + 1
    let start_point : PointF :=
      { x := info.local_origin_x_, y := info.local_origin_y_ + underline_offset }
    let line_rect : RectF :=
      { x := start_point.x, y := start_point.y, width := info.width_
        height := info.ResolvedThickness }
    let spelling_wave : WaveDefinition :=
      { wavelength := 4, control_point_distance := 5 / 2, phase := 0 }
    let info : TextDecorationInfo :=
      { info with
        line_geometry_ :=
          DecorationGeometry.Make StrokeStyle.kWavyStroke line_rect
            double_offset_from_thickness double_offset_from_thickness
            (some spelling_wave) }
    { info with line_geometry_ := { info.line_geometry_ with antialias := true } }

/-- C++ TextDecorationInfo::LineColor. -/
def LineColor (info : TextDecorationInfo) : Color :=
  match info.decorations_[info.decoration_index_]? with
  | some decoration => decoration.color
  | none => Color.Black

end TextDecorationInfo

/-! ## decoration_line_painter.cc -/

/-- C++ RoundDownThickness (anonymous namespace). -/
def RoundDownThickness (stroke_thickness : ℚ) : ℚ :=
  max (cfloor stroke_thickness) 1

/-- C++ SnapYAxis (anonymous namespace). -/
def SnapYAxis (decoration_rect : RectF) : RectF :=
  let snapped := decoration_rect
  let snapped := { snapped with y := cfloor (decoration_rect.y + 1 / 2) }
  { snapped with height := RoundDownThickness decoration_rect.height }

/-- C++ GetSnappedPointsForTextLine (anonymous namespace). -/
def GetSnappedPointsForTextLine (decoration_rect : RectF) : PointF × PointF :=
  let mid_y := cfloor (decoration_rect.y + max (decoration_rect.height / 2) (1 / 2))
  ({ x := decoration_rect.x, y := mid_y },
   { x := decoration_rect.x + decoration_rect.width, y := mid_y })

/-- C++ StrokeIsDashed (anonymous namespace). -/
def StrokeIsDashed (thickness : ℚ) (style : StrokeStyle) : Bool :=
  decide (style = StrokeStyle.kDashedStroke) ||
    (decide (style = StrokeStyle.kDottedStroke) && decide (thickness < 2))

/-- C++ WavyPath (anonymous namespace). -/
def WavyPath (wave : WaveDefinition) : Path :=
  let start : PointF := { x := wave.phase, y := 1 / 2 }
  let end_ : PointF := { x := start.x + wave.wavelength, y := 1 / 2 }
  let cp1 : PointF :=
    { x := start.x + wave.wavelength * (1 / 2), y := 1 / 2 + wave.control_point_distance }
  let cp2 : PointF :=
    { x := start.x + wave.wavelength * (1 / 2), y := 1 / 2 - wave.control_point_distance }
  let result : Path := {}
  let result := result.MoveTo start.x start.y
  let result := result.CubicTo cp1.x cp1.y cp2.x cp2.y end_.x end_.y
  let cp1 := { cp1 with x := cp1.x + wave.wavelength }
  let cp2 := { cp2 with x := cp2.x + wave.wavelength }
  let end_ := { end_ with x := end_.x + wave.wavelength }
  let result := result.CubicTo cp1.x cp1.y cp2.x cp2.y end_.x end_.y
  let cp1 := { cp1 with x := cp1.x + wave.wavelength }
  let cp2 := { cp2 with x := cp2.x + wave.wavelength }
  let end_ := { end_ with x := end_.x + wave.wavelength }
  result.CubicTo cp1.x cp1.y cp2.x cp2.y end_.x end_.y

/-- C++ ComputeWavyPatternRect (anonymous namespace); the path argument is
unused there as well. -/
def ComputeWavyPatternRect (thickness : ℚ) (wave : WaveDefinition) (_stroke_path : Path) :
    RectF :=
  let amplitude := wave.control_point_distance
  let half_thickness := thickness / 2
  let top := cfloor (1 / 2 - amplitude - half_thickness)
  let bottom := cceil (1 / 2 + amplitude + half_thickness)
  { x := 0, y := top, width := wave.wavelength, height := bottom - top }

/-- C++ ComputeWavyPaintRect (anonymous namespace). -/
def ComputeWavyPaintRect (geometry : DecorationGeometry) (pattern_bounds : RectF) : RectF :=
  let origin : PointF :=
    { x := geometry.line.x + pattern_bounds.x
      y := geometry.line.y + pattern_bounds.y + geometry.wavy_offset }
  { x := origin.x, y := origin.y, width := geometry.line.width
    height := pattern_bounds.height }

namespace DecorationLinePainter

/-- C++ DecorationLinePainter::PaintWavyTextDecoration; the members ops_ and
state_ids_ are the first two arguments. -/
def PaintWavyTextDecoration (state_ids : GraphicsStateIds) (ops : PaintOpList)
    (geometry : DecorationGeometry) (color : Color) : PaintOpList :=
  let wave := geometry.wavy_wave
  let tile_path := WavyPath wave
  let pattern_bounds := ComputeWavyPatternRect geometry.Thickness wave tile_path
  let paint_rect := ComputeWavyPaintRect geometry pattern_bounds
  let tile_rect : RectF :=
    { x := 0, y := 0, width := wave.wavelength, height := pattern_bounds.height }
  ops ++ [PaintOp.DrawWavyLine
    { paint_rect := paint_rect
      tile_rect := tile_rect
      tile_path := tile_path
      stroke_thickness := geometry.Thickness
      color := color
      wave := wave
      transform_id := state_ids.transform_id
      clip_id := state_ids.clip_id
      effect_id := state_ids.effect_id }]

/-- C++ DecorationLinePainter::Paint. -/
def Paint (state_ids : GraphicsStateIds) (ops : PaintOpList)
    (geometry : DecorationGeometry) (color : Color) : PaintOpList :=
  if geometry.line.width ≤ 0 then ops
  else
    match geometry.style with
    | StrokeStyle.kWavyStroke => PaintWavyTextDecoration state_ids ops geometry color
    | StrokeStyle.kDottedStroke | StrokeStyle.kDashedStroke =>
      let points := GetSnappedPointsForTextLine geometry.line
      let thickness := cround geometry.Thickness
      let p1 : PointF := { x := points.1.x, y := points.1.y }
      let p2 : PointF := { x := points.2.x, y := points.2.y }
      let odd : Bool := decide (Int.tmod (ctrunc thickness) 2 ≠ 0)
      let p1 : PointF := if odd then { p1 with y := p1.y + 1 / 2 } else p1
      let p2 : PointF := if odd then { p2 with y := p2.y + 1 / 2 } else p2
      let dashed := StrokeIsDashed thickness geometry.style
      let p1 : PointF := if !dashed then { p1 with x := p1.x + thickness / 2 } else p1
      let p2 : PointF := if !dashed then { p2 with x := p2.x - thickness / 2 } else p2
      ops ++ [PaintOp.DrawStrokeLine
        { p1 := p1, p2 := p2
          thickness := thickness
          style := geometry.style
          color := color
          antialias := geometry.antialias
          transform_id := state_ids.transform_id
          clip_id := state_ids.clip_id
          effect_id := state_ids.effect_id }]
    | StrokeStyle.kSolidStroke | StrokeStyle.kDoubleStroke =>
      let snapped_line_rect := SnapYAxis geometry.line
      let ops := ops ++ [PaintOp.DrawLine
        { rect := snapped_line_rect
          color := color
          snapped := true
          transform_id := state_ids.transform_id
          clip_id := state_ids.clip_id
          effect_id := state_ids.effect_id }]
      if geometry.style = StrokeStyle.kDoubleStroke then
        let second_line_rect := geometry.line
        let second_line_rect :=
          { second_line_rect with y := second_line_rect.y + geometry.double_offset }
        let snapped_second := SnapYAxis second_line_rect
        ops ++ [PaintOp.DrawLine
          { rect := snapped_second
            color := color
            snapped := true
            transform_id := state_ids.transform_id
            clip_id := state_ids.clip_id
            effect_id := state_ids.effect_id }]
      else ops
    | StrokeStyle.kNoStroke => ops

/-- C++ DecorationLinePainter::Bounds. -/
def Bounds (geometry : DecorationGeometry) : RectF :=
  match geometry.style with
  | StrokeStyle.kDottedStroke | StrokeStyle.kDashedStroke =>
    let thickness := cround geometry.Thickness
    let points := GetSnappedPointsForTextLine geometry.line
    { x := points.1.x, y := points.1.y - thickness / 2
      width := points.2.x - points.1.x, height := thickness }
  | StrokeStyle.kWavyStroke =>
    let stroke_path := WavyPath geometry.wavy_wave
    let pattern_bounds :=
      ComputeWavyPatternRect geometry.Thickness geometry.wavy_wave stroke_path
    ComputeWavyPaintRect geometry pattern_bounds
  | StrokeStyle.kDoubleStroke =>
    let double_line_rect := geometry.line
    let double_line_rect :=
      if geometry.double_offset < 0 then
        { double_line_rect with y := double_line_rect.y + geometry.double_offset }
      else double_line_rect
    { double_line_rect with height := double_line_rect.height + |geometry.double_offset| }
  | StrokeStyle.kSolidStroke | StrokeStyle.kNoStroke => geometry.line

end DecorationLinePainter

/-! ## text_shadow_painter.h -/

inductive TextShadowPaintPhase where
  | kShadow
  | kForeground
  deriving DecidableEq, Repr

/-- C++ PaintWithTextShadow.  The callback paint_proc captures the operation
list by reference together with whatever other objects it mutates; the state
it transforms is that list paired with those objects. -/
def PaintWithTextShadow {α : Type}
    (paint_proc : TextShadowPaintPhase → PaintOpList × α → PaintOpList × α)
    (state : PaintOpList × α) (shadows : Option (List ShadowData)) : PaintOpList × α :=
  let state : PaintOpList × α :=
    match shadows with
    | some list =>
      if !list.isEmpty then
        let ops := list.reverse.foldl
          (fun ops it => ops.AddShadow it.offset_x it.offset_y it.BlurAsSigma it.color)
          state.1
        let state := paint_proc TextShadowPaintPhase.kShadow (ops, state.2)
        (state.1.ClearShadow, state.2)
      else state
    | none => state
  paint_proc TextShadowPaintPhase.kForeground state

/-- C++ HasTextShadow. -/
def HasTextShadow (shadows : Option (List ShadowData)) : Bool :=
  match shadows with
  | some list => !list.isEmpty
  | none => false

/-! ## text_decoration_painter.h and text_decoration_painter.cc -/

/-- C++ class TextDecorationPainter; ops_ is the referenced operation list. -/
structure TextDecorationPainter where
  ops_ : PaintOpList
  state_ids_ : GraphicsStateIds
  decorations_ : List TextDecoration
  shadows_ : Option (List ShadowData)
  decoration_info_ : TextDecorationInfo

namespace TextDecorationPainter

/-- The constructor TextDecorationPainter::TextDecorationPainter. -/
def create (ops : PaintOpList) (state_ids : GraphicsStateIds)
    (local_origin_x local_origin_y width font_size ascent descent : ℚ)
    (decorations : List TextDecoration)
    (shadows : Option (List ShadowData) := none) (scaling_factor : ℚ := 1)
    (font_underline_position : Option ℚ := none)
    (font_underline_thickness : Option ℚ := none) : TextDecorationPainter :=
  { ops_ := ops
    state_ids_ := state_ids
    decorations_ := decorations
    shadows_ := shadows
    decoration_info_ :=
      TextDecorationInfo.create local_origin_x local_origin_y width font_size ascent
        descent decorations scaling_factor font_underline_position
        font_underline_thickness }

/-- C++ TextDecorationPainter::LineColorForPhase, reading decoration_info_. -/
def LineColorForPhase (decoration_info : TextDecorationInfo)
    (phase : TextShadowPaintPhase) : Color :=
  if phase = TextShadowPaintPhase.kShadow then Color.Black
  else decoration_info.LineColor

/-- One iteration of the loop of the lambda paint_decorations inside
TextDecorationPainter::PaintUnderOrOverLineDecorations. -/
def PaintUnderOrOverLineDecorations_body (state_ids : GraphicsStateIds)
    (lines_to_paint : TextDecorationLine) (phase : TextShadowPaintPhase)
    (state : PaintOpList × TextDecorationInfo) (i : Nat) :
    PaintOpList × TextDecorationInfo :=
  let ops := state.1
  let info := state.2.SetDecorationIndex i
  if info.HasSpellingOrGrammarError &&
      HasFlag lines_to_paint
        (TextDecorationLine.kSpellingError ||| TextDecorationLine.kGrammarError) then
    let info := info.SetSpellingOrGrammarErrorLineData
    (DecorationLinePainter.Paint state_ids ops info.GetGeometry
      (LineColorForPhase info phase), info)
  else
    let state : PaintOpList × TextDecorationInfo :=
      if info.HasUnderline && HasFlag lines_to_paint TextDecorationLine.kUnderline then
        let info := info.SetUnderlineLineData
        (DecorationLinePainter.Paint state_ids ops info.GetGeometry
          (LineColorForPhase info phase), info)
      else (ops, info)
    let ops := state.1
    let info := state.2
    if info.HasOverline && HasFlag lines_to_paint TextDecorationLine.kOverline then
      let info := info.SetOverlineLineData
      (DecorationLinePainter.Paint state_ids ops info.GetGeometry
        (LineColorForPhase info phase), info)
    else (ops, info)

/-- The lambda paint_decorations inside
TextDecorationPainter::PaintUnderOrOverLineDecorations. -/
def PaintUnderOrOverLineDecorations_paint_decorations (state_ids : GraphicsStateIds)
    (lines_to_paint : TextDecorationLine) (phase : TextShadowPaintPhase)
    (state : PaintOpList × TextDecorationInfo) : PaintOpList × TextDecorationInfo :=
  (List.range state.2.DecorationCount).foldl
    (PaintUnderOrOverLineDecorations_body state_ids lines_to_paint phase) state

/-- C++ TextDecorationPainter::PaintUnderOrOverLineDecorations. -/
def PaintUnderOrOverLineDecorations (painter : TextDecorationPainter)
    (lines_to_paint : TextDecorationLine) : TextDecorationPainter :=
  let state := PaintWithTextShadow
    (PaintUnderOrOverLineDecorations_paint_decorations painter.state_ids_ lines_to_paint)
    (painter.ops_, painter.decoration_info_) painter.shadows_
  { painter with ops_ := state.1, decoration_info_ := state.2 }

/-- One iteration of the loop of the lambda paint_decorations inside
TextDecorationPainter::PaintLineThroughDecorations. -/
def PaintLineThroughDecorations_body (state_ids : GraphicsStateIds)
    (phase : TextShadowPaintPhase)
    (state : PaintOpList × TextDecorationInfo) (i : Nat) :
    PaintOpList × TextDecorationInfo :=
  let ops := state.1
  let info := state.2.SetDecorationIndex i
  if info.HasLineThrough then
    let info := info.SetLineThroughLineData
    (DecorationLinePainter.Paint state_ids ops info.GetGeometry
      (LineColorForPhase info phase), info)
  else (ops, info)

/-- The lambda paint_decorations inside
TextDecorationPainter::PaintLineThroughDecorations. -/
def PaintLineThroughDecorations_paint_decorations (state_ids : GraphicsStateIds)
    (phase : TextShadowPaintPhase)
    (state : PaintOpList × TextDecorationInfo) : PaintOpList × TextDecorationInfo :=
  (List.range state.2.DecorationCount).foldl
    (PaintLineThroughDecorations_body state_ids phase) state

/-- C++ TextDecorationPainter::PaintLineThroughDecorations. -/
def PaintLineThroughDecorations (painter : TextDecorationPainter) : TextDecorationPainter :=
  let state := PaintWithTextShadow
    (PaintLineThroughDecorations_paint_decorations painter.state_ids_)
    (painter.ops_, painter.decoration_info_) painter.shadows_
  { painter with ops_ := state.1, decoration_info_ := state.2 }

/-- The line set passed by TextDecorationPainter::PaintExceptLineThrough. -/
def exceptLineThroughLines : TextDecorationLine :=
  TextDecorationLine.kUnderline ||| TextDecorationLine.kOverline |||
    TextDecorationLine.kSpellingError ||| TextDecorationLine.kGrammarError

/-- C++ TextDecorationPainter::PaintExceptLineThrough. -/
def PaintExceptLineThrough (painter : TextDecorationPainter) : TextDecorationPainter :=
  if !painter.decoration_info_.HasAnyLine exceptLineThroughLines then painter
  else painter.PaintUnderOrOverLineDecorations exceptLineThroughLines

/-- C++ TextDecorationPainter::PaintOnlyLineThrough. -/
def PaintOnlyLineThrough (painter : TextDecorationPainter) : TextDecorationPainter :=
  if !painter.decoration_info_.HasAnyLine TextDecorationLine.kLineThrough then painter
  else painter.PaintLineThroughDecorations

/-- C++ TextDecorationPainter::PaintAll. -/
def PaintAll (painter : TextDecorationPainter) : TextDecorationPainter :=
  painter.PaintExceptLineThrough.PaintOnlyLineThrough

/-- C++ TextDecorationPainter::HasDecorations. -/
def HasDecorations (painter : TextDecorationPainter) : Bool :=
  !painter.decorations_.isEmpty

end TextDecorationPainter

/-! ## text_painter.h and text_painter.cc -/

/-- C++ struct TextPaintInput. -/
structure TextPaintInput where
  fragment : TextFragmentPaintInfo := {}
  box : RectF := {}
  style : TextPaintStyle := {}
  paint_phase : PaintPhase := PaintPhase.kForeground
  node_id : Int := 0
  state_ids : GraphicsStateIds := {}
  visibility : Visibility := Visibility.kVisible
  writing_mode : WritingMode := WritingMode.kHorizontalTb
  is_horizontal : Bool := true
  svg_info : Option SvgTextInfo := none
  text_combine : Option TextCombineInfo := none
  emphasis_mark : Option EmphasisMarkInfo := none
  decorations : List TextDecoration := []
  symbol_marker : Option SymbolMarkerInfo := none
  dark_mode : AutoDarkMode := {}
  is_ellipsis : Bool := false
  is_line_break : Bool := false
  is_flow_control : Bool := false

/-- C++ IsHorizontalWritingMode. -/
def IsHorizontalWritingMode (mode : WritingMode) : Bool :=
  decide (mode = WritingMode.kHorizontalTb)

/-- C++ TextPainter::ConvertRun. -/
def ConvertRun (run : GlyphRun) : TextBlobRun :=
  { glyph_count := run.GlyphCount
    glyphs := run.glyphs
    positioning := run.positioning
    offset_x := run.offset_x
    offset_y := run.offset_y
    positions := run.positions
    font :=
      { size := run.font.size
        scale_x := run.font.scale_x
        skew_x := run.font.skew_x
        embolden := run.font.embolden
        linear_metrics := run.font.linear_metrics
        subpixel := run.font.subpixel
        force_auto_hinting := run.font.force_auto_hinting
        family := run.font.family
        typeface_id := run.font.typeface_id
        weight := run.font.weight
        width := run.font.width
        slant := run.font.slant } }

/-- C++ TextPainter::ComputeTextOrigin; an absent text_combine is the null
pointer. -/
def ComputeTextOrigin (box : RectF) (shape : ShapeResult) (scaling_factor : ℚ := 1)
    (text_combine : Option TextCombineInfo := none) : PointF :=
  let ascent : ℚ :=
    match shape.runs with
    | run :: _ => run.font.ascent
    | [] => 0
  let top := box.y + ascent * scaling_factor
  let left := box.x
  match text_combine with
  | some combine =>
    { x := left + combine.text_left_adjustment, y := combine.text_top_adjustment }
  | none => { x := left, y := top }

/-- C++ TextPainter::BuildPaintFlags. -/
def BuildPaintFlags (style : TextPaintStyle) : PaintFlags :=
  { color := style.fill_color
    stroke_width := style.stroke_width
    style := if style.stroke_width > 0 then PaintStyle.kStrokeAndFill else PaintStyle.kFill }

/-- C++ TextPainter::ComputeWritingModeRotation. -/
def ComputeWritingModeRotation (m : FloatMath) (box : RectF) (writing_mode : WritingMode) :
    AffineTransform :=
  if writing_mode = WritingMode.kVerticalRl then
    let cx := box.x + box.width / 2
    let cy := box.y + box.height / 2
    let translate1 := AffineTransform.MakeTranslation (-cx) (-cy)
    let rotate := AffineTransform.MakeRotation m 90
    let translate2 := AffineTransform.MakeTranslation cx cy
    translate2.Concat (rotate.Concat translate1)
  else if writing_mode = WritingMode.kVerticalLr then
    let cx := box.x + box.width / 2
    let cy := box.y + box.height / 2
    let translate1 := AffineTransform.MakeTranslation (-cx) (-cy)
    let rotate := AffineTransform.MakeRotation m (-90)
    let translate2 := AffineTransform.MakeTranslation cx cy
    translate2.Concat (rotate.Concat translate1)
  else AffineTransform.Identity

/-- C++ TextPainter::GetDisclosurePathPoints. -/
def GetDisclosurePathPoints (direction : PhysicalDirection) (rect : RectF) : List PointF :=
  let map_point : ℚ → ℚ → PointF := fun x y =>
    { x := rect.x + x * rect.width, y := rect.y + y * rect.height }
  match direction with
  | PhysicalDirection.kLeft =>
    [map_point 1 0, map_point (14 / 100) (1 / 2), map_point 1 1]
  | PhysicalDirection.kRight =>
    [map_point 0 0, map_point (86 / 100) (1 / 2), map_point 0 1]
  | PhysicalDirection.kUp =>
    [map_point 0 (93 / 100), map_point (1 / 2) (7 / 100), map_point 1 (93 / 100)]
  | PhysicalDirection.kDown =>
    [map_point 0 (7 / 100), map_point (1 / 2) (93 / 100), map_point 1 (7 / 100)]

/-- C++ TextPainter::PaintSymbolMarker. -/
def PaintSymbolMarker (ops : PaintOpList) (marker : SymbolMarkerInfo)
    (state_ids : GraphicsStateIds) : PaintOpList :=
  match marker.type with
  | SymbolMarkerType.kDisc =>
    ops.FillEllipse marker.marker_rect marker.color
      state_ids.transform_id state_ids.clip_id state_ids.effect_id
  | SymbolMarkerType.kCircle =>
    ops.StrokeEllipse marker.marker_rect marker.color 1
      state_ids.transform_id state_ids.clip_id state_ids.effect_id
  | SymbolMarkerType.kSquare =>
    ops.FillRect marker.marker_rect marker.color
      state_ids.transform_id state_ids.clip_id state_ids.effect_id
  | SymbolMarkerType.kDisclosureOpen | SymbolMarkerType.kDisclosureClosed =>
    let direction :=
      if marker.is_open then PhysicalDirection.kDown else PhysicalDirection.kRight
    let points := GetDisclosurePathPoints direction marker.marker_rect
    ops.FillPath points marker.color
      state_ids.transform_id state_ids.clip_id state_ids.effect_id
  | SymbolMarkerType.kNone => ops

/-- C++ TextPainter::PaintDecorationsExceptLineThrough as defined in
text_painter.cc: the painter is built without font underline metrics. -/
def PaintDecorationsExceptLineThrough (ops : PaintOpList)
    (decorations : List TextDecoration) (box : RectF) (font_size ascent descent : ℚ)
    (state_ids : GraphicsStateIds) (shadows : Option (List ShadowData))
    (scaling_factor : ℚ) : PaintOpList :=
  if decorations.isEmpty then ops
  else
    let painter := TextDecorationPainter.create ops state_ids box.x box.y box.width
      font_size ascent descent decorations shadows scaling_factor
    painter.PaintExceptLineThrough.ops_

/-- C++ TextPainter::PaintDecorationsLineThrough as defined in
text_painter.cc. -/
def PaintDecorationsLineThrough (ops : PaintOpList)
    (decorations : List TextDecoration) (box : RectF) (font_size ascent descent : ℚ)
    (state_ids : GraphicsStateIds) (shadows : Option (List ShadowData))
    (scaling_factor : ℚ) : PaintOpList :=
  if decorations.isEmpty then ops
  else
    let painter := TextDecorationPainter.create ops state_ids box.x box.y box.width
      font_size ascent descent decorations shadows scaling_factor
    painter.PaintOnlyLineThrough.ops_

/-- C++ TextPainter::PaintShadows. -/
def PaintShadows (ops : PaintOpList) (shadows : List ShadowData) : PaintOpList :=
  shadows.reverse.foldl
    (fun ops it => ops.AddShadow it.offset_x it.offset_y it.BlurAsSigma it.color) ops

/-- C++ TextPainter::PaintEmphasisMarks. -/
def PaintEmphasisMarks (ops : PaintOpList) (emphasis : EmphasisMarkInfo)
    (shape : ShapeResult) (origin : PointF) (color : Color)
    (state_ids : GraphicsStateIds) : PaintOpList :=
  if emphasis.mark.isEmpty then ops
  else
    let positions : List ℚ :=
      shape.runs.foldl
        (fun positions run =>
          run.positions.foldl (fun positions p => positions ++ [p + run.offset_x]) positions)
        []
    let font_size : ℚ :=
      match shape.runs with
      | run :: _ => run.font.size
      | [] => 16
    ops.DrawEmphasisMarks origin.x (origin.y + emphasis.offset) emphasis.mark
      positions color font_size
      state_ids.transform_id state_ids.clip_id state_ids.effect_id

/-- C++ TextPainter::Paint.  A scaling factor of zero gives an infinite scale
in float arithmetic and is outside the model. -/
def Paint (m : FloatMath) (input : TextPaintInput) : PaintOpList :=
  let ops : PaintOpList := []
  if input.visibility ≠ Visibility.kVisible then ops
  else
    match input.symbol_marker.filter (fun marker => marker.type != SymbolMarkerType.kNone) with
    | some marker => PaintSymbolMarker ops marker input.state_ids
    | none =>
      if input.fragment.from_ ≥ input.fragment.to_ then ops
      else if !input.fragment.HasShapeResult && !input.is_line_break then ops
      else if input.is_flow_control then ops
      else
        let effective_style : TextPaintStyle :=
          if input.paint_phase = PaintPhase.kTextClip then
            { input.style with
              current_color := Color.Black
              fill_color := Color.Black
              stroke_color := Color.Black
              emphasis_mark_color := Color.Black
              shadow := none
              paint_order := EPaintOrder.kPaintOrderNormal }
          else input.style
        let scaling_factor : ℚ :=
          match input.svg_info with
          | some svg => svg.scaling_factor
          | none => 1
        let has_svg_transform : Bool :=
          match input.svg_info with
          | some svg => svg.has_transform
          | none => false
        let svg_transform : AffineTransform :=
          match input.svg_info with
          | some svg => if svg.has_transform then svg.transform else {}
          | none => {}
        let needs_rotation : Bool := !input.is_horizontal
        let rotation : AffineTransform :=
          if needs_rotation then ComputeWritingModeRotation m input.box input.writing_mode
          else {}
        let shape := input.fragment.shape_result
        let text_combine := input.text_combine
        let origin := ComputeTextOrigin input.box shape scaling_factor text_combine
        let state_saved : Bool :=
          decide (scaling_factor ≠ 1) || has_svg_transform || needs_rotation
        let ops : PaintOpList :=
          if state_saved then
            let ops := ops.Save
            let ops :=
              if scaling_factor ≠ 1 then ops.Scale (1 / scaling_factor) (1 / scaling_factor)
              else ops
            let ops := if has_svg_transform then ops.Concat svg_transform else ops
            if needs_rotation then ops.Concat rotation else ops
          else ops
        let has_shadows : Bool := HasTextShadow effective_style.shadow
        let has_decorations : Bool := !input.decorations.isEmpty
        let font_size : ℚ :=
          match shape.runs with
          | run :: _ => run.font.size
          | [] => 16
        let ascent : ℚ :=
          match shape.runs with
          | run :: _ => run.font.ascent
          | [] => 14
        let descent : ℚ :=
          match shape.runs with
          | run :: _ => run.font.descent
          | [] => 4
        let ops : PaintOpList :=
          if has_decorations then
            PaintDecorationsExceptLineThrough ops input.decorations input.box
              font_size ascent descent input.state_ids effective_style.shadow scaling_factor
          else ops
        let flags := BuildPaintFlags effective_style
        let blob_runs : List TextBlobRun := shape.runs.map ConvertRun
        let bounds : Fin 4 → ℚ :=
          ![shape.bounds.x, shape.bounds.y, shape.bounds.x + shape.bounds.width,
            shape.bounds.y + shape.bounds.height]
        let ops : PaintOpList :=
          if has_shadows && !has_decorations then
            PaintShadows ops (effective_style.shadow.getD [])
          else ops
        let ops := ops.DrawTextBlob origin.x origin.y input.node_id flags bounds blob_runs
          input.state_ids.transform_id input.state_ids.clip_id input.state_ids.effect_id
        let ops : PaintOpList :=
          if has_decorations then
            PaintDecorationsLineThrough ops input.decorations input.box
              font_size ascent descent input.state_ids effective_style.shadow scaling_factor
          else ops
        let ops : PaintOpList :=
          match input.emphasis_mark with
          | some emphasis =>
            if !emphasis.mark.isEmpty && !input.is_ellipsis then
              PaintEmphasisMarks ops emphasis shape origin
                effective_style.emphasis_mark_color input.state_ids
            else ops
          | none => ops
        if state_saved then ops.Restore else ops

/-! ## Auxiliary definitions used to state the text painter properties -/

/-- The public mutating methods of TextDecorationInfo. -/
inductive InfoCall where
  | SetDecorationIndex (index : Nat)
  | SetUnderlineLineData
  | SetOverlineLineData
  | SetLineThroughLineData
  | SetSpellingOrGrammarErrorLineData

/-- Effect of one method call on a TextDecorationInfo. -/
def InfoCall.apply (call : InfoCall) (info : TextDecorationInfo) : TextDecorationInfo :=
  match call with
  | InfoCall.SetDecorationIndex index => info.SetDecorationIndex index
  | InfoCall.SetUnderlineLineData => info.SetUnderlineLineData
  | InfoCall.SetOverlineLineData => info.SetOverlineLineData
  | InfoCall.SetLineThroughLineData => info.SetLineThroughLineData
  | InfoCall.SetSpellingOrGrammarErrorLineData => info.SetSpellingOrGrammarErrorLineData

/-- Effect of a sequence of method calls, first call first. -/
def runCalls (calls : List InfoCall) (info : TextDecorationInfo) : TextDecorationInfo :=
  calls.foldl (fun info call => call.apply info) info

/-- The TextDecorationInfo values a client can hold: the result of the
constructor followed by any number of public method calls. -/
inductive Reachable : TextDecorationInfo → Prop where
  | create (local_origin_x local_origin_y width font_size ascent descent : ℚ)
      (decorations : List TextDecoration) (scaling_factor : ℚ)
      (font_underline_position font_underline_thickness : Option ℚ) :
      Reachable (TextDecorationInfo.create local_origin_x local_origin_y width font_size
        ascent descent decorations scaling_factor font_underline_position
        font_underline_thickness)
  | call (c : InfoCall) (info : TextDecorationInfo) :
      Reachable info → Reachable (c.apply info)

/-- The decoration list with every colour replaced by the one f chooses. -/
def recolour (f : TextDecoration → Color) (decorations : List TextDecoration) :
    List TextDecoration :=
  decorations.map (fun d => { d with color := f d })

/-- A TextDecorationInfo with its decorations recoloured. -/
def recolourInfo (f : TextDecoration → Color) (info : TextDecorationInfo) :
    TextDecorationInfo :=
  { info with decorations_ := recolour f info.decorations_ }

/-- The DrawShadowOp that PaintOpList::AddShadow appends for a shadow. -/
def shadowOp (s : ShadowData) : PaintOp :=
  PaintOp.DrawShadow
    { offset_x := s.offset_x, offset_y := s.offset_y, blur_sigma := s.blur / 2
      color := s.color }

/-- Is the operation a ClearShadowOp. -/
def PaintOp.isClearShadow : PaintOp → Bool
  | PaintOp.ClearShadow => true
  | _ => false

/-- Is the operation a DrawShadowOp. -/
def PaintOp.isDrawShadow : PaintOp → Bool
  | PaintOp.DrawShadow _ => true
  | _ => false

/-- Is the operation a DrawTextBlobOp. -/
def PaintOp.isDrawTextBlob : PaintOp → Bool
  | PaintOp.DrawTextBlob _ => true
  | _ => false

/-- Is the operation a DrawEmphasisMarksOp. -/
def PaintOp.isDrawEmphasisMarks : PaintOp → Bool
  | PaintOp.DrawEmphasisMarks _ => true
  | _ => false

/-- Is the operation one of the three line operations of DecorationLinePainter. -/
def PaintOp.isLineOp : PaintOp → Bool
  | PaintOp.DrawLine _ => true
  | PaintOp.DrawStrokeLine _ => true
  | PaintOp.DrawWavyLine _ => true
  | _ => false

/-- Is the operation a line operation or one of the two shadow operations. -/
def PaintOp.isDecorationOp (op : PaintOp) : Bool :=
  op.isLineOp || op.isDrawShadow || op.isClearShadow

/-- Is the operation a SaveOp, ScaleOp or ConcatOp. -/
def PaintOp.isTransformOp : PaintOp → Bool
  | PaintOp.Save => true
  | PaintOp.Scale _ => true
  | PaintOp.Concat _ => true
  | _ => false

/-- The list ops2 is ops followed by operations that all satisfy P. -/
def Extends (P : PaintOp → Bool) (ops ops2 : PaintOpList) : Prop :=
  ∃ extra, ops2 = ops ++ extra ∧ ∀ op ∈ extra, P op = true

/-- The cached members of a TextDecorationInfo agree with its current
decoration whenever the index is in range. -/
def CacheValid (info : TextDecorationInfo) : Prop :=
  ∀ d, info.decorations_[info.decoration_index_]? = some d →
    info.lines_ = d.line ∧
    info.has_underline_ = HasFlag d.line TextDecorationLine.kUnderline ∧
    info.has_overline_ = HasFlag d.line TextDecorationLine.kOverline ∧
    info.resolved_thickness_ =
      (if d.thickness > 0 then cround d.thickness
       else match info.font_underline_thickness_ with
         | some t => t
         | none => info.font_size_ / 10)

/-- The rect outer contains the rect inner: it starts no later and ends no
earlier on both axes. -/
def RectF.Contains (outer inner : RectF) : Prop :=
  outer.x ≤ inner.x ∧ outer.y ≤ inner.y ∧
  inner.x + inner.width ≤ outer.x + outer.width ∧
  inner.y + inner.height ≤ outer.y + outer.height

/-- The operation with its colour replaced by c, for the three line operations
of DecorationLinePainter; every other field is kept, and every other operation
is unchanged. -/
def PaintOp.withLineColor (c : Color) : PaintOp → PaintOp
  | PaintOp.DrawLine op => PaintOp.DrawLine { op with color := c }
  | PaintOp.DrawStrokeLine op => PaintOp.DrawStrokeLine { op with color := c }
  | PaintOp.DrawWavyLine op => PaintOp.DrawWavyLine { op with color := c }
  | op => op

/-- The colour carried by a line operation of DecorationLinePainter. -/
def PaintOp.lineColor : PaintOp → Option Color
  | PaintOp.DrawLine op => some op.color
  | PaintOp.DrawStrokeLine op => some op.color
  | PaintOp.DrawWavyLine op => some op.color
  | _ => none

/-- A TextDecorationInfo with its line geometry reset. -/
def TextDecorationInfo.core (info : TextDecorationInfo) : TextDecorationInfo :=
  { info with line_geometry_ := {} }

/-- The members of a TextDecorationInfo that only the constructor writes: its
parameters, the union of all lines and the antialias flag. -/
def TextDecorationInfo.inputs (info : TextDecorationInfo) : TextDecorationInfo :=
  { info with
    decoration_index_ := 0
    lines_ := TextDecorationLine.kNone
    has_underline_ := false
    has_overline_ := false
    resolved_thickness_ := 1
    line_geometry_ := {} }

/-- The operations that the iteration for entry i of the loop of
PaintUnderOrOverLineDecorations appends. -/
def underOverEntryOps (state_ids : GraphicsStateIds) (lines_to_paint : TextDecorationLine)
    (phase : TextShadowPaintPhase) (info : TextDecorationInfo) (i : Nat) : PaintOpList :=
  (TextDecorationPainter.PaintUnderOrOverLineDecorations_body state_ids lines_to_paint phase
    ([], info) i).1

/-- The operations that the iteration for entry i of the loop of
PaintLineThroughDecorations appends. -/
def lineThroughEntryOps (state_ids : GraphicsStateIds)
    (phase : TextShadowPaintPhase) (info : TextDecorationInfo) (i : Nat) : PaintOpList :=
  (TextDecorationPainter.PaintLineThroughDecorations_body state_ids phase ([], info) i).1

/-- The local variable effective_style of TextPainter::Paint. -/
def effectiveStyle (input : TextPaintInput) : TextPaintStyle :=
  if input.paint_phase = PaintPhase.kTextClip then
    { input.style with
      current_color := Color.Black
      fill_color := Color.Black
      stroke_color := Color.Black
      emphasis_mark_color := Color.Black
      shadow := none
      paint_order := EPaintOrder.kPaintOrderNormal }
  else input.style

/-- The local variable scaling_factor of TextPainter::Paint. -/
def scalingFactor (input : TextPaintInput) : ℚ :=
  match input.svg_info with
  | some svg => svg.scaling_factor
  | none => 1

/-- The local variable has_svg_transform of TextPainter::Paint. -/
def hasSvgTransform (input : TextPaintInput) : Bool :=
  match input.svg_info with
  | some svg => svg.has_transform
  | none => false

/-- The local variable svg_transform of TextPainter::Paint. -/
def svgTransform (input : TextPaintInput) : AffineTransform :=
  match input.svg_info with
  | some svg => if svg.has_transform then svg.transform else {}
  | none => {}

/-- The local variable state_saved of TextPainter::Paint. -/
def stateSaved (input : TextPaintInput) : Bool :=
  decide (scalingFactor input ≠ 1) || hasSvgTransform input || !input.is_horizontal

/-- The operations TextPainter::Paint emits before any decoration: the save and
the transforms that follow it, or nothing when the state is not saved. -/
def transformOps (m : FloatMath) (input : TextPaintInput) : PaintOpList :=
  if stateSaved input then
    [PaintOp.Save] ++
    (if scalingFactor input ≠ 1 then
      [PaintOp.Scale { sx := 1 / scalingFactor input, sy := 1 / scalingFactor input }]
     else []) ++
    (if hasSvgTransform input then
      [PaintOp.Concat { matrix := (svgTransform input).ToArray }]
     else []) ++
    (if !input.is_horizontal then
      [PaintOp.Concat
        { matrix := (ComputeWritingModeRotation m input.box input.writing_mode).ToArray }]
     else [])
  else []

/-- The operations TextPainter::Paint emits for the text shadows of the glyph
run. -/
def textShadowOps (input : TextPaintInput) : PaintOpList :=
  if HasTextShadow (effectiveStyle input).shadow && input.decorations.isEmpty then
    ((effectiveStyle input).shadow.getD []).reverse.map shadowOp
  else []

/-- Is the operation a RestoreOp. -/
def PaintOp.isRestore : PaintOp → Bool
  | PaintOp.Restore => true
  | _ => false

/-- The local variable font_size of TextPainter::Paint. -/
def decorationFontSize (input : TextPaintInput) : ℚ :=
  match input.fragment.shape_result.runs with
  | run :: _ => run.font.size
  | [] => 16

/-- The local variable ascent of TextPainter::Paint. -/
def decorationAscent (input : TextPaintInput) : ℚ :=
  match input.fragment.shape_result.runs with
  | run :: _ => run.font.ascent
  | [] => 14

/-- The local variable descent of TextPainter::Paint. -/
def decorationDescent (input : TextPaintInput) : ℚ :=
  match input.fragment.shape_result.runs with
  | run :: _ => run.font.descent
  | [] => 4

/-- The TextDecorationInfo inside the TextDecorationPainter that
TextPainter::Paint constructs for its decorations. -/
def decorationInfo (input : TextPaintInput) : TextDecorationInfo :=
  TextDecorationInfo.create input.box.x input.box.y input.box.width
    (decorationFontSize input) (decorationAscent input) (decorationDescent input)
    input.decorations (scalingFactor input)

/-- The operations of one decoration group whose loop emits F in the
foreground phase: with shadows, the shadows in reverse order, F in black, the
ClearShadowOp and F; without shadows, F alone. -/
def shadowGroupOps (shadows : Option (List ShadowData)) (F : PaintOpList) : PaintOpList :=
  if HasTextShadow shadows then
    (shadows.getD []).reverse.map shadowOp ++ F.map (PaintOp.withLineColor Color.Black) ++
      [PaintOp.ClearShadow] ++ F
  else F

/-! ## Concrete text painter inputs -/

/-- A red underline with automatic thickness and no offset adjustment. -/
def autoUnderline : TextDecoration :=
  { line := TextDecorationLine.kUnderline, style := TextDecorationStyle.kSolid
    color := { r := 255 }, thickness := 0, underline_offset := 0 }

/-- The decoration info of the scenario: font size 20, ascent 15, descent 5, no
font metrics, origin (10, 30), width 100. -/
def autoUnderlineInfo : TextDecorationInfo :=
  TextDecorationInfo.create 10 30 100 20 15 5 [autoUnderline] 1 none none

/-- A wavy decoration of thickness 3 carrying underline, overline and
line-through, with an offset adjustment of 2. -/
def wavyAllLines : TextDecoration :=
  { line := TextDecorationLine.kUnderline ||| TextDecorationLine.kOverline |||
      TextDecorationLine.kLineThrough
    style := TextDecorationStyle.kWavy
    color := { g := 128 }, thickness := 3, underline_offset := 2 }

/-- A decoration info over wavyAllLines with a font-supplied underline position
of 4 and thickness of 7. -/
def wavyAllLinesInfo : TextDecorationInfo :=
  TextDecorationInfo.create 10 30 100 20 15 5 [wavyAllLines] 1 (some 4) (some 7)

/-- A first text shadow. -/
def shadowA : ShadowData :=
  { offset_x := 1, offset_y := 2, blur := 4, color := { r := 10 } }

/-- A second text shadow. -/
def shadowB : ShadowData :=
  { offset_x := -1, offset_y := 0, blur := 0, color := { b := 200 } }

/-- A blue underline of thickness 2. -/
def thickUnderline : TextDecoration :=
  { line := TextDecorationLine.kUnderline, style := TextDecorationStyle.kSolid
    color := { b := 255 }, thickness := 2, underline_offset := 0 }

/-- A solid line-through of thickness 1. -/
def plainLineThrough : TextDecoration :=
  { line := TextDecorationLine.kLineThrough, style := TextDecorationStyle.kSolid
    color := { g := 255 }, thickness := 1, underline_offset := 0 }

/-- A decoration painter over two underlines with two shadows. -/
def shadowedPainter : TextDecorationPainter :=
  TextDecorationPainter.create [] {} 10 30 100 20 15 5 [autoUnderline, thickUnderline]
    (some [shadowA, shadowB]) 1

/-- Values for std::cos and std::sin used where an instance is needed. -/
def sampleMath : FloatMath := { cos := fun _ => 1, sin := fun _ => 0 }

/-- A fragment that is not visible but has a symbol marker, a decoration, a
shadow and an SVG scale. -/
def hiddenTextInput : TextPaintInput :=
  { visibility := Visibility.kHidden
    fragment := { text := "hello", from_ := 0, to_ := 5, shape_result := { runs := [{}] } }
    symbol_marker := some { type := SymbolMarkerType.kDisc }
    decorations := [autoUnderline]
    style := { shadow := some [shadowA] }
    svg_info := some { scaling_factor := 2 } }

/-- A visible fragment with an underline, a line-through, a shadow, an emphasis
mark and an SVG scale of 2. -/
def decoratedInput : TextPaintInput :=
  { fragment := { text := "hello", from_ := 0, to_ := 5, shape_result := { runs := [{}] } }
    box := { x := 10, y := 30, width := 100, height := 20 }
    decorations := [autoUnderline, plainLineThrough]
    emphasis_mark := some { mark := "x" }
    svg_info := some { scaling_factor := 2 }
    style := { shadow := some [shadowA] } }

/-- A visible fragment carrying an open disclosure marker in the rect
{10, 20, 8, 8}, together with a decoration, a shadow and an SVG scale. -/
def disclosureInput : TextPaintInput :=
  { fragment := { text := "hello", from_ := 0, to_ := 5, shape_result := { runs := [{}] } }
    symbol_marker := some
      { type := SymbolMarkerType.kDisclosureOpen
        marker_rect := { x := 10, y := 20, width := 8, height := 8 }
        color := { r := 9 }
        is_open := true }
    state_ids := { transform_id := 3, clip_id := 5, effect_id := 7 }
    decorations := [autoUnderline]
    style := { shadow := some [shadowA] }
    svg_info := some { scaling_factor := 2 } }

/-- A visible flow-control fragment with a shape result and a decoration. -/
def flowControlInput : TextPaintInput :=
  { fragment := { text := "\t", from_ := 0, to_ := 1, shape_result := { runs := [{}] } }
    decorations := [autoUnderline]
    is_flow_control := true }

/-- A solid grey spelling-error decoration of thickness 3 with an offset
adjustment of 2. -/
def spellingDecoration : TextDecoration :=
  { line := TextDecorationLine.kSpellingError, style := TextDecorationStyle.kSolid
    color := { r := 128, g := 128, b := 128 }, thickness := 3, underline_offset := 2 }

/-- A decoration info over spellingDecoration with a font-supplied underline
position of 4 and thickness of 7. -/
def spellingInfo : TextDecorationInfo :=
  TextDecorationInfo.create 10 30 100 20 15 5 [spellingDecoration] 1 (some 4) (some 7)

/-- A double-style geometry with line {10, 12.5, 100, 2.7} and double offset
3.7. -/
def doubleGeometry : DecorationGeometry :=
  { style := StrokeStyle.kDoubleStroke
    line := { x := 10, y := 25 / 2, width := 100, height := 27 / 10 }
    double_offset := 37 / 10 }

/-- A dotted geometry with line {10, 12, 100, 3}. -/
def dottedGeometry : DecorationGeometry :=
  { style := StrokeStyle.kDottedStroke
    line := { x := 10, y := 12, width := 100, height := 3 } }

/-- A dashed geometry with line {10, 12, 100, 3}. -/
def dashedGeometry : DecorationGeometry :=
  { style := StrokeStyle.kDashedStroke
    line := { x := 10, y := 12, width := 100, height := 3 } }

/-- A wavy geometry with line {10, 12, 100, 3}, wavy offset 4 and wave
(15, 10.5, -15). -/
def wavyGeometry : DecorationGeometry :=
  { style := StrokeStyle.kWavyStroke
    line := { x := 10, y := 12, width := 100, height := 3 }
    wavy_offset := 4
    wavy_wave := { wavelength := 15, control_point_distance := 21 / 2, phase := -15 } }

/-- A decoration info of width 0 over spellingDecoration. -/
def narrowSpellingInfo : TextDecorationInfo :=
  TextDecorationInfo.create 10 30 0 20 15 5 [spellingDecoration] 1 (some 4) (some 7)

/-- A visible text-clip fragment with a grey spelling-error decoration, a red
fill colour, a green emphasis mark colour, one shadow and an emphasis mark. -/
def textClipInput : TextPaintInput :=
  { fragment := { text := "hello", from_ := 0, to_ := 5, shape_result := { runs := [{}] } }
    box := { x := 10, y := 30, width := 100, height := 20 }
    paint_phase := PaintPhase.kTextClip
    decorations := [spellingDecoration]
    emphasis_mark := some { mark := "x" }
    style :=
      { fill_color := { r := 255 }, emphasis_mark_color := { g := 255 }
        shadow := some [shadowA] } }

/-- A visible foreground fragment without decorations and with two shadows. -/
def shadowedTextInput : TextPaintInput :=
  { fragment := { text := "hello", from_ := 0, to_ := 5, shape_result := { runs := [{}] } }
    box := { x := 10, y := 30, width := 100, height := 20 }
    style := { shadow := some [shadowA, shadowB] } }

end TextPainter

namespace BorderPainter

/-! ## Basic facts about the embedding -/

theorem Color.eq_iff (c d : Color) : c.eq d = true ↔ c = d := by
  cases c; cases d; simp [Color.eq, and_assoc]

theorem Color.eq_self (c : Color) : c.eq c = true := (Color.eq_iff c c).2 rfl

theorem PresentButInvisible_not_render (e : BorderEdge)
    (h : e.PresentButInvisible = true) : e.ShouldRender = false := by
  simp only [BorderEdge.PresentButInvisible, Bool.and_eq_true, Bool.or_eq_true,
    beq_iff_eq, decide_eq_true_eq] at h
  rcases h with ⟨_, h | h⟩ <;> simp [BorderEdge.ShouldRender, h]

/-- The loop body of AnalyzeBorder without the in-place updates. -/
theorem AnalyzeEdge_eq (es : List BorderEdge) (props : BorderProperties) (i : Nat) :
    AnalyzeEdge es props i =
      (es[i]?).bind (fun e =>
        if e.ShouldRender then
          if props.visible_edge_count = 0 then
            some { props with
              has_transparency := props.has_transparency || !e.color.IsOpaque
              visible_edge_count := 1
              first_visible_edge := i }
          else
            (es[props.first_visible_edge]?).bind (fun first =>
              some { props with
                has_transparency := props.has_transparency || !e.color.IsOpaque
                visible_edge_count := props.visible_edge_count + 1
                is_uniform_style := props.is_uniform_style && (e.style == first.style)
                is_uniform_width := props.is_uniform_width && decide (e.width = first.width)
                is_uniform_color := props.is_uniform_color && e.SharesColorWith first })
        else
          some { props with
            is_uniform_width := props.is_uniform_width && !e.PresentButInvisible
            is_uniform_color := props.is_uniform_color && !e.PresentButInvisible }) := by
  unfold AnalyzeEdge
  rcases hi : es[i]? with _ | e
  · rfl
  · rcases hr : e.ShouldRender <;> rcases hp : e.PresentButInvisible <;>
      rcases hq : e.color.IsOpaque <;>
      simp [hr, hp, hq] <;> split_ifs <;> simp_all

/-- The four iterations of the loop of AnalyzeBorder always succeed and leave
the closed form. -/
theorem analyze_loop_closed (e0 e1 e2 e3 : BorderEdge) :
    (List.range 4).foldlM (AnalyzeEdge [e0, e1, e2, e3]) {} =
      some (analyzeClosed [e0, e1, e2, e3]) := by
  have hr : List.range 4 = [0, 1, 2, 3] := by decide
  rw [hr]
  rcases h0 : e0.ShouldRender <;> rcases h1 : e1.ShouldRender <;>
  rcases h2 : e2.ShouldRender <;> rcases h3 : e3.ShouldRender <;>
  simp [AnalyzeEdge_eq, analyzeClosed, List.foldlM, h0, h1, h2, h3,
    List.findIdx_cons, BorderEdge.SharesColorWith, Color.eq_self, Bool.and_assoc,
    Bool.or_assoc, Bool.and_comm, Bool.and_left_comm]

/-- AnalyzeBorder is total and equals the closed form with is_rounded set. -/
theorem AnalyzeBorder_eq (input : BorderPaintInput) :
    AnalyzeBorder input =
      some { analyzeClosed (edgesOf input) with is_rounded := HasBorderRadius input } := by
  simp [AnalyzeBorder, edgesOf, analyze_loop_closed]

theorem ShouldRender_iff (e : BorderEdge) :
    e.ShouldRender = true ↔
      0 < e.width ∧ e.style ≠ EBorderStyle.kNone ∧ e.style ≠ EBorderStyle.kHidden ∧
        e.color.a ≠ 0 := by
  simp [BorderEdge.ShouldRender, Color.IsFullyTransparent, and_assoc]

theorem HasBorderRadius_iff (input : BorderPaintInput) :
    HasBorderRadius input = true ↔ ∃ r, input.border_radii = some r ∧ ∃ i, 0 < r i := by
  unfold HasBorderRadius
  rcases input.border_radii with _ | r
  · simp
  · simp [IsZeroRadii]

/-- The analysis result when all four edges render. -/
theorem AnalyzeBorder_all_render (input : BorderPaintInput)
    (h : ∀ side, (GetEdge input side).ShouldRender = true) :
    AnalyzeBorder input = some
      { is_uniform_width :=
          decide ((GetEdge input BoxSide.kRight).width = (GetEdge input BoxSide.kTop).width) &&
          decide ((GetEdge input BoxSide.kBottom).width = (GetEdge input BoxSide.kTop).width) &&
          decide ((GetEdge input BoxSide.kLeft).width = (GetEdge input BoxSide.kTop).width)
        is_uniform_color :=
          (GetEdge input BoxSide.kRight).color.eq (GetEdge input BoxSide.kTop).color &&
          (GetEdge input BoxSide.kBottom).color.eq (GetEdge input BoxSide.kTop).color &&
          (GetEdge input BoxSide.kLeft).color.eq (GetEdge input BoxSide.kTop).color
        is_uniform_style :=
          ((GetEdge input BoxSide.kRight).style == (GetEdge input BoxSide.kTop).style) &&
          ((GetEdge input BoxSide.kBottom).style == (GetEdge input BoxSide.kTop).style) &&
          ((GetEdge input BoxSide.kLeft).style == (GetEdge input BoxSide.kTop).style)
        is_rounded := HasBorderRadius input
        has_transparency :=
          !(GetEdge input BoxSide.kTop).color.IsOpaque ||
          !(GetEdge input BoxSide.kRight).color.IsOpaque ||
          !(GetEdge input BoxSide.kBottom).color.IsOpaque ||
          !(GetEdge input BoxSide.kLeft).color.IsOpaque
        visible_edge_count := 4
        first_visible_edge := 0 } := by
  rw [AnalyzeBorder_eq]
  simp [analyzeClosed, edgesOf, h, List.findIdx_cons, BorderEdge.SharesColorWith,
    Color.eq_self, Bool.and_assoc, Bool.or_assoc]

theorem AnalyzeBorder_propsOf (input : BorderPaintInput) :
    AnalyzeBorder input = some (propsOf input) := AnalyzeBorder_eq input

theorem propsOf_count (input : BorderPaintInput) :
    (propsOf input).visible_edge_count = (renderingSides input).length := by
  simp only [propsOf, analyzeClosed, edgesOf, renderingSides, sideOrder]
  rcases h0 : (GetEdge input BoxSide.kTop).ShouldRender <;>
  rcases h1 : (GetEdge input BoxSide.kRight).ShouldRender <;>
  rcases h2 : (GetEdge input BoxSide.kBottom).ShouldRender <;>
  rcases h3 : (GetEdge input BoxSide.kLeft).ShouldRender <;>
  simp [List.filter_cons, h0, h1, h2, h3]

theorem renderingSides_length_eq_four (input : BorderPaintInput) :
    (renderingSides input).length = 4 ↔ ∀ side, (GetEdge input side).ShouldRender = true := by
  simp only [renderingSides, sideOrder]
  constructor
  · intro h side
    rcases h0 : (GetEdge input BoxSide.kTop).ShouldRender <;>
    rcases h1 : (GetEdge input BoxSide.kRight).ShouldRender <;>
    rcases h2 : (GetEdge input BoxSide.kBottom).ShouldRender <;>
    rcases h3 : (GetEdge input BoxSide.kLeft).ShouldRender <;>
    simp [List.filter_cons, h0, h1, h2, h3] at h
    cases side <;> assumption
  · intro h
    simp [List.filter_cons, h]

theorem renderingSides_ne_nil (input : BorderPaintInput) :
    (renderingSides input).length ≠ 0 ↔ ∃ side, (GetEdge input side).ShouldRender = true := by
  simp only [renderingSides, sideOrder]
  constructor
  · intro h
    rcases h0 : (GetEdge input BoxSide.kTop).ShouldRender
    · rcases h1 : (GetEdge input BoxSide.kRight).ShouldRender
      · rcases h2 : (GetEdge input BoxSide.kBottom).ShouldRender
        · rcases h3 : (GetEdge input BoxSide.kLeft).ShouldRender
          · simp [List.filter_cons, h0, h1, h2, h3] at h
          · exact ⟨_, h3⟩
        · exact ⟨_, h2⟩
      · exact ⟨_, h1⟩
    · exact ⟨_, h0⟩
  · rintro ⟨side, h⟩
    cases side <;> simp [List.filter_cons, h] <;> split_ifs <;> simp

theorem PaintSide_append (input : BorderPaintInput) (side : BoxSide) (ops : PaintOpList) :
    PaintSide input side ops = ops ++ PaintSide input side [] := by
  simp only [PaintSide]
  split_ifs <;>
    simp [PaintSideAsFilledRect, PaintSideAsLine, PaintOpList.AddDrawRect,
      PaintOpList.AddDrawLine]

/-- A per-side loop that appends the output of f for every rendering side. -/
theorem foldl_sides_eq (input : BorderPaintInput)
    (f : BoxSide → PaintOpList → PaintOpList)
    (hf : ∀ side ops, f side ops = ops ++ f side [])
    (sides : List BoxSide) (ops : PaintOpList) :
    sides.foldl
      (fun ops side => if !(GetEdge input side).ShouldRender then ops else f side ops) ops =
      ops ++ (sides.filter (fun side => (GetEdge input side).ShouldRender)).flatMap
        (fun side => f side []) := by
  induction sides generalizing ops with
  | nil => simp
  | cons side rest ih =>
    rw [List.foldl_cons, ih]
    rcases h : (GetEdge input side).ShouldRender
    · simp [List.filter_cons, h]
    · simp [List.filter_cons, h]
      rw [hf side ops, List.append_assoc]

theorem PaintSides_eq (input : BorderPaintInput) (props : BorderProperties)
    (ops : PaintOpList) :
    PaintSides input props ops =
      ops ++ (renderingSides input).flatMap (fun side => PaintSide input side []) :=
  foldl_sides_eq input (PaintSide input) (PaintSide_append input) sideOrder ops

theorem forall_side (P : BoxSide → Prop) :
    (∀ side, P side) ↔
      P BoxSide.kTop ∧ P BoxSide.kRight ∧ P BoxSide.kBottom ∧ P BoxSide.kLeft :=
  ⟨fun h => ⟨h _, h _, h _, h _⟩,
   fun ⟨h0, h1, h2, h3⟩ side => by cases side <;> assumption⟩

theorem propsOf_all_render (input : BorderPaintInput)
    (h : ∀ side, (GetEdge input side).ShouldRender = true) :
    propsOf input =
      { is_uniform_width :=
          decide ((GetEdge input BoxSide.kRight).width = (GetEdge input BoxSide.kTop).width) &&
          decide ((GetEdge input BoxSide.kBottom).width = (GetEdge input BoxSide.kTop).width) &&
          decide ((GetEdge input BoxSide.kLeft).width = (GetEdge input BoxSide.kTop).width)
        is_uniform_color :=
          (GetEdge input BoxSide.kRight).color.eq (GetEdge input BoxSide.kTop).color &&
          (GetEdge input BoxSide.kBottom).color.eq (GetEdge input BoxSide.kTop).color &&
          (GetEdge input BoxSide.kLeft).color.eq (GetEdge input BoxSide.kTop).color
        is_uniform_style :=
          ((GetEdge input BoxSide.kRight).style == (GetEdge input BoxSide.kTop).style) &&
          ((GetEdge input BoxSide.kBottom).style == (GetEdge input BoxSide.kTop).style) &&
          ((GetEdge input BoxSide.kLeft).style == (GetEdge input BoxSide.kTop).style)
        is_rounded := HasBorderRadius input
        has_transparency :=
          !(GetEdge input BoxSide.kTop).color.IsOpaque ||
          !(GetEdge input BoxSide.kRight).color.IsOpaque ||
          !(GetEdge input BoxSide.kBottom).color.IsOpaque ||
          !(GetEdge input BoxSide.kLeft).color.IsOpaque
        visible_edge_count := 4
        first_visible_edge := 0 } := by
  have := AnalyzeBorder_all_render input h
  rw [AnalyzeBorder_propsOf] at this
  exact Option.some.inj this

theorem PaintFastPath_not_four (input : BorderPaintInput) (props : BorderProperties)
    (ops : PaintOpList) (h : props.visible_edge_count ≠ 4) :
    PaintFastPath input props ops = some (false, ops) := by
  simp only [PaintFastPath]
  split_ifs <;> rfl

theorem FastPathCondition_iff (input : BorderPaintInput)
    (hall : ∀ side, (GetEdge input side).ShouldRender = true) :
    FastPathCondition input ↔
      (propsOf input).is_uniform_color = true ∧ (propsOf input).is_uniform_style = true ∧
      (GetEdge input BoxSide.kTop).style = EBorderStyle.kSolid ∧
      ((propsOf input).is_uniform_width = true ∨ HasBorderRadius input = true) := by
  rw [propsOf_all_render input hall, HasBorderRadius_iff]
  simp only [FastPathCondition, forall_side, Bool.and_eq_true, Color.eq_iff, beq_iff_eq,
    decide_eq_true_eq]
  constructor
  · rintro ⟨_, ⟨s0, s1, s2, s3⟩, hc, hw⟩
    obtain ⟨⟨-, c1, c2, c3⟩, -⟩ := hc
    refine ⟨⟨⟨c1.symm, c2.symm⟩, c3.symm⟩, ⟨⟨by rw [s1, s0], by rw [s2, s0]⟩, by rw [s3, s0]⟩,
      s0, ?_⟩
    rcases hw with hw | hw
    · left
      obtain ⟨⟨-, w1, w2, w3⟩, -⟩ := hw
      exact ⟨⟨w1.symm, w2.symm⟩, w3.symm⟩
    · right
      exact hw
  · rintro ⟨⟨⟨c1, c2⟩, c3⟩, ⟨⟨s1, s2⟩, s3⟩, s0, hw⟩
    refine ⟨⟨hall _, hall _, hall _, hall _⟩, ⟨s0, s1.trans s0, s2.trans s0, s3.trans s0⟩,
      ?_, ?_⟩
    · simp [c1, c2, c3]
    · rcases hw with ⟨⟨w1, w2⟩, w3⟩ | hw
      · left
        simp [w1, w2, w3]
      · right
        exact hw

/-- Under the automatic strategy, past the entry guards, Paint is the fast
path followed by the per-side fallback. -/
theorem Paint_auto_eq (input : BorderPaintInput)
    (hvis : input.visibility = Visibility.kVisible)
    (hauto : input.render_hint = BorderRenderHint.kAuto)
    (hnz : input.border_widths.IsZero = false)
    (hcount : (propsOf input).visible_edge_count ≠ 0) :
    Paint input =
      (PaintFastPath input (propsOf input) []).bind (fun fast =>
        if fast.1 then some fast.2 else some (PaintSides input (propsOf input) fast.2)) := by
  simp [Paint, AnalyzeBorder_propsOf, hvis, hauto, hnz, hcount]

/-- The fast path succeeds with one fast-path operation exactly under the
fast path condition, and otherwise leaves the list untouched. -/
theorem PaintFastPath_cases (input : BorderPaintInput) :
    (FastPathCondition input →
      ∃ op, PaintFastPath input (propsOf input) [] = some (true, [op]) ∧ IsFastPathOp op) ∧
    (¬ FastPathCondition input →
      PaintFastPath input (propsOf input) [] = some (false, [])) := by
  by_cases hall : ∀ side, (GetEdge input side).ShouldRender = true
  · rw [FastPathCondition_iff input hall]
    have hc4 : (propsOf input).visible_edge_count = 4 := by
      rw [propsOf_all_render input hall]
    have hf0 : (propsOf input).first_visible_edge = 0 := by
      rw [propsOf_all_render input hall]
    have hrd : (propsOf input).is_rounded = HasBorderRadius input := rfl
    constructor
    · rintro ⟨huc, hus, hsolid, hw⟩
      rcases hround : HasBorderRadius input
      · have huw : (propsOf input).is_uniform_width = true := by
          rcases hw with hw | hw
          · exact hw
          · rw [hround] at hw; cases hw
        simp [PaintFastPath, huc, hus, hsolid, hc4, hf0, hrd, hround, huw, GetEdgeOfIndex,
          PaintOpList.AddDrawRect, IsFastPathOp, BuildStrokeFlags]
      · obtain ⟨r, hr, -⟩ := (HasBorderRadius_iff input).1 hround
        rcases huw : (propsOf input).is_uniform_width
        · simp [PaintFastPath, huc, hus, hsolid, hc4, hf0, hrd, hround, huw, GetEdgeOfIndex,
            PaintOpList.AddDrawDRRect, IsFastPathOp, BuildFillFlags, hr]
        · simp [PaintFastPath, huc, hus, hsolid, hc4, hf0, hrd, hround, huw, GetEdgeOfIndex,
            PaintOpList.AddDrawRRect, IsFastPathOp, BuildStrokeFlags, hr]
    · intro hn
      simp only [PaintFastPath, hf0, hc4, hrd, GetEdgeOfIndex]
      split_ifs <;> first | rfl | (exfalso; apply hn; simp_all)
  · have hc4 : (propsOf input).visible_edge_count ≠ 4 := by
      rw [propsOf_count, Ne, renderingSides_length_eq_four]
      exact hall
    constructor
    · intro h
      exact absurd h.1 hall
    · intro _
      exact PaintFastPath_not_four input _ _ hc4

theorem PaintSide_single (input : BorderPaintInput) (side : BoxSide) :
    ∃ op, PaintSide input side [] = [op] ∧ ¬ IsFastPathOp op := by
  simp only [PaintSide]
  split_ifs <;>
    simp [PaintSideAsFilledRect, PaintSideAsLine, PaintOpList.AddDrawRect,
      PaintOpList.AddDrawLine, IsFastPathOp, BuildFillFlags]

theorem IsZero_false_of_render (input : BorderPaintInput)
    (h : ∃ side, (GetEdge input side).ShouldRender = true) :
    input.border_widths.IsZero = false := by
  obtain ⟨side, h⟩ := h
  have hw := ((ShouldRender_iff _).1 h).1
  cases side <;> simp only [GetEdge] at hw <;>
    simp [BorderWidths.IsZero, ne_of_gt hw]

theorem propsOf_count_ne_zero (input : BorderPaintInput)
    (h : ∃ side, (GetEdge input side).ShouldRender = true) :
    (propsOf input).visible_edge_count ≠ 0 := by
  rw [propsOf_count]
  exact (renderingSides_ne_nil input).2 h

/-- The per-side fallback never yields a lone fast-path operation. -/
theorem perSide_not_fast (input : BorderPaintInput) (op : PaintOp)
    (h : (renderingSides input).flatMap (fun side => PaintSide input side []) = [op]) :
    ¬ IsFastPathOp op := by
  have hmem : op ∈ (renderingSides input).flatMap (fun side => PaintSide input side []) := by
    rw [h]; exact List.mem_singleton.2 rfl
  obtain ⟨side, -, hop⟩ := List.mem_flatMap.1 hmem
  obtain ⟨op', hp, hnot⟩ := PaintSide_single input side
  rw [hp, List.mem_singleton] at hop
  rw [hop]
  exact hnot

theorem negRadiiMixedInput_render (side : BoxSide) :
    (GetEdge negRadiiMixedInput side).ShouldRender = true := by
  cases side <;>
    simp [GetEdge, negRadiiMixedInput, mixedWidthInput, allSolid, BorderEdge.ShouldRender,
      Color.IsFullyTransparent]

/-- The fast path for four rendering solid edges of one colour and one width. -/
theorem Paint_uniform (input : BorderPaintInput) (w : ℚ) (c : Color)
    (hvis : input.visibility = Visibility.kVisible)
    (hauto : input.render_hint = BorderRenderHint.kAuto)
    (hall : ∀ side, (GetEdge input side).ShouldRender = true)
    (hs : ∀ side, (GetEdge input side).style = EBorderStyle.kSolid)
    (hc : ∀ side, (GetEdge input side).color = c)
    (hw : ∀ side, (GetEdge input side).width = w) :
    (HasBorderRadius input = false →
      Paint input = some [PaintOp.DrawRect
        { rect := CalculateStrokeRect input.geometry w
          flags := BuildStrokeFlags c w EBorderStyle.kSolid
          transform_id := input.state_ids.transform_id
          clip_id := input.state_ids.clip_id
          effect_id := input.state_ids.effect_id }]) ∧
    (∀ r, input.border_radii = some r → (∃ i, 0 < r i) →
      Paint input = some [PaintOp.DrawRRect
        { rect := CalculateStrokeRect input.geometry w
          radii := AdjustRadiiForStroke r w
          flags := BuildStrokeFlags c w EBorderStyle.kSolid
          transform_id := input.state_ids.transform_id
          clip_id := input.state_ids.clip_id
          effect_id := input.state_ids.effect_id }]) := by
  have hP := Paint_auto_eq input hvis hauto (IsZero_false_of_render input ⟨BoxSide.kTop, hall _⟩)
    (propsOf_count_ne_zero input ⟨BoxSide.kTop, hall _⟩)
  constructor
  · intro hround
    rw [hP, propsOf_all_render input hall]
    simp [PaintFastPath, GetEdgeOfIndex, hs, hc, hw, hround, Color.eq_self,
      PaintOpList.AddDrawRect]
  · intro r hr hi
    have hround : HasBorderRadius input = true := (HasBorderRadius_iff input).2 ⟨r, hr, hi⟩
    rw [hP, propsOf_all_render input hall]
    simp [PaintFastPath, GetEdgeOfIndex, hs, hc, hw, hround, hr, Color.eq_self,
      PaintOpList.AddDrawRRect]

/-- The fast path for four rendering solid edges of one colour whose widths
differ, with rounded corners. -/
theorem Paint_mixed_rounded (input : BorderPaintInput) (c : Color) (r : BorderRadii)
    (hvis : input.visibility = Visibility.kVisible)
    (hauto : input.render_hint = BorderRenderHint.kAuto)
    (hall : ∀ side, (GetEdge input side).ShouldRender = true)
    (hs : ∀ side, (GetEdge input side).style = EBorderStyle.kSolid)
    (hc : ∀ side, (GetEdge input side).color = c)
    (hw : ¬ ∀ side side', (GetEdge input side).width = (GetEdge input side').width)
    (hr : input.border_radii = some r) (hi : ∃ i, 0 < r i) :
    Paint input = some [PaintOp.DrawDRRect
      { outer_rect :=
          ![input.geometry.x, input.geometry.y, input.geometry.x + input.geometry.width,
            input.geometry.y + input.geometry.height]
        outer_radii := r
        inner_rect := CalculateInnerRect input.geometry input.border_widths
        inner_radii := AdjustRadiiForInner r input.border_widths
        flags := BuildFillFlags c
        transform_id := input.state_ids.transform_id
        clip_id := input.state_ids.clip_id
        effect_id := input.state_ids.effect_id }] := by
  have hP := Paint_auto_eq input hvis hauto (IsZero_false_of_render input ⟨BoxSide.kTop, hall _⟩)
    (propsOf_count_ne_zero input ⟨BoxSide.kTop, hall _⟩)
  have hround : HasBorderRadius input = true := (HasBorderRadius_iff input).2 ⟨r, hr, hi⟩
  have huw : (decide ((GetEdge input BoxSide.kRight).width = (GetEdge input BoxSide.kTop).width) &&
      decide ((GetEdge input BoxSide.kBottom).width = (GetEdge input BoxSide.kTop).width) &&
      decide ((GetEdge input BoxSide.kLeft).width = (GetEdge input BoxSide.kTop).width)) = false := by
    rw [Bool.eq_false_iff]
    intro h
    simp only [Bool.and_eq_true, decide_eq_true_eq] at h
    obtain ⟨⟨h1, h2⟩, h3⟩ := h
    apply hw
    intro side side'
    cases side <;> cases side' <;> simp [h1, h2, h3]
  rw [hP, propsOf_all_render input hall, huw]
  simp [PaintFastPath, GetEdgeOfIndex, hs, hc, hround, hr, Color.eq_self,
    PaintOpList.AddDrawDRRect]

/-- The edges of the uniform input, whatever its radii: solid, black, of
width 2 and rendering. -/
theorem uniform_edges (radii : Option BorderRadii) (side : BoxSide) :
    (GetEdge { uniformInput with border_radii := radii } side).style =
        EBorderStyle.kSolid ∧
      (GetEdge { uniformInput with border_radii := radii } side).color = {} ∧
      (GetEdge { uniformInput with border_radii := radii } side).width = 2 ∧
      (GetEdge { uniformInput with border_radii := radii } side).ShouldRender = true := by
  cases side <;>
    simp [GetEdge, uniformInput, allSolid, BorderEdge.ShouldRender, Color.IsFullyTransparent]

/-- The edges of the mixed-width input, whatever its radii: solid, black and
rendering. -/
theorem mixed_edges (radii : Option BorderRadii) (side : BoxSide) :
    (GetEdge { mixedWidthInput with border_radii := radii } side).style =
        EBorderStyle.kSolid ∧
      (GetEdge { mixedWidthInput with border_radii := radii } side).color = {} ∧
      (GetEdge { mixedWidthInput with border_radii := radii } side).ShouldRender = true := by
  cases side <;>
    simp [GetEdge, mixedWidthInput, allSolid, BorderEdge.ShouldRender,
      Color.IsFullyTransparent]

theorem mixedWidthInput_not_fast : ¬ FastPathCondition mixedWidthInput := by
  rintro ⟨-, -, -, h | ⟨r, hr, i, hi⟩⟩
  · have := h BoxSide.kTop BoxSide.kRight
    simp [GetEdge, mixedWidthInput] at this
  · simp only [mixedWidthInput, Option.some.injEq] at hr
    rw [← hr] at hi
    norm_num at hi

/-- The per-side operation for a thin edge. -/
theorem PaintSide_thin (input : BorderPaintInput) (side : BoxSide)
    (h : (GetEdge input side).width < 10) :
    PaintSide input side [] = [PaintOp.DrawRect
      { rect := edgeStrip input.geometry side (GetEdge input side).width
        flags := BuildFillFlags
          (CalculateBorderColor (GetEdge input side).color side (GetEdge input side).style)
        transform_id := input.state_ids.transform_id
        clip_id := input.state_ids.clip_id
        effect_id := input.state_ids.effect_id }] := by
  simp only [PaintSide, h, if_true, PaintSideAsFilledRect, PaintOpList.AddDrawRect,
    List.nil_append]
  cases side <;> rfl

/-- The per-side operation for a thick edge. -/
theorem PaintSide_thick (input : BorderPaintInput) (side : BoxSide)
    (h : 10 ≤ (GetEdge input side).width) :
    PaintSide input side [] = [PaintOp.DrawLine
      { x0 := (edgeCentreline input.geometry side (GetEdge input side).width).1
        y0 := (edgeCentreline input.geometry side (GetEdge input side).width).2.1
        x1 := (edgeCentreline input.geometry side (GetEdge input side).width).2.2.1
        y1 := (edgeCentreline input.geometry side (GetEdge input side).width).2.2.2
        flags := BuildStrokeFlags
          (CalculateBorderColor (GetEdge input side).color side (GetEdge input side).style)
          (GetEdge input side).width (GetEdge input side).style
        transform_id := input.state_ids.transform_id
        clip_id := input.state_ids.clip_id
        effect_id := input.state_ids.effect_id }] := by
  simp only [PaintSide, not_lt.2 h, if_false, PaintSideAsLine, PaintOpList.AddDrawLine,
    List.nil_append]
  cases side <;> rfl

theorem BuildStrokeFlags_style (c : Color) (w : ℚ) (style : EBorderStyle) :
    (BuildStrokeFlags c w style).style = PaintStyle.kStroke ∧
      (BuildStrokeFlags c w style).stroke_width = w ∧
      (BuildStrokeFlags c w style).color = c := by
  unfold BuildStrokeFlags
  split_ifs <;> exact ⟨rfl, rfl, rfl⟩

/-- With the automatic strategy, past the guards, a failed fast path leaves
the per-side fallback. -/
theorem Paint_auto_fallback (input : BorderPaintInput) (props : BorderProperties)
    (hvis : input.visibility = Visibility.kVisible)
    (hauto : input.render_hint = BorderRenderHint.kAuto)
    (hsome : ∃ side, (GetEdge input side).ShouldRender = true)
    (hprops : AnalyzeBorder input = some props)
    (hfast : (PaintFastPath input props []).map Prod.fst = some false) :
    Paint input =
      some ((renderingSides input).flatMap (fun side => PaintSide input side [])) := by
  have hp : props = propsOf input := by
    rw [AnalyzeBorder_propsOf] at hprops
    exact (Option.some.inj hprops).symm
  subst hp
  have hP := Paint_auto_eq input hvis hauto (IsZero_false_of_render input hsome)
    (propsOf_count_ne_zero input hsome)
  by_cases hc : FastPathCondition input
  · obtain ⟨op, hop, -⟩ := (PaintFastPath_cases input).1 hc
    rw [hop] at hfast
    simp at hfast
  · rw [hP, (PaintFastPath_cases input).2 hc]
    simp [PaintSides_eq]

/-- The edge the code reads through first_visible_edge is the first
rendering edge. -/
theorem first_visible_edge_eq (input : BorderPaintInput)
    (hsome : ∃ side, (GetEdge input side).ShouldRender = true) :
    GetEdgeOfIndex input (propsOf input).first_visible_edge = firstRenderingEdge input := by
  simp only [propsOf, analyzeClosed, edgesOf, firstRenderingEdge, renderingSides, sideOrder]
  rcases h0 : (GetEdge input BoxSide.kTop).ShouldRender <;>
  rcases h1 : (GetEdge input BoxSide.kRight).ShouldRender <;>
  rcases h2 : (GetEdge input BoxSide.kBottom).ShouldRender <;>
  rcases h3 : (GetEdge input BoxSide.kLeft).ShouldRender <;>
  simp [List.filter_cons, List.findIdx_cons, h0, h1, h2, h3, GetEdgeOfIndex]
  obtain ⟨side, hs⟩ := hsome
  cases side <;> simp_all

/-- Under the double-border override, past the entry guards, Paint is
PaintDoubleBorder. -/
theorem Paint_double_eq (input : BorderPaintInput)
    (hvis : input.visibility = Visibility.kVisible)
    (hhint : input.render_hint = BorderRenderHint.kDoubleStroked)
    (hsome : ∃ side, (GetEdge input side).ShouldRender = true) :
    Paint input = some (PaintDoubleBorder input (propsOf input) []) := by
  simp [Paint, AnalyzeBorder_propsOf, hvis, hhint, IsZero_false_of_render input hsome,
    propsOf_count_ne_zero input hsome]

/-- The edges of the 6px double-border input: rendering, of width 6. -/
theorem doubleRoundedInput_edges (side : BoxSide) :
    (GetEdge doubleRoundedInput side).ShouldRender = true ∧
      (GetEdge doubleRoundedInput side).width = 6 := by
  cases side <;>
    simp [GetEdge, doubleRoundedInput, allSolid, BorderEdge.ShouldRender,
      Color.IsFullyTransparent]

/-- The first rendering edge when the top edge renders. -/
theorem firstRenderingEdge_top (input : BorderPaintInput)
    (h : (GetEdge input BoxSide.kTop).ShouldRender = true) :
    firstRenderingEdge input = GetEdge input BoxSide.kTop := by
  simp [firstRenderingEdge, renderingSides, sideOrder, List.filter_cons, h]

/-- When some edge renders, first_visible_edge is the least index of a
rendering edge. -/
theorem first_visible_edge_least (input : BorderPaintInput)
    (hsome : ∃ side, (GetEdge input side).ShouldRender = true) :
    (propsOf input).first_visible_edge < 4 ∧
      (GetEdgeOfIndex input (propsOf input).first_visible_edge).ShouldRender = true ∧
      ∀ j, j < (propsOf input).first_visible_edge →
        (GetEdgeOfIndex input j).ShouldRender = false := by
  simp only [propsOf, analyzeClosed, edgesOf]
  rcases h0 : (GetEdge input BoxSide.kTop).ShouldRender <;>
  rcases h1 : (GetEdge input BoxSide.kRight).ShouldRender <;>
  rcases h2 : (GetEdge input BoxSide.kBottom).ShouldRender <;>
  rcases h3 : (GetEdge input BoxSide.kLeft).ShouldRender <;>
  simp [List.filter_cons, List.findIdx_cons, h0, h1, h2, h3, GetEdgeOfIndex]
  · obtain ⟨side, hs⟩ := hsome
    cases side <;> simp_all
  all_goals
    intro j hj
    interval_cases j <;> simp [GetEdgeOfIndex, h0, h1, h2]

theorem mem_edgesOf (input : BorderPaintInput) (e : BorderEdge) :
    e ∈ edgesOf input ↔ ∃ side, GetEdge input side = e := by
  simp only [edgesOf, List.mem_cons, List.mem_singleton, List.not_mem_nil, or_false]
  constructor
  · rintro (rfl | rfl | rfl | rfl) <;> exact ⟨_, rfl⟩
  · rintro ⟨side, rfl⟩
    cases side <;> simp

/-- Every element agrees with the head under f exactly when all elements
agree pairwise. -/
theorem all_eq_head_iff {α β : Type} (l : List β) (d : β) (f : β → α)
    (p : β → Bool) (hp : ∀ e, p e = true ↔ f e = f (l.headD d)) :
    l.all p = true ↔ ∀ a ∈ l, ∀ b ∈ l, f a = f b := by
  rw [List.all_eq_true]
  constructor
  · intro h a ha b hb
    rw [(hp a).1 (h a ha), (hp b).1 (h b hb)]
  · intro h a ha
    rw [hp]
    cases l with
    | nil => cases ha
    | cons x xs => exact h a ha x (List.mem_cons_self _ _)

theorem noHidden_iff (input : BorderPaintInput) :
    (edgesOf input).all (fun e => e.ShouldRender || !e.PresentButInvisible) = true ↔
      ∀ side, (GetEdge input side).PresentButInvisible = false := by
  rw [List.all_eq_true]
  constructor
  · intro h side
    have := h _ ((mem_edgesOf input _).2 ⟨side, rfl⟩)
    rcases hpbi : (GetEdge input side).PresentButInvisible
    · rfl
    · rw [hpbi, PresentButInvisible_not_render _ hpbi] at this
      cases this
  · intro h e he
    obtain ⟨side, rfl⟩ := (mem_edgesOf input e).1 he
    rw [h side]
    simp

theorem pairwise_rendering_iff {α : Type} (input : BorderPaintInput) (f : BorderEdge → α) :
    (∀ a ∈ (edgesOf input).filter BorderEdge.ShouldRender,
      ∀ b ∈ (edgesOf input).filter BorderEdge.ShouldRender, f a = f b) ↔
    ∀ side side', (GetEdge input side).ShouldRender = true →
      (GetEdge input side').ShouldRender = true →
      f (GetEdge input side) = f (GetEdge input side') := by
  constructor
  · intro h side side' hs hs'
    exact h _ (List.mem_filter.2 ⟨(mem_edgesOf input _).2 ⟨side, rfl⟩, hs⟩)
      _ (List.mem_filter.2 ⟨(mem_edgesOf input _).2 ⟨side', rfl⟩, hs'⟩)
  · intro h a ha b hb
    obtain ⟨ha1, ha2⟩ := List.mem_filter.1 ha
    obtain ⟨hb1, hb2⟩ := List.mem_filter.1 hb
    obtain ⟨side, rfl⟩ := (mem_edgesOf input a).1 ha1
    obtain ⟨side', rfl⟩ := (mem_edgesOf input b).1 hb1
    exact h side side' ha2 hb2

/-- The flags of the record of AnalyzeBorder, over the four sides. -/
theorem propsOf_flags (input : BorderPaintInput) :
    ((propsOf input).is_uniform_width = true ↔
      (∀ side, (GetEdge input side).PresentButInvisible = false) ∧
      ∀ side side', (GetEdge input side).ShouldRender = true →
        (GetEdge input side').ShouldRender = true →
        (GetEdge input side).width = (GetEdge input side').width) ∧
    ((propsOf input).is_uniform_color = true ↔
      (∀ side, (GetEdge input side).PresentButInvisible = false) ∧
      ∀ side side', (GetEdge input side).ShouldRender = true →
        (GetEdge input side').ShouldRender = true →
        (GetEdge input side).color = (GetEdge input side').color) ∧
    ((propsOf input).is_uniform_style = true ↔
      ∀ side side', (GetEdge input side).ShouldRender = true →
        (GetEdge input side').ShouldRender = true →
        (GetEdge input side).style = (GetEdge input side').style) := by
  simp only [propsOf, analyzeClosed, Bool.and_eq_true, noHidden_iff]
  refine ⟨?_, ?_, ?_⟩
  · rw [all_eq_head_iff _ {} BorderEdge.width _ (fun e => by simp),
      pairwise_rendering_iff input BorderEdge.width]
  · rw [all_eq_head_iff _ {} BorderEdge.color _
        (fun e => by simp [BorderEdge.SharesColorWith, Color.eq_iff]),
      pairwise_rendering_iff input BorderEdge.color]
  · rw [all_eq_head_iff _ {} BorderEdge.style _ (fun e => by simp),
      pairwise_rendering_iff input BorderEdge.style]

/-- The loop body leaves the count alone at an edge that does not render. -/
theorem AnalyzeEdge_count_of_not_render (es : List BorderEdge)
    (props props' : BorderProperties) (i : Nat) (e : BorderEdge)
    (hi : es[i]? = some e) (hr : e.ShouldRender = false)
    (h : AnalyzeEdge es props i = some props') :
    props'.visible_edge_count = props.visible_edge_count := by
  rw [AnalyzeEdge_eq, hi] at h
  simp only [Option.some_bind, hr, Bool.false_eq_true, if_false, Option.some.injEq] at h
  rw [← h]

/-- A per-side loop keeps every property of the list that each step keeps. -/
theorem foldl_sides_invariant (P : PaintOpList → Prop)
    (step : PaintOpList → BoxSide → PaintOpList)
    (hstep : ∀ ops side, P ops → P (step ops side))
    (sides : List BoxSide) (ops : PaintOpList) (h : P ops) :
    P (sides.foldl step ops) := by
  induction sides generalizing ops with
  | nil => exact h
  | cons side rest ih => exact ih _ (hstep ops side h)

theorem ids_append_one (input : BorderPaintInput) (ops : PaintOpList) (op : PaintOp)
    (h : ∀ o ∈ ops, CarriesStateIds input o) (hop : CarriesStateIds input op) :
    ∀ o ∈ ops ++ [op], CarriesStateIds input o := by
  intro o ho
  rcases List.mem_append.1 ho with ho | ho
  · exact h o ho
  · rw [List.mem_singleton.1 ho]
    exact hop

theorem PaintSideAsFilledRect_ids (input : BorderPaintInput) (side : BoxSide)
    (ops : PaintOpList) (h : ∀ o ∈ ops, CarriesStateIds input o) :
    ∀ o ∈ PaintSideAsFilledRect input side ops, CarriesStateIds input o :=
  ids_append_one input ops _ h rfl

theorem PaintSideAsLine_ids (input : BorderPaintInput) (side : BoxSide)
    (ops : PaintOpList) (h : ∀ o ∈ ops, CarriesStateIds input o) :
    ∀ o ∈ PaintSideAsLine input side ops, CarriesStateIds input o :=
  ids_append_one input ops _ h rfl

theorem PaintSide_ids (input : BorderPaintInput) (side : BoxSide)
    (ops : PaintOpList) (h : ∀ o ∈ ops, CarriesStateIds input o) :
    ∀ o ∈ PaintSide input side ops, CarriesStateIds input o := by
  simp only [PaintSide]
  split_ifs
  · exact PaintSideAsFilledRect_ids input side ops h
  · exact PaintSideAsLine_ids input side ops h

theorem PaintSides_ids (input : BorderPaintInput) (props : BorderProperties)
    (ops : PaintOpList) (h : ∀ o ∈ ops, CarriesStateIds input o) :
    ∀ o ∈ PaintSides input props ops, CarriesStateIds input o := by
  apply foldl_sides_invariant (fun ops => ∀ o ∈ ops, CarriesStateIds input o) _ _ _ _ h
  intro ops side hops
  dsimp only
  split_ifs
  · exact hops
  · exact PaintSide_ids input side ops hops

theorem PaintSidesAsLines_ids (input : BorderPaintInput) (props : BorderProperties)
    (ops : PaintOpList) (h : ∀ o ∈ ops, CarriesStateIds input o) :
    ∀ o ∈ PaintSidesAsLines input props ops, CarriesStateIds input o := by
  apply foldl_sides_invariant (fun ops => ∀ o ∈ ops, CarriesStateIds input o) _ _ _ _ h
  intro ops side hops
  dsimp only
  split_ifs
  · exact hops
  · exact PaintSideAsLine_ids input side ops hops

theorem PaintSidesAsFilledRects_ids (input : BorderPaintInput) (props : BorderProperties)
    (ops : PaintOpList) (h : ∀ o ∈ ops, CarriesStateIds input o) :
    ∀ o ∈ PaintSidesAsFilledRects input props ops, CarriesStateIds input o := by
  apply foldl_sides_invariant (fun ops => ∀ o ∈ ops, CarriesStateIds input o) _ _ _ _ h
  intro ops side hops
  dsimp only
  split_ifs
  · exact hops
  · exact PaintSideAsFilledRect_ids input side ops hops

theorem PaintDottedBorder_ids (input : BorderPaintInput) (props : BorderProperties)
    (ops : PaintOpList) (h : ∀ o ∈ ops, CarriesStateIds input o) :
    ∀ o ∈ PaintDottedBorder input props ops, CarriesStateIds input o := by
  apply foldl_sides_invariant (fun ops => ∀ o ∈ ops, CarriesStateIds input o) _ _ _ _ h
  intro ops side hops
  dsimp only
  split_ifs
  · exact hops
  · exact ids_append_one input ops _ hops rfl

theorem PaintGrooveRidgeBorder_ids (input : BorderPaintInput) (props : BorderProperties)
    (ops : PaintOpList) (h : ∀ o ∈ ops, CarriesStateIds input o) :
    ∀ o ∈ PaintGrooveRidgeBorder input props ops, CarriesStateIds input o := by
  apply foldl_sides_invariant (fun ops => ∀ o ∈ ops, CarriesStateIds input o) _ _ _ _ h
  intro ops side hops
  dsimp only
  by_cases hr : (!(GetEdge input side).ShouldRender) = true
  · rw [if_pos hr]
    exact hops
  · rw [if_neg hr]
    exact ids_append_one input _ _ (ids_append_one input ops _ hops rfl) rfl

theorem PaintDoubleBorder_ids (input : BorderPaintInput) (props : BorderProperties)
    (ops : PaintOpList) (h : ∀ o ∈ ops, CarriesStateIds input o) :
    ∀ o ∈ PaintDoubleBorder input props ops, CarriesStateIds input o := by
  simp only [PaintDoubleBorder]
  split
  · exact ids_append_one input _ _ (ids_append_one input ops _ h rfl) rfl
  · exact ids_append_one input _ _ (ids_append_one input ops _ h rfl) rfl

theorem PaintFastPath_ids (input : BorderPaintInput) (props : BorderProperties)
    (ops : PaintOpList) (res : Bool × PaintOpList)
    (hres : PaintFastPath input props ops = some res)
    (h : ∀ o ∈ ops, CarriesStateIds input o) :
    ∀ o ∈ res.2, CarriesStateIds input o := by
  simp only [PaintFastPath] at hres
  split_ifs at hres
  all_goals first
    | (rw [← Option.some.inj hres]; exact h)
    | (rw [← Option.some.inj hres]; exact ids_append_one input ops _ h rfl)
    | (rcases hr : input.border_radii with _ | r
       · rw [hr] at hres; cases hres
       · rw [hr] at hres
         rw [← Option.some.inj hres]
         exact ids_append_one input ops _ h rfl)

/-- On the record of AnalyzeBorder the fast path never dereferences absent
radii. -/
theorem PaintFastPath_some (input : BorderPaintInput) :
    ∃ res, PaintFastPath input (propsOf input) [] = some res := by
  by_cases hc : FastPathCondition input
  · obtain ⟨op, h, -⟩ := (PaintFastPath_cases input).1 hc
    exact ⟨_, h⟩
  · exact ⟨_, (PaintFastPath_cases input).2 hc⟩

/-- Paint always returns a list. -/
theorem Paint_isSome (input : BorderPaintInput) : (Paint input).isSome = true := by
  obtain ⟨res, hres⟩ := PaintFastPath_some input
  simp only [Paint, AnalyzeBorder_propsOf, Option.bind_eq_bind, Option.some_bind, hres]
  rcases hh : input.render_hint <;>
    simp only [reduceCtorEq, if_false, if_true, false_or, or_false, true_or, or_true] <;>
    split_ifs <;> rfl

/-- Every operation in the list Paint returns carries the state identifiers
of the input. -/
theorem Paint_ids (input : BorderPaintInput) (ops : PaintOpList)
    (h : Paint input = some ops) : ∀ o ∈ ops, CarriesStateIds input o := by
  have hnil : ∀ o ∈ ([] : PaintOpList), CarriesStateIds input o := fun o ho => by cases ho
  obtain ⟨res, hres⟩ := PaintFastPath_some input
  have hfast := PaintFastPath_ids input (propsOf input) [] res hres hnil
  have h1 := PaintSidesAsLines_ids input (propsOf input) [] hnil
  have h2 := PaintSidesAsFilledRects_ids input (propsOf input) [] hnil
  have h3 := PaintDoubleBorder_ids input (propsOf input) [] hnil
  have h4 := PaintDottedBorder_ids input (propsOf input) [] hnil
  have h5 := PaintGrooveRidgeBorder_ids input (propsOf input) [] hnil
  have h6 := PaintSides_ids input (propsOf input) res.2 hfast
  simp only [Paint, AnalyzeBorder_propsOf, Option.bind_eq_bind, Option.some_bind, hres] at h
  rcases hh : input.render_hint <;> rw [hh] at h <;>
    simp only [reduceCtorEq, if_false, if_true, false_or, or_false, true_or, or_true] at h <;>
    split_ifs at h <;>
    rw [← Option.some.inj h] <;>
    with_reducible assumption

/-- The edges of the input with state identifiers: solid, black, of width 2
and rendering. -/
theorem idsInput_edges (side : BoxSide) :
    (GetEdge idsInput side).style = EBorderStyle.kSolid ∧
      (GetEdge idsInput side).color = {} ∧
      (GetEdge idsInput side).width = 2 ∧
      (GetEdge idsInput side).ShouldRender = true := by
  cases side <;>
    simp [GetEdge, idsInput, uniformInput, allSolid, BorderEdge.ShouldRender,
      Color.IsFullyTransparent]

/-- The index first_visible_edge is always below 4. -/
theorem first_visible_edge_lt (input : BorderPaintInput) :
    (propsOf input).first_visible_edge < 4 := by
  by_cases hsome : ∃ side, (GetEdge input side).ShouldRender = true
  · exact (first_visible_edge_least input hsome).1
  · have hnone : ∀ side, (GetEdge input side).ShouldRender = false := by
      intro side
      rcases h : (GetEdge input side).ShouldRender
      · rfl
      · exact absurd ⟨side, h⟩ hsome
    simp [propsOf, analyzeClosed, edgesOf, hnone]

theorem Paint_no_render (input : BorderPaintInput)
    (hvis : input.visibility = Visibility.kVisible)
    (hnone : ¬ ∃ side, (GetEdge input side).ShouldRender = true) :
    Paint input = some [] := by
  have hcount : (propsOf input).visible_edge_count = 0 := by
    by_contra h
    rw [propsOf_count] at h
    exact hnone ((renderingSides_ne_nil input).1 h)
  simp only [Paint, AnalyzeBorder_propsOf, hvis, hcount, ne_eq, not_true_eq_false, if_false,
    Option.bind_eq_bind, Option.some_bind, if_true]
  split_ifs <;> rfl

theorem renderingSides_nil (input : BorderPaintInput)
    (hnone : ¬ ∃ side, (GetEdge input side).ShouldRender = true) :
    renderingSides input = [] := by
  by_contra h
  apply hnone
  apply (renderingSides_ne_nil input).1
  intro hl
  exact h (List.length_eq_zero.1 hl)

theorem Paint_hint_eq (input : BorderPaintInput)
    (hvis : input.visibility = Visibility.kVisible)
    (hsome : ∃ side, (GetEdge input side).ShouldRender = true) :
    (input.render_hint = BorderRenderHint.kDrawLine →
      Paint input = some (PaintSidesAsLines input (propsOf input) [])) ∧
    (input.render_hint = BorderRenderHint.kFilledThinRect →
      Paint input = some (PaintSidesAsFilledRects input (propsOf input) [])) ∧
    (input.render_hint = BorderRenderHint.kDottedLines →
      Paint input = some (PaintDottedBorder input (propsOf input) [])) ∧
    (input.render_hint = BorderRenderHint.kGrooveRidge →
      Paint input = some (PaintGrooveRidgeBorder input (propsOf input) [])) := by
  refine ⟨?_, ?_, ?_, ?_⟩ <;> intro hhint <;>
    simp [Paint, AnalyzeBorder_propsOf, hvis, hhint, IsZero_false_of_render input hsome,
      propsOf_count_ne_zero input hsome]

/-- The line PaintDottedBorder draws for a side. -/
theorem PaintDottedBorder_eq (input : BorderPaintInput) (props : BorderProperties)
    (ops : PaintOpList) :
    PaintDottedBorder input props ops =
      ops ++ (renderingSides input).flatMap (fun side =>
        [PaintOp.DrawLine
          { x0 := (edgeCentreline input.geometry side (GetEdge input side).width).1
            y0 := (edgeCentreline input.geometry side (GetEdge input side).width).2.1
            x1 := (edgeCentreline input.geometry side (GetEdge input side).width).2.2.1
            y1 := (edgeCentreline input.geometry side (GetEdge input side).width).2.2.2
            flags := BuildStrokeFlags (GetEdge input side).color (GetEdge input side).width
              EBorderStyle.kDotted
            transform_id := input.state_ids.transform_id
            clip_id := input.state_ids.clip_id
            effect_id := input.state_ids.effect_id }]) := by
  have h := foldl_sides_eq input
    (fun side ops => ops ++ [PaintOp.DrawLine
          { x0 := (edgeCentreline input.geometry side (GetEdge input side).width).1
            y0 := (edgeCentreline input.geometry side (GetEdge input side).width).2.1
            x1 := (edgeCentreline input.geometry side (GetEdge input side).width).2.2.1
            y1 := (edgeCentreline input.geometry side (GetEdge input side).width).2.2.2
            flags := BuildStrokeFlags (GetEdge input side).color (GetEdge input side).width
              EBorderStyle.kDotted
            transform_id := input.state_ids.transform_id
            clip_id := input.state_ids.clip_id
            effect_id := input.state_ids.effect_id }])
    (fun side ops => by simp) sideOrder ops
  simp only [List.nil_append] at h
  unfold renderingSides
  rw [← h, PaintDottedBorder]
  congr 1

theorem PaintSideAsLine_eq (input : BorderPaintInput) (side : BoxSide) (ops : PaintOpList) :
    PaintSideAsLine input side ops =
      ops ++ [PaintOp.DrawLine
        { x0 := (edgeCentreline input.geometry side (GetEdge input side).width).1
          y0 := (edgeCentreline input.geometry side (GetEdge input side).width).2.1
          x1 := (edgeCentreline input.geometry side (GetEdge input side).width).2.2.1
          y1 := (edgeCentreline input.geometry side (GetEdge input side).width).2.2.2
          flags := BuildStrokeFlags
            (CalculateBorderColor (GetEdge input side).color side (GetEdge input side).style)
            (GetEdge input side).width (GetEdge input side).style
          transform_id := input.state_ids.transform_id
          clip_id := input.state_ids.clip_id
          effect_id := input.state_ids.effect_id }] := by
  cases side <;> rfl

theorem PaintSideAsFilledRect_eq (input : BorderPaintInput) (side : BoxSide)
    (ops : PaintOpList) :
    PaintSideAsFilledRect input side ops =
      ops ++ [PaintOp.DrawRect
        { rect := edgeStrip input.geometry side (GetEdge input side).width
          flags := BuildFillFlags
            (CalculateBorderColor (GetEdge input side).color side (GetEdge input side).style)
          transform_id := input.state_ids.transform_id
          clip_id := input.state_ids.clip_id
          effect_id := input.state_ids.effect_id }] := by
  cases side <;> rfl

theorem PaintSidesAsLines_eq (input : BorderPaintInput) (props : BorderProperties)
    (ops : PaintOpList) :
    PaintSidesAsLines input props ops =
      ops ++ (renderingSides input).flatMap (fun side => PaintSideAsLine input side []) :=
  foldl_sides_eq input (PaintSideAsLine input)
    (fun side ops => by rw [PaintSideAsLine_eq, PaintSideAsLine_eq]; simp) sideOrder ops

theorem PaintSidesAsFilledRects_eq (input : BorderPaintInput) (props : BorderProperties)
    (ops : PaintOpList) :
    PaintSidesAsFilledRects input props ops =
      ops ++ (renderingSides input).flatMap (fun side => PaintSideAsFilledRect input side []) :=
  foldl_sides_eq input (PaintSideAsFilledRect input)
    (fun side ops => by rw [PaintSideAsFilledRect_eq, PaintSideAsFilledRect_eq]; simp)
    sideOrder ops

theorem PaintGrooveRidgeBorder_eq (input : BorderPaintInput) (props : BorderProperties)
    (ops : PaintOpList) :
    PaintGrooveRidgeBorder input props ops =
      ops ++ (renderingSides input).flatMap (fun side =>
        [PaintOp.DrawRect
          { rect := edgeStrip input.geometry side
              ((GetEdgeOfIndex input props.first_visible_edge).width / 2)
            flags := BuildFillFlags
              (if ((GetEdgeOfIndex input props.first_visible_edge).style == EBorderStyle.kGroove) ==
                  (side == BoxSide.kTop || side == BoxSide.kLeft)
                then (GetEdgeOfIndex input props.first_visible_edge).color.Dark
                else (GetEdgeOfIndex input props.first_visible_edge).color)
            transform_id := input.state_ids.transform_id
            clip_id := input.state_ids.clip_id
            effect_id := input.state_ids.effect_id },
         PaintOp.DrawRect
          { rect := edgeInnerHalf input.geometry side
              (GetEdgeOfIndex input props.first_visible_edge).width
            flags := BuildFillFlags
              (if ((GetEdgeOfIndex input props.first_visible_edge).style == EBorderStyle.kGroove) ==
                  (side == BoxSide.kTop || side == BoxSide.kLeft)
                then (GetEdgeOfIndex input props.first_visible_edge).color
                else (GetEdgeOfIndex input props.first_visible_edge).color.Dark)
            transform_id := input.state_ids.transform_id
            clip_id := input.state_ids.clip_id
            effect_id := input.state_ids.effect_id }]) := by
  have h := foldl_sides_eq input
    (fun side ops => ops ++ [PaintOp.DrawRect
          { rect := edgeStrip input.geometry side
              ((GetEdgeOfIndex input props.first_visible_edge).width / 2)
            flags := BuildFillFlags
              (if ((GetEdgeOfIndex input props.first_visible_edge).style == EBorderStyle.kGroove) ==
                  (side == BoxSide.kTop || side == BoxSide.kLeft)
                then (GetEdgeOfIndex input props.first_visible_edge).color.Dark
                else (GetEdgeOfIndex input props.first_visible_edge).color)
            transform_id := input.state_ids.transform_id
            clip_id := input.state_ids.clip_id
            effect_id := input.state_ids.effect_id },
         PaintOp.DrawRect
          { rect := edgeInnerHalf input.geometry side
              (GetEdgeOfIndex input props.first_visible_edge).width
            flags := BuildFillFlags
              (if ((GetEdgeOfIndex input props.first_visible_edge).style == EBorderStyle.kGroove) ==
                  (side == BoxSide.kTop || side == BoxSide.kLeft)
                then (GetEdgeOfIndex input props.first_visible_edge).color
                else (GetEdgeOfIndex input props.first_visible_edge).color.Dark)
            transform_id := input.state_ids.transform_id
            clip_id := input.state_ids.clip_id
            effect_id := input.state_ids.effect_id }])
    (fun side ops => by simp) sideOrder ops
  simp only [List.nil_append] at h
  unfold renderingSides
  rw [← h, PaintGrooveRidgeBorder]
  congr 1
  funext ops side
  cases side <;> simp [PaintOpList.AddDrawRect, edgeStrip, edgeInnerHalf]

theorem Paint_override_eq (input : BorderPaintInput)
    (hvis : input.visibility = Visibility.kVisible) :
    (input.render_hint = BorderRenderHint.kDrawLine →
      Paint input = some ((renderingSides input).flatMap
        (fun side => PaintSideAsLine input side []))) ∧
    (input.render_hint = BorderRenderHint.kFilledThinRect →
      Paint input = some ((renderingSides input).flatMap
        (fun side => PaintSideAsFilledRect input side []))) ∧
    (input.render_hint = BorderRenderHint.kDottedLines →
      Paint input = some (PaintDottedBorder input (propsOf input) [])) ∧
    (input.render_hint = BorderRenderHint.kGrooveRidge →
      Paint input = some (PaintGrooveRidgeBorder input (propsOf input) [])) := by
  by_cases hsome : ∃ side, (GetEdge input side).ShouldRender = true
  · obtain ⟨h1, h2, h3, h4⟩ := Paint_hint_eq input hvis hsome
    refine ⟨fun h => ?_, fun h => ?_, h3, h4⟩
    · rw [h1 h, PaintSidesAsLines_eq]; rfl
    · rw [h2 h, PaintSidesAsFilledRects_eq]; rfl
  · have hnil := renderingSides_nil input hsome
    have hP := Paint_no_render input hvis hsome
    refine ⟨fun _ => ?_, fun _ => ?_, fun _ => ?_, fun _ => ?_⟩
    · rw [hP, hnil]; rfl
    · rw [hP, hnil]; rfl
    · rw [hP, PaintDottedBorder_eq, hnil]; rfl
    · rw [hP, PaintGrooveRidgeBorder_eq, hnil]; rfl

theorem flatMap_single {α β : Type} (l : List α) (f : α → β) :
    l.flatMap (fun a => [f a]) = l.map f := by
  induction l with
  | nil => rfl
  | cons a l ih => simp [List.flatMap_cons, ih]

theorem NonInverted_mk (a b c d : ℚ) : NonInverted ![a, b, c, d] ↔ a ≤ c ∧ b ≤ d := by
  simp [NonInverted]

theorem edgeStrip_nonInverted (g : RectF) (side : BoxSide) (w : ℚ)
    (hgw : 0 ≤ g.width) (hgh : 0 ≤ g.height) (hw : 0 ≤ w) :
    NonInverted (edgeStrip g side w) := by
  cases side <;> simp only [edgeStrip, NonInverted_mk] <;> constructor <;> linarith

theorem edgeInnerHalf_nonInverted (g : RectF) (side : BoxSide) (w : ℚ)
    (hgw : 0 ≤ g.width) (hgh : 0 ≤ g.height) (hw : 0 ≤ w) :
    NonInverted (edgeInnerHalf g side w) := by
  cases side <;> simp only [edgeInnerHalf, NonInverted_mk] <;> constructor <;> linarith

theorem inset_nonInverted (g : RectF) (d : ℚ) (h1 : 2 * d ≤ g.width) (h2 : 2 * d ≤ g.height) :
    NonInverted ![g.x + d, g.y + d, g.x + g.width - d, g.y + g.height - d] := by
  rw [NonInverted_mk]
  constructor <;> linarith

theorem CalculateStrokeRect_nonInverted (g : RectF) (w : ℚ)
    (h1 : w ≤ g.width) (h2 : w ≤ g.height) :
    NonInverted (CalculateStrokeRect g w) := by
  unfold CalculateStrokeRect
  exact inset_nonInverted g (w / 2) (by linarith) (by linarith)

theorem AdjustRadiiForStroke_nonneg (r : BorderRadii) (w : ℚ) (i : Fin 8) :
    0 ≤ AdjustRadiiForStroke r w i := by
  simp [AdjustRadiiForStroke]

theorem AdjustRadiiForInner_nonneg (r : BorderRadii) (w : BorderWidths) (i : Fin 8) :
    0 ≤ AdjustRadiiForInner r w i := by
  unfold AdjustRadiiForInner
  fin_cases i <;> exact le_max_left _ _

theorem GetEdge_width_nonneg (input : BorderPaintInput) (h : NonNegativeInput input)
    (side : BoxSide) : 0 ≤ (GetEdge input side).width := by
  obtain ⟨-, -, h1, h2, h3, h4, -⟩ := h
  cases side <;> simpa [GetEdge]

theorem GetEdgeOfIndex_width_nonneg (input : BorderPaintInput) (h : NonNegativeInput input)
    (n : Nat) : 0 ≤ (GetEdgeOfIndex input n).width := by
  unfold GetEdgeOfIndex
  split
  · exact GetEdge_width_nonneg input h _
  · exact GetEdge_width_nonneg input h _
  · exact GetEdge_width_nonneg input h _
  · exact GetEdge_width_nonneg input h _
  · exact le_refl _

theorem mem_flatMap_sides (input : BorderPaintInput) (f : BoxSide → PaintOpList)
    (P : PaintOp → Prop) (hf : ∀ side, ∀ o ∈ f side, P o) :
    ∀ o ∈ (renderingSides input).flatMap f, P o := by
  intro o ho
  obtain ⟨side, -, hside⟩ := List.mem_flatMap.1 ho
  exact hf side o hside

theorem radii_line (op : DrawLineOp) : RadiiNonNegative (PaintOp.DrawLine op) := by
  intro rad h; cases h

theorem rects_line (op : DrawLineOp) : RectsNonInverted (PaintOp.DrawLine op) := by
  intro r h; cases h

theorem radii_rect (op : DrawRectOp) : RadiiNonNegative (PaintOp.DrawRect op) := by
  intro rad h; cases h

theorem rects_rect (op : DrawRectOp) (h : NonInverted op.rect) :
    RectsNonInverted (PaintOp.DrawRect op) := by
  intro r hr
  rw [List.mem_singleton.1 hr]
  exact h

theorem GeometryOk_line (input : BorderPaintInput) (op : DrawLineOp) :
    GeometryOk input (PaintOp.DrawLine op) :=
  ⟨radii_line op, fun _ => rects_line op⟩

theorem GeometryOk_rect (input : BorderPaintInput) (op : DrawRectOp)
    (h : BorderFits input → NonInverted op.rect) :
    GeometryOk input (PaintOp.DrawRect op) :=
  ⟨radii_rect op, fun hfit => rects_rect op (h hfit)⟩

theorem GeometryOk_rrect (input : BorderPaintInput) (op : DrawRRectOp)
    (hrad : ∀ i, 0 ≤ op.radii i) (h : BorderFits input → NonInverted op.rect) :
    GeometryOk input (PaintOp.DrawRRect op) := by
  refine ⟨?_, fun hfit => ?_⟩
  · intro rad hr
    rw [List.mem_singleton.1 hr]
    exact hrad
  · intro r hr
    rw [List.mem_singleton.1 hr]
    exact h hfit

theorem PaintSideAsFilledRect_geometry (input : BorderPaintInput)
    (hnn : NonNegativeInput input) (side : BoxSide) :
    ∀ o ∈ PaintSideAsFilledRect input side [], GeometryOk input o := by
  intro o ho
  rw [PaintSideAsFilledRect_eq, List.nil_append, List.mem_singleton] at ho
  rw [ho]
  exact GeometryOk_rect input _
    (fun _ => edgeStrip_nonInverted _ _ _ hnn.1 hnn.2.1 (GetEdge_width_nonneg input hnn side))

theorem PaintSideAsLine_geometry (input : BorderPaintInput) (side : BoxSide) :
    ∀ o ∈ PaintSideAsLine input side [], GeometryOk input o := by
  intro o ho
  rw [PaintSideAsLine_eq, List.nil_append, List.mem_singleton] at ho
  rw [ho]
  exact GeometryOk_line input _

theorem PaintSide_geometry (input : BorderPaintInput)
    (hnn : NonNegativeInput input) (side : BoxSide) :
    ∀ o ∈ PaintSide input side [], GeometryOk input o := by
  simp only [PaintSide]
  split_ifs
  · exact PaintSideAsFilledRect_geometry input hnn side
  · exact PaintSideAsLine_geometry input side

theorem all_append {P : PaintOp → Prop} (a b : PaintOpList)
    (ha : ∀ o ∈ a, P o) (hb : ∀ o ∈ b, P o) : ∀ o ∈ a ++ b, P o := by
  intro o ho
  rcases List.mem_append.1 ho with h | h
  · exact ha o h
  · exact hb o h

theorem all_nil {P : PaintOp → Prop} : ∀ o ∈ ([] : PaintOpList), P o := by
  intro o ho; cases ho

theorem PaintSides_geometry (input : BorderPaintInput) (hnn : NonNegativeInput input)
    (props : BorderProperties) (ops : PaintOpList) (h : ∀ o ∈ ops, GeometryOk input o) :
    ∀ o ∈ PaintSides input props ops, GeometryOk input o := by
  rw [PaintSides_eq]
  exact all_append _ _ h (mem_flatMap_sides input _ _ (PaintSide_geometry input hnn))

theorem PaintSidesAsLines_geometry (input : BorderPaintInput) (props : BorderProperties) :
    ∀ o ∈ PaintSidesAsLines input props [], GeometryOk input o := by
  rw [PaintSidesAsLines_eq]
  exact all_append _ _ all_nil (mem_flatMap_sides input _ _ (PaintSideAsLine_geometry input))

theorem PaintSidesAsFilledRects_geometry (input : BorderPaintInput)
    (hnn : NonNegativeInput input) (props : BorderProperties) :
    ∀ o ∈ PaintSidesAsFilledRects input props [], GeometryOk input o := by
  rw [PaintSidesAsFilledRects_eq]
  exact all_append _ _ all_nil
    (mem_flatMap_sides input _ _ (PaintSideAsFilledRect_geometry input hnn))

theorem PaintDottedBorder_geometry (input : BorderPaintInput) (props : BorderProperties) :
    ∀ o ∈ PaintDottedBorder input props [], GeometryOk input o := by
  rw [PaintDottedBorder_eq]
  refine all_append _ _ all_nil (mem_flatMap_sides input _ _ ?_)
  intro side o ho
  rw [List.mem_singleton.1 ho]
  exact GeometryOk_line input _

theorem PaintGrooveRidgeBorder_geometry (input : BorderPaintInput)
    (hnn : NonNegativeInput input) (props : BorderProperties) :
    ∀ o ∈ PaintGrooveRidgeBorder input props [], GeometryOk input o := by
  rw [PaintGrooveRidgeBorder_eq]
  refine all_append _ _ all_nil (mem_flatMap_sides input _ _ ?_)
  intro side o ho
  have hW := GetEdgeOfIndex_width_nonneg input hnn props.first_visible_edge
  simp only [List.mem_cons, List.mem_singleton, List.not_mem_nil, or_false] at ho
  rcases ho with rfl | rfl
  · exact GeometryOk_rect input _
      (fun _ => edgeStrip_nonInverted _ _ _ hnn.1 hnn.2.1 (by linarith))
  · exact GeometryOk_rect input _
      (fun _ => edgeInnerHalf_nonInverted _ _ _ hnn.1 hnn.2.1 hW)

theorem PaintDoubleBorder_geometry (input : BorderPaintInput)
    (hhint : input.render_hint = BorderRenderHint.kDoubleStroked)
    (hsome : ∃ side, (GetEdge input side).ShouldRender = true) :
    ∀ o ∈ PaintDoubleBorder input (propsOf input) [], GeometryOk input o := by
  have hfit : BorderFits input →
      ((⌈(GetEdgeOfIndex input (propsOf input).first_visible_edge).width / 3⌉ : ℤ) : ℚ) ≤
        input.geometry.width ∧
      ((⌈(GetEdgeOfIndex input (propsOf input).first_visible_edge).width / 3⌉ : ℤ) : ℚ) ≤
        input.geometry.height ∧
      2 * (GetEdgeOfIndex input (propsOf input).first_visible_edge).width -
        ((⌈(GetEdgeOfIndex input (propsOf input).first_visible_edge).width / 3⌉ : ℤ) : ℚ) ≤
          input.geometry.width ∧
      2 * (GetEdgeOfIndex input (propsOf input).first_visible_edge).width -
        ((⌈(GetEdgeOfIndex input (propsOf input).first_visible_edge).width / 3⌉ : ℤ) : ℚ) ≤
          input.geometry.height := by
    intro h
    rw [first_visible_edge_eq input hsome]
    exact h.2.2 hhint
  simp only [PaintDoubleBorder, PaintOpList.AddDrawRRect, PaintOpList.AddDrawRect,
    List.nil_append]
  split
  · intro o ho
    simp only [List.cons_append, List.nil_append, List.mem_cons, List.mem_singleton,
      List.not_mem_nil, or_false] at ho
    rcases ho with rfl | rfl
    · exact GeometryOk_rrect input _ (AdjustRadiiForStroke_nonneg _ _)
        (fun h => inset_nonInverted _ _ (by linarith [(hfit h).1]) (by linarith [(hfit h).2.1]))
    · exact GeometryOk_rrect input _ (AdjustRadiiForStroke_nonneg _ _)
        (fun h => inset_nonInverted _ _ (by linarith [(hfit h).2.2.1])
          (by linarith [(hfit h).2.2.2]))
  · intro o ho
    simp only [List.cons_append, List.nil_append, List.mem_cons, List.mem_singleton,
      List.not_mem_nil, or_false] at ho
    rcases ho with rfl | rfl
    · exact GeometryOk_rect input _
        (fun h => inset_nonInverted _ _ (by linarith [(hfit h).1]) (by linarith [(hfit h).2.1]))
    · exact GeometryOk_rect input _
        (fun h => inset_nonInverted _ _ (by linarith [(hfit h).2.2.1])
          (by linarith [(hfit h).2.2.2]))

theorem PaintFastPath_geometry (input : BorderPaintInput) (hnn : NonNegativeInput input)
    (res : Bool × PaintOpList)
    (hres : PaintFastPath input (propsOf input) [] = some res) :
    ∀ o ∈ res.2, GeometryOk input o := by
  by_cases hall : ∀ side, (GetEdge input side).ShouldRender = true
  · have hT := GetEdge_width_nonneg input hnn BoxSide.kTop
    have hwT : (GetEdge input BoxSide.kTop).width = input.border_widths.top := rfl
    have hwR : (GetEdge input BoxSide.kRight).width = input.border_widths.right := rfl
    have hwB : (GetEdge input BoxSide.kBottom).width = input.border_widths.bottom := rfl
    have hwL : (GetEdge input BoxSide.kLeft).width = input.border_widths.left := rfl
    rw [propsOf_all_render input hall] at hres
    simp only [PaintFastPath, GetEdgeOfIndex] at hres
    split_ifs at hres with h1 h2 h3 h4 h5 h6
    · rw [← Option.some.inj hres]; exact all_nil
    · rw [← Option.some.inj hres]; exact all_nil
    · rw [← Option.some.inj hres]; exact all_nil
    · rw [← Option.some.inj hres]
      simp only [Bool.and_eq_true, decide_eq_true_eq] at h4
      obtain ⟨⟨⟨hr, hb⟩, hl⟩, -⟩ := h4
      intro o ho
      simp only [PaintOpList.AddDrawRect, List.nil_append, List.mem_singleton] at ho
      rw [ho]
      refine GeometryOk_rect input _ (fun hfit => ?_)
      obtain ⟨hf1, hf2, -⟩ := hfit
      exact CalculateStrokeRect_nonInverted _ _ (by linarith) (by linarith)
    · simp only [Bool.and_eq_true, decide_eq_true_eq] at h5
      obtain ⟨⟨⟨hr, hb⟩, hl⟩, -⟩ := h5
      rcases hrad : input.border_radii with _ | r
      · rw [hrad] at hres; cases hres
      · rw [hrad] at hres
        rw [← Option.some.inj hres]
        intro o ho
        simp only [PaintOpList.AddDrawRRect, List.nil_append, List.mem_singleton] at ho
        rw [ho]
        refine GeometryOk_rrect input _ (AdjustRadiiForStroke_nonneg _ _) (fun hfit => ?_)
        obtain ⟨hf1, hf2, -⟩ := hfit
        exact CalculateStrokeRect_nonInverted _ _ (by linarith) (by linarith)
    · rcases hrad : input.border_radii with _ | r
      · rw [hrad] at hres; cases hres
      · rw [hrad] at hres
        rw [← Option.some.inj hres]
        intro o ho
        simp only [PaintOpList.AddDrawDRRect, List.nil_append, List.mem_singleton] at ho
        rw [ho]
        refine ⟨?_, fun hfit => ?_⟩
        · intro rad hr
          simp only [PaintOp.radii, List.mem_cons, List.mem_singleton, List.not_mem_nil,
            or_false] at hr
          rcases hr with hr | hr
          · rw [hr]; exact hnn.2.2.2.2.2.2 r hrad
          · rw [hr]; exact AdjustRadiiForInner_nonneg _ _
        · intro rect hr
          obtain ⟨hf1, hf2, -⟩ := hfit
          simp only [PaintOp.rects, List.mem_cons, List.mem_singleton, List.not_mem_nil,
            or_false] at hr
          rcases hr with hr | hr
          · rw [hr, NonInverted_mk]
            constructor <;> linarith [hnn.1, hnn.2.1]
          · rw [hr]
            unfold CalculateInnerRect
            rw [NonInverted_mk]
            constructor <;> linarith
    · rw [← Option.some.inj hres]; exact all_nil
  · have hc4 : (propsOf input).visible_edge_count ≠ 4 := by
      rw [propsOf_count, Ne, renderingSides_length_eq_four]
      exact hall
    rw [PaintFastPath_not_four input _ _ hc4] at hres
    rw [← Option.some.inj hres]
    exact all_nil

theorem Paint_geometry (input : BorderPaintInput) (hnn : NonNegativeInput input)
    (ops : PaintOpList) (h : Paint input = some ops) :
    ∀ o ∈ ops, GeometryOk input o := by
  by_cases hvis : input.visibility = Visibility.kVisible
  · by_cases hsome : ∃ side, (GetEdge input side).ShouldRender = true
    · by_cases hd : input.render_hint = BorderRenderHint.kDoubleStroked
      · rw [Paint_double_eq input hvis hd hsome] at h
        rw [← Option.some.inj h]
        exact PaintDoubleBorder_geometry input hd hsome
      · obtain ⟨res, hres⟩ := PaintFastPath_some input
        have hfast := PaintFastPath_geometry input hnn res hres
        have h1 := PaintSidesAsLines_geometry input (propsOf input)
        have h2 := PaintSidesAsFilledRects_geometry input hnn (propsOf input)
        have h4 := PaintDottedBorder_geometry input (propsOf input)
        have h5 := PaintGrooveRidgeBorder_geometry input hnn (propsOf input)
        have h6 := PaintSides_geometry input hnn (propsOf input) res.2 hfast
        have h7 := PaintSides_geometry input hnn (propsOf input) [] all_nil
        have hnil : ∀ o ∈ ([] : PaintOpList), GeometryOk input o := all_nil
        simp only [Paint, AnalyzeBorder_propsOf, Option.bind_eq_bind, Option.some_bind,
          hres] at h
        rcases hh : input.render_hint <;> rw [hh] at h <;>
          simp only [reduceCtorEq, if_false, if_true, false_or, or_false, true_or,
            or_true] at h <;>
          split_ifs at h <;>
          first
            | exact absurd hh hd
            | (rw [← Option.some.inj h]; with_reducible assumption)
    · rw [Paint_no_render input hvis hsome] at h
      rw [← Option.some.inj h]
      exact all_nil
  · have : Paint input = some [] := by
      simp [Paint, hvis]
    rw [this] at h
    rw [← Option.some.inj h]
    exact all_nil

theorem wide_edges (side : BoxSide) :
    (GetEdge wideBorderInput side).style = EBorderStyle.kSolid ∧
      (GetEdge wideBorderInput side).color = {} ∧
      (GetEdge wideBorderInput side).width = 60 ∧
      (GetEdge wideBorderInput side).ShouldRender = true := by
  cases side <;>
    simp [GetEdge, wideBorderInput, allSolid, BorderEdge.ShouldRender,
      Color.IsFullyTransparent]

theorem Paint_wideBorderInput :
    Paint wideBorderInput = some [PaintOp.DrawRect
      { rect := ![30, 30, 70, 10], flags := BuildStrokeFlags {} 60 EBorderStyle.kSolid }] := by
  have hround : HasBorderRadius wideBorderInput = false := by
    simp [HasBorderRadius, wideBorderInput, IsZeroRadii]
  rw [(Paint_uniform wideBorderInput 60 {} rfl rfl
    (fun side => (wide_edges side).2.2.2) (fun side => (wide_edges side).1)
    (fun side => (wide_edges side).2.1)
    (fun side => (wide_edges side).2.2.1)).1 hround]
  simp only [CalculateStrokeRect, wideBorderInput]
  norm_num

theorem NonNegativeInput_wide : NonNegativeInput wideBorderInput := by
  refine ⟨?_, ?_, ?_, ?_, ?_, ?_, ?_⟩ <;> (simp only [wideBorderInput]; norm_num)

theorem NonNegativeInput_roundedMixed : NonNegativeInput roundedMixedInput := by
  refine ⟨?_, ?_, ?_, ?_, ?_, ?_, ?_⟩ <;>
    (simp only [roundedMixedInput, mixedWidthInput]; norm_num)

theorem BorderFits_roundedMixed : BorderFits roundedMixedInput := by
  refine ⟨?_, ?_, ?_⟩
  · simp only [roundedMixedInput, mixedWidthInput]; norm_num
  · simp only [roundedMixedInput, mixedWidthInput]; norm_num
  · intro h
    simp [roundedMixedInput, mixedWidthInput] at h

theorem Paint_roundedMixedInput :
    ∃ op : DrawDRRectOp, Paint roundedMixedInput = some [PaintOp.DrawDRRect op] := by
  exact ⟨_, Paint_mixed_rounded roundedMixedInput {} (fun _ => 3) rfl rfl
      (fun side => (mixed_edges _ side).2.2) (fun side => (mixed_edges _ side).1)
      (fun side => (mixed_edges _ side).2.1)
      (fun h => by
        have := h BoxSide.kTop BoxSide.kRight
        simp [GetEdge, roundedMixedInput, mixedWidthInput] at this)
      rfl ⟨0, by norm_num⟩⟩

theorem AnalyzeBorder_hint (input : BorderPaintInput) (hint : BorderRenderHint) :
    AnalyzeBorder { input with render_hint := hint } = AnalyzeBorder input := rfl

theorem PaintFastPath_hint (input : BorderPaintInput) (hint : BorderRenderHint)
    (props : BorderProperties) (ops : PaintOpList) :
    PaintFastPath { input with render_hint := hint } props ops =
      PaintFastPath input props ops := rfl

theorem PaintSides_hint (input : BorderPaintInput) (hint : BorderRenderHint)
    (props : BorderProperties) (ops : PaintOpList) :
    PaintSides { input with render_hint := hint } props ops = PaintSides input props ops := rfl

theorem Paint_strokedRect_eq_auto (input : BorderPaintInput) :
    Paint { input with render_hint := BorderRenderHint.kStrokedRect } =
      Paint { input with render_hint := BorderRenderHint.kAuto } := by
  simp only [Paint, AnalyzeBorder_hint, PaintFastPath_hint, PaintSides_hint, reduceCtorEq,
    if_false, or_true, true_or, if_true]

theorem radii_positive_iff (r : BorderRadii) (hnn : ∀ i, 0 ≤ r i) :
    (∃ i, 0 < r i) ↔ ¬ ∀ i, r i = 0 := by
  constructor
  · rintro ⟨i, hi⟩ h
    exact absurd (h i) (ne_of_gt hi)
  · intro hne
    by_contra hall
    apply hne
    intro i
    exact le_antisymm (not_lt.1 (fun h => hall ⟨i, h⟩)) (hnn i)

theorem rounded_iff_not_all_zero (input : BorderPaintInput)
    (hnn : ∀ r, input.border_radii = some r → ∀ i, 0 ≤ r i) :
    (∃ r, input.border_radii = some r ∧ ∃ i, 0 < r i) ↔
      ∃ r, input.border_radii = some r ∧ ¬ ∀ i, r i = 0 := by
  constructor
  · rintro ⟨r, hr, h⟩
    exact ⟨r, hr, (radii_positive_iff r (hnn r hr)).1 h⟩
  · rintro ⟨r, hr, h⟩
    exact ⟨r, hr, (radii_positive_iff r (hnn r hr)).2 h⟩

theorem FastPathCondition_iff_claimed (input : BorderPaintInput)
    (hnn : ∀ r, input.border_radii = some r → ∀ i, 0 ≤ r i) :
    FastPathCondition input ↔ ClaimedFastPathCondition input := by
  unfold FastPathCondition ClaimedFastPathCondition
  rw [rounded_iff_not_all_zero input hnn]

theorem Paint_strategy_selection (input : BorderPaintInput)
    (hvis : input.visibility = Visibility.kVisible)
    (hauto : input.render_hint = BorderRenderHint.kAuto)
    (hsome : ∃ side, (GetEdge input side).ShouldRender = true) :
    ((∃ op, Paint input = some [op] ∧ IsFastPathOp op) ↔ FastPathCondition input) ∧
    (¬ FastPathCondition input →
      Paint input =
        some ((renderingSides input).flatMap (fun side => PaintSide input side []))) ∧
    (∀ side, ∃ op, PaintSide input side [] = [op] ∧ ¬ IsFastPathOp op) := by
  have hP := Paint_auto_eq input hvis hauto (IsZero_false_of_render input hsome)
    (propsOf_count_ne_zero input hsome)
  have hslow : ¬ FastPathCondition input →
      Paint input =
        some ((renderingSides input).flatMap (fun side => PaintSide input side [])) := by
    intro hn
    rw [hP, (PaintFastPath_cases input).2 hn]
    simp [PaintSides_eq]
  refine ⟨⟨?_, ?_⟩, hslow, PaintSide_single input⟩
  · rintro ⟨op, hop, hfast⟩
    by_contra hn
    rw [hslow hn] at hop
    exact perSide_not_fast input op (Option.some.inj hop) hfast
  · intro hc
    obtain ⟨op, hop, hfast⟩ := (PaintFastPath_cases input).1 hc
    exact ⟨op, by rw [hP, hop]; rfl, hfast⟩

theorem Paint_double_border (input : BorderPaintInput) (W sw : ℚ)
    (hvis : input.visibility = Visibility.kVisible)
    (hhint : input.render_hint = BorderRenderHint.kDoubleStroked)
    (hsome : ∃ side, (GetEdge input side).ShouldRender = true)
    (hW : W = (firstRenderingEdge input).width)
    (hsw : sw = ((⌈W / 3⌉ : ℤ) : ℚ)) :
    ((∃ r, input.border_radii = some r ∧ ∃ i, 0 < r i) →
      ∃ a b : DrawRRectOp, Paint input = some [PaintOp.DrawRRect a, PaintOp.DrawRRect b] ∧
        a.flags.style = PaintStyle.kStroke ∧ b.flags.style = PaintStyle.kStroke ∧
        a.flags.stroke_width = sw ∧ b.flags.stroke_width = sw ∧
        a.rect = insetRect input.geometry (sw / 2) ∧
        b.rect = insetRect input.geometry (W - sw / 2)) ∧
    ((¬ ∃ r, input.border_radii = some r ∧ ∃ i, 0 < r i) →
      ∃ a b : DrawRectOp, Paint input = some [PaintOp.DrawRect a, PaintOp.DrawRect b] ∧
        a.flags.style = PaintStyle.kStroke ∧ b.flags.style = PaintStyle.kStroke ∧
        a.flags.stroke_width = sw ∧ b.flags.stroke_width = sw ∧
        a.rect = insetRect input.geometry (sw / 2) ∧
        b.rect = insetRect input.geometry (W - sw / 2)) ∧
    sw / 2 + (W - sw / 2) = W := by
  have hP := Paint_double_eq input hvis hhint hsome
  have hfirst := first_visible_edge_eq input hsome
  have hrd : (propsOf input).is_rounded = HasBorderRadius input := rfl
  refine ⟨?_, ?_, by ring⟩
  · intro hr
    have hround := (HasBorderRadius_iff input).2 hr
    obtain ⟨r, hr, -⟩ := hr
    rw [hP]
    simp [PaintDoubleBorder, hfirst, hrd, hround, hr, PaintOpList.AddDrawRRect,
      BuildStrokeFlags, insetRect, hW, hsw]
    exact ⟨_, _, ⟨rfl, rfl⟩, rfl, rfl, rfl, rfl, rfl, rfl⟩
  · intro hr
    have hround : HasBorderRadius input = false := by
      rw [Bool.eq_false_iff]
      exact fun h => hr ((HasBorderRadius_iff input).1 h)
    rw [hP]
    simp [PaintDoubleBorder, hfirst, hrd, hround, PaintOpList.AddDrawRect,
      BuildStrokeFlags, insetRect, hW, hsw]
    exact ⟨_, _, ⟨rfl, rfl⟩, rfl, rfl, rfl, rfl, rfl, rfl⟩

/-! ## Verified properties of the border painter -/

/-- C1: for a visible input with the automatic strategy, four equal widths
w > 0, four equal colours of non-zero alpha, all styles solid (or no styles
given) and radii absent or all zero, Paint returns exactly one operation, a
DrawRectOp in stroke style with stroke width w, the shared colour, and rect
[x + w/2, y + w/2, x + width - w/2, y + height - w/2]. -/
theorem C1_uniform_solid_rect (input : BorderPaintInput) (w : ℚ) (c : Color)
    (hvis : input.visibility = Visibility.kVisible)
    (hauto : input.render_hint = BorderRenderHint.kAuto)
    (hw : input.border_widths = { top := w, right := w, bottom := w, left := w })
    (hpos : 0 < w)
    (hc : input.border_colors = { top := c, right := c, bottom := c, left := c })
    (ha : c.a ≠ 0)
    (hs : input.border_styles = none ∨ input.border_styles = some allSolid)
    (hr : input.border_radii = none ∨ ∃ r, input.border_radii = some r ∧ ∀ i, r i = 0) :
    ∃ op : DrawRectOp, Paint input = some [PaintOp.DrawRect op] ∧
      op.flags.style = PaintStyle.kStroke ∧ op.flags.stroke_width = w ∧
      op.flags.color = c ∧
      op.rect = ![input.geometry.x + w / 2, input.geometry.y + w / 2,
        input.geometry.x + input.geometry.width - w / 2,
        input.geometry.y + input.geometry.height - w / 2] := by
  have hround : HasBorderRadius input = false := by
    rcases hr with h | ⟨r, h, hz⟩
    · simp [HasBorderRadius, h]
    · simp [HasBorderRadius, h, IsZeroRadii, hz]
  have hne : w ≠ 0 := ne_of_gt hpos
  have hedge : ∀ side, GetEdge input side =
      { width := w, color := c, style := EBorderStyle.kSolid } := by
    intro side
    rcases hs with hs | hs <;> cases side <;> simp [GetEdge, hw, hc, hs, allSolid]
  have hall : ∀ side, (GetEdge input side).ShouldRender = true := by
    intro side
    rw [hedge, ShouldRender_iff]
    exact ⟨hpos, by simp, by simp, ha⟩
  simp [Paint, AnalyzeBorder_all_render input hall, hvis, hauto, hw, hround, hne,
    BorderWidths.IsZero, hedge, Color.eq_self,
    PaintFastPath, GetEdgeOfIndex, PaintOpList.AddDrawRect, BuildStrokeFlags,
    CalculateStrokeRect]

/-- Witness for C1: geometry {0, 0, 100, 40} with a uniform 2px solid black
border and zero radii gives the single stroked rect {1, 1, 99, 39} of stroke
width 2. -/
theorem C1_uniform_solid_rect_witness :
    ∃ op : DrawRectOp, Paint uniformInput = some [PaintOp.DrawRect op] ∧
      op.flags.style = PaintStyle.kStroke ∧ op.flags.stroke_width = 2 ∧
      op.flags.color = { r := 0, g := 0, b := 0, a := 1 } ∧
      op.rect = ![1, 1, 99, 39] := by
  obtain ⟨op, h1, h2, h3, h4, h5⟩ :=
    C1_uniform_solid_rect uniformInput 2 {} rfl rfl rfl (by norm_num) rfl (by norm_num)
      (Or.inr rfl) (Or.inr ⟨_, rfl, fun _ => rfl⟩)
  refine ⟨op, h1, h2, h3, h4, ?_⟩
  rw [h5]
  simp only [uniformInput]
  norm_num

/-- C2: Paint returns the empty operation list whenever the input is not
visible, or all four border widths are zero, or no edge should render; nothing
is assumed about the strategy hint, so this holds under every override. -/
theorem C2_entry_guards_empty (input : BorderPaintInput)
    (h : input.visibility ≠ Visibility.kVisible ∨
      (input.border_widths.top = 0 ∧ input.border_widths.right = 0 ∧
        input.border_widths.bottom = 0 ∧ input.border_widths.left = 0) ∨
      (∀ side, (GetEdge input side).ShouldRender = false)) :
    Paint input = some [] := by
  rcases h with h | h | h
  · simp [Paint, h]
  · simp [Paint, BorderWidths.IsZero, h]
  · have hcount : (analyzeClosed (edgesOf input)).visible_edge_count = 0 := by
      simp [analyzeClosed, edgesOf, h]
    unfold Paint
    rw [AnalyzeBorder_eq]
    simp only [Option.bind_eq_bind, Option.some_bind, hcount, if_true]
    split_ifs <;> rfl

/-- Witness for C2: a hidden input with the groove/ridge override paints
nothing. -/
theorem C2_entry_guards_empty_witness :
    hiddenInput.visibility ≠ Visibility.kVisible ∧
      hiddenInput.render_hint = BorderRenderHint.kGrooveRidge ∧
      Paint hiddenInput = some [] :=
  ⟨by decide, rfl, C2_entry_guards_empty hiddenInput (Or.inl (by decide))⟩

/-- C3: with the automatic strategy and an input that passes the entry guards
(visible, some edge renders), whose radii, when present, satisfy the invariant
that all values are >= 0, Paint returns a single fast-path operation (stroked
rect, stroked rounded rect or filled double rounded rect) if and only if all
four edges render, all four styles are solid, all four colours are equal, and
(all four widths are equal or the radii are not all zero); in every other case
it returns the per-edge operations of the rendering edges in the order top,
right, bottom, left, exactly one per edge. -/
theorem C3_strategy_selection (input : BorderPaintInput)
    (hvis : input.visibility = Visibility.kVisible)
    (hauto : input.render_hint = BorderRenderHint.kAuto)
    (hsome : ∃ side, (GetEdge input side).ShouldRender = true)
    (hnn : ∀ r, input.border_radii = some r → ∀ i, 0 ≤ r i) :
    ((∃ op, Paint input = some [op] ∧ IsFastPathOp op) ↔ ClaimedFastPathCondition input) ∧
    (¬ ClaimedFastPathCondition input →
      Paint input =
        some ((renderingSides input).flatMap (fun side => PaintSide input side []))) ∧
    (∀ side, ∃ op, PaintSide input side [] = [op] ∧ ¬ IsFastPathOp op) := by
  obtain ⟨h1, h2, h3⟩ := Paint_strategy_selection input hvis hauto hsome
  rw [FastPathCondition_iff_claimed input hnn] at h1 h2
  exact ⟨h1, h2, h3⟩

/-- Witness for C3: the mixed-width input with zero radii is a visible
automatic-strategy input whose top edge renders; its widths differ and its
radii are all zero, so the condition fails and Paint returns the four per-edge
operations. -/
theorem C3_strategy_selection_witness :
    mixedWidthInput.visibility = Visibility.kVisible ∧
    mixedWidthInput.render_hint = BorderRenderHint.kAuto ∧
    (GetEdge mixedWidthInput BoxSide.kTop).ShouldRender = true ∧
    ¬ ClaimedFastPathCondition mixedWidthInput ∧
    (¬ ∃ op, Paint mixedWidthInput = some [op] ∧ IsFastPathOp op) ∧
    Paint mixedWidthInput =
      some ((renderingSides mixedWidthInput).flatMap
        (fun side => PaintSide mixedWidthInput side [])) := by
  have h : (GetEdge mixedWidthInput BoxSide.kTop).ShouldRender = true := by
    simp [GetEdge, mixedWidthInput, allSolid, BorderEdge.ShouldRender,
      Color.IsFullyTransparent]
  have hnn : ∀ r, mixedWidthInput.border_radii = some r → ∀ i, 0 ≤ r i := by
    intro r hr i
    simp only [mixedWidthInput, Option.some.injEq] at hr
    rw [← hr]
  have hc : ¬ ClaimedFastPathCondition mixedWidthInput := by
    rw [← FastPathCondition_iff_claimed mixedWidthInput hnn]
    exact mixedWidthInput_not_fast
  obtain ⟨h1, h2, -⟩ := C3_strategy_selection mixedWidthInput rfl rfl ⟨BoxSide.kTop, h⟩ hnn
  exact ⟨rfl, rfl, h, hc, fun hex => hc (h1.1 hex), h2 hc⟩

/-- C4: for every visible, automatic-strategy input whose four edges all
render with the same solid style, the same colour and the same width w, and
whose radii are present, satisfy the invariant that all values are >= 0 and
are not all zero, Paint returns exactly one DrawRRectOp in stroke style with
stroke width w, rect equal to the geometry inset by w/2 on all four sides, and
each of the eight radii equal to max(0, r_i - w/2). -/
theorem C4_uniform_rounded_rrect (input : BorderPaintInput) (w : ℚ) (c : Color)
    (r : BorderRadii)
    (hvis : input.visibility = Visibility.kVisible)
    (hauto : input.render_hint = BorderRenderHint.kAuto)
    (hall : ∀ side, (GetEdge input side).ShouldRender = true)
    (hs : ∀ side, (GetEdge input side).style = EBorderStyle.kSolid)
    (hc : ∀ side, (GetEdge input side).color = c)
    (hw : ∀ side, (GetEdge input side).width = w)
    (hr : input.border_radii = some r) (hnn : ∀ i, 0 ≤ r i) (hnz : ¬ ∀ i, r i = 0) :
    ∃ op : DrawRRectOp, Paint input = some [PaintOp.DrawRRect op] ∧
      op.flags.style = PaintStyle.kStroke ∧ op.flags.stroke_width = w ∧
      op.rect = ![input.geometry.x + w / 2, input.geometry.y + w / 2,
        input.geometry.x + input.geometry.width - w / 2,
        input.geometry.y + input.geometry.height - w / 2] ∧
      ∀ i, op.radii i = max 0 (r i - w / 2) :=
  ⟨_, (Paint_uniform input w c hvis hauto hall hs hc hw).2 r hr
      ((radii_positive_iff r hnn).2 hnz),
    by simp [BuildStrokeFlags], by simp [BuildStrokeFlags], rfl, fun _ => rfl⟩

/-- Witness for C4: the uniform 2px solid black border with every radius
component 5 gives one stroked DrawRRectOp of stroke width 2 with rect
{1, 1, 99, 39} and every radius 4. -/
theorem C4_uniform_rounded_rrect_witness :
    ∃ op : DrawRRectOp, Paint roundedUniformInput = some [PaintOp.DrawRRect op] ∧
      op.flags.style = PaintStyle.kStroke ∧ op.flags.stroke_width = 2 ∧
      op.rect = ![1, 1, 99, 39] ∧ ∀ i, op.radii i = 4 := by
  obtain ⟨op, h1, h2, h3, h4, h5⟩ :=
    C4_uniform_rounded_rrect roundedUniformInput 2 {} (fun _ => 5) rfl rfl
      (fun side => (uniform_edges _ side).2.2.2) (fun side => (uniform_edges _ side).1)
      (fun side => (uniform_edges _ side).2.1) (fun side => (uniform_edges _ side).2.2.1)
      rfl (fun _ => by norm_num) (fun h => absurd (h 0) (by norm_num))
  refine ⟨op, h1, h2, h3, ?_, ?_⟩
  · rw [h4]
    simp only [roundedUniformInput, uniformInput]
    norm_num
  · intro i
    rw [h5]
    norm_num

/-- C5: for every visible, automatic-strategy input whose four edges all
render with the same solid style and colour but not all with the same width,
and whose radii are present, satisfy the invariant that all values are >= 0
and are not all zero, Paint returns exactly one fill-style DrawDRRectOp with
outer rect [x, y, x+width, y+height], outer radii equal to the input radii,
inner rect [x+left, y+top, x+width-right, y+height-bottom], and inner radii
[max(0,tl_x-left), max(0,tl_y-top), max(0,tr_x-right), max(0,tr_y-top),
max(0,br_x-right), max(0,br_y-bottom), max(0,bl_x-left), max(0,bl_y-bottom)]. -/
theorem C5_mixed_rounded_drrect (input : BorderPaintInput) (c : Color) (r : BorderRadii)
    (hvis : input.visibility = Visibility.kVisible)
    (hauto : input.render_hint = BorderRenderHint.kAuto)
    (hall : ∀ side, (GetEdge input side).ShouldRender = true)
    (hs : ∀ side, (GetEdge input side).style = EBorderStyle.kSolid)
    (hc : ∀ side, (GetEdge input side).color = c)
    (hw : ¬ ∀ side side', (GetEdge input side).width = (GetEdge input side').width)
    (hr : input.border_radii = some r) (hnn : ∀ i, 0 ≤ r i) (hnz : ¬ ∀ i, r i = 0) :
    ∃ op : DrawDRRectOp, Paint input = some [PaintOp.DrawDRRect op] ∧
      op.flags.style = PaintStyle.kFill ∧ op.flags.color = c ∧
      op.outer_rect = ![input.geometry.x, input.geometry.y,
        input.geometry.x + input.geometry.width,
        input.geometry.y + input.geometry.height] ∧
      op.outer_radii = r ∧
      op.inner_rect = ![input.geometry.x + input.border_widths.left,
        input.geometry.y + input.border_widths.top,
        input.geometry.x + input.geometry.width - input.border_widths.right,
        input.geometry.y + input.geometry.height - input.border_widths.bottom] ∧
      op.inner_radii = ![max 0 (r 0 - input.border_widths.left),
        max 0 (r 1 - input.border_widths.top),
        max 0 (r 2 - input.border_widths.right),
        max 0 (r 3 - input.border_widths.top),
        max 0 (r 4 - input.border_widths.right),
        max 0 (r 5 - input.border_widths.bottom),
        max 0 (r 6 - input.border_widths.left),
        max 0 (r 7 - input.border_widths.bottom)] :=
  ⟨_, Paint_mixed_rounded input c r hvis hauto hall hs hc hw hr
      ((radii_positive_iff r hnn).2 hnz),
    rfl, rfl, rfl, rfl, rfl, rfl⟩

/-- Witness for C5: solid black edges of widths top 4, right 2, bottom 4,
left 2 on {0, 0, 100, 40} with every radius component 3 give one filled
DrawDRRectOp with inner rect {2, 4, 98, 36} and inner radii
[1, 0, 1, 0, 1, 0, 1, 0]. -/
theorem C5_mixed_rounded_drrect_witness :
    ∃ op : DrawDRRectOp, Paint roundedMixedInput = some [PaintOp.DrawDRRect op] ∧
      op.flags.style = PaintStyle.kFill ∧
      op.outer_rect = ![0, 0, 100, 40] ∧ op.outer_radii = (fun _ => 3) ∧
      op.inner_rect = ![2, 4, 98, 36] ∧
      op.inner_radii = ![1, 0, 1, 0, 1, 0, 1, 0] := by
  obtain ⟨op, h1, h2, -, h4, h5, h6, h7⟩ :=
    C5_mixed_rounded_drrect roundedMixedInput {} (fun _ => 3) rfl rfl
      (fun side => (mixed_edges _ side).2.2) (fun side => (mixed_edges _ side).1)
      (fun side => (mixed_edges _ side).2.1)
      (fun h => by
        have := h BoxSide.kTop BoxSide.kRight
        simp [GetEdge, roundedMixedInput, mixedWidthInput] at this)
      rfl (fun _ => by norm_num) (fun h => absurd (h 0) (by norm_num))
  refine ⟨op, h1, h2, ?_, h5, ?_, ?_⟩
  · rw [h4]
    simp only [roundedMixedInput, mixedWidthInput]
    norm_num
  · rw [h6]
    simp only [roundedMixedInput, mixedWidthInput]
    norm_num
  · rw [h7]
    simp only [roundedMixedInput, mixedWidthInput]
    norm_num

/-- C6: in the per-edge fallback (automatic strategy, guards passed, fast
path not taken) Paint returns one operation per edge that should render, in
the order top, right, bottom, left: for an edge of width w < 10 a fill-style
DrawRectOp covering the strip of the edge (top [x, y, x+width, y+w]; right
[x+width-w, y, x+width, y+height]; bottom [x, y+height-w, x+width, y+height];
left [x, y, x+w, y+height]), and for w >= 10 a stroked DrawLineOp of stroke
width w along the centreline of the edge. -/
theorem C6_per_edge_fallback (input : BorderPaintInput) (props : BorderProperties)
    (hvis : input.visibility = Visibility.kVisible)
    (hauto : input.render_hint = BorderRenderHint.kAuto)
    (hsome : ∃ side, (GetEdge input side).ShouldRender = true)
    (hprops : AnalyzeBorder input = some props)
    (hfast : (PaintFastPath input props []).map Prod.fst = some false) :
    Paint input =
        some ((renderingSides input).flatMap (fun side => PaintSide input side [])) ∧
    ∀ side,
      ((GetEdge input side).width < 10 →
        ∃ op : DrawRectOp, PaintSide input side [] = [PaintOp.DrawRect op] ∧
          op.flags.style = PaintStyle.kFill ∧
          op.rect = edgeStrip input.geometry side (GetEdge input side).width) ∧
      (10 ≤ (GetEdge input side).width →
        ∃ op : DrawLineOp, PaintSide input side [] = [PaintOp.DrawLine op] ∧
          op.flags.style = PaintStyle.kStroke ∧
          op.flags.stroke_width = (GetEdge input side).width ∧
          (op.x0, op.y0, op.x1, op.y1) =
            edgeCentreline input.geometry side (GetEdge input side).width) := by
  refine ⟨Paint_auto_fallback input props hvis hauto hsome hprops hfast, fun side => ⟨?_, ?_⟩⟩
  · intro h
    exact ⟨_, PaintSide_thin input side h, rfl, rfl⟩
  · intro h
    exact ⟨_, PaintSide_thick input side h, (BuildStrokeFlags_style _ _ _).1,
      (BuildStrokeFlags_style _ _ _).2.1, rfl⟩

/-- Witness for C6: geometry {0, 0, 100, 40} with solid black widths top 4,
right 2, bottom 4, left 2 and zero radii takes the fallback and yields the
four filled rects of the edges. -/
theorem C6_per_edge_fallback_witness :
    (PaintFastPath mixedWidthInput (propsOf mixedWidthInput) []).map Prod.fst = some false ∧
    Paint mixedWidthInput = some
      [PaintOp.DrawRect { rect := ![0, 0, 100, 4], flags := BuildFillFlags {} },
       PaintOp.DrawRect { rect := ![98, 0, 100, 40], flags := BuildFillFlags {} },
       PaintOp.DrawRect { rect := ![0, 36, 100, 40], flags := BuildFillFlags {} },
       PaintOp.DrawRect { rect := ![0, 0, 2, 40], flags := BuildFillFlags {} }] := by
  have hfast : (PaintFastPath mixedWidthInput (propsOf mixedWidthInput) []).map Prod.fst =
      some false := by
    rw [(PaintFastPath_cases mixedWidthInput).2 mixedWidthInput_not_fast]
    rfl
  refine ⟨hfast, ?_⟩
  rw [(C6_per_edge_fallback mixedWidthInput (propsOf mixedWidthInput) rfl rfl
    ⟨BoxSide.kTop, (mixed_edges _ _).2.2⟩ (AnalyzeBorder_propsOf _) hfast).1]
  have hr : ∀ side, (GetEdge mixedWidthInput side).ShouldRender = true :=
    fun side => (mixed_edges _ side).2.2
  have hrs : renderingSides mixedWidthInput = sideOrder := by
    simp [renderingSides, hr]
  simp only [hrs, sideOrder, List.flatMap_cons, List.flatMap_nil]
  simp [PaintSide, PaintSideAsFilledRect, PaintOpList.AddDrawRect, GetEdge,
    mixedWidthInput, allSolid, CalculateBorderColor]
  norm_num

/-- C7: AdjustRadiiForStroke(radii, w) returns, for each of the eight
components r, exactly max(0, r - w/2); the result is never negative, and for
fixed w it is non-decreasing in r. -/
theorem C7_adjust_radii_for_stroke (radii : BorderRadii) (w : ℚ) :
    (∀ i, AdjustRadiiForStroke radii w i = max 0 (radii i - w / 2)) ∧
    (∀ i, 0 ≤ AdjustRadiiForStroke radii w i) ∧
    (∀ (radii' : BorderRadii) i, radii i ≤ radii' i →
      AdjustRadiiForStroke radii w i ≤ AdjustRadiiForStroke radii' w i) := by
  refine ⟨fun _ => rfl, fun i => le_max_left _ _, fun radii' i h => ?_⟩
  simp only [AdjustRadiiForStroke]
  exact max_le_max (le_refl _) (sub_le_sub_right h _)

/-- Witness for C7: with w = 2, radius 3 becomes 2, radius 1/2 is clamped to
0, and the adjusted 3 stays below the adjusted 5. -/
theorem C7_adjust_radii_for_stroke_witness :
    AdjustRadiiForStroke (fun _ => 3) 2 0 = 2 ∧
    AdjustRadiiForStroke (fun _ => 1 / 2) 2 0 = 0 ∧
    ((3 : ℚ) ≤ 5 ∧
      AdjustRadiiForStroke (fun _ => 3) 2 0 ≤ AdjustRadiiForStroke (fun _ => 5) 2 0) := by
  refine ⟨?_, ?_, by norm_num,
    (C7_adjust_radii_for_stroke (fun _ => 3) 2).2.2 (fun _ => 5) 0 (by norm_num)⟩
  · rw [(C7_adjust_radii_for_stroke (fun _ => 3) 2).1 0]
    norm_num
  · rw [(C7_adjust_radii_for_stroke (fun _ => 1 / 2) 2).1 0]
    norm_num

/-- C8: under the double-border override, for an input that passes the entry
guards and whose radii, when present, satisfy the invariant that all values
are >= 0, Paint emits exactly two stroked operations, two DrawRRectOps when
the radii are present and not all zero and two DrawRectOps otherwise, both
with stroke width sw = ceil(W/3) where W is the width of the first edge that
renders; the first is the geometry inset by sw/2 on every side and the second
the geometry inset by W - sw/2 on every side, so the two insets sum to
exactly W. -/
theorem C8_double_border (input : BorderPaintInput) (W sw : ℚ)
    (hvis : input.visibility = Visibility.kVisible)
    (hhint : input.render_hint = BorderRenderHint.kDoubleStroked)
    (hsome : ∃ side, (GetEdge input side).ShouldRender = true)
    (hnn : ∀ r, input.border_radii = some r → ∀ i, 0 ≤ r i)
    (hW : W = (firstRenderingEdge input).width)
    (hsw : sw = ((⌈W / 3⌉ : ℤ) : ℚ)) :
    ((∃ r, input.border_radii = some r ∧ ¬ ∀ i, r i = 0) →
      ∃ a b : DrawRRectOp, Paint input = some [PaintOp.DrawRRect a, PaintOp.DrawRRect b] ∧
        a.flags.style = PaintStyle.kStroke ∧ b.flags.style = PaintStyle.kStroke ∧
        a.flags.stroke_width = sw ∧ b.flags.stroke_width = sw ∧
        a.rect = insetRect input.geometry (sw / 2) ∧
        b.rect = insetRect input.geometry (W - sw / 2)) ∧
    ((¬ ∃ r, input.border_radii = some r ∧ ¬ ∀ i, r i = 0) →
      ∃ a b : DrawRectOp, Paint input = some [PaintOp.DrawRect a, PaintOp.DrawRect b] ∧
        a.flags.style = PaintStyle.kStroke ∧ b.flags.style = PaintStyle.kStroke ∧
        a.flags.stroke_width = sw ∧ b.flags.stroke_width = sw ∧
        a.rect = insetRect input.geometry (sw / 2) ∧
        b.rect = insetRect input.geometry (W - sw / 2)) ∧
    sw / 2 + (W - sw / 2) = W := by
  obtain ⟨h1, h2, h3⟩ := Paint_double_border input W sw hvis hhint hsome hW hsw
  rw [rounded_iff_not_all_zero input hnn] at h1 h2
  exact ⟨h1, h2, h3⟩

/-- Witness for C8: a uniform 6px solid black border with every radius
component 5 under the double-border override gives two stroked DrawRRectOps
of stroke width 2 = ceil(6/3), the first inset by 1 and the second by 5. -/
theorem C8_double_border_witness :
    ∃ a b : DrawRRectOp,
      Paint doubleRoundedInput = some [PaintOp.DrawRRect a, PaintOp.DrawRRect b] ∧
      a.flags.style = PaintStyle.kStroke ∧ b.flags.style = PaintStyle.kStroke ∧
      a.flags.stroke_width = 2 ∧ b.flags.stroke_width = 2 ∧
      a.rect = ![1, 1, 99, 39] ∧ b.rect = ![5, 5, 95, 35] := by
  have hr := (doubleRoundedInput_edges BoxSide.kTop).1
  have hW : (6 : ℚ) = (firstRenderingEdge doubleRoundedInput).width := by
    rw [firstRenderingEdge_top doubleRoundedInput hr, (doubleRoundedInput_edges _).2]
  have hsw : (2 : ℚ) = ((⌈(6 : ℚ) / 3⌉ : ℤ) : ℚ) := by
    have : ⌈(6 : ℚ) / 3⌉ = 2 := by
      rw [Int.ceil_eq_iff]
      norm_num
    rw [this]
    norm_num
  have hnn : ∀ r, doubleRoundedInput.border_radii = some r → ∀ i, 0 ≤ r i := by
    intro r hr i
    simp only [doubleRoundedInput, Option.some.injEq] at hr
    rw [← hr]
    norm_num
  obtain ⟨a, b, h, ha, hb, hwa, hwb, hra, hrb⟩ :=
    (C8_double_border doubleRoundedInput 6 2 rfl rfl ⟨_, hr⟩ hnn hW hsw).1
      ⟨_, rfl, fun h => absurd (h 0) (by norm_num)⟩
  refine ⟨a, b, h, ha, hb, hwa, hwb, ?_, ?_⟩
  · rw [hra]
    simp only [insetRect, doubleRoundedInput]
    norm_num
  · rw [hrb]
    simp only [insetRect, doubleRoundedInput]
    norm_num

/-- C9: for an edge whose colour alpha is within the documented range, that is
alpha >= 0, ShouldRender holds iff width > 0, the style is neither none nor
hidden, and the alpha of the colour is > 0; the visible_edge_count of
AnalyzeBorder equals the number of the four edges that should render, and
whenever that count is positive first_visible_edge is the smallest index (order
top, right, bottom, left) of an edge that should render. -/
theorem C9_should_render_and_count (e : BorderEdge) (input : BorderPaintInput)
    (ha : 0 ≤ e.color.a) :
    (e.ShouldRender = true ↔
      0 < e.width ∧ e.style ≠ EBorderStyle.kNone ∧ e.style ≠ EBorderStyle.kHidden ∧
        0 < e.color.a) ∧
    ∃ props, AnalyzeBorder input = some props ∧
      props.visible_edge_count = (renderingSides input).length ∧
      (0 < props.visible_edge_count →
        props.first_visible_edge < 4 ∧
        (GetEdgeOfIndex input props.first_visible_edge).ShouldRender = true ∧
        ∀ j, j < props.first_visible_edge →
          (GetEdgeOfIndex input j).ShouldRender = false) := by
  refine ⟨?_, propsOf input, AnalyzeBorder_propsOf input, propsOf_count input,
    fun hpos => ?_⟩
  · rw [ShouldRender_iff]
    constructor
    · rintro ⟨h1, h2, h3, h4⟩
      exact ⟨h1, h2, h3, lt_of_le_of_ne ha (Ne.symm h4)⟩
    · rintro ⟨h1, h2, h3, h4⟩
      exact ⟨h1, h2, h3, ne_of_gt h4⟩
  · apply first_visible_edge_least
    rw [← renderingSides_ne_nil, ← propsOf_count]
    exact Nat.pos_iff_ne_zero.1 hpos

/-- Witness for C9: the left edge of leftOnlyInput (width 3, solid, opaque
black) should render; only that edge has a width, so one edge is counted and
first_visible_edge is 3, the index of the left edge. -/
theorem C9_should_render_and_count_witness :
    (GetEdge leftOnlyInput BoxSide.kLeft).ShouldRender = true ∧
    ∃ props, AnalyzeBorder leftOnlyInput = some props ∧
      props.visible_edge_count = 1 ∧ props.first_visible_edge = 3 := by
  have ha : (0 : ℚ) ≤ (GetEdge leftOnlyInput BoxSide.kLeft).color.a := by
    simp [GetEdge, leftOnlyInput]
  obtain ⟨hiff, props, hp, hcount, hfirst⟩ :=
    C9_should_render_and_count (GetEdge leftOnlyInput BoxSide.kLeft) leftOnlyInput ha
  have hlen : (renderingSides leftOnlyInput).length = 1 := by
    simp [renderingSides, sideOrder, List.filter_cons, GetEdge, leftOnlyInput, allSolid,
      BorderEdge.ShouldRender, Color.IsFullyTransparent]
  rw [hlen] at hcount
  obtain ⟨hlt, hrender, -⟩ := hfirst (by rw [hcount]; exact Nat.one_pos)
  refine ⟨hiff.2 ?_, props, hp, hcount, ?_⟩
  · simp [GetEdge, leftOnlyInput, allSolid]
  · generalize props.first_visible_edge = n at hlt hrender
    interval_cases n <;>
      first
      | rfl
      | (simp [GetEdgeOfIndex, GetEdge, leftOnlyInput, BorderEdge.ShouldRender] at hrender)

/-- C10: AnalyzeBorder returns is_uniform_width = true iff no edge is
present-but-invisible and all edges that should render have equal width;
is_uniform_color = true iff no edge is present-but-invisible and all rendering
edges have equal colour; is_uniform_style = true iff all rendering edges have
the same style.  A present-but-invisible edge does not render, and the loop
body leaves visible_edge_count unchanged at such an edge. -/
theorem C10_uniformity_flags (input : BorderPaintInput) :
    ∃ props, AnalyzeBorder input = some props ∧
      (props.is_uniform_width = true ↔
        (∀ side, (GetEdge input side).PresentButInvisible = false) ∧
        ∀ side side', (GetEdge input side).ShouldRender = true →
          (GetEdge input side').ShouldRender = true →
          (GetEdge input side).width = (GetEdge input side').width) ∧
      (props.is_uniform_color = true ↔
        (∀ side, (GetEdge input side).PresentButInvisible = false) ∧
        ∀ side side', (GetEdge input side).ShouldRender = true →
          (GetEdge input side').ShouldRender = true →
          (GetEdge input side).color = (GetEdge input side').color) ∧
      (props.is_uniform_style = true ↔
        ∀ side side', (GetEdge input side).ShouldRender = true →
          (GetEdge input side').ShouldRender = true →
          (GetEdge input side).style = (GetEdge input side').style) ∧
      (∀ (es : List BorderEdge) (p p' : BorderProperties) (i : Nat) (e : BorderEdge),
        es[i]? = some e → e.PresentButInvisible = true →
        AnalyzeEdge es p i = some p' →
        e.ShouldRender = false ∧ p'.visible_edge_count = p.visible_edge_count) :=
  ⟨propsOf input, AnalyzeBorder_propsOf input, (propsOf_flags input).1,
    (propsOf_flags input).2.1, (propsOf_flags input).2.2,
    fun es p p' i e hi hpbi h =>
      ⟨PresentButInvisible_not_render e hpbi,
        AnalyzeEdge_count_of_not_render es p p' i e hi
          (PresentButInvisible_not_render e hpbi) h⟩⟩

/-- Witness for C10: with a fully transparent top colour on an otherwise
uniform 2px solid border, the top edge is present but invisible, so the width
and colour flags are false while the style flag stays true. -/
theorem C10_uniformity_flags_witness :
    (GetEdge transparentTopInput BoxSide.kTop).PresentButInvisible = true ∧
    ∃ props, AnalyzeBorder transparentTopInput = some props ∧
      props.is_uniform_width = false ∧ props.is_uniform_color = false ∧
      props.is_uniform_style = true := by
  have htop : (GetEdge transparentTopInput BoxSide.kTop).PresentButInvisible = true := by
    simp [GetEdge, transparentTopInput, BorderEdge.PresentButInvisible,
      Color.IsFullyTransparent]
  obtain ⟨props, hp, hw, hc, hs, -⟩ := C10_uniformity_flags transparentTopInput
  refine ⟨htop, props, hp, ?_, ?_, ?_⟩
  · rw [Bool.eq_false_iff]
    intro h
    have := (hw.1 h).1 BoxSide.kTop
    rw [htop] at this
    cases this
  · rw [Bool.eq_false_iff]
    intro h
    have := (hc.1 h).1 BoxSide.kTop
    rw [htop] at this
    cases this
  · rw [hs]
    intro side side' _ _
    cases side <;> cases side' <;> simp [GetEdge, transparentTopInput, allSolid]

/-- C11: CalculateBorderColor returns the darkened colour (r, g and b each
multiplied by 0.7, alpha unchanged) when the style is inset or groove and the
side is top or left, or the style is outset or ridge and the side is bottom or
right; in every other case, including every non-relief style, it returns the
colour unchanged. -/
theorem C11_calculate_border_color (color : Color) (side : BoxSide)
    (style : EBorderStyle) :
    color.Dark =
      { r := color.r * (7 / 10), g := color.g * (7 / 10), b := color.b * (7 / 10),
        a := color.a } ∧
    ((((style = EBorderStyle.kInset ∨ style = EBorderStyle.kGroove) ∧
          (side = BoxSide.kTop ∨ side = BoxSide.kLeft)) ∨
        ((style = EBorderStyle.kOutset ∨ style = EBorderStyle.kRidge) ∧
          (side = BoxSide.kBottom ∨ side = BoxSide.kRight))) →
      CalculateBorderColor color side style = color.Dark) ∧
    (¬ (((style = EBorderStyle.kInset ∨ style = EBorderStyle.kGroove) ∧
          (side = BoxSide.kTop ∨ side = BoxSide.kLeft)) ∨
        ((style = EBorderStyle.kOutset ∨ style = EBorderStyle.kRidge) ∧
          (side = BoxSide.kBottom ∨ side = BoxSide.kRight))) →
      CalculateBorderColor color side style = color) := by
  refine ⟨rfl, ?_, ?_⟩ <;>
    cases side <;> cases style <;> intro h <;>
    first
    | rfl
    | exact absurd h (by decide)

/-- Witness for C11: an inset top edge of colour (1, 1/2, 0, 1) is darkened
to (7/10, 7/20, 0, 1), and the same colour on an inset bottom edge is kept. -/
theorem C11_calculate_border_color_witness :
    CalculateBorderColor sampleColor BoxSide.kTop EBorderStyle.kInset =
      { r := 7 / 10, g := 7 / 20, b := 0, a := 1 } ∧
    CalculateBorderColor sampleColor BoxSide.kBottom EBorderStyle.kInset = sampleColor := by
  constructor
  · rw [(C11_calculate_border_color sampleColor BoxSide.kTop EBorderStyle.kInset).2.1
      (Or.inl ⟨Or.inl rfl, Or.inl rfl⟩)]
    simp only [Color.Dark, sampleColor]
    norm_num
  · exact (C11_calculate_border_color sampleColor BoxSide.kBottom EBorderStyle.kInset).2.2
      (by simp)

/-- C12: BuildStrokeFlags(color, w, style) yields dash intervals [w, w] with
round line cap for dotted, dash intervals [3*w, w] with butt cap for dashed,
and no dash pattern (has_pattern false, butt cap) for every other style; in
all cases the paint style is stroke, the stroke width is w and the colour is
the given colour. -/
theorem C12_build_stroke_flags (color : Color) (w : ℚ) (style : EBorderStyle) :
    (style = EBorderStyle.kDotted →
      (BuildStrokeFlags color w style).dash_pattern.has_pattern = true ∧
      (BuildStrokeFlags color w style).dash_pattern.intervals = ![w, w] ∧
      (BuildStrokeFlags color w style).stroke_cap = StrokeCap.kRound) ∧
    (style = EBorderStyle.kDashed →
      (BuildStrokeFlags color w style).dash_pattern.has_pattern = true ∧
      (BuildStrokeFlags color w style).dash_pattern.intervals = ![3 * w, w] ∧
      (BuildStrokeFlags color w style).stroke_cap = StrokeCap.kButt) ∧
    (style ≠ EBorderStyle.kDotted → style ≠ EBorderStyle.kDashed →
      (BuildStrokeFlags color w style).dash_pattern.has_pattern = false ∧
      (BuildStrokeFlags color w style).stroke_cap = StrokeCap.kButt) ∧
    (BuildStrokeFlags color w style).style = PaintStyle.kStroke ∧
    (BuildStrokeFlags color w style).stroke_width = w ∧
    (BuildStrokeFlags color w style).color = color := by
  refine ⟨?_, ?_, ?_, BuildStrokeFlags_style color w style⟩
  · rintro rfl
    simp [BuildStrokeFlags]
  · rintro rfl
    simp [BuildStrokeFlags, mul_comm]
  · intro h1 h2
    simp [BuildStrokeFlags, h1, h2]

/-- Witness for C12: for w = 2 a dashed stroke has intervals [6, 2] and a
butt cap, and a solid stroke has no pattern. -/
theorem C12_build_stroke_flags_witness :
    (BuildStrokeFlags sampleColor 2 EBorderStyle.kDashed).dash_pattern.intervals = ![6, 2] ∧
    (BuildStrokeFlags sampleColor 2 EBorderStyle.kDashed).stroke_cap = StrokeCap.kButt ∧
    (BuildStrokeFlags sampleColor 2 EBorderStyle.kSolid).dash_pattern.has_pattern = false := by
  obtain ⟨-, h2, h3, -⟩ := C12_build_stroke_flags sampleColor 2 EBorderStyle.kDashed
  obtain ⟨-, hi, hc⟩ := h2 rfl
  refine ⟨?_, hc, ?_⟩
  · rw [hi]
    norm_num
  · exact ((C12_build_stroke_flags sampleColor 2 EBorderStyle.kSolid).2.2.1
      (by simp) (by simp)).1

/-- C13: Paint returns a list for every input and every strategy hint, and
every operation in it carries transform_id, clip_id and effect_id equal to
the three state identifiers of the input. -/
theorem C13_state_ids (input : BorderPaintInput) :
    ∃ ops, Paint input = some ops ∧
      ∀ op ∈ ops, op.ids =
        (input.state_ids.transform_id, input.state_ids.clip_id,
          input.state_ids.effect_id) := by
  obtain ⟨ops, h⟩ := Option.isSome_iff_exists.1 (Paint_isSome input)
  exact ⟨ops, h, Paint_ids input ops h⟩

/-- Witness for C13: the uniform border painted with the identifiers 3, 5, 7
gives a non-empty list whose operations all carry (3, 5, 7). -/
theorem C13_state_ids_witness :
    ∃ ops, Paint idsInput = some ops ∧ ops ≠ [] ∧ ∀ op ∈ ops, op.ids = (3, 5, 7) := by
  obtain ⟨ops, h, hids⟩ := C13_state_ids idsInput
  refine ⟨ops, h, ?_, hids⟩
  have hP := (Paint_uniform idsInput 2 {} rfl rfl
    (fun side => (idsInput_edges side).2.2.2) (fun side => (idsInput_edges side).1)
    (fun side => (idsInput_edges side).2.1)
    (fun side => (idsInput_edges side).2.2.1)).1 rfl
  rw [hP] at h
  rw [← Option.some.inj h]
  simp

/-- C14: Paint is total: for every input record and every hint it returns an
operation list.  The record of AnalyzeBorder has is_rounded only when the
radii are present, its first_visible_edge is always an index below 4, that
index names an edge that should render whenever some edge was counted, and
the fast path on that record returns without dereferencing absent radii. -/
theorem C14_paint_total (input : BorderPaintInput) :
    (∃ ops, Paint input = some ops) ∧
    ∃ props, AnalyzeBorder input = some props ∧
      (props.is_rounded = true → ∃ r, input.border_radii = some r) ∧
      props.first_visible_edge < 4 ∧
      (props.visible_edge_count ≠ 0 →
        (GetEdgeOfIndex input props.first_visible_edge).ShouldRender = true) ∧
      ∃ res, PaintFastPath input props [] = some res := by
  refine ⟨Option.isSome_iff_exists.1 (Paint_isSome input), propsOf input,
    AnalyzeBorder_propsOf input, ?_, first_visible_edge_lt input, ?_,
    PaintFastPath_some input⟩
  · intro h
    obtain ⟨r, hr, -⟩ := (HasBorderRadius_iff input).1 h
    exact ⟨r, hr⟩
  · intro h
    rw [propsOf_count, renderingSides_ne_nil] at h
    exact (first_visible_edge_least input h).2.1

/-- Witness for C14: the mixed-width input with radii all -1 is painted, and
its analysis is not rounded although radii are present. -/
theorem C14_paint_total_witness :
    (∃ ops, Paint negRadiiMixedInput = some ops) ∧
    ∃ props, AnalyzeBorder negRadiiMixedInput = some props ∧
      props.first_visible_edge < 4 ∧
      (GetEdgeOfIndex negRadiiMixedInput props.first_visible_edge).ShouldRender = true := by
  obtain ⟨h1, props, hp, -, hlt, hrender, -⟩ := C14_paint_total negRadiiMixedInput
  refine ⟨h1, props, hp, hlt, hrender ?_⟩
  have hp' := AnalyzeBorder_propsOf negRadiiMixedInput
  rw [hp] at hp'
  rw [Option.some.inj hp']
  exact propsOf_count_ne_zero _ ⟨BoxSide.kTop, negRadiiMixedInput_render _⟩

/-- C23: for a visible input, under the draw-line override Paint returns one
stroked DrawLineOp per edge that should render, and under the
filled-thin-rect override one fill-style DrawRectOp covering the strip of the
edge, whatever the edge width; under the dotted override it returns one
stroked DrawLineOp per rendering edge with dash intervals [w, w] and round
caps, whatever the style and width of the edge.  The lines run along the
centreline of the edge (top (x, y+w/2)-(x+width, y+w/2); right
(x+width-w/2, y)-(x+width-w/2, y+height); bottom
(x, y+height-w/2)-(x+width, y+height-w/2); left (x+w/2, y)-(x+w/2, y+height))
and the operations come in the order top, right, bottom, left. -/
theorem C23_forced_line_rect_dotted (input : BorderPaintInput)
    (hvis : input.visibility = Visibility.kVisible) :
    (input.render_hint = BorderRenderHint.kDrawLine →
      ∃ f : BoxSide → DrawLineOp,
        Paint input = some ((renderingSides input).map (fun side => PaintOp.DrawLine (f side))) ∧
        ∀ side, (f side).flags.style = PaintStyle.kStroke ∧
          (f side).flags.stroke_width = (GetEdge input side).width ∧
          ((f side).x0, (f side).y0, (f side).x1, (f side).y1) =
            edgeCentreline input.geometry side (GetEdge input side).width) ∧
    (input.render_hint = BorderRenderHint.kFilledThinRect →
      ∃ f : BoxSide → DrawRectOp,
        Paint input = some ((renderingSides input).map (fun side => PaintOp.DrawRect (f side))) ∧
        ∀ side, (f side).flags.style = PaintStyle.kFill ∧
          (f side).rect = edgeStrip input.geometry side (GetEdge input side).width) ∧
    (input.render_hint = BorderRenderHint.kDottedLines →
      ∃ f : BoxSide → DrawLineOp,
        Paint input = some ((renderingSides input).map (fun side => PaintOp.DrawLine (f side))) ∧
        ∀ side, (f side).flags.style = PaintStyle.kStroke ∧
          (f side).flags.stroke_width = (GetEdge input side).width ∧
          (f side).flags.dash_pattern.has_pattern = true ∧
          (f side).flags.dash_pattern.intervals =
            ![(GetEdge input side).width, (GetEdge input side).width] ∧
          (f side).flags.stroke_cap = StrokeCap.kRound ∧
          ((f side).x0, (f side).y0, (f side).x1, (f side).y1) =
            edgeCentreline input.geometry side (GetEdge input side).width) := by
  obtain ⟨h1, h2, h3, -⟩ := Paint_override_eq input hvis
  refine ⟨fun h => ?_, fun h => ?_, fun h => ?_⟩
  · refine ⟨fun side =>
        { x0 := (edgeCentreline input.geometry side (GetEdge input side).width).1
          y0 := (edgeCentreline input.geometry side (GetEdge input side).width).2.1
          x1 := (edgeCentreline input.geometry side (GetEdge input side).width).2.2.1
          y1 := (edgeCentreline input.geometry side (GetEdge input side).width).2.2.2
          flags := BuildStrokeFlags
            (CalculateBorderColor (GetEdge input side).color side (GetEdge input side).style)
            (GetEdge input side).width (GetEdge input side).style
          transform_id := input.state_ids.transform_id
          clip_id := input.state_ids.clip_id
          effect_id := input.state_ids.effect_id }, ?_, ?_⟩
    · rw [h1 h]
      simp only [PaintSideAsLine_eq, List.nil_append, flatMap_single]
    · exact fun side => ⟨(BuildStrokeFlags_style _ _ _).1,
        (BuildStrokeFlags_style _ _ _).2.1, rfl⟩
  · refine ⟨fun side =>
        { rect := edgeStrip input.geometry side (GetEdge input side).width
          flags := BuildFillFlags
            (CalculateBorderColor (GetEdge input side).color side (GetEdge input side).style)
          transform_id := input.state_ids.transform_id
          clip_id := input.state_ids.clip_id
          effect_id := input.state_ids.effect_id }, ?_, ?_⟩
    · rw [h2 h]
      simp only [PaintSideAsFilledRect_eq, List.nil_append, flatMap_single]
    · exact fun side => ⟨rfl, rfl⟩
  · refine ⟨fun side =>
        { x0 := (edgeCentreline input.geometry side (GetEdge input side).width).1
          y0 := (edgeCentreline input.geometry side (GetEdge input side).width).2.1
          x1 := (edgeCentreline input.geometry side (GetEdge input side).width).2.2.1
          y1 := (edgeCentreline input.geometry side (GetEdge input side).width).2.2.2
          flags := BuildStrokeFlags (GetEdge input side).color (GetEdge input side).width
            EBorderStyle.kDotted
          transform_id := input.state_ids.transform_id
          clip_id := input.state_ids.clip_id
          effect_id := input.state_ids.effect_id }, ?_, ?_⟩
    · rw [h3 h, PaintDottedBorder_eq]
      simp only [List.nil_append, flatMap_single]
    · exact fun side => ⟨rfl, rfl, rfl, rfl, rfl, rfl⟩

/-- Witness for C23: the mixed-width input (widths 4, 2, 4, 2, all below 10)
under the draw-line override yields four stroked lines. -/
theorem C23_forced_line_rect_dotted_witness :
    drawLineInput.visibility = Visibility.kVisible ∧
    drawLineInput.render_hint = BorderRenderHint.kDrawLine ∧
    ∃ f : BoxSide → DrawLineOp,
      Paint drawLineInput =
        some [PaintOp.DrawLine (f BoxSide.kTop), PaintOp.DrawLine (f BoxSide.kRight),
          PaintOp.DrawLine (f BoxSide.kBottom), PaintOp.DrawLine (f BoxSide.kLeft)] ∧
      ∀ side, (f side).flags.style = PaintStyle.kStroke ∧
        ((f side).x0, (f side).y0, (f side).x1, (f side).y1) =
          edgeCentreline drawLineInput.geometry side (GetEdge drawLineInput side).width := by
  obtain ⟨f, hP, hf⟩ := (C23_forced_line_rect_dotted drawLineInput rfl).1 rfl
  refine ⟨rfl, rfl, f, ?_, fun side => ⟨(hf side).1, (hf side).2.2⟩⟩
  have hrs : renderingSides drawLineInput = sideOrder := by
    have hall : ∀ side, (GetEdge drawLineInput side).ShouldRender = true := by
      intro side
      rw [ShouldRender_iff]
      cases side <;> simp [GetEdge, drawLineInput, mixedWidthInput, allSolid]
    simp [renderingSides, sideOrder, List.filter_cons, hall]
  rw [hP, hrs]
  rfl

/-- C24: for a visible input under the groove/ridge override Paint returns,
for each edge that should render in the order top, right, bottom, left, two
fill-style DrawRectOps, outer first then inner: with W and c the width and
colour of the first rendering edge, the outer rect is the strip of thickness
W/2 along the side and the inner rect the part of the strip of thickness W
beyond it; the outer rect carries the darkened colour and the inner rect c
when (the first rendering edge's style is groove) equals (the side is top or
left), and the other way round otherwise. -/
theorem C24_groove_ridge (input : BorderPaintInput)
    (hvis : input.visibility = Visibility.kVisible)
    (hhint : input.render_hint = BorderRenderHint.kGrooveRidge) :
    ∃ outer inner : BoxSide → DrawRectOp,
      Paint input = some ((renderingSides input).flatMap
        (fun side => [PaintOp.DrawRect (outer side), PaintOp.DrawRect (inner side)])) ∧
      ∀ side,
        (outer side).flags.style = PaintStyle.kFill ∧
        (inner side).flags.style = PaintStyle.kFill ∧
        (outer side).rect =
          edgeStrip input.geometry side ((firstRenderingEdge input).width / 2) ∧
        (inner side).rect =
          edgeInnerHalf input.geometry side (firstRenderingEdge input).width ∧
        ((((firstRenderingEdge input).style == EBorderStyle.kGroove) ==
            (side == BoxSide.kTop || side == BoxSide.kLeft)) = true →
          (outer side).flags.color = (firstRenderingEdge input).color.Dark ∧
          (inner side).flags.color = (firstRenderingEdge input).color) ∧
        ((((firstRenderingEdge input).style == EBorderStyle.kGroove) ==
            (side == BoxSide.kTop || side == BoxSide.kLeft)) = false →
          (outer side).flags.color = (firstRenderingEdge input).color ∧
          (inner side).flags.color = (firstRenderingEdge input).color.Dark) := by
  obtain ⟨-, -, -, h4⟩ := Paint_override_eq input hvis
  refine ⟨fun side =>
      { rect := edgeStrip input.geometry side ((firstRenderingEdge input).width / 2)
        flags := BuildFillFlags
          (if (((firstRenderingEdge input).style == EBorderStyle.kGroove) ==
              (side == BoxSide.kTop || side == BoxSide.kLeft))
            then (firstRenderingEdge input).color.Dark
            else (firstRenderingEdge input).color)
        transform_id := input.state_ids.transform_id
        clip_id := input.state_ids.clip_id
        effect_id := input.state_ids.effect_id },
    fun side =>
      { rect := edgeInnerHalf input.geometry side (firstRenderingEdge input).width
        flags := BuildFillFlags
          (if (((firstRenderingEdge input).style == EBorderStyle.kGroove) ==
              (side == BoxSide.kTop || side == BoxSide.kLeft))
            then (firstRenderingEdge input).color
            else (firstRenderingEdge input).color.Dark)
        transform_id := input.state_ids.transform_id
        clip_id := input.state_ids.clip_id
        effect_id := input.state_ids.effect_id },
    ?_, ?_⟩
  · by_cases hsome : ∃ side, (GetEdge input side).ShouldRender = true
    · rw [h4 hhint, PaintGrooveRidgeBorder_eq, first_visible_edge_eq input hsome]
      rfl
    · rw [Paint_no_render input hvis hsome, renderingSides_nil input hsome]
      rfl
  · intro side
    refine ⟨rfl, rfl, rfl, rfl, ?_, ?_⟩
    · intro h
      simp only [BuildFillFlags, h, if_true, and_self]
    · intro h
      simp only [BuildFillFlags, h, Bool.false_eq_true, if_false, and_self]

/-- Witness for C24: the uniform 4px groove border on {0, 0, 100, 40} yields
eight rects; at the top the outer rect [0, 0, 100, 2] is dark and the inner
rect [0, 2, 100, 4] is not, at the bottom the outer rect is not dark. -/
theorem C24_groove_ridge_witness :
    grooveInput.visibility = Visibility.kVisible ∧
    grooveInput.render_hint = BorderRenderHint.kGrooveRidge ∧
    ∃ outer inner : BoxSide → DrawRectOp,
      Paint grooveInput =
        some [PaintOp.DrawRect (outer BoxSide.kTop), PaintOp.DrawRect (inner BoxSide.kTop),
          PaintOp.DrawRect (outer BoxSide.kRight), PaintOp.DrawRect (inner BoxSide.kRight),
          PaintOp.DrawRect (outer BoxSide.kBottom), PaintOp.DrawRect (inner BoxSide.kBottom),
          PaintOp.DrawRect (outer BoxSide.kLeft), PaintOp.DrawRect (inner BoxSide.kLeft)] ∧
      (outer BoxSide.kTop).rect = ![0, 0, 100, 2] ∧
      (inner BoxSide.kTop).rect = ![0, 2, 100, 4] ∧
      (outer BoxSide.kTop).flags.color = sampleColor.Dark ∧
      (inner BoxSide.kTop).flags.color = sampleColor ∧
      (outer BoxSide.kBottom).flags.color = sampleColor ∧
      (inner BoxSide.kBottom).flags.color = sampleColor.Dark := by
  obtain ⟨outer, inner, hP, hf⟩ := C24_groove_ridge grooveInput rfl rfl
  have hall : ∀ side, (GetEdge grooveInput side).ShouldRender = true := by
    intro side
    rw [ShouldRender_iff]
    cases side <;> simp [GetEdge, grooveInput, allGroove, sampleColor]
  have hrs : renderingSides grooveInput = sideOrder := by
    simp [renderingSides, sideOrder, List.filter_cons, hall]
  have hfirst : firstRenderingEdge grooveInput =
      { width := 4, color := sampleColor, style := EBorderStyle.kGroove } := by
    simp only [firstRenderingEdge, hrs, sideOrder]
    rfl
  refine ⟨rfl, rfl, outer, inner, ?_, ?_, ?_, ?_, ?_, ?_, ?_⟩
  · rw [hP, hrs]; rfl
  · rw [(hf BoxSide.kTop).2.2.1, hfirst]
    simp [edgeStrip, grooveInput]
    norm_num
  · rw [(hf BoxSide.kTop).2.2.2.1, hfirst]
    simp [edgeInnerHalf, grooveInput]
    norm_num
  · rw [((hf BoxSide.kTop).2.2.2.2.1 (by rw [hfirst]; rfl)).1, hfirst]
  · rw [((hf BoxSide.kTop).2.2.2.2.1 (by rw [hfirst]; rfl)).2, hfirst]
  · rw [((hf BoxSide.kBottom).2.2.2.2.2 (by rw [hfirst]; rfl)).1, hfirst]
  · rw [((hf BoxSide.kBottom).2.2.2.2.2 (by rw [hfirst]; rfl)).2, hfirst]

/-- C25 (amended): for every input with non-negative box size, border widths
and radii, every radius emitted by BorderPainter::Paint is >= 0 (the radius
adjustments are clamped at 0), and every emitted rectangle is non-inverted
(right >= left and bottom >= top) provided the border fits the box: opposite
border widths sum to at most the box's extent and, under the double-stroke
override, ceil(W/3) and 2W - ceil(W/3) are at most the box's width and height,
W being the first rendering edge's width.  Rectangle insets themselves are
not clamped. -/
theorem C25_geometry_validity (input : BorderPaintInput) (hnn : NonNegativeInput input)
    (ops : PaintOpList) (h : Paint input = some ops) :
    (∀ op ∈ ops, ∀ rad ∈ op.radii, ∀ i, 0 ≤ rad i) ∧
    (BorderFits input → ∀ op ∈ ops, ∀ r ∈ op.rects, NonInverted r) :=
  ⟨fun op hop => (Paint_geometry input hnn ops h op hop).1,
    fun hfit op hop => (Paint_geometry input hnn ops h op hop).2 hfit⟩

/-- Witness for C25 (amended): the mixed-width input with radii 3, whose
widths fit the box, is painted as one double rounded rect with non-negative
radii and non-inverted rects. -/
theorem C25_geometry_validity_witness :
    NonNegativeInput roundedMixedInput ∧ BorderFits roundedMixedInput ∧
    ∃ op : DrawDRRectOp, Paint roundedMixedInput = some [PaintOp.DrawDRRect op] ∧
      (∀ i, 0 ≤ op.outer_radii i) ∧ (∀ i, 0 ≤ op.inner_radii i) ∧
      NonInverted op.outer_rect ∧ NonInverted op.inner_rect := by
  obtain ⟨op, hop⟩ := Paint_roundedMixedInput
  obtain ⟨h1, h2⟩ := C25_geometry_validity roundedMixedInput NonNegativeInput_roundedMixed
    _ hop
  have hmem : PaintOp.DrawDRRect op ∈ [PaintOp.DrawDRRect op] := List.mem_singleton.2 rfl
  refine ⟨NonNegativeInput_roundedMixed, BorderFits_roundedMixed, op, hop, ?_, ?_, ?_, ?_⟩
  · exact h1 _ hmem op.outer_radii (by simp [PaintOp.radii])
  · exact h1 _ hmem op.inner_radii (by simp [PaintOp.radii])
  · exact h2 BorderFits_roundedMixed _ hmem op.outer_rect (by simp [PaintOp.rects])
  · exact h2 BorderFits_roundedMixed _ hmem op.inner_rect (by simp [PaintOp.rects])

/-- Counterexample to C25 as stated: geometry {0, 0, 100, 40} with a uniform
60px solid border and zero radii (all inputs non-negative) is painted as the
stroked rect [30, 30, 70, 10], whose bottom 10 lies above its top 30: the
stroke inset is not clamped. -/
theorem C25_counterexample :
    NonNegativeInput wideBorderInput ∧
    ∃ ops, Paint wideBorderInput = some ops ∧
      ∃ op ∈ ops, ∃ r ∈ op.rects, r = ![30, 30, 70, 10] ∧ ¬ NonInverted r := by
  refine ⟨NonNegativeInput_wide, _, Paint_wideBorderInput, _, List.mem_singleton.2 rfl,
    ![30, 30, 70, 10], by simp [PaintOp.rects], rfl, ?_⟩
  rw [NonInverted_mk]
  norm_num

/-- C26: for an input whose radii, when present, satisfy the invariant that
all values are >= 0, AnalyzeBorder returns a record whose is_rounded is true
iff the border radii are present and not all eight values are exactly 0. -/
theorem C26_is_rounded (input : BorderPaintInput)
    (hnn : ∀ r, input.border_radii = some r → ∀ i, 0 ≤ r i) :
    ∃ props, AnalyzeBorder input = some props ∧
      (props.is_rounded = true ↔
        ∃ r, input.border_radii = some r ∧ ¬ ∀ i, r i = 0) := by
  refine ⟨propsOf input, AnalyzeBorder_propsOf input, ?_⟩
  rw [show (propsOf input).is_rounded = HasBorderRadius input from rfl, HasBorderRadius_iff]
  exact rounded_iff_not_all_zero input hnn

/-- Witness for C26: the uniform input with radii all 5 is rounded, the
uniform input with radii all 0 is not. -/
theorem C26_is_rounded_witness :
    (∃ props, AnalyzeBorder roundedUniformInput = some props ∧ props.is_rounded = true) ∧
    (∃ props, AnalyzeBorder uniformInput = some props ∧ props.is_rounded = false) := by
  constructor
  · obtain ⟨props, hp, hiff⟩ := C26_is_rounded roundedUniformInput (by
      intro r hr i
      simp only [roundedUniformInput, Option.some.injEq] at hr
      rw [← hr]
      norm_num)
    exact ⟨props, hp, hiff.2 ⟨_, rfl, fun h => absurd (h 0) (by norm_num)⟩⟩
  · obtain ⟨props, hp, hiff⟩ := C26_is_rounded uniformInput (by
      intro r hr i
      simp only [uniformInput, Option.some.injEq] at hr
      rw [← hr])
    refine ⟨props, hp, ?_⟩
    rw [Bool.eq_false_iff]
    intro h
    obtain ⟨r, hr, hne⟩ := hiff.1 h
    simp only [uniformInput, Option.some.injEq] at hr
    apply hne
    intro i
    rw [← hr]

/-- C40: for every input, BorderPainter::Paint with the stroked-rect override
hint returns the same operation list as with the automatic hint: after the
entry guards both attempt the fast path and fall back to per-edge painting
when it declines. -/
theorem C40_stroked_rect_hint_is_auto (input : BorderPaintInput) :
    Paint { input with render_hint := BorderRenderHint.kStrokedRect } =
      Paint { input with render_hint := BorderRenderHint.kAuto } ∧
    ∃ ops, Paint { input with render_hint := BorderRenderHint.kStrokedRect } = some ops :=
  ⟨Paint_strokedRect_eq_auto input,
    Option.isSome_iff_exists.1 (Paint_isSome _)⟩

/-- Witness for C40: the mixed-width input under the stroked-rect hint is
painted as the four per-edge rects of the automatic hint. -/
theorem C40_stroked_rect_hint_is_auto_witness :
    Paint { mixedWidthInput with render_hint := BorderRenderHint.kStrokedRect } =
      Paint mixedWidthInput ∧
    ∃ ops, Paint { mixedWidthInput with render_hint := BorderRenderHint.kStrokedRect } =
      some ops ∧ ops.length = 4 := by
  have h := (C40_stroked_rect_hint_is_auto mixedWidthInput).1
  have hauto : ({ mixedWidthInput with render_hint := BorderRenderHint.kAuto } :
      BorderPaintInput) = mixedWidthInput := rfl
  rw [hauto] at h
  refine ⟨h, ?_⟩
  rw [h]
  have hall : ∀ side, (GetEdge mixedWidthInput side).ShouldRender = true :=
    fun side => (mixed_edges (some (fun _ => 0)) side).2.2
  have hP := Paint_auto_eq mixedWidthInput rfl rfl
    (IsZero_false_of_render mixedWidthInput ⟨BoxSide.kTop, hall _⟩)
    (propsOf_count_ne_zero mixedWidthInput ⟨BoxSide.kTop, hall _⟩)
  rw [hP, (PaintFastPath_cases mixedWidthInput).2 mixedWidthInput_not_fast]
  refine ⟨_, rfl, ?_⟩
  have hrs : renderingSides mixedWidthInput = sideOrder := by
    simp [renderingSides, sideOrder, List.filter_cons, hall]
  simp only [Bool.false_eq_true, if_false, PaintSides_eq, hrs, sideOrder, List.nil_append,
    List.flatMap_cons, List.flatMap_nil, List.length_append, List.length_nil]
  have hl : ∀ side, (PaintSide mixedWidthInput side []).length = 1 := by
    intro side
    obtain ⟨op, h, -⟩ := PaintSide_single mixedWidthInput side
    rw [h]
    rfl
  rw [hl, hl, hl, hl]

end BorderPainter

namespace TextPainter

/-! ## Basic facts about the text painter embedding -/

theorem CacheValid_Update (info : TextDecorationInfo) :
    CacheValid info.UpdateForDecorationIndex := by
  intro d hd
  unfold TextDecorationInfo.UpdateForDecorationIndex at hd ⊢
  rcases h : info.decorations_[info.decoration_index_]? with _ | d0
  · rw [h] at hd
    simp only at hd
    rw [h] at hd
    exact absurd hd (by simp)
  · rw [h] at hd
    simp only at hd ⊢
    rw [h] at hd
    cases hd
    simp only [TextDecorationInfo.ComputeThickness, h, ComputeDecorationThickness]
    refine ⟨trivial, trivial, trivial, ?_⟩
    split_ifs with ht
    · rfl
    · rcases info.font_underline_thickness_ with _ | t <;> rfl

theorem SetLineData_eq (info : TextDecorationInfo) (line : TextDecorationLine) (off : ℚ) :
    info.SetLineData line off =
      { info with line_geometry_ := (info.SetLineData line off).line_geometry_ } := rfl

theorem SetUnderlineLineData_eq (info : TextDecorationInfo) :
    info.SetUnderlineLineData =
      { info with line_geometry_ := info.SetUnderlineLineData.line_geometry_ } := by
  unfold TextDecorationInfo.SetUnderlineLineData
  split_ifs <;> rfl

theorem SetOverlineLineData_eq (info : TextDecorationInfo) :
    info.SetOverlineLineData =
      { info with line_geometry_ := info.SetOverlineLineData.line_geometry_ } := by
  unfold TextDecorationInfo.SetOverlineLineData
  split_ifs <;> rfl

theorem SetLineThroughLineData_eq (info : TextDecorationInfo) :
    info.SetLineThroughLineData =
      { info with line_geometry_ := info.SetLineThroughLineData.line_geometry_ } := by
  unfold TextDecorationInfo.SetLineThroughLineData
  split_ifs <;> rfl

theorem SetSpellingOrGrammarErrorLineData_eq (info : TextDecorationInfo) :
    info.SetSpellingOrGrammarErrorLineData =
      { info with
        line_geometry_ := info.SetSpellingOrGrammarErrorLineData.line_geometry_ } := by
  unfold TextDecorationInfo.SetSpellingOrGrammarErrorLineData
  split_ifs <;> rfl

theorem CacheValid_geometry (info : TextDecorationInfo) (g : DecorationGeometry)
    (h : CacheValid info) : CacheValid { info with line_geometry_ := g } := h

theorem CacheValid_SetDecorationIndex (info : TextDecorationInfo) (index : Nat)
    (h : CacheValid info) : CacheValid (info.SetDecorationIndex index) := by
  unfold TextDecorationInfo.SetDecorationIndex
  split_ifs
  · exact h
  · exact CacheValid_Update _

theorem CacheValid_apply (c : InfoCall) (info : TextDecorationInfo)
    (h : CacheValid info) : CacheValid (c.apply info) := by
  cases c
  · exact CacheValid_SetDecorationIndex _ _ h
  · show CacheValid info.SetUnderlineLineData
    rw [SetUnderlineLineData_eq]; exact CacheValid_geometry _ _ h
  · show CacheValid info.SetOverlineLineData
    rw [SetOverlineLineData_eq]; exact CacheValid_geometry _ _ h
  · show CacheValid info.SetLineThroughLineData
    rw [SetLineThroughLineData_eq]; exact CacheValid_geometry _ _ h
  · show CacheValid info.SetSpellingOrGrammarErrorLineData
    rw [SetSpellingOrGrammarErrorLineData_eq]; exact CacheValid_geometry _ _ h

theorem CacheValid_create (x y w fs a d : ℚ) (ds : List TextDecoration) (sf : ℚ)
    (pos th : Option ℚ) :
    CacheValid (TextDecorationInfo.create x y w fs a d ds sf pos th) :=
  CacheValid_Update _

theorem Reachable_CacheValid (info : TextDecorationInfo) (h : Reachable info) :
    CacheValid info := by
  induction h with
  | create x y w fs a d ds sf pos th => exact CacheValid_create x y w fs a d ds sf pos th
  | call c info _ ih => exact CacheValid_apply c info ih

theorem Reachable_runCalls (calls : List InfoCall) (info : TextDecorationInfo)
    (h : Reachable info) : Reachable (runCalls calls info) := by
  induction calls generalizing info with
  | nil => exact h
  | cons c cs ih => exact ih _ (Reachable.call c info h)

theorem SetLineData_line (info : TextDecorationInfo) (line : TextDecorationLine) (off : ℚ) :
    (info.SetLineData line off).line_geometry_.line =
      { x := info.local_origin_x_, y := info.local_origin_y_ + off
        width := info.width_, height := info.resolved_thickness_ } := by
  unfold TextDecorationInfo.SetLineData DecorationGeometry.Make
  simp only [TextDecorationInfo.ResolvedThickness]
  split_ifs <;> rfl

theorem SetLineData_wave (info : TextDecorationInfo) (line : TextDecorationLine) (off : ℚ)
    (d : TextDecoration) (hd : info.decorations_[info.decoration_index_]? = some d)
    (hw : d.style = TextDecorationStyle.kWavy) :
    (info.SetLineData line off).line_geometry_.wavy_wave =
      MakeWave info.resolved_thickness_ := by
  unfold TextDecorationInfo.SetLineData DecorationGeometry.Make
  simp only [hd, TextDecoration.GetStrokeStyle, hw, TextDecorationStyleToStrokeStyle,
    TextDecorationInfo.ResolvedThickness, if_true, DecorationGeometry.Thickness]

theorem recolour_getElem? (f : TextDecoration → Color) (ds : List TextDecoration) (i : Nat) :
    (recolour f ds)[i]? = (ds[i]?).map (fun d => { d with color := f d }) := by
  simp [recolour]

theorem Update_recolourInfo (f : TextDecoration → Color) (info : TextDecorationInfo) :
    (recolourInfo f info).UpdateForDecorationIndex =
      recolourInfo f info.UpdateForDecorationIndex := by
  unfold TextDecorationInfo.UpdateForDecorationIndex TextDecorationInfo.ComputeThickness
  simp only [recolourInfo, recolour_getElem?]
  rcases h : info.decorations_[info.decoration_index_]? with _ | d
  · simp
  · simp [TextDecorationInfo.ComputeThickness]

theorem create_recolour (f : TextDecoration → Color) (x y w fs a de : ℚ)
    (ds : List TextDecoration) (sf : ℚ) (pos th : Option ℚ) :
    TextDecorationInfo.create x y w fs a de (recolour f ds) sf pos th =
      recolourInfo f (TextDecorationInfo.create x y w fs a de ds sf pos th) := by
  unfold TextDecorationInfo.create
  simp only
  rw [← Update_recolourInfo]
  congr 1
  simp only [recolourInfo, recolour, List.foldl_map, List.any_map]
  rfl

theorem SetDecorationIndex_recolourInfo (f : TextDecoration → Color)
    (info : TextDecorationInfo) (index : Nat) :
    (recolourInfo f info).SetDecorationIndex index =
      recolourInfo f (info.SetDecorationIndex index) := by
  unfold TextDecorationInfo.SetDecorationIndex
  by_cases h : info.decoration_index_ = index
  · have h' : (recolourInfo f info).decoration_index_ = index := h
    rw [if_pos h, if_pos h']
  · have h' : ¬ (recolourInfo f info).decoration_index_ = index := h
    rw [if_neg h, if_neg h']
    exact Update_recolourInfo f { info with decoration_index_ := index }

theorem SetLineData_recolourInfo (f : TextDecoration → Color)
    (info : TextDecorationInfo) (line : TextDecorationLine) (off : ℚ) :
    (recolourInfo f info).SetLineData line off =
      recolourInfo f (info.SetLineData line off) := by
  unfold TextDecorationInfo.SetLineData
  simp only [recolourInfo, recolour_getElem?, TextDecorationInfo.ResolvedThickness]
  rcases h : info.decorations_[info.decoration_index_]? with _ | d
  · simp
  · simp [TextDecoration.GetStrokeStyle]

theorem apply_recolourInfo (f : TextDecoration → Color) (c : InfoCall)
    (info : TextDecorationInfo) :
    c.apply (recolourInfo f info) = recolourInfo f (c.apply info) := by
  cases c with
  | SetDecorationIndex index => exact SetDecorationIndex_recolourInfo f info index
  | SetUnderlineLineData =>
    show (recolourInfo f info).SetUnderlineLineData = recolourInfo f info.SetUnderlineLineData
    unfold TextDecorationInfo.SetUnderlineLineData
    by_cases h : (!info.HasUnderline) = true
    · have h' : (!(recolourInfo f info).HasUnderline) = true := h
      rw [if_pos h, if_pos h']
    · have h' : ¬ (!(recolourInfo f info).HasUnderline) = true := h
      rw [if_neg h, if_neg h']
      simp only [SetLineData_recolourInfo]
      congr 2
      simp only [recolourInfo, recolour_getElem?]
      rcases info.decorations_[info.decoration_index_]? with _ | d <;> rfl
  | SetOverlineLineData =>
    show (recolourInfo f info).SetOverlineLineData = recolourInfo f info.SetOverlineLineData
    unfold TextDecorationInfo.SetOverlineLineData
    by_cases h : (!info.HasOverline) = true
    · have h' : (!(recolourInfo f info).HasOverline) = true := h
      rw [if_pos h, if_pos h']
    · have h' : ¬ (!(recolourInfo f info).HasOverline) = true := h
      rw [if_neg h, if_neg h']
      exact SetLineData_recolourInfo f info _ _
  | SetLineThroughLineData =>
    show (recolourInfo f info).SetLineThroughLineData =
      recolourInfo f info.SetLineThroughLineData
    unfold TextDecorationInfo.SetLineThroughLineData
    by_cases h : (!info.HasLineThrough) = true
    · have h' : (!(recolourInfo f info).HasLineThrough) = true := h
      rw [if_pos h, if_pos h']
    · have h' : ¬ (!(recolourInfo f info).HasLineThrough) = true := h
      rw [if_neg h, if_neg h']
      exact SetLineData_recolourInfo f info _ _
  | SetSpellingOrGrammarErrorLineData =>
    show (recolourInfo f info).SetSpellingOrGrammarErrorLineData =
      recolourInfo f info.SetSpellingOrGrammarErrorLineData
    unfold TextDecorationInfo.SetSpellingOrGrammarErrorLineData
    by_cases h : (!info.HasSpellingOrGrammarError) = true
    · have h' : (!(recolourInfo f info).HasSpellingOrGrammarError) = true := h
      rw [if_pos h, if_pos h']
    · have h' : ¬ (!(recolourInfo f info).HasSpellingOrGrammarError) = true := h
      rw [if_neg h, if_neg h']
      simp only [recolourInfo, recolour_getElem?, TextDecorationInfo.ResolvedThickness]
      rcases info.decorations_[info.decoration_index_]? with _ | d <;> rfl

theorem runCalls_recolourInfo (f : TextDecoration → Color) (calls : List InfoCall)
    (info : TextDecorationInfo) :
    runCalls calls (recolourInfo f info) = recolourInfo f (runCalls calls info) := by
  induction calls generalizing info with
  | nil => rfl
  | cons c cs ih =>
    show runCalls cs (c.apply (recolourInfo f info)) = recolourInfo f (runCalls cs (c.apply info))
    rw [apply_recolourInfo, ih]

theorem cround_of_bounds (x : ℚ) (n : ℤ) (h0 : 0 ≤ x) (h1 : (n : ℚ) ≤ x + 1 / 2)
    (h2 : x + 1 / 2 < (n : ℚ) + 1) : cround x = (n : ℚ) := by
  unfold cround
  rw [if_pos h0]
  have : ⌊x + 1 / 2⌋ = n := by
    rw [Int.floor_eq_iff]; exact ⟨h1, h2⟩
  rw [this]

theorem cround_three : cround 3 = 3 := by
  have h := cround_of_bounds 3 3 (by norm_num) (by norm_num) (by norm_num)
  simpa using h

theorem wavyAllLinesInfo_thickness : wavyAllLinesInfo.resolved_thickness_ = 3 := by
  have h := (Reachable_CacheValid wavyAllLinesInfo
    (Reachable.create 10 30 100 20 15 5 [wavyAllLines] 1 (some 4) (some 7))
    wavyAllLines rfl).2.2.2
  rw [h]
  have h3 : wavyAllLines.thickness = 3 := rfl
  rw [h3, if_pos (by norm_num)]
  exact cround_three

theorem MakeWave_three :
    MakeWave 3 = { wavelength := 15, control_point_distance := 21 / 2, phase := -15 } := by
  unfold MakeWave
  have hm : max (1 : ℚ) 3 = 3 := by norm_num
  have h1 : cround (2 * 3 + 1 / 2) = 7 := by
    have h := cround_of_bounds (2 * 3 + 1 / 2) 7 (by norm_num) (by norm_num) (by norm_num)
    simpa using h
  have h2 : cround (3 * 3 + 1 / 2) = 10 := by
    have h := cround_of_bounds (3 * 3 + 1 / 2) 10 (by norm_num) (by norm_num) (by norm_num)
    simpa using h
  simp only [hm, h1, h2]
  norm_num

theorem Extends.refl (P : PaintOp → Bool) (ops : PaintOpList) : Extends P ops ops :=
  ⟨[], by simp, by simp⟩

theorem Extends.trans {P : PaintOp → Bool} {a b c : PaintOpList}
    (h1 : Extends P a b) (h2 : Extends P b c) : Extends P a c := by
  obtain ⟨e1, rfl, he1⟩ := h1
  obtain ⟨e2, rfl, he2⟩ := h2
  refine ⟨e1 ++ e2, by simp, ?_⟩
  intro op hop
  rcases List.mem_append.1 hop with h | h
  · exact he1 op h
  · exact he2 op h

theorem Extends.mono {P Q : PaintOp → Bool} {a b : PaintOpList}
    (hPQ : ∀ op, P op = true → Q op = true) (h : Extends P a b) : Extends Q a b := by
  obtain ⟨e, rfl, he⟩ := h
  exact ⟨e, rfl, fun op hop => hPQ op (he op hop)⟩

theorem Extends.one (P : PaintOp → Bool) (ops : PaintOpList) (op : PaintOp)
    (h : P op = true) : Extends P ops (ops ++ [op]) :=
  ⟨[op], rfl, by simpa using h⟩

theorem LinePainter_Paint_extends (ids : GraphicsStateIds) (ops : PaintOpList)
    (g : DecorationGeometry) (c : Color) :
    Extends PaintOp.isLineOp ops (DecorationLinePainter.Paint ids ops g c) := by
  unfold DecorationLinePainter.Paint DecorationLinePainter.PaintWavyTextDecoration
  by_cases hwidth : g.line.width ≤ 0
  · rw [if_pos hwidth]; exact Extends.refl _ _
  · rw [if_neg hwidth]
    rcases hs : g.style with _ | _ | _ | _ | _ | _
    · exact Extends.refl _ _
    · simp only [reduceCtorEq, if_false]
      exact Extends.one _ _ (PaintOp.DrawLine _) rfl
    · simp only
      exact Extends.one _ _ (PaintOp.DrawStrokeLine _) rfl
    · simp only
      exact Extends.one _ _ (PaintOp.DrawStrokeLine _) rfl
    · simp only [if_true]
      exact Extends.trans (Extends.one _ _ (PaintOp.DrawLine _) rfl)
        (Extends.one _ _ (PaintOp.DrawLine _) rfl)
    · simp only
      exact Extends.one _ _ (PaintOp.DrawWavyLine _) rfl

theorem UnderOrOver_body_extends (ids : GraphicsStateIds) (lines : TextDecorationLine)
    (phase : TextShadowPaintPhase) (state : PaintOpList × TextDecorationInfo) (i : Nat) :
    Extends PaintOp.isLineOp state.1
      (TextDecorationPainter.PaintUnderOrOverLineDecorations_body ids lines phase state i).1 := by
  unfold TextDecorationPainter.PaintUnderOrOverLineDecorations_body
  simp only
  split_ifs
  · exact LinePainter_Paint_extends _ _ _ _
  · exact Extends.trans (LinePainter_Paint_extends _ _ _ _) (LinePainter_Paint_extends _ _ _ _)
  · exact LinePainter_Paint_extends _ _ _ _
  · exact LinePainter_Paint_extends _ _ _ _
  · exact Extends.refl _ _

theorem LineThrough_body_extends (ids : GraphicsStateIds)
    (phase : TextShadowPaintPhase) (state : PaintOpList × TextDecorationInfo) (i : Nat) :
    Extends PaintOp.isLineOp state.1
      (TextDecorationPainter.PaintLineThroughDecorations_body ids phase state i).1 := by
  unfold TextDecorationPainter.PaintLineThroughDecorations_body
  simp only
  split_ifs
  · exact LinePainter_Paint_extends _ _ _ _
  · exact Extends.refl _ _

theorem foldl_extends {α β : Type} (P : PaintOp → Bool)
    (f : PaintOpList × α → β → PaintOpList × α)
    (hf : ∀ st i, Extends P st.1 (f st i).1) (l : List β) (st : PaintOpList × α) :
    Extends P st.1 (l.foldl f st).1 := by
  induction l generalizing st with
  | nil => exact Extends.refl _ _
  | cons i l ih => exact Extends.trans (hf st i) (ih (f st i))

theorem UnderOrOver_paint_decorations_extends (ids : GraphicsStateIds)
    (lines : TextDecorationLine) (phase : TextShadowPaintPhase)
    (state : PaintOpList × TextDecorationInfo) :
    Extends PaintOp.isLineOp state.1
      (TextDecorationPainter.PaintUnderOrOverLineDecorations_paint_decorations ids lines
        phase state).1 :=
  foldl_extends _ _ (UnderOrOver_body_extends ids lines phase) _ state

theorem LineThrough_paint_decorations_extends (ids : GraphicsStateIds)
    (phase : TextShadowPaintPhase) (state : PaintOpList × TextDecorationInfo) :
    Extends PaintOp.isLineOp state.1
      (TextDecorationPainter.PaintLineThroughDecorations_paint_decorations ids phase state).1 :=
  foldl_extends _ _ (LineThrough_body_extends ids phase) _ state

theorem foldl_AddShadow (list : List ShadowData) (ops : PaintOpList) :
    list.foldl (fun ops it => ops.AddShadow it.offset_x it.offset_y it.BlurAsSigma it.color)
      ops = ops ++ list.map shadowOp := by
  induction list generalizing ops with
  | nil => simp
  | cons s l ih =>
    rw [List.foldl_cons, ih]
    simp [PaintOpList.AddShadow, shadowOp, ShadowData.BlurAsSigma]

theorem PaintWithTextShadow_some {α : Type}
    (paint_proc : TextShadowPaintPhase → PaintOpList × α → PaintOpList × α)
    (ops : PaintOpList) (a : α) (list : List ShadowData) (h : list ≠ []) :
    PaintWithTextShadow paint_proc (ops, a) (some list) =
      paint_proc TextShadowPaintPhase.kForeground
        ((paint_proc TextShadowPaintPhase.kShadow
            (ops ++ list.reverse.map shadowOp, a)).1 ++ [PaintOp.ClearShadow],
         (paint_proc TextShadowPaintPhase.kShadow
            (ops ++ list.reverse.map shadowOp, a)).2) := by
  unfold PaintWithTextShadow
  have he : list.isEmpty = false := by
    cases list with
    | nil => exact absurd rfl h
    | cons s l => rfl
  simp only [he, Bool.not_false, if_true, foldl_AddShadow, PaintOpList.ClearShadow]

theorem PaintWithTextShadow_none {α : Type}
    (paint_proc : TextShadowPaintPhase → PaintOpList × α → PaintOpList × α)
    (ops : PaintOpList) (a : α) :
    PaintWithTextShadow paint_proc (ops, a) none =
      paint_proc TextShadowPaintPhase.kForeground (ops, a) := rfl

theorem PaintWithTextShadow_empty {α : Type}
    (paint_proc : TextShadowPaintPhase → PaintOpList × α → PaintOpList × α)
    (ops : PaintOpList) (a : α) :
    PaintWithTextShadow paint_proc (ops, a) (some []) =
      paint_proc TextShadowPaintPhase.kForeground (ops, a) := rfl

theorem HasTextShadow_false_iff (shadows : Option (List ShadowData)) :
    HasTextShadow shadows = false ↔ shadows = none ∨ shadows = some [] := by
  unfold HasTextShadow
  rcases shadows with _ | list
  · simp
  · cases list <;> simp

theorem HasTextShadow_true_iff (shadows : Option (List ShadowData)) :
    HasTextShadow shadows = true ↔ ∃ list, shadows = some list ∧ list ≠ [] := by
  unfold HasTextShadow
  rcases shadows with _ | list
  · simp
  · cases list <;> simp

theorem PaintWithTextShadow_shadowed {α : Type} (P : PaintOp → Bool)
    (paint_proc : TextShadowPaintPhase → PaintOpList × α → PaintOpList × α)
    (hP : ∀ phase st, Extends P st.1 (paint_proc phase st).1)
    (ops : PaintOpList) (a : α) (list : List ShadowData) (h : list ≠ []) :
    ∃ S F, (PaintWithTextShadow paint_proc (ops, a) (some list)).1 =
        ops ++ list.reverse.map shadowOp ++ S ++ [PaintOp.ClearShadow] ++ F ∧
      (∀ op ∈ S, P op = true) ∧ (∀ op ∈ F, P op = true) := by
  rw [PaintWithTextShadow_some paint_proc ops a list h]
  obtain ⟨S, hS, hSP⟩ := hP TextShadowPaintPhase.kShadow (ops ++ list.reverse.map shadowOp, a)
  obtain ⟨F, hF, hFP⟩ := hP TextShadowPaintPhase.kForeground
    ((paint_proc TextShadowPaintPhase.kShadow
        (ops ++ list.reverse.map shadowOp, a)).1 ++ [PaintOp.ClearShadow],
     (paint_proc TextShadowPaintPhase.kShadow (ops ++ list.reverse.map shadowOp, a)).2)
  refine ⟨S, F, ?_, hSP, hFP⟩
  rw [hF, hS]

theorem PaintWithTextShadow_unshadowed {α : Type} (P : PaintOp → Bool)
    (paint_proc : TextShadowPaintPhase → PaintOpList × α → PaintOpList × α)
    (hP : ∀ phase st, Extends P st.1 (paint_proc phase st).1)
    (ops : PaintOpList) (a : α) (shadows : Option (List ShadowData))
    (h : HasTextShadow shadows = false) :
    ∃ F, (PaintWithTextShadow paint_proc (ops, a) shadows).1 = ops ++ F ∧
      (∀ op ∈ F, P op = true) := by
  rcases (HasTextShadow_false_iff shadows).1 h with rfl | rfl
  · exact hP TextShadowPaintPhase.kForeground (ops, a)
  · exact hP TextShadowPaintPhase.kForeground (ops, a)

theorem countP_zero_of_all (P Q : PaintOp → Bool)
    (hPQ : ∀ op, P op = true → Q op = false) (l : PaintOpList)
    (hl : ∀ op ∈ l, P op = true) : l.countP Q = 0 := by
  rw [List.countP_eq_zero]
  intro op hop
  simp [hPQ op (hl op hop)]

theorem isLineOp_not_clear (op : PaintOp) (h : op.isLineOp = true) :
    op.isClearShadow = false := by
  cases op <;> first | rfl | exact absurd h (by simp [PaintOp.isLineOp])

theorem isLineOp_decoration (op : PaintOp) (h : op.isLineOp = true) :
    op.isDecorationOp = true := by
  simp [PaintOp.isDecorationOp, h]

theorem shadowOp_decoration (s : ShadowData) : (shadowOp s).isDecorationOp = true := rfl

theorem shadowOps_countP_clear (l : List ShadowData) :
    (l.map shadowOp).countP PaintOp.isClearShadow = 0 := by
  rw [List.countP_eq_zero]
  intro op hop
  obtain ⟨s, -, rfl⟩ := List.mem_map.1 hop
  simp [shadowOp, PaintOp.isClearShadow]

theorem PaintWithTextShadow_summary {α : Type}
    (paint_proc : TextShadowPaintPhase → PaintOpList × α → PaintOpList × α)
    (hP : ∀ phase st, Extends PaintOp.isLineOp st.1 (paint_proc phase st).1)
    (ops : PaintOpList) (a : α) (shadows : Option (List ShadowData)) :
    ∃ extra, (PaintWithTextShadow paint_proc (ops, a) shadows).1 = ops ++ extra ∧
      (∀ op ∈ extra, op.isDecorationOp = true) ∧
      extra.countP PaintOp.isClearShadow = (if HasTextShadow shadows = true then 1 else 0) := by
  by_cases hs : HasTextShadow shadows = true
  · obtain ⟨list, rfl, hne⟩ := (HasTextShadow_true_iff shadows).1 hs
    obtain ⟨S, F, hEq, hS, hF⟩ :=
      PaintWithTextShadow_shadowed PaintOp.isLineOp paint_proc hP ops a list hne
    refine ⟨list.reverse.map shadowOp ++ S ++ [PaintOp.ClearShadow] ++ F, ?_, ?_, ?_⟩
    · rw [hEq]; simp
    · intro op hop
      simp only [List.mem_append, List.mem_map, List.mem_singleton] at hop
      rcases hop with ((⟨s, -, rfl⟩ | h) | rfl) | h
      · rfl
      · exact isLineOp_decoration op (hS op h)
      · rfl
      · exact isLineOp_decoration op (hF op h)
    · rw [if_pos hs]
      simp only [List.countP_append, shadowOps_countP_clear,
        countP_zero_of_all _ _ isLineOp_not_clear S hS,
        countP_zero_of_all _ _ isLineOp_not_clear F hF]
      rfl
  · have hs' : HasTextShadow shadows = false := by simpa using hs
    obtain ⟨F, hEq, hF⟩ :=
      PaintWithTextShadow_unshadowed PaintOp.isLineOp paint_proc hP ops a shadows hs'
    refine ⟨F, hEq, fun op hop => isLineOp_decoration op (hF op hop), ?_⟩
    rw [if_neg hs]
    exact countP_zero_of_all _ _ isLineOp_not_clear F hF

theorem PaintExceptLineThrough_summary (painter : TextDecorationPainter) :
    ∃ extra, painter.PaintExceptLineThrough.ops_ = painter.ops_ ++ extra ∧
      (∀ op ∈ extra, op.isDecorationOp = true) ∧
      extra.countP PaintOp.isClearShadow ≤ 1 := by
  unfold TextDecorationPainter.PaintExceptLineThrough
  split_ifs
  · exact ⟨[], by simp, by simp, by simp⟩
  · obtain ⟨extra, h1, h2, h3⟩ := PaintWithTextShadow_summary
      (TextDecorationPainter.PaintUnderOrOverLineDecorations_paint_decorations
        painter.state_ids_ TextDecorationPainter.exceptLineThroughLines)
      (fun phase st => UnderOrOver_paint_decorations_extends _ _ phase st)
      painter.ops_ painter.decoration_info_ painter.shadows_
    refine ⟨extra, h1, h2, ?_⟩
    rw [h3]; split_ifs <;> simp

theorem PaintOnlyLineThrough_summary (painter : TextDecorationPainter) :
    ∃ extra, painter.PaintOnlyLineThrough.ops_ = painter.ops_ ++ extra ∧
      (∀ op ∈ extra, op.isDecorationOp = true) ∧
      extra.countP PaintOp.isClearShadow ≤ 1 := by
  unfold TextDecorationPainter.PaintOnlyLineThrough
  split_ifs
  · exact ⟨[], by simp, by simp, by simp⟩
  · obtain ⟨extra, h1, h2, h3⟩ := PaintWithTextShadow_summary
      (TextDecorationPainter.PaintLineThroughDecorations_paint_decorations
        painter.state_ids_)
      (fun phase st => LineThrough_paint_decorations_extends _ phase st)
      painter.ops_ painter.decoration_info_ painter.shadows_
    refine ⟨extra, h1, h2, ?_⟩
    rw [h3]; split_ifs <;> simp

theorem PaintDecorationsExceptLineThrough_summary (ops : PaintOpList)
    (decorations : List TextDecoration) (box : RectF) (fs asc desc : ℚ)
    (ids : GraphicsStateIds) (shadows : Option (List ShadowData)) (sf : ℚ) :
    ∃ extra, PaintDecorationsExceptLineThrough ops decorations box fs asc desc ids
        shadows sf = ops ++ extra ∧
      (∀ op ∈ extra, op.isDecorationOp = true) ∧
      extra.countP PaintOp.isClearShadow ≤ 1 := by
  unfold PaintDecorationsExceptLineThrough
  split_ifs
  · exact ⟨[], by simp, by simp, by simp⟩
  · exact PaintExceptLineThrough_summary _

theorem PaintDecorationsLineThrough_summary (ops : PaintOpList)
    (decorations : List TextDecoration) (box : RectF) (fs asc desc : ℚ)
    (ids : GraphicsStateIds) (shadows : Option (List ShadowData)) (sf : ℚ) :
    ∃ extra, PaintDecorationsLineThrough ops decorations box fs asc desc ids
        shadows sf = ops ++ extra ∧
      (∀ op ∈ extra, op.isDecorationOp = true) ∧
      extra.countP PaintOp.isClearShadow ≤ 1 := by
  unfold PaintDecorationsLineThrough
  split_ifs
  · exact ⟨[], by simp, by simp, by simp⟩
  · exact PaintOnlyLineThrough_summary _

theorem PaintShadows_eq (ops : PaintOpList) (shadows : List ShadowData) :
    PaintShadows ops shadows = ops ++ shadows.reverse.map shadowOp :=
  foldl_AddShadow shadows.reverse ops

theorem shadowOps_isDrawShadow (l : List ShadowData) :
    ∀ op ∈ l.map shadowOp, op.isDrawShadow = true := by
  intro op hop
  obtain ⟨s, -, rfl⟩ := List.mem_map.1 hop
  rfl

theorem Paint_decomp (m : FloatMath) (input : TextPaintInput)
    (hv : input.visibility = Visibility.kVisible)
    (hm : input.symbol_marker.filter
      (fun marker => marker.type != SymbolMarkerType.kNone) = none)
    (hft : input.fragment.from_ < input.fragment.to_)
    (hs : input.fragment.HasShapeResult = true ∨ input.is_line_break = true)
    (hfc : input.is_flow_control = false) :
    ∃ (pre under ts lt emph post : PaintOpList) (blob : DrawTextBlobOp)
      (fs asc desc sf : ℚ) (sh : Option (List ShadowData)),
      Paint m input =
        pre ++ under ++ ts ++ [PaintOp.DrawTextBlob blob] ++ lt ++ emph ++ post ∧
      (∀ op ∈ pre, op.isTransformOp = true) ∧
      PaintDecorationsExceptLineThrough pre input.decorations input.box fs asc desc
        input.state_ids sh sf = pre ++ under ∧
      (∀ op ∈ under, op.isDecorationOp = true) ∧
      under.countP PaintOp.isClearShadow ≤ 1 ∧
      (∀ op ∈ ts, op.isDrawShadow = true) ∧
      PaintDecorationsLineThrough (pre ++ under ++ ts ++ [PaintOp.DrawTextBlob blob])
        input.decorations input.box fs asc desc input.state_ids sh sf =
        pre ++ under ++ ts ++ [PaintOp.DrawTextBlob blob] ++ lt ∧
      (∀ op ∈ lt, op.isDecorationOp = true) ∧
      lt.countP PaintOp.isClearShadow ≤ 1 ∧
      (((∃ e, input.emphasis_mark = some e ∧ e.mark.isEmpty = false) ∧
          input.is_ellipsis = false) → ∃ op, emph = [PaintOp.DrawEmphasisMarks op]) ∧
      (¬ ((∃ e, input.emphasis_mark = some e ∧ e.mark.isEmpty = false) ∧
          input.is_ellipsis = false) → emph = []) ∧
      (post = [] ∨ post = [PaintOp.Restore]) := by
  have hg4 : (!input.fragment.HasShapeResult && !input.is_line_break) = false := by
    rcases hs with h | h <;> simp [h]
  generalize hP : Paint m input = r
  unfold Paint at hP
  lift_lets at hP
  extract_lets ops0 src effective_style scaling_factor has_svg_transform svg_transform
    needs_rotation rotation shape text_combine origin state_saved opsA opsB opsC ops1
    has_shadows has_decorations font_size ascent descent ops2 flags blob_runs bounds
    ops3 ops4 ops5 ops6 at hP
  rw [if_neg (by simp [hv]), hm] at hP
  dsimp only at hP
  rw [if_neg (not_le.2 hft), hg4, hfc, if_neg (by simp), if_neg (by simp)] at hP
  -- the transform prefix
  have h1 : ∀ op ∈ ops1, op.isTransformOp = true := by
    intro op hop
    simp only [ops1, opsC, opsB, opsA, ops0, PaintOpList.Save, PaintOpList.Scale,
      PaintOpList.Concat] at hop
    split_ifs at hop <;> simp at hop <;> (try rcases hop with h | h | h | h) <;>
      simp_all [PaintOp.isTransformOp]
  -- decorations before the text
  have h2 : ops2 = PaintDecorationsExceptLineThrough ops1 input.decorations input.box
      font_size ascent descent input.state_ids effective_style.shadow scaling_factor := by
    by_cases hd : has_decorations = true
    · simp only [ops2, if_pos hd]
    · simp only [ops2, if_neg hd]
      have he : input.decorations.isEmpty = true := by simpa [has_decorations] using hd
      unfold PaintDecorationsExceptLineThrough
      rw [if_pos he]
  obtain ⟨under, hunder, hunderP, hunderC⟩ := PaintDecorationsExceptLineThrough_summary ops1
    input.decorations input.box font_size ascent descent input.state_ids
    effective_style.shadow scaling_factor
  -- text shadows
  have h3 : ∃ ts, ops3 = ops2 ++ ts ∧ ∀ op ∈ ts, op.isDrawShadow = true := by
    by_cases hc : (has_shadows && !has_decorations) = true
    · refine ⟨(effective_style.shadow.getD []).reverse.map shadowOp, ?_,
        shadowOps_isDrawShadow _⟩
      simp only [ops3, if_pos hc, PaintShadows_eq]
    · exact ⟨[], by simp only [ops3, if_neg hc, List.append_nil], by simp⟩
  obtain ⟨ts, hts, htsP⟩ := h3
  -- the text blob
  have h4 : ∃ blob, ops4 = ops3 ++ [PaintOp.DrawTextBlob blob] := ⟨_, rfl⟩
  obtain ⟨blob, hblob⟩ := h4
  -- line-through decorations
  have h5 : ops5 = PaintDecorationsLineThrough ops4 input.decorations input.box
      font_size ascent descent input.state_ids effective_style.shadow scaling_factor := by
    by_cases hd : has_decorations = true
    · simp only [ops5, if_pos hd]
    · simp only [ops5, if_neg hd]
      have he : input.decorations.isEmpty = true := by simpa [has_decorations] using hd
      unfold PaintDecorationsLineThrough
      rw [if_pos he]
  obtain ⟨lt, hlt, hltP, hltC⟩ := PaintDecorationsLineThrough_summary ops4
    input.decorations input.box font_size ascent descent input.state_ids
    effective_style.shadow scaling_factor
  -- emphasis marks
  have h6 : ∃ emph, ops6 = ops5 ++ emph ∧
      (((∃ e, input.emphasis_mark = some e ∧ e.mark.isEmpty = false) ∧
          input.is_ellipsis = false) → ∃ op, emph = [PaintOp.DrawEmphasisMarks op]) ∧
      (¬ ((∃ e, input.emphasis_mark = some e ∧ e.mark.isEmpty = false) ∧
          input.is_ellipsis = false) → emph = []) := by
    rcases he : input.emphasis_mark with _ | e
    · refine ⟨[], ?_, ?_, fun _ => rfl⟩
      · simp only [ops6, he, List.append_nil]
      · rintro ⟨⟨e, h, -⟩, -⟩
        exact absurd h (by simp)
    · by_cases hc : (!e.mark.isEmpty && !input.is_ellipsis) = true
      · have hc1 : e.mark.isEmpty = false := by
          cases h : e.mark.isEmpty <;> simp_all
        have hE : ∃ op, PaintEmphasisMarks ops5 e shape origin
            effective_style.emphasis_mark_color input.state_ids =
              ops5 ++ [PaintOp.DrawEmphasisMarks op] := by
          unfold PaintEmphasisMarks
          rw [hc1, if_neg (by simp)]
          exact ⟨_, rfl⟩
        obtain ⟨op, hop⟩ := hE
        refine ⟨[PaintOp.DrawEmphasisMarks op], ?_, fun _ => ⟨op, rfl⟩, ?_⟩
        · simp only [ops6, he, if_pos hc, hop]
        · intro hn
          exfalso
          apply hn
          refine ⟨⟨e, rfl, hc1⟩, ?_⟩
          cases h : input.is_ellipsis <;> simp_all
      · refine ⟨[], ?_, ?_, fun _ => rfl⟩
        · simp only [ops6, he, if_neg hc, List.append_nil]
        · rintro ⟨⟨e2, h, hne⟩, hell⟩
          cases h
          exact absurd (by simp [hne, hell]) hc
  obtain ⟨emph, hemph, hemphP, hemphN⟩ := h6
  -- closing restore
  have h7 : ∃ post, r = ops6 ++ post ∧ (post = [] ∨ post = [PaintOp.Restore]) := by
    by_cases hc : state_saved = true
    · exact ⟨[PaintOp.Restore], by rw [← hP, if_pos hc]; rfl, Or.inr rfl⟩
    · exact ⟨[], by rw [← hP, if_neg hc, List.append_nil], Or.inl rfl⟩
  obtain ⟨post, hpost, hpostP⟩ := h7
  rw [← h2] at hunder
  rw [← h5] at hlt
  refine ⟨ops1, under, ts, lt, emph, post, blob, font_size, ascent, descent, scaling_factor,
    effective_style.shadow, ?_, h1, ?_, hunderP, hunderC, htsP, ?_, hltP, hltC, hemphP,
    hemphN, hpostP⟩
  · rw [hpost, hemph, hlt, hblob, hts, hunder]
  · rw [← h2, hunder]
  · rw [← hunder, ← hts, ← hblob, ← h5, hlt]

theorem isTransformOp_not (op : PaintOp) (h : op.isTransformOp = true) :
    op.isDrawTextBlob = false ∧ op.isDrawEmphasisMarks = false ∧ op.isClearShadow = false := by
  cases op <;> first | exact ⟨rfl, rfl, rfl⟩ | exact absurd h (by simp [PaintOp.isTransformOp])

theorem isDecorationOp_not (op : PaintOp) (h : op.isDecorationOp = true) :
    op.isDrawTextBlob = false ∧ op.isDrawEmphasisMarks = false := by
  cases op <;> first
    | exact ⟨rfl, rfl⟩
    | exact absurd h (by
        simp [PaintOp.isDecorationOp, PaintOp.isLineOp, PaintOp.isDrawShadow,
          PaintOp.isClearShadow])

theorem isDrawShadow_not (op : PaintOp) (h : op.isDrawShadow = true) :
    op.isDrawTextBlob = false ∧ op.isDrawEmphasisMarks = false ∧ op.isClearShadow = false := by
  cases op <;> first | exact ⟨rfl, rfl, rfl⟩ | exact absurd h (by simp [PaintOp.isDrawShadow])

theorem segments_counts (pre under ts lt emph post : PaintOpList) (blob : DrawTextBlobOp)
    (hpre : ∀ op ∈ pre, op.isTransformOp = true)
    (hunder : ∀ op ∈ under, op.isDecorationOp = true)
    (hunderC : under.countP PaintOp.isClearShadow ≤ 1)
    (hts : ∀ op ∈ ts, op.isDrawShadow = true)
    (hlt : ∀ op ∈ lt, op.isDecorationOp = true)
    (hltC : lt.countP PaintOp.isClearShadow ≤ 1)
    (hemph : emph = [] ∨ ∃ op, emph = [PaintOp.DrawEmphasisMarks op])
    (hpost : post = [] ∨ post = [PaintOp.Restore]) :
    (pre ++ under ++ ts ++ [PaintOp.DrawTextBlob blob] ++ lt ++ emph ++ post).countP
        PaintOp.isDrawTextBlob = 1 ∧
    (pre ++ under ++ ts ++ [PaintOp.DrawTextBlob blob] ++ lt ++ emph ++ post).countP
        PaintOp.isDrawEmphasisMarks = emph.length ∧
    (pre ++ under ++ ts ++ [PaintOp.DrawTextBlob blob] ++ lt ++ emph ++ post).countP
        PaintOp.isClearShadow ≤ 2 := by
  have a1 := countP_zero_of_all _ PaintOp.isDrawTextBlob
    (fun op h => (isTransformOp_not op h).1) pre hpre
  have a2 := countP_zero_of_all _ PaintOp.isDrawEmphasisMarks
    (fun op h => (isTransformOp_not op h).2.1) pre hpre
  have a3 := countP_zero_of_all _ PaintOp.isClearShadow
    (fun op h => (isTransformOp_not op h).2.2) pre hpre
  have b1 := countP_zero_of_all _ PaintOp.isDrawTextBlob
    (fun op h => (isDecorationOp_not op h).1) under hunder
  have b2 := countP_zero_of_all _ PaintOp.isDrawEmphasisMarks
    (fun op h => (isDecorationOp_not op h).2) under hunder
  have c1 := countP_zero_of_all _ PaintOp.isDrawTextBlob
    (fun op h => (isDrawShadow_not op h).1) ts hts
  have c2 := countP_zero_of_all _ PaintOp.isDrawEmphasisMarks
    (fun op h => (isDrawShadow_not op h).2.1) ts hts
  have c3 := countP_zero_of_all _ PaintOp.isClearShadow
    (fun op h => (isDrawShadow_not op h).2.2) ts hts
  have d1 := countP_zero_of_all _ PaintOp.isDrawTextBlob
    (fun op h => (isDecorationOp_not op h).1) lt hlt
  have d2 := countP_zero_of_all _ PaintOp.isDrawEmphasisMarks
    (fun op h => (isDecorationOp_not op h).2) lt hlt
  have e1 : emph.countP PaintOp.isDrawTextBlob = 0 := by
    rcases hemph with rfl | ⟨op, rfl⟩ <;> rfl
  have e2 : emph.countP PaintOp.isDrawEmphasisMarks = emph.length := by
    rcases hemph with rfl | ⟨op, rfl⟩ <;> rfl
  have e3 : emph.countP PaintOp.isClearShadow = 0 := by
    rcases hemph with rfl | ⟨op, rfl⟩ <;> rfl
  have f1 : post.countP PaintOp.isDrawTextBlob = 0 := by
    rcases hpost with rfl | rfl <;> rfl
  have f2 : post.countP PaintOp.isDrawEmphasisMarks = 0 := by
    rcases hpost with rfl | rfl <;> rfl
  have f3 : post.countP PaintOp.isClearShadow = 0 := by
    rcases hpost with rfl | rfl <;> rfl
  have g1 : [PaintOp.DrawTextBlob blob].countP PaintOp.isDrawTextBlob = 1 := rfl
  have g2 : [PaintOp.DrawTextBlob blob].countP PaintOp.isDrawEmphasisMarks = 0 := rfl
  have g3 : [PaintOp.DrawTextBlob blob].countP PaintOp.isClearShadow = 0 := rfl
  refine ⟨?_, ?_, ?_⟩
  · simp only [List.countP_append, a1, b1, c1, d1, e1, f1, g1]
  · simp only [List.countP_append, a2, b2, c2, d2, e2, f2, g2]
    omega
  · simp only [List.countP_append, a3, c3, e3, f3, g3]
    omega

theorem PaintSymbolMarker_clear_count (marker : SymbolMarkerInfo) (ids : GraphicsStateIds) :
    (PaintSymbolMarker [] marker ids).countP PaintOp.isClearShadow = 0 := by
  unfold PaintSymbolMarker
  rcases marker.type with _ | _ | _ | _ | _ | _ <;> rfl

theorem Paint_hidden (m : FloatMath) (input : TextPaintInput)
    (hv : input.visibility ≠ Visibility.kVisible) : Paint m input = [] := by
  unfold Paint
  simp only [ne_eq, hv, not_false_eq_true, if_true]

theorem Paint_marker (m : FloatMath) (input : TextPaintInput)
    (hv : input.visibility = Visibility.kVisible) (marker : SymbolMarkerInfo)
    (hm : input.symbol_marker.filter
      (fun marker => marker.type != SymbolMarkerType.kNone) = some marker) :
    Paint m input = PaintSymbolMarker [] marker input.state_ids := by
  unfold Paint
  simp only [hv, ne_eq, not_true_eq_false, if_false, hm]

theorem Paint_gated (m : FloatMath) (input : TextPaintInput)
    (hv : input.visibility = Visibility.kVisible)
    (hm : input.symbol_marker.filter
      (fun marker => marker.type != SymbolMarkerType.kNone) = none)
    (hg : input.fragment.from_ ≥ input.fragment.to_ ∨
      (!input.fragment.HasShapeResult && !input.is_line_break) = true ∨
      input.is_flow_control = true) : Paint m input = [] := by
  unfold Paint
  simp only [hv, ne_eq, not_true_eq_false, if_false, hm]
  by_cases h1 : input.fragment.from_ ≥ input.fragment.to_
  · rw [if_pos h1]
  · rw [if_neg h1]
    by_cases h2 : (!input.fragment.HasShapeResult && !input.is_line_break) = true
    · rw [if_pos h2]
    · rw [if_neg h2]
      rcases hg with h | h | h
      · exact absurd h h1
      · exact absurd h h2
      · rw [if_pos h]

theorem Paint_clear_count (m : FloatMath) (input : TextPaintInput) :
    (Paint m input).countP PaintOp.isClearShadow ≤ 2 := by
  by_cases hv : input.visibility = Visibility.kVisible
  · rcases hm : input.symbol_marker.filter
        (fun marker => marker.type != SymbolMarkerType.kNone) with _ | marker
    · by_cases hg : input.fragment.from_ ≥ input.fragment.to_ ∨
          (!input.fragment.HasShapeResult && !input.is_line_break) = true ∨
          input.is_flow_control = true
      · rw [Paint_gated m input hv hm hg]; simp
      · have hft : input.fragment.from_ < input.fragment.to_ := by
          by_contra h
          exact hg (Or.inl (not_lt.1 h))
        have hs' : input.fragment.HasShapeResult = true ∨ input.is_line_break = true := by
          by_contra h
          apply hg
          right; left
          cases h1 : input.fragment.HasShapeResult <;> cases h2 : input.is_line_break <;>
            simp_all
        have hfc' : input.is_flow_control = false := by
          cases h : input.is_flow_control
          · rfl
          · exact absurd (Or.inr (Or.inr h)) hg
        obtain ⟨pre, under, ts, lt, emph, post, blob, fs, asc, desc, sf, sh, hEq, hpre, -,
          hunder, hunderC, hts, -, hlt, hltC, hemphP, hemphN, hpost⟩ :=
          Paint_decomp m input hv hm hft hs' hfc'
        have hemph : emph = [] ∨ ∃ op, emph = [PaintOp.DrawEmphasisMarks op] := by
          by_cases hc : (∃ e, input.emphasis_mark = some e ∧ e.mark.isEmpty = false) ∧
              input.is_ellipsis = false
          · exact Or.inr (hemphP hc)
          · exact Or.inl (hemphN hc)
        rw [hEq]
        exact (segments_counts pre under ts lt emph post blob hpre hunder hunderC hts hlt
          hltC hemph hpost).2.2
    · rw [Paint_marker m input hv marker hm, PaintSymbolMarker_clear_count]
      omega
  · rw [Paint_hidden m input hv]; simp

theorem filter_marker_some (input : TextPaintInput) (marker : SymbolMarkerInfo)
    (hmk : input.symbol_marker = some marker)
    (ht : marker.type ≠ SymbolMarkerType.kNone) :
    input.symbol_marker.filter (fun marker => marker.type != SymbolMarkerType.kNone) =
      some marker := by
  rw [hmk]
  simp [Option.filter, ht]

theorem ctrunc_intCast (n : ℤ) : ctrunc (n : ℚ) = n := by
  unfold ctrunc
  split_ifs <;> simp

theorem tmod_two_ne_zero_iff (n : ℤ) : Int.tmod n 2 ≠ 0 ↔ Odd n := by
  rw [← Int.not_even_iff_odd, even_iff_two_dvd, Int.dvd_iff_tmod_eq_zero]

theorem cround_eq_intCast (x : ℚ) : ∃ n : ℤ, cround x = (n : ℚ) := by
  unfold cround
  split_ifs
  · exact ⟨_, rfl⟩
  · exact ⟨_, rfl⟩

theorem SetLineData_offsets (info : TextDecorationInfo) (line : TextDecorationLine)
    (off : ℚ) :
    (info.SetLineData line off).line_geometry_.double_offset =
      (if line = TextDecorationLine.kUnderline then info.resolved_thickness_ + 1
       else if line = TextDecorationLine.kOverline then -(info.resolved_thickness_ + 1)
       else if line = TextDecorationLine.kLineThrough then
         cfloor (info.resolved_thickness_ + 1)
       else 0) ∧
    ∀ d, info.decorations_[info.decoration_index_]? = some d →
      d.style = TextDecorationStyle.kWavy →
      (info.SetLineData line off).line_geometry_.wavy_offset =
        (if line = TextDecorationLine.kUnderline then info.resolved_thickness_ + 1
         else if line = TextDecorationLine.kOverline then -(info.resolved_thickness_ + 1)
         else 0) := by
  constructor
  · unfold TextDecorationInfo.SetLineData DecorationGeometry.Make
    simp only [TextDecorationInfo.ResolvedThickness]
    split_ifs <;> rfl
  · intro d hd hw
    unfold TextDecorationInfo.SetLineData DecorationGeometry.Make
    simp only [hd, TextDecoration.GetStrokeStyle, hw, TextDecorationStyleToStrokeStyle,
      TextDecorationInfo.ResolvedThickness, if_true]
    split_ifs <;> rfl

theorem LinePainter_stroke_eq (state_ids : GraphicsStateIds) (ops : PaintOpList)
    (geometry : DecorationGeometry) (color : Color)
    (hw : 0 < geometry.line.width)
    (hs : geometry.style = StrokeStyle.kDottedStroke ∨
      geometry.style = StrokeStyle.kDashedStroke) :
    ∃ op : DrawStrokeLineOp,
      DecorationLinePainter.Paint state_ids ops geometry color =
        ops ++ [PaintOp.DrawStrokeLine op] ∧
      op.thickness = cround geometry.line.height ∧
      op.style = geometry.style ∧ op.color = color ∧
      op.p1.x = (if StrokeIsDashed (cround geometry.line.height) geometry.style = true
        then geometry.line.x else geometry.line.x + cround geometry.line.height / 2) ∧
      op.p2.x = (if StrokeIsDashed (cround geometry.line.height) geometry.style = true
        then geometry.line.x + geometry.line.width
        else geometry.line.x + geometry.line.width - cround geometry.line.height / 2) := by
  have hnw : ¬ geometry.line.width ≤ 0 := not_le.2 hw
  have key : ∀ style, style = StrokeStyle.kDottedStroke ∨ style = StrokeStyle.kDashedStroke →
      geometry.style = style →
      ∃ op : DrawStrokeLineOp,
        DecorationLinePainter.Paint state_ids ops geometry color =
          ops ++ [PaintOp.DrawStrokeLine op] ∧
        op.thickness = cround geometry.line.height ∧
        op.style = style ∧ op.color = color ∧
        op.p1.x = (if StrokeIsDashed (cround geometry.line.height) style = true
          then geometry.line.x else geometry.line.x + cround geometry.line.height / 2) ∧
        op.p2.x = (if StrokeIsDashed (cround geometry.line.height) style = true
          then geometry.line.x + geometry.line.width
          else geometry.line.x + geometry.line.width - cround geometry.line.height / 2) := by
    intro style hstyle hgs
    unfold DecorationLinePainter.Paint
    rw [if_neg hnw, hgs]
    rcases hstyle with rfl | rfl
    · refine ⟨_, rfl, rfl, rfl, rfl, ?_, ?_⟩
      · simp only [GetSnappedPointsForTextLine, DecorationGeometry.Thickness]
        split_ifs <;> simp_all
      · simp only [GetSnappedPointsForTextLine, DecorationGeometry.Thickness]
        split_ifs <;> simp_all
    · refine ⟨_, rfl, rfl, rfl, rfl, ?_, ?_⟩
      · simp only [GetSnappedPointsForTextLine, DecorationGeometry.Thickness]
        split_ifs <;> simp_all
      · simp only [GetSnappedPointsForTextLine, DecorationGeometry.Thickness]
        split_ifs <;> simp_all
  obtain ⟨op, h1, h2, h3, h4, h5, h6⟩ := key geometry.style hs rfl
  exact ⟨op, h1, h2, h3, h4, h5, h6⟩

theorem LinePainter_wavy_eq (state_ids : GraphicsStateIds) (ops : PaintOpList)
    (geometry : DecorationGeometry) (color : Color)
    (hw : 0 < geometry.line.width) (hs : geometry.style = StrokeStyle.kWavyStroke) :
    DecorationLinePainter.Paint state_ids ops geometry color =
      DecorationLinePainter.PaintWavyTextDecoration state_ids ops geometry color := by
  unfold DecorationLinePainter.Paint
  rw [if_neg (not_le.2 hw), hs]

theorem LinePainter_Paint_local (ids : GraphicsStateIds) (ops : PaintOpList)
    (g : DecorationGeometry) (c : Color) :
    DecorationLinePainter.Paint ids ops g c =
      ops ++ DecorationLinePainter.Paint ids [] g c := by
  unfold DecorationLinePainter.Paint DecorationLinePainter.PaintWavyTextDecoration
  by_cases hwidth : g.line.width ≤ 0
  · rw [if_pos hwidth, if_pos hwidth, List.append_nil]
  · rw [if_neg hwidth, if_neg hwidth]
    rcases hs : g.style with _ | _ | _ | _ | _ | _ <;>
      simp only [reduceCtorEq, if_false, if_true, List.nil_append, List.append_nil,
        List.append_assoc, List.singleton_append]

theorem LinePainter_Paint_map (ids : GraphicsStateIds) (ops : PaintOpList)
    (g : DecorationGeometry) (c k : Color) :
    (DecorationLinePainter.Paint ids ops g c).map (PaintOp.withLineColor k) =
      DecorationLinePainter.Paint ids (ops.map (PaintOp.withLineColor k)) g k := by
  unfold DecorationLinePainter.Paint DecorationLinePainter.PaintWavyTextDecoration
  by_cases hwidth : g.line.width ≤ 0
  · rw [if_pos hwidth, if_pos hwidth]
  · rw [if_neg hwidth, if_neg hwidth]
    rcases hs : g.style with _ | _ | _ | _ | _ | _ <;>
      simp only [reduceCtorEq, if_false, if_true, List.map_append, List.map_cons,
        List.map_nil, PaintOp.withLineColor]

theorem LinePainter_Paint_color (ids : GraphicsStateIds)
    (g : DecorationGeometry) (c : Color) :
    ∀ op ∈ DecorationLinePainter.Paint ids [] g c, op.lineColor = some c := by
  unfold DecorationLinePainter.Paint DecorationLinePainter.PaintWavyTextDecoration
  by_cases hwidth : g.line.width ≤ 0
  · rw [if_pos hwidth]; simp
  · rw [if_neg hwidth]
    rcases hs : g.style with _ | _ | _ | _ | _ | _ <;>
      simp [PaintOp.lineColor]

theorem LinePainter_Paint_narrow (ids : GraphicsStateIds) (ops : PaintOpList)
    (g : DecorationGeometry) (c : Color) (hw : g.line.width ≤ 0) :
    DecorationLinePainter.Paint ids ops g c = ops := by
  unfold DecorationLinePainter.Paint
  rw [if_pos hw]

theorem core_SetLineData (info : TextDecorationInfo) (line : TextDecorationLine) (off : ℚ) :
    info.SetLineData line off = info.core.SetLineData line off := rfl

theorem core_core (info : TextDecorationInfo) (g : DecorationGeometry) :
    TextDecorationInfo.core { info with line_geometry_ := g } = info.core := rfl

theorem core_SetUnderlineLineData (info : TextDecorationInfo) :
    info.SetUnderlineLineData.core = info.core := by
  rw [SetUnderlineLineData_eq]; rfl

theorem core_SetOverlineLineData (info : TextDecorationInfo) :
    info.SetOverlineLineData.core = info.core := by
  rw [SetOverlineLineData_eq]; rfl

theorem core_SetLineThroughLineData (info : TextDecorationInfo) :
    info.SetLineThroughLineData.core = info.core := by
  rw [SetLineThroughLineData_eq]; rfl

theorem core_SetSpellingOrGrammarErrorLineData (info : TextDecorationInfo) :
    info.SetSpellingOrGrammarErrorLineData.core = info.core := by
  rw [SetSpellingOrGrammarErrorLineData_eq]; rfl

theorem core_HasUnderline (x y : TextDecorationInfo) (h : x.core = y.core) :
    x.HasUnderline = y.HasUnderline := by
  show x.core.has_underline_ = y.core.has_underline_
  rw [h]

theorem core_HasOverline (x y : TextDecorationInfo) (h : x.core = y.core) :
    x.HasOverline = y.HasOverline := by
  show x.core.has_overline_ = y.core.has_overline_
  rw [h]

theorem core_lines (x y : TextDecorationInfo) (h : x.core = y.core) :
    x.lines_ = y.lines_ := by
  show x.core.lines_ = y.core.lines_
  rw [h]

theorem core_HasLineThrough (x y : TextDecorationInfo) (h : x.core = y.core) :
    x.HasLineThrough = y.HasLineThrough := by
  unfold TextDecorationInfo.HasLineThrough
  rw [core_lines x y h]

theorem core_HasSpellingOrGrammarError (x y : TextDecorationInfo) (h : x.core = y.core) :
    x.HasSpellingOrGrammarError = y.HasSpellingOrGrammarError := by
  unfold TextDecorationInfo.HasSpellingOrGrammarError
  rw [core_lines x y h]

theorem core_LineColor (x y : TextDecorationInfo) (h : x.core = y.core) :
    x.LineColor = y.LineColor := by
  have h1 : x.decorations_ = y.decorations_ := by
    show x.core.decorations_ = y.core.decorations_
    rw [h]
  have h2 : x.decoration_index_ = y.decoration_index_ := by
    show x.core.decoration_index_ = y.core.decoration_index_
    rw [h]
  unfold TextDecorationInfo.LineColor
  rw [h1, h2]

theorem core_LineColorForPhase (x y : TextDecorationInfo) (h : x.core = y.core)
    (phase : TextShadowPaintPhase) :
    TextDecorationPainter.LineColorForPhase x phase =
      TextDecorationPainter.LineColorForPhase y phase := by
  unfold TextDecorationPainter.LineColorForPhase
  rw [core_LineColor x y h]

theorem SetUnderlineLineData_core (x y : TextDecorationInfo) (h : x.core = y.core)
    (hf : x.HasUnderline = true) : x.SetUnderlineLineData = y.SetUnderlineLineData := by
  have hfy : y.HasUnderline = true := by rw [← core_HasUnderline x y h]; exact hf
  have hx : x.SetUnderlineLineData = x.core.SetUnderlineLineData := by
    unfold TextDecorationInfo.SetUnderlineLineData
    have : x.core.HasUnderline = true := hf
    rw [hf, this]
    rfl
  have hy : y.SetUnderlineLineData = y.core.SetUnderlineLineData := by
    unfold TextDecorationInfo.SetUnderlineLineData
    have : y.core.HasUnderline = true := hfy
    rw [hfy, this]
    rfl
  rw [hx, hy, h]

theorem SetOverlineLineData_core (x y : TextDecorationInfo) (h : x.core = y.core)
    (hf : x.HasOverline = true) : x.SetOverlineLineData = y.SetOverlineLineData := by
  have hfy : y.HasOverline = true := by rw [← core_HasOverline x y h]; exact hf
  have hx : x.SetOverlineLineData = x.core.SetOverlineLineData := by
    unfold TextDecorationInfo.SetOverlineLineData
    have : x.core.HasOverline = true := hf
    rw [hf, this]
    rfl
  have hy : y.SetOverlineLineData = y.core.SetOverlineLineData := by
    unfold TextDecorationInfo.SetOverlineLineData
    have : y.core.HasOverline = true := hfy
    rw [hfy, this]
    rfl
  rw [hx, hy, h]

theorem SetLineThroughLineData_core (x y : TextDecorationInfo) (h : x.core = y.core)
    (hf : x.HasLineThrough = true) :
    x.SetLineThroughLineData = y.SetLineThroughLineData := by
  have hfy : y.HasLineThrough = true := by rw [← core_HasLineThrough x y h]; exact hf
  have hx : x.SetLineThroughLineData = x.core.SetLineThroughLineData := by
    unfold TextDecorationInfo.SetLineThroughLineData
    have : x.core.HasLineThrough = true := hf
    rw [hf, this]
    rfl
  have hy : y.SetLineThroughLineData = y.core.SetLineThroughLineData := by
    unfold TextDecorationInfo.SetLineThroughLineData
    have : y.core.HasLineThrough = true := hfy
    rw [hfy, this]
    rfl
  rw [hx, hy, h]

theorem SetSpellingOrGrammarErrorLineData_core (x y : TextDecorationInfo)
    (h : x.core = y.core) (hf : x.HasSpellingOrGrammarError = true) :
    x.SetSpellingOrGrammarErrorLineData = y.SetSpellingOrGrammarErrorLineData := by
  have hfy : y.HasSpellingOrGrammarError = true := by
    rw [← core_HasSpellingOrGrammarError x y h]; exact hf
  have hx : x.SetSpellingOrGrammarErrorLineData =
      x.core.SetSpellingOrGrammarErrorLineData := by
    unfold TextDecorationInfo.SetSpellingOrGrammarErrorLineData
    have : x.core.HasSpellingOrGrammarError = true := hf
    rw [hf, this]
    rfl
  have hy : y.SetSpellingOrGrammarErrorLineData =
      y.core.SetSpellingOrGrammarErrorLineData := by
    unfold TextDecorationInfo.SetSpellingOrGrammarErrorLineData
    have : y.core.HasSpellingOrGrammarError = true := hfy
    rw [hfy, this]
    rfl
  rw [hx, hy, h]

theorem index_Update (info : TextDecorationInfo) :
    info.UpdateForDecorationIndex.decoration_index_ = info.decoration_index_ := by
  unfold TextDecorationInfo.UpdateForDecorationIndex
  split <;> rfl

theorem index_SetDecorationIndex (info : TextDecorationInfo) (i : Nat) :
    (info.SetDecorationIndex i).decoration_index_ = i := by
  unfold TextDecorationInfo.SetDecorationIndex
  split_ifs with h
  · exact h
  · rw [index_Update]

theorem SetDecorationIndex_self (x : TextDecorationInfo) (i : Nat)
    (h : x.decoration_index_ = i) : x.SetDecorationIndex i = x := by
  unfold TextDecorationInfo.SetDecorationIndex
  rw [if_pos h]

theorem inputs_Update (info : TextDecorationInfo) :
    info.UpdateForDecorationIndex.inputs = info.inputs := by
  unfold TextDecorationInfo.UpdateForDecorationIndex
  split <;> rfl

theorem inputs_SetDecorationIndex (info : TextDecorationInfo) (i : Nat) :
    (info.SetDecorationIndex i).inputs = info.inputs := by
  unfold TextDecorationInfo.SetDecorationIndex
  split_ifs
  · rfl
  · rw [inputs_Update]; rfl

theorem inputs_core (info : TextDecorationInfo) : info.core.inputs = info.inputs := rfl

theorem inputs_of_core (x y : TextDecorationInfo) (h : x.core = y.core) :
    x.inputs = y.inputs := by
  rw [← inputs_core x, h, inputs_core]

theorem inputs_decorations (x y : TextDecorationInfo) (h : x.inputs = y.inputs) :
    x.decorations_ = y.decorations_ := by
  show x.inputs.decorations_ = y.inputs.decorations_
  rw [h]

theorem core_eq_of_inputs (x y : TextDecorationInfo) (hin : x.inputs = y.inputs)
    (hidx : x.decoration_index_ = y.decoration_index_)
    (hlt : x.decoration_index_ < x.decorations_.length)
    (hx : CacheValid x) (hy : CacheValid y) : x.core = y.core := by
  have hd : x.decorations_ = y.decorations_ := inputs_decorations x y hin
  have hfs : x.font_size_ = y.font_size_ := by
    show x.inputs.font_size_ = y.inputs.font_size_
    rw [hin]
  have hft : x.font_underline_thickness_ = y.font_underline_thickness_ := by
    show x.inputs.font_underline_thickness_ = y.inputs.font_underline_thickness_
    rw [hin]
  have hd1 : x.decorations_[x.decoration_index_]? =
      some (x.decorations_[x.decoration_index_]) := List.getElem?_eq_getElem hlt
  have hd2 : y.decorations_[y.decoration_index_]? =
      some (x.decorations_[x.decoration_index_]) := by
    rw [← hd, ← hidx]; exact hd1
  obtain ⟨a1, a2, a3, a4⟩ := hx _ hd1
  obtain ⟨b1, b2, b3, b4⟩ := hy _ hd2
  have c1 : x.lines_ = y.lines_ := by rw [a1, b1]
  have c2 : x.has_underline_ = y.has_underline_ := by rw [a2, b2]
  have c3 : x.has_overline_ = y.has_overline_ := by rw [a3, b3]
  have c4 : x.resolved_thickness_ = y.resolved_thickness_ := by rw [a4, b4, hfs, hft]
  clear a1 a2 a3 a4 b1 b2 b3 b4 hd1 hd2 hx hy hlt hd hfs hft
  cases x
  cases y
  simp only [TextDecorationInfo.inputs, TextDecorationInfo.core,
    TextDecorationInfo.mk.injEq] at hin hidx c1 c2 c3 c4 ⊢
  obtain ⟨h1, h2, h3, h4, h5, h6, h7, h8, h9, h10, -, -, h11, -, -, -, h12, -⟩ := hin
  exact ⟨h1, h2, h3, h4, h5, h6, h7, h8, h9, h10, hidx, c1, h11, c2, c3, c4, h12, trivial⟩

theorem CacheValid_runCalls (calls : List InfoCall) (info : TextDecorationInfo)
    (h : CacheValid info) : CacheValid (runCalls calls info) := by
  induction calls generalizing info with
  | nil => exact h
  | cons c cs ih => exact ih _ (CacheValid_apply c info h)

theorem UnderOrOver_body_calls (ids : GraphicsStateIds) (lines : TextDecorationLine)
    (phase : TextShadowPaintPhase) (state : PaintOpList × TextDecorationInfo) (i : Nat) :
    ∃ calls, (TextDecorationPainter.PaintUnderOrOverLineDecorations_body ids lines phase
      state i).2 = runCalls calls state.2 := by
  unfold TextDecorationPainter.PaintUnderOrOverLineDecorations_body
  simp only
  split_ifs
  · exact ⟨[InfoCall.SetDecorationIndex i, InfoCall.SetSpellingOrGrammarErrorLineData], rfl⟩
  · exact ⟨[InfoCall.SetDecorationIndex i, InfoCall.SetUnderlineLineData,
      InfoCall.SetOverlineLineData], rfl⟩
  · exact ⟨[InfoCall.SetDecorationIndex i, InfoCall.SetUnderlineLineData], rfl⟩
  · exact ⟨[InfoCall.SetDecorationIndex i, InfoCall.SetOverlineLineData], rfl⟩
  · exact ⟨[InfoCall.SetDecorationIndex i], rfl⟩

theorem LineThrough_body_calls (ids : GraphicsStateIds)
    (phase : TextShadowPaintPhase) (state : PaintOpList × TextDecorationInfo) (i : Nat) :
    ∃ calls, (TextDecorationPainter.PaintLineThroughDecorations_body ids phase
      state i).2 = runCalls calls state.2 := by
  unfold TextDecorationPainter.PaintLineThroughDecorations_body
  simp only
  split_ifs
  · exact ⟨[InfoCall.SetDecorationIndex i, InfoCall.SetLineThroughLineData], rfl⟩
  · exact ⟨[InfoCall.SetDecorationIndex i], rfl⟩

theorem UnderOrOver_body_index (ids : GraphicsStateIds) (lines : TextDecorationLine)
    (phase : TextShadowPaintPhase) (ops : PaintOpList) (a : TextDecorationInfo) (i : Nat) :
    TextDecorationPainter.PaintUnderOrOverLineDecorations_body ids lines phase (ops, a) i =
      TextDecorationPainter.PaintUnderOrOverLineDecorations_body ids lines phase
        (ops, a.SetDecorationIndex i) i := by
  unfold TextDecorationPainter.PaintUnderOrOverLineDecorations_body
  simp only [SetDecorationIndex_self _ i (index_SetDecorationIndex a i)]

theorem LineThrough_body_index (ids : GraphicsStateIds)
    (phase : TextShadowPaintPhase) (ops : PaintOpList) (a : TextDecorationInfo) (i : Nat) :
    TextDecorationPainter.PaintLineThroughDecorations_body ids phase (ops, a) i =
      TextDecorationPainter.PaintLineThroughDecorations_body ids phase
        (ops, a.SetDecorationIndex i) i := by
  unfold TextDecorationPainter.PaintLineThroughDecorations_body
  simp only [SetDecorationIndex_self _ i (index_SetDecorationIndex a i)]

theorem UnderOrOver_body_core (ids : GraphicsStateIds) (lines : TextDecorationLine)
    (phase : TextShadowPaintPhase) (ops : PaintOpList) (x y : TextDecorationInfo) (i : Nat)
    (h : x.core = y.core) (hx : x.decoration_index_ = i) (hy : y.decoration_index_ = i) :
    (TextDecorationPainter.PaintUnderOrOverLineDecorations_body ids lines phase
        (ops, y) i).1 =
      ops ++ (TextDecorationPainter.PaintUnderOrOverLineDecorations_body ids lines phase
        ([], x) i).1 ∧
    (TextDecorationPainter.PaintUnderOrOverLineDecorations_body ids lines phase
        (ops, y) i).2.core = x.core := by
  unfold TextDecorationPainter.PaintUnderOrOverLineDecorations_body
  simp only [SetDecorationIndex_self x i hx, SetDecorationIndex_self y i hy]
  rw [← core_HasSpellingOrGrammarError x y h]
  by_cases hsp : (x.HasSpellingOrGrammarError &&
      HasFlag lines
        (TextDecorationLine.kSpellingError ||| TextDecorationLine.kGrammarError)) = true
  · rw [if_pos hsp, if_pos hsp]
    have hsp1 : x.HasSpellingOrGrammarError = true := (Bool.and_eq_true _ _ ▸ hsp).1
    rw [← SetSpellingOrGrammarErrorLineData_core x y h hsp1]
    exact ⟨LinePainter_Paint_local _ _ _ _, core_SetSpellingOrGrammarErrorLineData x⟩
  · rw [if_neg hsp, if_neg hsp, ← core_HasUnderline x y h]
    by_cases hu : (x.HasUnderline && HasFlag lines TextDecorationLine.kUnderline) = true
    · have hu1 : x.HasUnderline = true := (Bool.and_eq_true _ _ ▸ hu).1
      rw [if_pos hu, if_pos hu, ← SetUnderlineLineData_core x y h hu1]
      by_cases ho : (x.SetUnderlineLineData.HasOverline &&
          HasFlag lines TextDecorationLine.kOverline) = true
      · rw [if_pos ho, if_pos ho]
        refine ⟨?_, ?_⟩
        · rw [LinePainter_Paint_local ids (DecorationLinePainter.Paint ids ops _ _),
            LinePainter_Paint_local ids ops,
            LinePainter_Paint_local ids (DecorationLinePainter.Paint ids [] _ _),
            List.append_assoc]
        · rw [core_SetOverlineLineData, core_SetUnderlineLineData]
      · rw [if_neg ho, if_neg ho]
        exact ⟨LinePainter_Paint_local _ _ _ _, core_SetUnderlineLineData x⟩
    · rw [if_neg hu, if_neg hu, ← core_HasOverline x y h]
      by_cases ho : (x.HasOverline && HasFlag lines TextDecorationLine.kOverline) = true
      · have ho1 : x.HasOverline = true := (Bool.and_eq_true _ _ ▸ ho).1
        rw [if_pos ho, if_pos ho, ← SetOverlineLineData_core x y h ho1]
        exact ⟨LinePainter_Paint_local _ _ _ _, core_SetOverlineLineData x⟩
      · rw [if_neg ho, if_neg ho]
        exact ⟨(List.append_nil _).symm, h.symm⟩

theorem LineThrough_body_core (ids : GraphicsStateIds)
    (phase : TextShadowPaintPhase) (ops : PaintOpList) (x y : TextDecorationInfo) (i : Nat)
    (h : x.core = y.core) (hx : x.decoration_index_ = i) (hy : y.decoration_index_ = i) :
    (TextDecorationPainter.PaintLineThroughDecorations_body ids phase (ops, y) i).1 =
      ops ++ (TextDecorationPainter.PaintLineThroughDecorations_body ids phase
        ([], x) i).1 ∧
    (TextDecorationPainter.PaintLineThroughDecorations_body ids phase
        (ops, y) i).2.core = x.core := by
  unfold TextDecorationPainter.PaintLineThroughDecorations_body
  simp only [SetDecorationIndex_self x i hx, SetDecorationIndex_self y i hy]
  rw [← core_HasLineThrough x y h]
  by_cases hl : x.HasLineThrough = true
  · rw [if_pos hl, if_pos hl, ← SetLineThroughLineData_core x y h hl]
    exact ⟨LinePainter_Paint_local _ _ _ _, core_SetLineThroughLineData x⟩
  · rw [if_neg hl, if_neg hl]
    exact ⟨(List.append_nil _).symm, h.symm⟩

theorem decorations_SetDecorationIndex (info : TextDecorationInfo) (i : Nat) :
    (info.SetDecorationIndex i).decorations_ = info.decorations_ :=
  inputs_decorations _ _ (inputs_SetDecorationIndex info i)

theorem core_SetDecorationIndex (a b : TextDecorationInfo) (i : Nat)
    (hin : b.inputs = a.inputs) (ha : CacheValid a) (hb : CacheValid b)
    (hi : i < a.decorations_.length) :
    (a.SetDecorationIndex i).core = (b.SetDecorationIndex i).core := by
  apply core_eq_of_inputs
  · rw [inputs_SetDecorationIndex, inputs_SetDecorationIndex, hin]
  · rw [index_SetDecorationIndex, index_SetDecorationIndex]
  · rw [index_SetDecorationIndex, decorations_SetDecorationIndex]; exact hi
  · exact CacheValid_SetDecorationIndex _ _ ha
  · exact CacheValid_SetDecorationIndex _ _ hb

theorem UnderOrOver_body_rel (ids : GraphicsStateIds) (lines : TextDecorationLine)
    (phase : TextShadowPaintPhase) (ops : PaintOpList) (a b : TextDecorationInfo) (i : Nat)
    (hin : b.inputs = a.inputs) (ha : CacheValid a) (hb : CacheValid b)
    (hi : i < a.decorations_.length) :
    (TextDecorationPainter.PaintUnderOrOverLineDecorations_body ids lines phase
        (ops, b) i).1 = ops ++ underOverEntryOps ids lines phase a i ∧
    (TextDecorationPainter.PaintUnderOrOverLineDecorations_body ids lines phase
        (ops, b) i).2.inputs = a.inputs ∧
    CacheValid (TextDecorationPainter.PaintUnderOrOverLineDecorations_body ids lines phase
        (ops, b) i).2 := by
  have hc := core_SetDecorationIndex a b i hin ha hb hi
  obtain ⟨h1, h2⟩ := UnderOrOver_body_core ids lines phase ops _ _ i hc
    (index_SetDecorationIndex a i) (index_SetDecorationIndex b i)
  rw [← UnderOrOver_body_index, ← UnderOrOver_body_index] at h1
  rw [← UnderOrOver_body_index] at h2
  refine ⟨h1, ?_, ?_⟩
  · rw [inputs_of_core _ _ h2, inputs_SetDecorationIndex]
  · obtain ⟨calls, hcalls⟩ := UnderOrOver_body_calls ids lines phase (ops, b) i
    rw [hcalls]
    exact CacheValid_runCalls calls b hb

theorem LineThrough_body_rel (ids : GraphicsStateIds)
    (phase : TextShadowPaintPhase) (ops : PaintOpList) (a b : TextDecorationInfo) (i : Nat)
    (hin : b.inputs = a.inputs) (ha : CacheValid a) (hb : CacheValid b)
    (hi : i < a.decorations_.length) :
    (TextDecorationPainter.PaintLineThroughDecorations_body ids phase
        (ops, b) i).1 = ops ++ lineThroughEntryOps ids phase a i ∧
    (TextDecorationPainter.PaintLineThroughDecorations_body ids phase
        (ops, b) i).2.inputs = a.inputs ∧
    CacheValid (TextDecorationPainter.PaintLineThroughDecorations_body ids phase
        (ops, b) i).2 := by
  have hc := core_SetDecorationIndex a b i hin ha hb hi
  obtain ⟨h1, h2⟩ := LineThrough_body_core ids phase ops _ _ i hc
    (index_SetDecorationIndex a i) (index_SetDecorationIndex b i)
  rw [← LineThrough_body_index, ← LineThrough_body_index] at h1
  rw [← LineThrough_body_index] at h2
  refine ⟨h1, ?_, ?_⟩
  · rw [inputs_of_core _ _ h2, inputs_SetDecorationIndex]
  · obtain ⟨calls, hcalls⟩ := LineThrough_body_calls ids phase (ops, b) i
    rw [hcalls]
    exact CacheValid_runCalls calls b hb

theorem foldl_entries
    (body : PaintOpList × TextDecorationInfo → Nat → PaintOpList × TextDecorationInfo)
    (entry : Nat → PaintOpList) (a : TextDecorationInfo) (n : Nat)
    (hbody : ∀ ops b i, b.inputs = a.inputs → CacheValid b → i < n →
      (body (ops, b) i).1 = ops ++ entry i ∧ (body (ops, b) i).2.inputs = a.inputs ∧
      CacheValid (body (ops, b) i).2)
    (l : List Nat) (hl : ∀ i ∈ l, i < n) (ops : PaintOpList) (b : TextDecorationInfo)
    (hin : b.inputs = a.inputs) (hb : CacheValid b) :
    (l.foldl body (ops, b)).1 = ops ++ l.flatMap entry ∧
    (l.foldl body (ops, b)).2.inputs = a.inputs ∧
    CacheValid (l.foldl body (ops, b)).2 := by
  induction l generalizing ops b with
  | nil => exact ⟨by simp, hin, hb⟩
  | cons i l ih =>
    obtain ⟨h1, h2, h3⟩ := hbody ops b i hin hb (hl i (List.mem_cons_self _ _))
    have hst : body (ops, b) i = ((body (ops, b) i).1, (body (ops, b) i).2) := rfl
    rw [List.foldl_cons, hst]
    obtain ⟨k1, k2, k3⟩ := ih (fun j hj => hl j (List.mem_cons_of_mem _ hj))
      (body (ops, b) i).1 (body (ops, b) i).2 h2 h3
    refine ⟨?_, k2, k3⟩
    rw [k1, h1, List.flatMap_cons, List.append_assoc]

theorem UnderOrOver_paint_decorations_eq (ids : GraphicsStateIds)
    (lines : TextDecorationLine) (phase : TextShadowPaintPhase) (ops : PaintOpList)
    (a b : TextDecorationInfo) (hin : b.inputs = a.inputs)
    (ha : CacheValid a) (hb : CacheValid b) :
    (TextDecorationPainter.PaintUnderOrOverLineDecorations_paint_decorations ids lines
        phase (ops, b)).1 =
      ops ++ (List.range a.DecorationCount).flatMap (underOverEntryOps ids lines phase a) ∧
    (TextDecorationPainter.PaintUnderOrOverLineDecorations_paint_decorations ids lines
        phase (ops, b)).2.inputs = a.inputs ∧
    CacheValid (TextDecorationPainter.PaintUnderOrOverLineDecorations_paint_decorations ids
        lines phase (ops, b)).2 := by
  unfold TextDecorationPainter.PaintUnderOrOverLineDecorations_paint_decorations
  have hn : b.DecorationCount = a.DecorationCount := by
    unfold TextDecorationInfo.DecorationCount
    rw [inputs_decorations b a hin]
  simp only [hn]
  exact foldl_entries _ _ a a.DecorationCount
    (fun ops b i hin hb hi => UnderOrOver_body_rel ids lines phase ops a b i hin ha hb hi)
    _ (fun i hi => List.mem_range.1 hi) ops b hin hb

theorem LineThrough_paint_decorations_eq (ids : GraphicsStateIds)
    (phase : TextShadowPaintPhase) (ops : PaintOpList)
    (a b : TextDecorationInfo) (hin : b.inputs = a.inputs)
    (ha : CacheValid a) (hb : CacheValid b) :
    (TextDecorationPainter.PaintLineThroughDecorations_paint_decorations ids
        phase (ops, b)).1 =
      ops ++ (List.range a.DecorationCount).flatMap (lineThroughEntryOps ids phase a) ∧
    (TextDecorationPainter.PaintLineThroughDecorations_paint_decorations ids
        phase (ops, b)).2.inputs = a.inputs ∧
    CacheValid (TextDecorationPainter.PaintLineThroughDecorations_paint_decorations ids
        phase (ops, b)).2 := by
  unfold TextDecorationPainter.PaintLineThroughDecorations_paint_decorations
  have hn : b.DecorationCount = a.DecorationCount := by
    unfold TextDecorationInfo.DecorationCount
    rw [inputs_decorations b a hin]
  simp only [hn]
  exact foldl_entries _ _ a a.DecorationCount
    (fun ops b i hin hb hi => LineThrough_body_rel ids phase ops a b i hin ha hb hi)
    _ (fun i hi => List.mem_range.1 hi) ops b hin hb

theorem LineColorForPhase_shadow (info : TextDecorationInfo) :
    TextDecorationPainter.LineColorForPhase info TextShadowPaintPhase.kShadow =
      Color.Black := by
  unfold TextDecorationPainter.LineColorForPhase
  rw [if_pos rfl]

theorem underOverEntryOps_shadow (ids : GraphicsStateIds) (lines : TextDecorationLine)
    (phase : TextShadowPaintPhase) (a : TextDecorationInfo) (i : Nat) :
    underOverEntryOps ids lines TextShadowPaintPhase.kShadow a i =
      (underOverEntryOps ids lines phase a i).map (PaintOp.withLineColor Color.Black) := by
  unfold underOverEntryOps TextDecorationPainter.PaintUnderOrOverLineDecorations_body
  simp only [LineColorForPhase_shadow]
  split_ifs <;>
    simp only [LinePainter_Paint_map, List.map_nil]

theorem lineThroughEntryOps_shadow (ids : GraphicsStateIds)
    (phase : TextShadowPaintPhase) (a : TextDecorationInfo) (i : Nat) :
    lineThroughEntryOps ids TextShadowPaintPhase.kShadow a i =
      (lineThroughEntryOps ids phase a i).map (PaintOp.withLineColor Color.Black) := by
  unfold lineThroughEntryOps TextDecorationPainter.PaintLineThroughDecorations_body
  simp only [LineColorForPhase_shadow]
  split_ifs <;>
    simp only [LinePainter_Paint_map, List.map_nil]

theorem flatMap_map_entries (l : List Nat) (f : Nat → PaintOpList) (w : PaintOp → PaintOp) :
    (l.flatMap f).map w = l.flatMap (fun i => (f i).map w) := by
  induction l with
  | nil => rfl
  | cons i l ih => rw [List.flatMap_cons, List.map_append, ih, List.flatMap_cons]

theorem PaintUnderOrOver_shadowed (painter : TextDecorationPainter)
    (lines : TextDecorationLine) (list : List ShadowData)
    (hs : painter.shadows_ = some list) (hne : list ≠ [])
    (hv : CacheValid painter.decoration_info_) :
    (TextDecorationPainter.PaintUnderOrOverLineDecorations_paint_decorations
        painter.state_ids_ lines TextShadowPaintPhase.kShadow
        (painter.ops_ ++ list.reverse.map shadowOp, painter.decoration_info_)).1 =
      painter.ops_ ++ list.reverse.map shadowOp ++
        ((List.range painter.decoration_info_.DecorationCount).flatMap
          (underOverEntryOps painter.state_ids_ lines TextShadowPaintPhase.kForeground
            painter.decoration_info_)).map (PaintOp.withLineColor Color.Black) ∧
    (painter.PaintUnderOrOverLineDecorations lines).ops_ =
      (TextDecorationPainter.PaintUnderOrOverLineDecorations_paint_decorations
        painter.state_ids_ lines TextShadowPaintPhase.kShadow
        (painter.ops_ ++ list.reverse.map shadowOp, painter.decoration_info_)).1 ++
        [PaintOp.ClearShadow] ++
        (List.range painter.decoration_info_.DecorationCount).flatMap
          (underOverEntryOps painter.state_ids_ lines TextShadowPaintPhase.kForeground
            painter.decoration_info_) := by
  obtain ⟨s1, s2, s3⟩ := UnderOrOver_paint_decorations_eq painter.state_ids_ lines
    TextShadowPaintPhase.kShadow (painter.ops_ ++ list.reverse.map shadowOp)
    painter.decoration_info_ painter.decoration_info_ rfl hv hv
  refine ⟨?_, ?_⟩
  · rw [s1, flatMap_map_entries]
    congr 2
    funext i
    exact underOverEntryOps_shadow _ _ TextShadowPaintPhase.kForeground _ i
  · unfold TextDecorationPainter.PaintUnderOrOverLineDecorations
    rw [hs, PaintWithTextShadow_some _ _ _ list hne]
    exact (UnderOrOver_paint_decorations_eq painter.state_ids_ lines
      TextShadowPaintPhase.kForeground _ painter.decoration_info_ _ s2 hv s3).1

theorem PaintLineThrough_shadowed (painter : TextDecorationPainter)
    (list : List ShadowData)
    (hs : painter.shadows_ = some list) (hne : list ≠ [])
    (hv : CacheValid painter.decoration_info_) :
    (TextDecorationPainter.PaintLineThroughDecorations_paint_decorations
        painter.state_ids_ TextShadowPaintPhase.kShadow
        (painter.ops_ ++ list.reverse.map shadowOp, painter.decoration_info_)).1 =
      painter.ops_ ++ list.reverse.map shadowOp ++
        ((List.range painter.decoration_info_.DecorationCount).flatMap
          (lineThroughEntryOps painter.state_ids_ TextShadowPaintPhase.kForeground
            painter.decoration_info_)).map (PaintOp.withLineColor Color.Black) ∧
    painter.PaintLineThroughDecorations.ops_ =
      (TextDecorationPainter.PaintLineThroughDecorations_paint_decorations
        painter.state_ids_ TextShadowPaintPhase.kShadow
        (painter.ops_ ++ list.reverse.map shadowOp, painter.decoration_info_)).1 ++
        [PaintOp.ClearShadow] ++
        (List.range painter.decoration_info_.DecorationCount).flatMap
          (lineThroughEntryOps painter.state_ids_ TextShadowPaintPhase.kForeground
            painter.decoration_info_) := by
  obtain ⟨s1, s2, s3⟩ := LineThrough_paint_decorations_eq painter.state_ids_
    TextShadowPaintPhase.kShadow (painter.ops_ ++ list.reverse.map shadowOp)
    painter.decoration_info_ painter.decoration_info_ rfl hv hv
  refine ⟨?_, ?_⟩
  · rw [s1, flatMap_map_entries]
    congr 2
    funext i
    exact lineThroughEntryOps_shadow _ TextShadowPaintPhase.kForeground _ i
  · unfold TextDecorationPainter.PaintLineThroughDecorations
    rw [hs, PaintWithTextShadow_some _ _ _ list hne]
    exact (LineThrough_paint_decorations_eq painter.state_ids_
      TextShadowPaintPhase.kForeground _ painter.decoration_info_ _ s2 hv s3).1

theorem PaintUnderOrOver_unshadowed (painter : TextDecorationPainter)
    (lines : TextDecorationLine) (hs : HasTextShadow painter.shadows_ = false)
    (hv : CacheValid painter.decoration_info_) :
    (painter.PaintUnderOrOverLineDecorations lines).ops_ =
      painter.ops_ ++ (List.range painter.decoration_info_.DecorationCount).flatMap
        (underOverEntryOps painter.state_ids_ lines TextShadowPaintPhase.kForeground
          painter.decoration_info_) := by
  unfold TextDecorationPainter.PaintUnderOrOverLineDecorations
  have h := (UnderOrOver_paint_decorations_eq painter.state_ids_ lines
    TextShadowPaintPhase.kForeground painter.ops_ painter.decoration_info_
    painter.decoration_info_ rfl hv hv).1
  rcases (HasTextShadow_false_iff _).1 hs with h0 | h0
  · rw [h0, PaintWithTextShadow_none]; exact h
  · rw [h0, PaintWithTextShadow_empty]; exact h

theorem PaintLineThrough_unshadowed (painter : TextDecorationPainter)
    (hs : HasTextShadow painter.shadows_ = false)
    (hv : CacheValid painter.decoration_info_) :
    painter.PaintLineThroughDecorations.ops_ =
      painter.ops_ ++ (List.range painter.decoration_info_.DecorationCount).flatMap
        (lineThroughEntryOps painter.state_ids_ TextShadowPaintPhase.kForeground
          painter.decoration_info_) := by
  unfold TextDecorationPainter.PaintLineThroughDecorations
  have h := (LineThrough_paint_decorations_eq painter.state_ids_
    TextShadowPaintPhase.kForeground painter.ops_ painter.decoration_info_
    painter.decoration_info_ rfl hv hv).1
  rcases (HasTextShadow_false_iff _).1 hs with h0 | h0
  · rw [h0, PaintWithTextShadow_none]; exact h
  · rw [h0, PaintWithTextShadow_empty]; exact h

theorem lineColor_isLineOp (op : PaintOp) (c : Color) (h : op.lineColor = some c) :
    op.isLineOp = true := by
  cases op <;> first | rfl | exact absurd h (by simp [PaintOp.lineColor])

theorem isLineOp_lineColor (op : PaintOp) (h : op.isLineOp = true) :
    ∃ c, op.lineColor = some c ∧
      (op.withLineColor Color.Black).withLineColor c = op := by
  cases op <;> first
    | exact ⟨_, rfl, rfl⟩
    | exact absurd h (by simp [PaintOp.isLineOp])

theorem underOverEntryOps_color (ids : GraphicsStateIds) (lines : TextDecorationLine)
    (phase : TextShadowPaintPhase) (a : TextDecorationInfo) (i : Nat) :
    ∀ op ∈ underOverEntryOps ids lines phase a i,
      op.lineColor = some
        (TextDecorationPainter.LineColorForPhase (a.SetDecorationIndex i) phase) := by
  unfold underOverEntryOps TextDecorationPainter.PaintUnderOrOverLineDecorations_body
  simp only
  have cU := core_LineColorForPhase _ _
    (core_SetUnderlineLineData (a.SetDecorationIndex i)) phase
  have cO := core_LineColorForPhase _ _
    (core_SetOverlineLineData (a.SetDecorationIndex i)) phase
  have cS := core_LineColorForPhase _ _
    (core_SetSpellingOrGrammarErrorLineData (a.SetDecorationIndex i)) phase
  have cUO := core_LineColorForPhase _ _
    (core_SetOverlineLineData (a.SetDecorationIndex i).SetUnderlineLineData) phase
  split_ifs
  · intro op hop
    rw [← cS]
    exact LinePainter_Paint_color _ _ _ op hop
  · intro op hop
    rw [LinePainter_Paint_local] at hop
    rcases List.mem_append.1 hop with h | h
    · rw [← cU]
      exact LinePainter_Paint_color _ _ _ op h
    · rw [← cU, ← cUO]
      exact LinePainter_Paint_color _ _ _ op h
  · intro op hop
    rw [← cU]
    exact LinePainter_Paint_color _ _ _ op hop
  · intro op hop
    rw [← cO]
    exact LinePainter_Paint_color _ _ _ op hop
  · intro op hop
    exact absurd hop (List.not_mem_nil _)

theorem lineThroughEntryOps_color (ids : GraphicsStateIds)
    (phase : TextShadowPaintPhase) (a : TextDecorationInfo) (i : Nat) :
    ∀ op ∈ lineThroughEntryOps ids phase a i,
      op.lineColor = some
        (TextDecorationPainter.LineColorForPhase (a.SetDecorationIndex i) phase) := by
  unfold lineThroughEntryOps TextDecorationPainter.PaintLineThroughDecorations_body
  simp only
  have cL := core_LineColorForPhase _ _
    (core_SetLineThroughLineData (a.SetDecorationIndex i)) phase
  split_ifs
  · intro op hop
    rw [← cL]
    exact LinePainter_Paint_color _ _ _ op hop
  · intro op hop
    exact absurd hop (List.not_mem_nil _)

theorem LineColorForPhase_foreground (a : TextDecorationInfo) (i : Nat) (d : TextDecoration)
    (hd : a.decorations_[i]? = some d) :
    TextDecorationPainter.LineColorForPhase (a.SetDecorationIndex i)
      TextShadowPaintPhase.kForeground = d.color := by
  unfold TextDecorationPainter.LineColorForPhase TextDecorationInfo.LineColor
  rw [if_neg (by decide), decorations_SetDecorationIndex, index_SetDecorationIndex, hd]

theorem entries_foreground_color (a : TextDecorationInfo)
    (entry : Nat → PaintOpList)
    (hentry : ∀ i, ∀ op ∈ entry i, op.lineColor = some
      (TextDecorationPainter.LineColorForPhase (a.SetDecorationIndex i)
        TextShadowPaintPhase.kForeground)) :
    ∀ op ∈ (List.range a.DecorationCount).flatMap entry,
      ∃ d ∈ a.decorations_, op.lineColor = some d.color := by
  intro op hop
  obtain ⟨i, hi, hmem⟩ := List.mem_flatMap.1 hop
  have hlt : i < a.decorations_.length := List.mem_range.1 hi
  have hd : a.decorations_[i]? = some a.decorations_[i] := List.getElem?_eq_getElem hlt
  refine ⟨a.decorations_[i], List.getElem_mem _, ?_⟩
  rw [hentry i op hmem, LineColorForPhase_foreground a i _ hd]

theorem SetDecorationIndex_cache (a : TextDecorationInfo) (i : Nat) (d : TextDecoration)
    (hv : CacheValid a) (hd : a.decorations_[i]? = some d) :
    (a.SetDecorationIndex i).lines_ = d.line ∧
    (a.SetDecorationIndex i).has_underline_ = HasFlag d.line TextDecorationLine.kUnderline ∧
    (a.SetDecorationIndex i).has_overline_ = HasFlag d.line TextDecorationLine.kOverline := by
  obtain ⟨h1, h2, h3, -⟩ := CacheValid_SetDecorationIndex a i hv d
    (by rw [decorations_SetDecorationIndex, index_SetDecorationIndex]; exact hd)
  exact ⟨h1, h2, h3⟩

theorem width_SetDecorationIndex (a : TextDecorationInfo) (i : Nat) :
    (a.SetDecorationIndex i).width_ = a.width_ := by
  show (a.SetDecorationIndex i).inputs.width_ = a.inputs.width_
  rw [inputs_SetDecorationIndex]

theorem spelling_geometry (x : TextDecorationInfo)
    (h : x.HasSpellingOrGrammarError = true) :
    x.SetSpellingOrGrammarErrorLineData.GetGeometry.style = StrokeStyle.kWavyStroke ∧
    x.SetSpellingOrGrammarErrorLineData.GetGeometry.line.width = x.width_ := by
  unfold TextDecorationInfo.SetSpellingOrGrammarErrorLineData
  simp only [h, Bool.not_true, Bool.false_eq_true, if_false,
    TextDecorationInfo.GetGeometry, DecorationGeometry.Make, if_true, and_self]

theorem LineColorForPhase_eq (a : TextDecorationInfo) (i : Nat) (d : TextDecoration)
    (hd : a.decorations_[i]? = some d) (phase : TextShadowPaintPhase) :
    TextDecorationPainter.LineColorForPhase (a.SetDecorationIndex i) phase =
      (if phase = TextShadowPaintPhase.kShadow then Color.Black else d.color) := by
  unfold TextDecorationPainter.LineColorForPhase TextDecorationInfo.LineColor
  rw [decorations_SetDecorationIndex, index_SetDecorationIndex, hd]

theorem exceptLineThroughLines_flags :
    HasFlag TextDecorationPainter.exceptLineThroughLines
      (TextDecorationLine.kSpellingError ||| TextDecorationLine.kGrammarError) = true ∧
    HasFlag TextDecorationPainter.exceptLineThroughLines TextDecorationLine.kUnderline = true ∧
    HasFlag TextDecorationPainter.exceptLineThroughLines TextDecorationLine.kOverline = true :=
  ⟨by decide, by decide, by decide⟩

theorem underOverEntryOps_spelling (ids : GraphicsStateIds) (phase : TextShadowPaintPhase)
    (a : TextDecorationInfo) (i : Nat) (d : TextDecoration)
    (hv : CacheValid a) (hd : a.decorations_[i]? = some d)
    (hsp : HasFlag d.line
      (TextDecorationLine.kSpellingError ||| TextDecorationLine.kGrammarError) = true) :
    underOverEntryOps ids TextDecorationPainter.exceptLineThroughLines phase a i =
      DecorationLinePainter.Paint ids []
        (a.SetDecorationIndex i).SetSpellingOrGrammarErrorLineData.GetGeometry
        (if phase = TextShadowPaintPhase.kShadow then Color.Black else d.color) := by
  obtain ⟨hl, -, -⟩ := SetDecorationIndex_cache a i d hv hd
  have hhas : (a.SetDecorationIndex i).HasSpellingOrGrammarError = true := by
    unfold TextDecorationInfo.HasSpellingOrGrammarError
    rw [hl]; exact hsp
  unfold underOverEntryOps TextDecorationPainter.PaintUnderOrOverLineDecorations_body
  simp only
  rw [if_pos (by rw [hhas, exceptLineThroughLines_flags.1]; rfl),
    core_LineColorForPhase _ _
      (core_SetSpellingOrGrammarErrorLineData (a.SetDecorationIndex i)) phase,
    LineColorForPhase_eq a i d hd]

theorem underOverEntryOps_plain (ids : GraphicsStateIds) (phase : TextShadowPaintPhase)
    (a : TextDecorationInfo) (i : Nat) (d : TextDecoration)
    (hv : CacheValid a) (hd : a.decorations_[i]? = some d)
    (hsp : HasFlag d.line
      (TextDecorationLine.kSpellingError ||| TextDecorationLine.kGrammarError) = false) :
    underOverEntryOps ids TextDecorationPainter.exceptLineThroughLines phase a i =
      (if HasFlag d.line TextDecorationLine.kUnderline = true then
        DecorationLinePainter.Paint ids []
          (a.SetDecorationIndex i).SetUnderlineLineData.GetGeometry
          (if phase = TextShadowPaintPhase.kShadow then Color.Black else d.color)
       else []) ++
      (if HasFlag d.line TextDecorationLine.kOverline = true then
        DecorationLinePainter.Paint ids []
          (a.SetDecorationIndex i).SetOverlineLineData.GetGeometry
          (if phase = TextShadowPaintPhase.kShadow then Color.Black else d.color)
       else []) := by
  obtain ⟨hl, hu, ho⟩ := SetDecorationIndex_cache a i d hv hd
  have hhas : (a.SetDecorationIndex i).HasSpellingOrGrammarError = false := by
    unfold TextDecorationInfo.HasSpellingOrGrammarError
    rw [hl]; exact hsp
  have hU : (a.SetDecorationIndex i).HasUnderline =
      HasFlag d.line TextDecorationLine.kUnderline := hu
  have hO : (a.SetDecorationIndex i).HasOverline =
      HasFlag d.line TextDecorationLine.kOverline := ho
  have hcol := LineColorForPhase_eq a i d hd phase
  have cU := core_LineColorForPhase _ _
    (core_SetUnderlineLineData (a.SetDecorationIndex i)) phase
  have cO := core_LineColorForPhase _ _
    (core_SetOverlineLineData (a.SetDecorationIndex i)) phase
  have cUO := core_LineColorForPhase _ _
    (core_SetOverlineLineData (a.SetDecorationIndex i).SetUnderlineLineData) phase
  unfold underOverEntryOps TextDecorationPainter.PaintUnderOrOverLineDecorations_body
  simp only [hhas, Bool.false_and, Bool.false_eq_true, if_false, hU,
    exceptLineThroughLines_flags.2.1, exceptLineThroughLines_flags.2.2, Bool.and_true]
  by_cases hfu : HasFlag d.line TextDecorationLine.kUnderline = true
  · have hxu : (a.SetDecorationIndex i).HasUnderline = true := by rw [hU]; exact hfu
    have hOU : (a.SetDecorationIndex i).SetUnderlineLineData.HasOverline =
        HasFlag d.line TextDecorationLine.kOverline := by
      rw [core_HasOverline _ _ (core_SetUnderlineLineData (a.SetDecorationIndex i)), hO]
    simp only [hfu, if_true, hOU]
    by_cases hfo : HasFlag d.line TextDecorationLine.kOverline = true
    · have hxo : (a.SetDecorationIndex i).SetUnderlineLineData.HasOverline = true := by
        rw [hOU]; exact hfo
      simp only [hfo, if_true]
      rw [LinePainter_Paint_local, cUO,
        SetOverlineLineData_core _ _ (core_SetUnderlineLineData (a.SetDecorationIndex i)) hxo,
        cU, hcol]
    · have hfo2 : HasFlag d.line TextDecorationLine.kOverline = false := by
        simpa using hfo
      simp only [hfo2, Bool.false_eq_true, if_false, List.append_nil]
      rw [cU, hcol]
  · have hfu2 : HasFlag d.line TextDecorationLine.kUnderline = false := by
      simpa using hfu
    simp only [hfu2, Bool.false_eq_true, if_false, hO, List.nil_append]
    by_cases hfo : HasFlag d.line TextDecorationLine.kOverline = true
    · simp only [hfo, if_true]
      rw [cO, hcol]
    · have hfo2 : HasFlag d.line TextDecorationLine.kOverline = false := by
        simpa using hfo
      simp only [hfo2, Bool.false_eq_true, if_false]

theorem LinePainter_wavy_single (ids : GraphicsStateIds)
    (g : DecorationGeometry) (c : Color)
    (hw : 0 < g.line.width) (hs : g.style = StrokeStyle.kWavyStroke) :
    ∃ op : DrawWavyLineOp,
      DecorationLinePainter.Paint ids [] g c = [PaintOp.DrawWavyLine op] ∧
      op.color = c ∧ op.wave = g.wavy_wave ∧ op.paint_rect.width = g.line.width := by
  rw [LinePainter_wavy_eq ids [] g c hw hs]
  exact ⟨_, rfl, rfl, rfl, rfl⟩

theorem Paint_explicit (m : FloatMath) (input : TextPaintInput)
    (hv : input.visibility = Visibility.kVisible)
    (hm : input.symbol_marker.filter
      (fun marker => marker.type != SymbolMarkerType.kNone) = none)
    (hft : input.fragment.from_ < input.fragment.to_)
    (hs : input.fragment.HasShapeResult = true ∨ input.is_line_break = true)
    (hfc : input.is_flow_control = false) :
    ∃ (under lt emph : PaintOpList) (blob : DrawTextBlobOp),
      Paint m input =
        transformOps m input ++ under ++ textShadowOps input ++
          [PaintOp.DrawTextBlob blob] ++ lt ++ emph ++
          (if stateSaved input = true then [PaintOp.Restore] else []) ∧
      PaintDecorationsExceptLineThrough (transformOps m input) input.decorations input.box
        (decorationFontSize input) (decorationAscent input) (decorationDescent input)
        input.state_ids (effectiveStyle input).shadow (scalingFactor input) =
        transformOps m input ++ under ∧
      PaintDecorationsLineThrough
        (transformOps m input ++ under ++ textShadowOps input ++ [PaintOp.DrawTextBlob blob])
        input.decorations input.box (decorationFontSize input) (decorationAscent input)
        (decorationDescent input) input.state_ids
        (effectiveStyle input).shadow (scalingFactor input) =
        transformOps m input ++ under ++ textShadowOps input ++
          [PaintOp.DrawTextBlob blob] ++ lt ∧
      blob.flags.color = (effectiveStyle input).fill_color ∧
      (emph = [] ∨ ∃ op, emph = [PaintOp.DrawEmphasisMarks op] ∧
        op.color = (effectiveStyle input).emphasis_mark_color) := by
  have hg4 : (!input.fragment.HasShapeResult && !input.is_line_break) = false := by
    rcases hs with h | h <;> simp [h]
  generalize hP : Paint m input = r
  unfold Paint at hP
  lift_lets at hP
  extract_lets ops0 src effective_style scaling_factor has_svg_transform svg_transform
    needs_rotation rotation shape text_combine origin state_saved opsA opsB opsC ops1
    has_shadows has_decorations font_size ascent descent ops2 flags blob_runs bounds
    ops3 ops4 ops5 ops6 at hP
  rw [if_neg (by simp [hv]), hm] at hP
  dsimp only at hP
  rw [if_neg (not_le.2 hft), hg4, hfc, if_neg (by simp), if_neg (by simp)] at hP
  have e1 : effective_style = effectiveStyle input := rfl
  have e2 : scaling_factor = scalingFactor input := rfl
  have e3 : state_saved = stateSaved input := rfl
  -- the transform prefix
  have hx1 : opsB = [PaintOp.Save] ++
      (if scalingFactor input ≠ 1 then
        [PaintOp.Scale { sx := 1 / scalingFactor input, sy := 1 / scalingFactor input }]
       else []) := by
    show (if scalingFactor input ≠ 1 then
        PaintOpList.Scale [PaintOp.Save] (1 / scalingFactor input) (1 / scalingFactor input)
      else [PaintOp.Save]) = _
    split_ifs <;> rfl
  have hx2 : opsC = opsB ++
      (if hasSvgTransform input = true then
        [PaintOp.Concat { matrix := (svgTransform input).ToArray }]
       else []) := by
    show (if hasSvgTransform input = true then opsB.Concat (svgTransform input) else opsB) = _
    split_ifs
    · rfl
    · exact (List.append_nil _).symm
  have hx3 : (if needs_rotation = true then opsC.Concat rotation else opsC) = opsC ++
      (if (!input.is_horizontal) = true then
        [PaintOp.Concat
          { matrix := (ComputeWritingModeRotation m input.box input.writing_mode).ToArray }]
       else []) := by
    by_cases c : (!input.is_horizontal) = true
    · have hrot : rotation = ComputeWritingModeRotation m input.box input.writing_mode :=
        if_pos c
      rw [if_pos c, if_pos (show needs_rotation = true from c), hrot]
      rfl
    · rw [if_neg c, if_neg (show ¬ needs_rotation = true from c), List.append_nil]
  have h1 : ops1 = transformOps m input := by
    show (if state_saved = true then
        (if needs_rotation = true then opsC.Concat rotation else opsC) else ops0) = _
    unfold transformOps
    by_cases hss : stateSaved input = true
    · rw [if_pos hss, if_pos (show state_saved = true from hss), hx3, hx2, hx1]
    · rw [if_neg hss, if_neg (show ¬ state_saved = true from hss)]
  -- decorations before the text
  have h2 : ops2 = PaintDecorationsExceptLineThrough ops1 input.decorations input.box
      font_size ascent descent input.state_ids effective_style.shadow scaling_factor := by
    by_cases hd : has_decorations = true
    · simp only [ops2, if_pos hd]
    · simp only [ops2, if_neg hd]
      have he : input.decorations.isEmpty = true := by simpa [has_decorations] using hd
      unfold PaintDecorationsExceptLineThrough
      rw [if_pos he]
  obtain ⟨under, hunder, -, -⟩ := PaintDecorationsExceptLineThrough_summary ops1
    input.decorations input.box font_size ascent descent input.state_ids
    effective_style.shadow scaling_factor
  -- text shadows
  have h3 : ops3 = ops2 ++ textShadowOps input := by
    by_cases hc : (has_shadows && !has_decorations) = true
    · have hc2 : (HasTextShadow (effectiveStyle input).shadow &&
          input.decorations.isEmpty) = true := by
        simpa [has_shadows, has_decorations, e1] using hc
      simp only [ops3, if_pos hc, PaintShadows_eq, textShadowOps, if_pos hc2, e1]
    · have hc2 : ¬ (HasTextShadow (effectiveStyle input).shadow &&
          input.decorations.isEmpty) = true := by
        simpa [has_shadows, has_decorations, e1] using hc
      simp only [ops3, if_neg hc, textShadowOps, if_neg hc2, List.append_nil]
  -- the text blob
  have h4 : ∃ blob : DrawTextBlobOp, ops4 = ops3 ++ [PaintOp.DrawTextBlob blob] ∧
      blob.flags.color = (effectiveStyle input).fill_color := ⟨_, rfl, rfl⟩
  obtain ⟨blob, hblob, hblobC⟩ := h4
  -- line-through decorations
  have h5 : ops5 = PaintDecorationsLineThrough ops4 input.decorations input.box
      font_size ascent descent input.state_ids effective_style.shadow scaling_factor := by
    by_cases hd : has_decorations = true
    · simp only [ops5, if_pos hd]
    · simp only [ops5, if_neg hd]
      have he : input.decorations.isEmpty = true := by simpa [has_decorations] using hd
      unfold PaintDecorationsLineThrough
      rw [if_pos he]
  obtain ⟨lt, hlt, -, -⟩ := PaintDecorationsLineThrough_summary ops4
    input.decorations input.box font_size ascent descent input.state_ids
    effective_style.shadow scaling_factor
  -- emphasis marks
  have h6 : ∃ emph, ops6 = ops5 ++ emph ∧
      (emph = [] ∨ ∃ op, emph = [PaintOp.DrawEmphasisMarks op] ∧
        op.color = (effectiveStyle input).emphasis_mark_color) := by
    rcases he : input.emphasis_mark with _ | e
    · refine ⟨[], ?_, Or.inl rfl⟩
      simp only [ops6, he, List.append_nil]
    · by_cases hc : (!e.mark.isEmpty && !input.is_ellipsis) = true
      · have hc1 : e.mark.isEmpty = false := by
          cases h : e.mark.isEmpty <;> simp_all
        have hE : ∃ op : DrawEmphasisMarksOp, PaintEmphasisMarks ops5 e shape origin
            effective_style.emphasis_mark_color input.state_ids =
              ops5 ++ [PaintOp.DrawEmphasisMarks op] ∧
            op.color = (effectiveStyle input).emphasis_mark_color := by
          unfold PaintEmphasisMarks
          rw [hc1, if_neg (by simp)]
          exact ⟨_, rfl, rfl⟩
        obtain ⟨op, hop, hopC⟩ := hE
        refine ⟨[PaintOp.DrawEmphasisMarks op], ?_, Or.inr ⟨op, rfl, hopC⟩⟩
        simp only [ops6, he, if_pos hc, hop]
      · refine ⟨[], ?_, Or.inl rfl⟩
        simp only [ops6, he, if_neg hc, List.append_nil]
  obtain ⟨emph, hemph, hemphP⟩ := h6
  -- closing restore
  have h7 : r = ops6 ++ (if stateSaved input = true then [PaintOp.Restore] else []) := by
    by_cases hc : state_saved = true
    · rw [← hP, if_pos hc, if_pos (e3 ▸ hc)]; rfl
    · rw [← hP, if_neg hc, if_neg (e3 ▸ hc), List.append_nil]
  rw [← h2] at hunder
  rw [← h5] at hlt
  have e4 : font_size = decorationFontSize input := rfl
  have e5 : ascent = decorationAscent input := rfl
  have e6 : descent = decorationDescent input := rfl
  refine ⟨under, lt, emph, blob, ?_, ?_, ?_, hblobC, hemphP⟩
  · rw [h7, hemph, hlt, hblob, h3, hunder, h1]
  · rw [← h1, ← e1, ← e2, ← e4, ← e5, ← e6, ← h2, hunder]
  · rw [← h1, ← hunder, ← h3, ← hblob, ← e1, ← e2, ← e4, ← e5, ← e6, ← h5, hlt]

theorem Paint_detail (m : FloatMath) (input : TextPaintInput)
    (hv : input.visibility = Visibility.kVisible)
    (hm : input.symbol_marker.filter
      (fun marker => marker.type != SymbolMarkerType.kNone) = none)
    (hft : input.fragment.from_ < input.fragment.to_)
    (hs : input.fragment.HasShapeResult = true ∨ input.is_line_break = true)
    (hfc : input.is_flow_control = false) :
    ∃ (under lt emph : PaintOpList) (blob : DrawTextBlobOp) (fs asc desc : ℚ),
      Paint m input =
        transformOps m input ++ under ++ textShadowOps input ++
          [PaintOp.DrawTextBlob blob] ++ lt ++ emph ++
          (if stateSaved input = true then [PaintOp.Restore] else []) ∧
      PaintDecorationsExceptLineThrough (transformOps m input) input.decorations input.box
        fs asc desc input.state_ids (effectiveStyle input).shadow (scalingFactor input) =
        transformOps m input ++ under ∧
      PaintDecorationsLineThrough
        (transformOps m input ++ under ++ textShadowOps input ++ [PaintOp.DrawTextBlob blob])
        input.decorations input.box fs asc desc input.state_ids
        (effectiveStyle input).shadow (scalingFactor input) =
        transformOps m input ++ under ++ textShadowOps input ++
          [PaintOp.DrawTextBlob blob] ++ lt ∧
      blob.flags.color = (effectiveStyle input).fill_color ∧
      (emph = [] ∨ ∃ op, emph = [PaintOp.DrawEmphasisMarks op] ∧
        op.color = (effectiveStyle input).emphasis_mark_color) := by
  obtain ⟨under, lt, emph, blob, h1, h2, h3, h4, h5⟩ :=
    Paint_explicit m input hv hm hft hs hfc
  exact ⟨under, lt, emph, blob, _, _, _, h1, h2, h3, h4, h5⟩

theorem inputs_create (x y w fs a d : ℚ) (ds : List TextDecoration) (sf : ℚ)
    (pos th : Option ℚ) :
    (TextDecorationInfo.create x y w fs a d ds sf pos th).decorations_ = ds ∧
    (TextDecorationInfo.create x y w fs a d ds sf pos th).width_ = w := by
  constructor
  · show (TextDecorationInfo.create x y w fs a d ds sf pos th).inputs.decorations_ = ds
    unfold TextDecorationInfo.create
    simp only [inputs_Update]
    rfl
  · show (TextDecorationInfo.create x y w fs a d ds sf pos th).inputs.width_ = w
    unfold TextDecorationInfo.create
    simp only [inputs_Update]
    rfl

theorem getLast_cleared (A F : PaintOpList) (op : PaintOp)
    (hF : ∀ op ∈ F, op.isLineOp = true)
    (h : (A ++ [PaintOp.ClearShadow] ++ F).getLast? = some op) :
    op.isDrawShadow = false := by
  by_cases hne : F = []
  · rw [hne, List.append_nil, List.getLast?_concat] at h
    cases h
    rfl
  · rw [List.getLast?_append_of_ne_nil _ hne] at h
    have hmem : op ∈ F := List.mem_of_mem_getLast? h
    have hl := hF op hmem
    cases op <;> first | rfl | exact absurd hl (by simp [PaintOp.isLineOp])

theorem getLast_lines (F : PaintOpList) (op : PaintOp)
    (hF : ∀ op ∈ F, op.isLineOp = true) (h : F.getLast? = some op) :
    op.isDrawShadow = false := by
  have hl := hF op (List.mem_of_mem_getLast? h)
  cases op <;> first | rfl | exact absurd hl (by simp [PaintOp.isLineOp])

theorem PaintWithTextShadow_last {α : Type}
    (paint_proc : TextShadowPaintPhase → PaintOpList × α → PaintOpList × α)
    (hP : ∀ phase st, Extends PaintOp.isLineOp st.1 (paint_proc phase st).1)
    (ops : PaintOpList) (a : α) (shadows : Option (List ShadowData)) :
    ∃ extra, (PaintWithTextShadow paint_proc (ops, a) shadows).1 = ops ++ extra ∧
      ∀ op, extra.getLast? = some op → op.isDrawShadow = false := by
  by_cases hs : HasTextShadow shadows = true
  · obtain ⟨list, rfl, hne⟩ := (HasTextShadow_true_iff shadows).1 hs
    obtain ⟨S, F, hEq, -, hF⟩ :=
      PaintWithTextShadow_shadowed PaintOp.isLineOp paint_proc hP ops a list hne
    refine ⟨list.reverse.map shadowOp ++ S ++ [PaintOp.ClearShadow] ++ F, ?_, ?_⟩
    · rw [hEq]; simp
    · intro op hop
      exact getLast_cleared _ F op hF hop
  · have hs2 : HasTextShadow shadows = false := by simpa using hs
    obtain ⟨F, hEq, hF⟩ :=
      PaintWithTextShadow_unshadowed PaintOp.isLineOp paint_proc hP ops a shadows hs2
    exact ⟨F, hEq, fun op hop => getLast_lines F op hF hop⟩

theorem PaintExceptLineThrough_last (painter : TextDecorationPainter) :
    ∃ extra, painter.PaintExceptLineThrough.ops_ = painter.ops_ ++ extra ∧
      ∀ op, extra.getLast? = some op → op.isDrawShadow = false := by
  unfold TextDecorationPainter.PaintExceptLineThrough
  split_ifs
  · exact ⟨[], by simp, by simp⟩
  · exact PaintWithTextShadow_last
      (TextDecorationPainter.PaintUnderOrOverLineDecorations_paint_decorations
        painter.state_ids_ TextDecorationPainter.exceptLineThroughLines)
      (fun phase st => UnderOrOver_paint_decorations_extends _ _ phase st)
      painter.ops_ painter.decoration_info_ painter.shadows_

theorem PaintDecorationsExceptLineThrough_last (ops : PaintOpList)
    (decorations : List TextDecoration) (box : RectF) (fs asc desc : ℚ)
    (ids : GraphicsStateIds) (shadows : Option (List ShadowData)) (sf : ℚ) :
    ∃ extra, PaintDecorationsExceptLineThrough ops decorations box fs asc desc ids
        shadows sf = ops ++ extra ∧
      ∀ op, extra.getLast? = some op → op.isDrawShadow = false := by
  unfold PaintDecorationsExceptLineThrough
  split_ifs
  · exact ⟨[], by simp, by simp⟩
  · exact PaintExceptLineThrough_last _

theorem PaintExceptLineThrough_unshadowed (painter : TextDecorationPainter)
    (hs : HasTextShadow painter.shadows_ = false)
    (hv : CacheValid painter.decoration_info_) :
    ∃ F, painter.PaintExceptLineThrough.ops_ = painter.ops_ ++ F ∧
      ∀ op ∈ F, ∃ d ∈ painter.decoration_info_.decorations_,
        op.lineColor = some d.color := by
  unfold TextDecorationPainter.PaintExceptLineThrough
  split_ifs
  · exact ⟨[], by simp, by simp⟩
  · exact ⟨_, PaintUnderOrOver_unshadowed _ _ hs hv,
      entries_foreground_color _ _
        (underOverEntryOps_color painter.state_ids_
          TextDecorationPainter.exceptLineThroughLines
          TextShadowPaintPhase.kForeground painter.decoration_info_)⟩

theorem PaintOnlyLineThrough_unshadowed (painter : TextDecorationPainter)
    (hs : HasTextShadow painter.shadows_ = false)
    (hv : CacheValid painter.decoration_info_) :
    ∃ F, painter.PaintOnlyLineThrough.ops_ = painter.ops_ ++ F ∧
      ∀ op ∈ F, ∃ d ∈ painter.decoration_info_.decorations_,
        op.lineColor = some d.color := by
  unfold TextDecorationPainter.PaintOnlyLineThrough
  split_ifs
  · exact ⟨[], by simp, by simp⟩
  · exact ⟨_, PaintLineThrough_unshadowed _ hs hv,
      entries_foreground_color _ _
        (lineThroughEntryOps_color painter.state_ids_
          TextShadowPaintPhase.kForeground painter.decoration_info_)⟩

theorem PaintDecorationsExceptLineThrough_unshadowed (ops : PaintOpList)
    (decorations : List TextDecoration) (box : RectF) (fs asc desc : ℚ)
    (ids : GraphicsStateIds) (shadows : Option (List ShadowData)) (sf : ℚ)
    (hs : HasTextShadow shadows = false) :
    ∃ F, PaintDecorationsExceptLineThrough ops decorations box fs asc desc ids
        shadows sf = ops ++ F ∧
      ∀ op ∈ F, ∃ d ∈ decorations, op.lineColor = some d.color := by
  unfold PaintDecorationsExceptLineThrough
  split_ifs
  · exact ⟨[], by simp, by simp⟩
  · obtain ⟨F, h1, h2⟩ := PaintExceptLineThrough_unshadowed
      (TextDecorationPainter.create ops ids box.x box.y box.width fs asc desc decorations
        shadows sf) hs (CacheValid_create _ _ _ _ _ _ _ _ _ _)
    refine ⟨F, h1, ?_⟩
    intro op hop
    have h := h2 op hop
    have hd : (TextDecorationPainter.create ops ids box.x box.y box.width fs asc desc
        decorations shadows sf).decoration_info_.decorations_ = decorations :=
      (inputs_create _ _ _ _ _ _ _ _ _ _).1
    rw [hd] at h
    exact h

theorem PaintDecorationsLineThrough_unshadowed (ops : PaintOpList)
    (decorations : List TextDecoration) (box : RectF) (fs asc desc : ℚ)
    (ids : GraphicsStateIds) (shadows : Option (List ShadowData)) (sf : ℚ)
    (hs : HasTextShadow shadows = false) :
    ∃ F, PaintDecorationsLineThrough ops decorations box fs asc desc ids
        shadows sf = ops ++ F ∧
      ∀ op ∈ F, ∃ d ∈ decorations, op.lineColor = some d.color := by
  unfold PaintDecorationsLineThrough
  split_ifs
  · exact ⟨[], by simp, by simp⟩
  · obtain ⟨F, h1, h2⟩ := PaintOnlyLineThrough_unshadowed
      (TextDecorationPainter.create ops ids box.x box.y box.width fs asc desc decorations
        shadows sf) hs (CacheValid_create _ _ _ _ _ _ _ _ _ _)
    refine ⟨F, h1, ?_⟩
    intro op hop
    have h := h2 op hop
    have hd : (TextDecorationPainter.create ops ids box.x box.y box.width fs asc desc
        decorations shadows sf).decoration_info_.decorations_ = decorations :=
      (inputs_create _ _ _ _ _ _ _ _ _ _).1
    rw [hd] at h
    exact h

theorem PaintSymbolMarker_ops (marker : SymbolMarkerInfo) (ids : GraphicsStateIds) :
    ∀ op ∈ PaintSymbolMarker [] marker ids,
      op.isDrawShadow = false ∧ op.isClearShadow = false ∧ op.isDrawTextBlob = false ∧
      op.isDrawEmphasisMarks = false := by
  unfold PaintSymbolMarker
  rcases marker.type with _ | _ | _ | _ | _ | _ <;>
    simp [PaintOpList.FillEllipse, PaintOpList.StrokeEllipse, PaintOpList.FillRect,
      PaintOpList.FillPath, PaintOp.isDrawShadow, PaintOp.isClearShadow,
      PaintOp.isDrawTextBlob, PaintOp.isDrawEmphasisMarks]

theorem lineColor_not (op : PaintOp) (c : Color) (h : op.lineColor = some c) :
    op.isDrawShadow = false ∧ op.isClearShadow = false ∧ op.isDrawTextBlob = false ∧
    op.isDrawEmphasisMarks = false ∧ op.isTransformOp = false ∧ op.isRestore = false := by
  cases op <;> first
    | exact ⟨rfl, rfl, rfl, rfl, rfl, rfl⟩
    | exact absurd h (by simp [PaintOp.lineColor])

theorem effectiveStyle_clip (input : TextPaintInput)
    (h : input.paint_phase = PaintPhase.kTextClip) :
    (effectiveStyle input).shadow = none ∧
    (effectiveStyle input).fill_color = Color.Black ∧
    (effectiveStyle input).emphasis_mark_color = Color.Black := by
  unfold effectiveStyle
  rw [if_pos h]
  exact ⟨rfl, rfl, rfl⟩

theorem effectiveStyle_other (input : TextPaintInput)
    (h : input.paint_phase ≠ PaintPhase.kTextClip) :
    effectiveStyle input = input.style := by
  unfold effectiveStyle
  rw [if_neg h]

theorem textShadowOps_clip (input : TextPaintInput)
    (h : input.paint_phase = PaintPhase.kTextClip) : textShadowOps input = [] := by
  unfold textShadowOps
  rw [(effectiveStyle_clip input h).1]
  rfl

theorem transformOps_isTransformOp (m : FloatMath) (input : TextPaintInput) :
    ∀ op ∈ transformOps m input, op.isTransformOp = true := by
  intro op hop
  unfold transformOps at hop
  split_ifs at hop <;> simp at hop <;> (try rcases hop with h | h | h | h) <;>
    simp_all [PaintOp.isTransformOp]

theorem gates_split (input : TextPaintInput)
    (hg : ¬ (input.fragment.from_ ≥ input.fragment.to_ ∨
      (!input.fragment.HasShapeResult && !input.is_line_break) = true ∨
      input.is_flow_control = true)) :
    input.fragment.from_ < input.fragment.to_ ∧
    (input.fragment.HasShapeResult = true ∨ input.is_line_break = true) ∧
    input.is_flow_control = false := by
  refine ⟨?_, ?_, ?_⟩
  · by_contra h
    exact hg (Or.inl (not_lt.1 h))
  · by_contra h
    apply hg
    right; left
    cases h1 : input.fragment.HasShapeResult <;> cases h2 : input.is_line_break <;>
      simp_all
  · cases h : input.is_flow_control
    · rfl
    · exact absurd (Or.inr (Or.inr h)) hg

theorem underOverEntryOps_spelling_wide (ids : GraphicsStateIds)
    (phase : TextShadowPaintPhase) (a : TextDecorationInfo) (i : Nat) (d : TextDecoration)
    (hv : CacheValid a) (hd : a.decorations_[i]? = some d)
    (hsp : HasFlag d.line
      (TextDecorationLine.kSpellingError ||| TextDecorationLine.kGrammarError) = true)
    (hw : 0 < a.width_) :
    ∃ op : DrawWavyLineOp,
      underOverEntryOps ids TextDecorationPainter.exceptLineThroughLines phase a i =
        [PaintOp.DrawWavyLine op] ∧
      op.color = (if phase = TextShadowPaintPhase.kShadow then Color.Black else d.color) := by
  obtain ⟨hl, -, -⟩ := SetDecorationIndex_cache a i d hv hd
  have hhas : (a.SetDecorationIndex i).HasSpellingOrGrammarError = true := by
    unfold TextDecorationInfo.HasSpellingOrGrammarError
    rw [hl]; exact hsp
  obtain ⟨g1, g2⟩ := spelling_geometry _ hhas
  rw [width_SetDecorationIndex] at g2
  obtain ⟨op, h1, h2, -⟩ := LinePainter_wavy_single ids
    (a.SetDecorationIndex i).SetSpellingOrGrammarErrorLineData.GetGeometry
    (if phase = TextShadowPaintPhase.kShadow then Color.Black else d.color)
    (by rw [g2]; exact hw) g1
  exact ⟨op, by rw [underOverEntryOps_spelling ids phase a i d hv hd hsp, h1], h2⟩

theorem underOverEntryOps_spelling_narrow (ids : GraphicsStateIds)
    (phase : TextShadowPaintPhase) (a : TextDecorationInfo) (i : Nat) (d : TextDecoration)
    (hv : CacheValid a) (hd : a.decorations_[i]? = some d)
    (hsp : HasFlag d.line
      (TextDecorationLine.kSpellingError ||| TextDecorationLine.kGrammarError) = true)
    (hw : a.width_ ≤ 0) :
    underOverEntryOps ids TextDecorationPainter.exceptLineThroughLines phase a i = [] := by
  obtain ⟨hl, -, -⟩ := SetDecorationIndex_cache a i d hv hd
  have hhas : (a.SetDecorationIndex i).HasSpellingOrGrammarError = true := by
    unfold TextDecorationInfo.HasSpellingOrGrammarError
    rw [hl]; exact hsp
  obtain ⟨-, g2⟩ := spelling_geometry _ hhas
  rw [width_SetDecorationIndex] at g2
  rw [underOverEntryOps_spelling ids phase a i d hv hd hsp]
  exact LinePainter_Paint_narrow _ _ _ _ (by rw [g2]; exact hw)

theorem flatMap_range_one (f : Nat → PaintOpList) : (List.range 1).flatMap f = f 0 := by
  show [0].flatMap f = f 0
  simp

theorem Paint_clip_ops (m : FloatMath) (input : TextPaintInput)
    (hc : input.paint_phase = PaintPhase.kTextClip)
    (hv : input.visibility = Visibility.kVisible)
    (hm : input.symbol_marker.filter
      (fun marker => marker.type != SymbolMarkerType.kNone) = none)
    (hft : input.fragment.from_ < input.fragment.to_)
    (hs : input.fragment.HasShapeResult = true ∨ input.is_line_break = true)
    (hfc : input.is_flow_control = false) :
    ∀ op ∈ Paint m input,
      (op.isTransformOp = true ∨ op.isRestore = true) ∨
      (∃ blob, op = PaintOp.DrawTextBlob blob ∧ blob.flags.color = Color.Black) ∨
      (∃ e, op = PaintOp.DrawEmphasisMarks e ∧ e.color = Color.Black) ∨
      (∃ d ∈ input.decorations, op.lineColor = some d.color) := by
  obtain ⟨under, lt, emph, blob, fs, asc, desc, hEq, hU, hL, hblob, hemph⟩ :=
    Paint_detail m input hv hm hft hs hfc
  obtain ⟨e1, e2, e3⟩ := effectiveStyle_clip input hc
  have hsh : HasTextShadow (effectiveStyle input).shadow = false := by rw [e1]; rfl
  obtain ⟨F, hF, hFc⟩ := PaintDecorationsExceptLineThrough_unshadowed (transformOps m input)
    input.decorations input.box fs asc desc input.state_ids _ (scalingFactor input) hsh
  obtain ⟨G, hG, hGc⟩ := PaintDecorationsLineThrough_unshadowed
    (transformOps m input ++ under ++ textShadowOps input ++ [PaintOp.DrawTextBlob blob])
    input.decorations input.box fs asc desc input.state_ids _ (scalingFactor input) hsh
  have hu : under = F := List.append_cancel_left (hU.symm.trans hF)
  have hl : lt = G := List.append_cancel_left (hL.symm.trans hG)
  intro op hop
  rw [hEq, textShadowOps_clip input hc] at hop
  simp only [List.mem_append, List.mem_singleton, List.not_mem_nil, or_false] at hop
  rcases hop with ((((h | h) | h) | h) | h) | h
  · exact Or.inl (Or.inl (transformOps_isTransformOp m input op h))
  · exact Or.inr (Or.inr (Or.inr (hFc op (hu ▸ h))))
  · exact Or.inr (Or.inl ⟨blob, h, by rw [hblob, e2]⟩)
  · exact Or.inr (Or.inr (Or.inr (hGc op (hl ▸ h))))
  · rcases hemph with h0 | ⟨e, h0, hcol⟩
    · rw [h0] at h
      exact absurd h (List.not_mem_nil _)
    · rw [h0, List.mem_singleton] at h
      exact Or.inr (Or.inr (Or.inl ⟨e, h, by rw [hcol, e3]⟩))
  · left; right
    split_ifs at h
    · rw [List.mem_singleton] at h
      rw [h]; rfl
    · exact absurd h (List.not_mem_nil _)

theorem clip_op_facts (op : PaintOp) (decorations : List TextDecoration)
    (h : (op.isTransformOp = true ∨ op.isRestore = true) ∨
      (∃ blob, op = PaintOp.DrawTextBlob blob ∧ blob.flags.color = Color.Black) ∨
      (∃ e, op = PaintOp.DrawEmphasisMarks e ∧ e.color = Color.Black) ∨
      (∃ d ∈ decorations, op.lineColor = some d.color)) :
    op.isDrawShadow = false ∧ op.isClearShadow = false ∧
    (∀ blob, op = PaintOp.DrawTextBlob blob → blob.flags.color = Color.Black) ∧
    (∀ e, op = PaintOp.DrawEmphasisMarks e → e.color = Color.Black) := by
  rcases h with (h | h) | ⟨blob, rfl, hb⟩ | ⟨e, rfl, he⟩ | ⟨d, -, hd⟩
  · cases op <;>
      simp_all [PaintOp.isTransformOp, PaintOp.isDrawShadow, PaintOp.isClearShadow]
  · cases op <;>
      simp_all [PaintOp.isRestore, PaintOp.isDrawShadow, PaintOp.isClearShadow]
  · refine ⟨rfl, rfl, ?_, ?_⟩
    · intro b h0
      cases h0
      exact hb
    · intro e h0
      cases h0
  · refine ⟨rfl, rfl, ?_, ?_⟩
    · intro b h0
      cases h0
    · intro e2 h0
      cases h0
      exact he
  · obtain ⟨a1, a2, a3, a4, -, -⟩ := lineColor_not op d.color hd
    refine ⟨a1, a2, ?_, ?_⟩
    · intro blob h0
      rw [h0] at a3
      exact absurd a3 (by simp [PaintOp.isDrawTextBlob])
    · intro e h0
      rw [h0] at a4
      exact absurd a4 (by simp [PaintOp.isDrawEmphasisMarks])

theorem union_create (x y w fs a d : ℚ) (ds : List TextDecoration) (sf : ℚ)
    (pos th : Option ℚ) :
    (TextDecorationInfo.create x y w fs a d ds sf pos th).union_all_lines_ =
      ds.foldl (fun u decoration => u ||| decoration.line) TextDecorationLine.kNone := by
  show (TextDecorationInfo.create x y w fs a d ds sf pos th).inputs.union_all_lines_ = _
  unfold TextDecorationInfo.create
  simp only [inputs_Update]
  rfl

theorem PaintDecorationsExceptLineThrough_spelling (ops : PaintOpList) (box : RectF)
    (fs asc desc : ℚ) (ids : GraphicsStateIds) (shadows : Option (List ShadowData))
    (sf : ℚ) (hs : HasTextShadow shadows = false) (hw : 0 < box.width) :
    ∃ op : DrawWavyLineOp,
      PaintDecorationsExceptLineThrough ops [spellingDecoration] box fs asc desc ids
        shadows sf = ops ++ [PaintOp.DrawWavyLine op] ∧
      op.color = spellingDecoration.color := by
  have hv : CacheValid (TextDecorationPainter.create ops ids box.x box.y box.width fs asc
      desc [spellingDecoration] shadows sf).decoration_info_ :=
    CacheValid_create _ _ _ _ _ _ _ _ _ _
  have hds : (TextDecorationPainter.create ops ids box.x box.y box.width fs asc
      desc [spellingDecoration] shadows sf).decoration_info_.decorations_ =
      [spellingDecoration] := (inputs_create _ _ _ _ _ _ _ _ _ _).1
  have hwd : (TextDecorationPainter.create ops ids box.x box.y box.width fs asc
      desc [spellingDecoration] shadows sf).decoration_info_.width_ = box.width :=
    (inputs_create _ _ _ _ _ _ _ _ _ _).2
  have hany : (TextDecorationPainter.create ops ids box.x box.y box.width fs asc
      desc [spellingDecoration] shadows sf).decoration_info_.HasAnyLine
      TextDecorationPainter.exceptLineThroughLines = true := by
    unfold TextDecorationInfo.HasAnyLine
    have hu : (TextDecorationPainter.create ops ids box.x box.y box.width fs asc
        desc [spellingDecoration] shadows sf).decoration_info_.union_all_lines_ =
        [spellingDecoration].foldl (fun u decoration => u ||| decoration.line)
          TextDecorationLine.kNone := union_create _ _ _ _ _ _ _ _ _ _
    rw [hu]
    decide
  have hn : (TextDecorationPainter.create ops ids box.x box.y box.width fs asc
      desc [spellingDecoration] shadows sf).decoration_info_.DecorationCount = 1 := by
    unfold TextDecorationInfo.DecorationCount
    rw [hds]; rfl
  obtain ⟨op, h3, h4⟩ := underOverEntryOps_spelling_wide ids TextShadowPaintPhase.kForeground
    _ 0 spellingDecoration hv (by rw [hds]; rfl) (by decide) (by rw [hwd]; exact hw)
  rw [if_neg (by decide)] at h4
  refine ⟨op, ?_, h4⟩
  have h1 : PaintDecorationsExceptLineThrough ops [spellingDecoration] box fs asc desc ids
      shadows sf =
      ((TextDecorationPainter.create ops ids box.x box.y box.width fs asc
        desc [spellingDecoration] shadows sf).PaintUnderOrOverLineDecorations
          TextDecorationPainter.exceptLineThroughLines).ops_ := by
    unfold PaintDecorationsExceptLineThrough
    rw [if_neg (by simp)]
    unfold TextDecorationPainter.PaintExceptLineThrough
    simp only [hany, Bool.not_true, Bool.false_eq_true, if_false]
  rw [h1, PaintUnderOrOver_unshadowed _ _ hs hv, hn, flatMap_range_one]
  exact congrArg (fun l => ops ++ l) h3

theorem textShadowOps_isDrawShadow (input : TextPaintInput) :
    ∀ op ∈ textShadowOps input, op.isDrawShadow = true := by
  unfold textShadowOps
  split_ifs
  · exact shadowOps_isDrawShadow _
  · intro op hop
    exact absurd hop (List.not_mem_nil _)

theorem stateSaved_iff (input : TextPaintInput) :
    stateSaved input = true ↔
      (scalingFactor input ≠ 1 ∨ hasSvgTransform input = true ∨
        input.is_horizontal = false) := by
  unfold stateSaved
  simp only [Bool.or_eq_true, decide_eq_true_eq, Bool.not_eq_true', or_assoc]

theorem transformOps_saved (m : FloatMath) (input : TextPaintInput)
    (h : stateSaved input = true) :
    transformOps m input =
      [PaintOp.Save] ++
      (if scalingFactor input ≠ 1 then
        [PaintOp.Scale { sx := 1 / scalingFactor input, sy := 1 / scalingFactor input }]
       else []) ++
      (if hasSvgTransform input = true then
        [PaintOp.Concat { matrix := (svgTransform input).ToArray }]
       else []) ++
      (if input.is_horizontal = false then
        [PaintOp.Concat
          { matrix := (ComputeWritingModeRotation m input.box input.writing_mode).ToArray }]
       else []) := by
  unfold transformOps
  rw [if_pos h]
  cases hh : input.is_horizontal <;> simp

theorem isTransformOp_not_shadow (op : PaintOp) (h : op.isTransformOp = true) :
    op.isDrawShadow = false := by
  cases op <;> first | rfl | exact absurd h (by simp [PaintOp.isTransformOp])

theorem entries_recolour (a : TextDecorationInfo) (entry : Nat → PaintOpList)
    (hentry : ∀ i, ∀ op ∈ entry i, ∃ c, op.lineColor = some c) :
    ∀ op ∈ (List.range a.DecorationCount).flatMap entry,
      ∃ c, op.lineColor = some c ∧
        (op.withLineColor Color.Black).withLineColor c = op := by
  intro op hop
  obtain ⟨i, -, hmem⟩ := List.mem_flatMap.1 hop
  obtain ⟨c, hc⟩ := hentry i op hmem
  exact isLineOp_lineColor op (lineColor_isLineOp op c hc)

theorem and_or_flags (a b f : Nat) : (a ||| b) &&& f = (a &&& f) ||| (b &&& f) := by
  apply Nat.eq_of_testBit_eq
  intro i
  simp only [Nat.testBit_and, Nat.testBit_or]
  cases a.testBit i <;> cases b.testBit i <;> cases f.testBit i <;> rfl

theorem or_eq_zero_flags (a b : Nat) : (a ||| b = 0) ↔ a = 0 ∧ b = 0 := by
  constructor
  · intro h
    constructor
    · apply Nat.eq_of_testBit_eq
      intro i
      have := congrArg (fun x => Nat.testBit x i) h
      simp only [Nat.testBit_or, Nat.zero_testBit, Bool.or_eq_false_iff] at this
      simp [this.1]
    · apply Nat.eq_of_testBit_eq
      intro i
      have := congrArg (fun x => Nat.testBit x i) h
      simp only [Nat.testBit_or, Nat.zero_testBit, Bool.or_eq_false_iff] at this
      simp [this.2]
  · rintro ⟨rfl, rfl⟩
    rfl

theorem HasFlag_or (a b f : TextDecorationLine) :
    HasFlag (a ||| b) f = (HasFlag a f || HasFlag b f) := by
  unfold HasFlag
  rw [and_or_flags]
  by_cases h : (a &&& f) ||| (b &&& f) = 0
  · obtain ⟨h1, h2⟩ := (or_eq_zero_flags _ _).1 h
    rw [h, h1, h2]
    rfl
  · have h3 : ¬ ((a &&& f) = 0 ∧ (b &&& f) = 0) := fun hc => h ((or_eq_zero_flags _ _).2 hc)
    have lhs : (((a &&& f) ||| (b &&& f)) != 0) = true := by simpa using h
    rw [lhs]
    by_cases h1 : (a &&& f) = 0
    · have h2 : ¬ (b &&& f) = 0 := fun hc => h3 ⟨h1, hc⟩
      have : ((b &&& f) != 0) = true := by simpa using h2
      rw [this, Bool.or_true]
    · have : ((a &&& f) != 0) = true := by simpa using h1
      rw [this, Bool.true_or]

theorem HasFlag_foldl (ds : List TextDecoration) (u f : TextDecorationLine) :
    HasFlag (ds.foldl (fun u decoration => u ||| decoration.line) u) f =
      (HasFlag u f || ds.any (fun d => HasFlag d.line f)) := by
  induction ds generalizing u with
  | nil => simp
  | cons d ds ih =>
    rw [List.foldl_cons, ih, HasFlag_or, List.any_cons, Bool.or_assoc]

theorem HasAnyLine_create (x y w fs a d : ℚ) (ds : List TextDecoration) (sf : ℚ)
    (pos th : Option ℚ) (lines : TextDecorationLine) :
    (TextDecorationInfo.create x y w fs a d ds sf pos th).HasAnyLine lines =
      ds.any (fun d => HasFlag d.line lines) := by
  unfold TextDecorationInfo.HasAnyLine
  rw [union_create, HasFlag_foldl]
  have h0 : HasFlag TextDecorationLine.kNone lines = false := by
    unfold HasFlag TextDecorationLine.kNone
    rw [Nat.zero_and]
    rfl
  rw [h0, Bool.false_or]

theorem underOverEntryOps_explicit (ids : GraphicsStateIds)
    (a : TextDecorationInfo) (i : Nat) (d : TextDecoration)
    (hv : CacheValid a) (hd : a.decorations_[i]? = some d) :
    underOverEntryOps ids TextDecorationPainter.exceptLineThroughLines
        TextShadowPaintPhase.kForeground a i =
      (if HasFlag d.line
          (TextDecorationLine.kSpellingError ||| TextDecorationLine.kGrammarError) = true then
        DecorationLinePainter.Paint ids []
          (a.SetDecorationIndex i).SetSpellingOrGrammarErrorLineData.GetGeometry d.color
       else
        (if HasFlag d.line TextDecorationLine.kUnderline = true then
          DecorationLinePainter.Paint ids []
            (a.SetDecorationIndex i).SetUnderlineLineData.GetGeometry d.color
         else []) ++
        (if HasFlag d.line TextDecorationLine.kOverline = true then
          DecorationLinePainter.Paint ids []
            (a.SetDecorationIndex i).SetOverlineLineData.GetGeometry d.color
         else [])) := by
  have hc : (if TextShadowPaintPhase.kForeground = TextShadowPaintPhase.kShadow
      then Color.Black else d.color) = d.color := if_neg (by decide)
  by_cases hsp : HasFlag d.line
      (TextDecorationLine.kSpellingError ||| TextDecorationLine.kGrammarError) = true
  · rw [if_pos hsp, underOverEntryOps_spelling ids _ a i d hv hd hsp, hc]
  · have hsp2 : HasFlag d.line
        (TextDecorationLine.kSpellingError ||| TextDecorationLine.kGrammarError) = false := by
      simpa using hsp
    rw [if_neg hsp, underOverEntryOps_plain ids _ a i d hv hd hsp2, hc]

theorem lineThroughEntryOps_explicit (ids : GraphicsStateIds)
    (a : TextDecorationInfo) (i : Nat) (d : TextDecoration)
    (hv : CacheValid a) (hd : a.decorations_[i]? = some d) :
    lineThroughEntryOps ids TextShadowPaintPhase.kForeground a i =
      (if HasFlag d.line TextDecorationLine.kLineThrough = true then
        DecorationLinePainter.Paint ids []
          (a.SetDecorationIndex i).SetLineThroughLineData.GetGeometry d.color
       else []) := by
  obtain ⟨hl, -, -⟩ := SetDecorationIndex_cache a i d hv hd
  have hL : (a.SetDecorationIndex i).HasLineThrough =
      HasFlag d.line TextDecorationLine.kLineThrough := by
    unfold TextDecorationInfo.HasLineThrough
    rw [hl]
  have hcol := LineColorForPhase_eq a i d hd TextShadowPaintPhase.kForeground
  rw [if_neg (by decide)] at hcol
  have cL := core_LineColorForPhase _ _
    (core_SetLineThroughLineData (a.SetDecorationIndex i)) TextShadowPaintPhase.kForeground
  unfold lineThroughEntryOps TextDecorationPainter.PaintLineThroughDecorations_body
  simp only [hL]
  by_cases hf : HasFlag d.line TextDecorationLine.kLineThrough = true
  · simp only [hf, if_true]
    rw [cL, hcol]
  · have hf2 : HasFlag d.line TextDecorationLine.kLineThrough = false := by
      simpa using hf
    simp only [hf2, Bool.false_eq_true, if_false]

theorem PaintExceptLineThrough_explicit (painter : TextDecorationPainter)
    (hv : CacheValid painter.decoration_info_) :
    painter.PaintExceptLineThrough.ops_ =
      painter.ops_ ++
        (if painter.decoration_info_.HasAnyLine
            TextDecorationPainter.exceptLineThroughLines = true then
          shadowGroupOps painter.shadows_
            ((List.range painter.decoration_info_.DecorationCount).flatMap
              (underOverEntryOps painter.state_ids_
                TextDecorationPainter.exceptLineThroughLines
                TextShadowPaintPhase.kForeground painter.decoration_info_))
         else []) := by
  unfold TextDecorationPainter.PaintExceptLineThrough
  by_cases hany : painter.decoration_info_.HasAnyLine
      TextDecorationPainter.exceptLineThroughLines = true
  · rw [if_neg (by rw [hany]; simp), if_pos hany]
    unfold shadowGroupOps
    by_cases hs : HasTextShadow painter.shadows_ = true
    · obtain ⟨list, hl, hne⟩ := (HasTextShadow_true_iff _).1 hs
      obtain ⟨u1, u2⟩ := PaintUnderOrOver_shadowed painter
        TextDecorationPainter.exceptLineThroughLines list hl hne hv
      rw [if_pos hs, u2, u1, hl]
      simp only [Option.getD_some, List.append_assoc]
    · have hs2 : HasTextShadow painter.shadows_ = false := by simpa using hs
      rw [if_neg hs, PaintUnderOrOver_unshadowed painter _ hs2 hv]
  · rw [if_pos (by simpa using hany), if_neg hany, List.append_nil]

theorem PaintOnlyLineThrough_explicit (painter : TextDecorationPainter)
    (hv : CacheValid painter.decoration_info_) :
    painter.PaintOnlyLineThrough.ops_ =
      painter.ops_ ++
        (if painter.decoration_info_.HasAnyLine TextDecorationLine.kLineThrough = true then
          shadowGroupOps painter.shadows_
            ((List.range painter.decoration_info_.DecorationCount).flatMap
              (lineThroughEntryOps painter.state_ids_
                TextShadowPaintPhase.kForeground painter.decoration_info_))
         else []) := by
  unfold TextDecorationPainter.PaintOnlyLineThrough
  by_cases hany : painter.decoration_info_.HasAnyLine TextDecorationLine.kLineThrough = true
  · rw [if_neg (by rw [hany]; simp), if_pos hany]
    unfold shadowGroupOps
    by_cases hs : HasTextShadow painter.shadows_ = true
    · obtain ⟨list, hl, hne⟩ := (HasTextShadow_true_iff _).1 hs
      obtain ⟨u1, u2⟩ := PaintLineThrough_shadowed painter list hl hne hv
      rw [if_pos hs, u2, u1, hl]
      simp only [Option.getD_some, List.append_assoc]
    · have hs2 : HasTextShadow painter.shadows_ = false := by simpa using hs
      rw [if_neg hs, PaintLineThrough_unshadowed painter hs2 hv]
  · rw [if_pos (by simpa using hany), if_neg hany, List.append_nil]

theorem PaintDecorationsExceptLineThrough_explicit (ops : PaintOpList)
    (decorations : List TextDecoration) (box : RectF) (fs asc desc : ℚ)
    (ids : GraphicsStateIds) (shadows : Option (List ShadowData)) (sf : ℚ) :
    PaintDecorationsExceptLineThrough ops decorations box fs asc desc ids shadows sf =
      ops ++
        (if decorations.any (fun d =>
            HasFlag d.line TextDecorationPainter.exceptLineThroughLines) = true then
          shadowGroupOps shadows
            ((List.range decorations.length).flatMap
              (underOverEntryOps ids TextDecorationPainter.exceptLineThroughLines
                TextShadowPaintPhase.kForeground
                (TextDecorationInfo.create box.x box.y box.width fs asc desc decorations sf)))
         else []) := by
  unfold PaintDecorationsExceptLineThrough
  by_cases he : decorations.isEmpty = true
  · rw [if_pos he]
    have hnil : decorations = [] := List.isEmpty_iff.1 he
    rw [hnil]
    simp
  · rw [if_neg he]
    have h := PaintExceptLineThrough_explicit
      (TextDecorationPainter.create ops ids box.x box.y box.width fs asc desc decorations
        shadows sf) (CacheValid_create _ _ _ _ _ _ _ _ _ _)
    have hany := HasAnyLine_create box.x box.y box.width fs asc desc decorations sf none none
      TextDecorationPainter.exceptLineThroughLines
    have hn : (TextDecorationInfo.create box.x box.y box.width fs asc desc decorations
        sf).DecorationCount = decorations.length := by
      unfold TextDecorationInfo.DecorationCount
      rw [(inputs_create _ _ _ _ _ _ _ _ _ _).1]
    have h2 : (TextDecorationPainter.create ops ids box.x box.y box.width fs asc desc
        decorations shadows sf).decoration_info_ =
        TextDecorationInfo.create box.x box.y box.width fs asc desc decorations sf := rfl
    rw [h2, hany, hn] at h
    exact h

theorem PaintDecorationsLineThrough_explicit (ops : PaintOpList)
    (decorations : List TextDecoration) (box : RectF) (fs asc desc : ℚ)
    (ids : GraphicsStateIds) (shadows : Option (List ShadowData)) (sf : ℚ) :
    PaintDecorationsLineThrough ops decorations box fs asc desc ids shadows sf =
      ops ++
        (if decorations.any (fun d =>
            HasFlag d.line TextDecorationLine.kLineThrough) = true then
          shadowGroupOps shadows
            ((List.range decorations.length).flatMap
              (lineThroughEntryOps ids TextShadowPaintPhase.kForeground
                (TextDecorationInfo.create box.x box.y box.width fs asc desc decorations sf)))
         else []) := by
  unfold PaintDecorationsLineThrough
  by_cases he : decorations.isEmpty = true
  · rw [if_pos he]
    have hnil : decorations = [] := List.isEmpty_iff.1 he
    rw [hnil]
    simp
  · rw [if_neg he]
    have h := PaintOnlyLineThrough_explicit
      (TextDecorationPainter.create ops ids box.x box.y box.width fs asc desc decorations
        shadows sf) (CacheValid_create _ _ _ _ _ _ _ _ _ _)
    have hany := HasAnyLine_create box.x box.y box.width fs asc desc decorations sf none none
      TextDecorationLine.kLineThrough
    have hn : (TextDecorationInfo.create box.x box.y box.width fs asc desc decorations
        sf).DecorationCount = decorations.length := by
      unfold TextDecorationInfo.DecorationCount
      rw [(inputs_create _ _ _ _ _ _ _ _ _ _).1]
    have h2 : (TextDecorationPainter.create ops ids box.x box.y box.width fs asc desc
        decorations shadows sf).decoration_info_ =
        TextDecorationInfo.create box.x box.y box.width fs asc desc decorations sf := rfl
    rw [h2, hany, hn] at h
    exact h

theorem SetLineData_style (info : TextDecorationInfo) (line : TextDecorationLine) (off : ℚ)
    (d : TextDecoration) (hd : info.decorations_[info.decoration_index_]? = some d) :
    (info.SetLineData line off).line_geometry_.style = d.GetStrokeStyle := by
  unfold TextDecorationInfo.SetLineData DecorationGeometry.Make
  simp only [hd]
  split_ifs <;> rfl

theorem LinePainter_solid_single (ids : GraphicsStateIds)
    (g : DecorationGeometry) (c : Color)
    (hw : 0 < g.line.width) (hs : g.style = StrokeStyle.kSolidStroke) :
    ∃ op : DrawLineOp,
      DecorationLinePainter.Paint ids [] g c = [PaintOp.DrawLine op] ∧
      op.color = c ∧ op.rect = SnapYAxis g.line := by
  unfold DecorationLinePainter.Paint
  rw [if_neg (not_le.2 hw), hs]
  simp only [reduceCtorEq, if_false, List.nil_append]
  exact ⟨_, rfl, rfl, rfl⟩

theorem underline_solid_op (ids : GraphicsStateIds) (a : TextDecorationInfo) (i : Nat)
    (d : TextDecoration) (c : Color)
    (hv : CacheValid a) (hd : a.decorations_[i]? = some d)
    (hu : HasFlag d.line TextDecorationLine.kUnderline = true)
    (hst : d.style = TextDecorationStyle.kSolid) (hw : 0 < a.width_) :
    ∃ op : DrawLineOp,
      DecorationLinePainter.Paint ids []
        (a.SetDecorationIndex i).SetUnderlineLineData.GetGeometry c = [PaintOp.DrawLine op] ∧
      op.color = c := by
  obtain ⟨-, h2, -⟩ := SetDecorationIndex_cache a i d hv hd
  have hhas : (a.SetDecorationIndex i).HasUnderline = true := by
    show (a.SetDecorationIndex i).has_underline_ = true
    rw [h2]; exact hu
  have hdx : (a.SetDecorationIndex i).decorations_[(a.SetDecorationIndex i).decoration_index_]?
      = some d := by
    rw [decorations_SetDecorationIndex, index_SetDecorationIndex]; exact hd
  have hg : ∃ off, (a.SetDecorationIndex i).SetUnderlineLineData =
      (a.SetDecorationIndex i).SetLineData TextDecorationLine.kUnderline off := by
    unfold TextDecorationInfo.SetUnderlineLineData
    rw [hhas]
    exact ⟨_, rfl⟩
  obtain ⟨off, hoff⟩ := hg
  have hstyle : (a.SetDecorationIndex i).SetUnderlineLineData.GetGeometry.style =
      StrokeStyle.kSolidStroke := by
    rw [hoff]
    show ((a.SetDecorationIndex i).SetLineData TextDecorationLine.kUnderline
      off).line_geometry_.style = _
    rw [SetLineData_style _ _ _ d hdx]
    unfold TextDecoration.GetStrokeStyle
    rw [hst]
    rfl
  have hwidth : (a.SetDecorationIndex i).SetUnderlineLineData.GetGeometry.line.width =
      a.width_ := by
    rw [hoff]
    show ((a.SetDecorationIndex i).SetLineData TextDecorationLine.kUnderline
      off).line_geometry_.line.width = _
    rw [SetLineData_line, width_SetDecorationIndex]
  obtain ⟨op, h1, h3, -⟩ := LinePainter_solid_single ids _ c (by rw [hwidth]; exact hw) hstyle
  exact ⟨op, h1, h3⟩

theorem lineThrough_solid_op (ids : GraphicsStateIds) (a : TextDecorationInfo) (i : Nat)
    (d : TextDecoration) (c : Color)
    (hv : CacheValid a) (hd : a.decorations_[i]? = some d)
    (hu : HasFlag d.line TextDecorationLine.kLineThrough = true)
    (hst : d.style = TextDecorationStyle.kSolid) (hw : 0 < a.width_) :
    ∃ op : DrawLineOp,
      DecorationLinePainter.Paint ids []
        (a.SetDecorationIndex i).SetLineThroughLineData.GetGeometry c =
          [PaintOp.DrawLine op] ∧
      op.color = c := by
  obtain ⟨h1, -, -⟩ := SetDecorationIndex_cache a i d hv hd
  have hhas : (a.SetDecorationIndex i).HasLineThrough = true := by
    unfold TextDecorationInfo.HasLineThrough
    rw [h1]; exact hu
  have hdx : (a.SetDecorationIndex i).decorations_[(a.SetDecorationIndex i).decoration_index_]?
      = some d := by
    rw [decorations_SetDecorationIndex, index_SetDecorationIndex]; exact hd
  have hg : ∃ off, (a.SetDecorationIndex i).SetLineThroughLineData =
      (a.SetDecorationIndex i).SetLineData TextDecorationLine.kLineThrough off := by
    unfold TextDecorationInfo.SetLineThroughLineData
    rw [hhas]
    exact ⟨_, rfl⟩
  obtain ⟨off, hoff⟩ := hg
  have hstyle : (a.SetDecorationIndex i).SetLineThroughLineData.GetGeometry.style =
      StrokeStyle.kSolidStroke := by
    rw [hoff]
    show ((a.SetDecorationIndex i).SetLineData TextDecorationLine.kLineThrough
      off).line_geometry_.style = _
    rw [SetLineData_style _ _ _ d hdx]
    unfold TextDecoration.GetStrokeStyle
    rw [hst]
    rfl
  have hwidth : (a.SetDecorationIndex i).SetLineThroughLineData.GetGeometry.line.width =
      a.width_ := by
    rw [hoff]
    show ((a.SetDecorationIndex i).SetLineData TextDecorationLine.kLineThrough
      off).line_geometry_.line.width = _
    rw [SetLineData_line, width_SetDecorationIndex]
  obtain ⟨op, h2, h3, -⟩ := LinePainter_solid_single ids _ c (by rw [hwidth]; exact hw) hstyle
  exact ⟨op, h2, h3⟩

theorem flatMap_range_two (f : Nat → PaintOpList) :
    (List.range 2).flatMap f = f 0 ++ f 1 := by
  show [0, 1].flatMap f = f 0 ++ f 1
  simp

theorem emphasis_cond_iff (input : TextPaintInput) :
    ((∃ e, input.emphasis_mark = some e ∧ e.mark.isEmpty = false) ∧
      input.is_ellipsis = false) ↔
    ((∃ e, input.emphasis_mark = some e ∧ e.mark ≠ "") ∧ input.is_ellipsis = false) := by
  have hiff : ∀ e : EmphasisMarkInfo, e.mark.isEmpty = false ↔ e.mark ≠ "" := by
    intro e
    constructor
    · intro h hne
      rw [← String.isEmpty_iff, h] at hne
      exact absurd hne (by simp)
    · intro h
      cases hE : e.mark.isEmpty
      · rfl
      · exact absurd ((String.isEmpty_iff _).1 hE) h
  constructor
  · rintro ⟨⟨e, h1, h2⟩, h3⟩
    exact ⟨⟨e, h1, (hiff e).1 h2⟩, h3⟩
  · rintro ⟨⟨e, h1, h2⟩, h3⟩
    exact ⟨⟨e, h1, (hiff e).2 h2⟩, h3⟩

theorem Paint_sequence (m : FloatMath) (input : TextPaintInput)
    (hv : input.visibility = Visibility.kVisible)
    (hm : input.symbol_marker.filter
      (fun marker => marker.type != SymbolMarkerType.kNone) = none)
    (hft : input.fragment.from_ < input.fragment.to_)
    (hs : input.fragment.HasShapeResult = true ∨ input.is_line_break = true)
    (hfc : input.is_flow_control = false) :
    ∃ (blob : DrawTextBlobOp) (emph : PaintOpList),
      Paint m input =
        transformOps m input ++
        (if input.decorations.any (fun d =>
            HasFlag d.line TextDecorationPainter.exceptLineThroughLines) = true then
          shadowGroupOps (effectiveStyle input).shadow
            ((List.range input.decorations.length).flatMap
              (underOverEntryOps input.state_ids TextDecorationPainter.exceptLineThroughLines
                TextShadowPaintPhase.kForeground (decorationInfo input)))
         else []) ++
        textShadowOps input ++ [PaintOp.DrawTextBlob blob] ++
        (if input.decorations.any (fun d =>
            HasFlag d.line TextDecorationLine.kLineThrough) = true then
          shadowGroupOps (effectiveStyle input).shadow
            ((List.range input.decorations.length).flatMap
              (lineThroughEntryOps input.state_ids TextShadowPaintPhase.kForeground
                (decorationInfo input)))
         else []) ++
        emph ++ (if stateSaved input = true then [PaintOp.Restore] else []) ∧
      (Paint m input).countP PaintOp.isDrawTextBlob = 1 ∧
      (Paint m input).countP PaintOp.isDrawEmphasisMarks = emph.length ∧
      (emph = [] ∨ ∃ op, emph = [PaintOp.DrawEmphasisMarks op]) := by
  obtain ⟨under, lt, emph, blob, hEq, hU, hL, -, hemph⟩ :=
    Paint_explicit m input hv hm hft hs hfc
  obtain ⟨F, hF, hFd, hFc⟩ := PaintDecorationsExceptLineThrough_summary (transformOps m input)
    input.decorations input.box (decorationFontSize input) (decorationAscent input)
    (decorationDescent input) input.state_ids (effectiveStyle input).shadow
    (scalingFactor input)
  obtain ⟨G, hG, hGd, hGc⟩ := PaintDecorationsLineThrough_summary
    (transformOps m input ++ under ++ textShadowOps input ++ [PaintOp.DrawTextBlob blob])
    input.decorations input.box (decorationFontSize input) (decorationAscent input)
    (decorationDescent input) input.state_ids (effectiveStyle input).shadow
    (scalingFactor input)
  have hu : under = F := List.append_cancel_left (hU.symm.trans hF)
  have hl : lt = G := List.append_cancel_left (hL.symm.trans hG)
  have hu2 := List.append_cancel_left (hU.symm.trans
    (PaintDecorationsExceptLineThrough_explicit (transformOps m input) input.decorations
      input.box (decorationFontSize input) (decorationAscent input)
      (decorationDescent input) input.state_ids (effectiveStyle input).shadow
      (scalingFactor input)))
  have hl2 := List.append_cancel_left (hL.symm.trans
    (PaintDecorationsLineThrough_explicit
      (transformOps m input ++ under ++ textShadowOps input ++ [PaintOp.DrawTextBlob blob])
      input.decorations input.box (decorationFontSize input) (decorationAscent input)
      (decorationDescent input) input.state_ids (effectiveStyle input).shadow
      (scalingFactor input)))
  have hemph2 : emph = [] ∨ ∃ op, emph = [PaintOp.DrawEmphasisMarks op] := by
    rcases hemph with h | ⟨op, h, -⟩
    · exact Or.inl h
    · exact Or.inr ⟨op, h⟩
  have hpost : (if stateSaved input = true then [PaintOp.Restore] else []) = [] ∨
      (if stateSaved input = true then [PaintOp.Restore] else []) = [PaintOp.Restore] := by
    split_ifs
    · exact Or.inr rfl
    · exact Or.inl rfl
  obtain ⟨c1, c2, -⟩ := segments_counts (transformOps m input) under (textShadowOps input)
    lt emph _ blob (transformOps_isTransformOp m input) (hu ▸ hFd) (hu ▸ hFc)
    (textShadowOps_isDrawShadow input) (hl ▸ hGd) (hl ▸ hGc) hemph2 hpost
  refine ⟨blob, emph, ?_, by rw [hEq]; exact c1, by rw [hEq]; exact c2, hemph2⟩
  rw [hEq, hu2, hl2]
  rfl

theorem Paint_emphasis_count (m : FloatMath) (input : TextPaintInput)
    (hv : input.visibility = Visibility.kVisible)
    (hm : input.symbol_marker.filter
      (fun marker => marker.type != SymbolMarkerType.kNone) = none)
    (hft : input.fragment.from_ < input.fragment.to_)
    (hs : input.fragment.HasShapeResult = true ∨ input.is_line_break = true)
    (hfc : input.is_flow_control = false) :
    (((∃ e, input.emphasis_mark = some e ∧ e.mark ≠ "") ∧ input.is_ellipsis = false) →
      (Paint m input).countP PaintOp.isDrawEmphasisMarks = 1) ∧
    (¬ ((∃ e, input.emphasis_mark = some e ∧ e.mark ≠ "") ∧ input.is_ellipsis = false) →
      (Paint m input).countP PaintOp.isDrawEmphasisMarks = 0) := by
  obtain ⟨pre, under, ts, lt, emph, post, blob, fs, asc, desc, sf, sh, hEq, hpre, -,
    hunder, hunderC, hts, -, hlt, hltC, hemphP, hemphN, hpost⟩ :=
    Paint_decomp m input hv hm hft hs hfc
  have hemph : emph = [] ∨ ∃ op, emph = [PaintOp.DrawEmphasisMarks op] := by
    by_cases hc : (∃ e, input.emphasis_mark = some e ∧ e.mark.isEmpty = false) ∧
        input.is_ellipsis = false
    · exact Or.inr (hemphP hc)
    · exact Or.inl (hemphN hc)
  obtain ⟨-, c2, -⟩ := segments_counts pre under ts lt emph post blob hpre hunder hunderC
    hts hlt hltC hemph hpost
  rw [← emphasis_cond_iff]
  constructor
  · intro hc
    obtain ⟨op, he⟩ := hemphP hc
    rw [hEq, c2, he]
    rfl
  · intro hc
    rw [hEq, c2, hemphN hc]
    rfl

/-! ## Verified properties of the text painter -/

/-- C15: for a TextDecorationInfo obtained from the constructor and public
method calls whose current decoration index is in range, with current
decoration d, the resolved thickness is round(d.thickness) when
d.thickness > 0, otherwise the font-supplied underline thickness when one is
present, otherwise fontSize/10.  With thickness 0, font size 20 and no font
thickness it is 2, and the line rect produced by SetUnderlineLineData for an
underline decoration has height 2. -/
theorem C15_resolved_thickness (info : TextDecorationInfo) (d : TextDecoration)
    (hr : Reachable info) (hd : info.decorations_[info.decoration_index_]? = some d) :
    info.ResolvedThickness =
        (if d.thickness > 0 then cround d.thickness
         else match info.font_underline_thickness_ with
           | some t => t
           | none => info.font_size_ / 10) ∧
    (d.thickness = 0 → info.font_size_ = 20 → info.font_underline_thickness_ = none →
        info.ResolvedThickness = 2 ∧
        (HasFlag d.line TextDecorationLine.kUnderline = true →
          info.SetUnderlineLineData.GetGeometry.line.height = 2)) := by
  obtain ⟨-, hu, -, ht⟩ := Reachable_CacheValid info hr d hd
  refine ⟨ht, ?_⟩
  intro h0 hfs hth
  have h2 : info.resolved_thickness_ = 2 := by
    rw [ht, h0, hth, hfs]
    norm_num
  refine ⟨h2, ?_⟩
  intro hflag
  unfold TextDecorationInfo.SetUnderlineLineData
  simp only [TextDecorationInfo.HasUnderline, hu, hflag, Bool.not_true, Bool.false_eq_true,
    if_false, TextDecorationInfo.GetGeometry, SetLineData_line, h2]

theorem C15_resolved_thickness_witness :
    Reachable autoUnderlineInfo ∧
    autoUnderlineInfo.decorations_[autoUnderlineInfo.decoration_index_]? =
      some autoUnderline ∧
    autoUnderlineInfo.ResolvedThickness = 2 ∧
    autoUnderlineInfo.SetUnderlineLineData.GetGeometry.line.height = 2 :=
  have hr : Reachable autoUnderlineInfo :=
    Reachable.create 10 30 100 20 15 5 [autoUnderline] 1 none none
  have h := (C15_resolved_thickness autoUnderlineInfo autoUnderline hr rfl).2 rfl rfl rfl
  ⟨hr, rfl, h.1, h.2 rfl⟩

/-- C16: for a TextDecorationInfo obtained from the constructor and public
method calls whose current decoration is d, the line rect of the geometry is
{origin.x, origin.y + offset, width, resolvedThickness}, where after
SetUnderlineLineData (d has the underline flag) offset = (font underline
position if present, else descent) + d.underline_offset; after
SetOverlineLineData (d has the overline flag) offset = -ascent; after
SetLineThroughLineData (d has the line-through flag)
offset = -(2*ascent/3 - resolvedThickness/2). -/
theorem C16_line_rect (info : TextDecorationInfo) (d : TextDecoration)
    (hr : Reachable info) (hd : info.decorations_[info.decoration_index_]? = some d) :
    (HasFlag d.line TextDecorationLine.kUnderline = true →
      info.SetUnderlineLineData.GetGeometry.line =
        { x := info.local_origin_x_
          y := info.local_origin_y_ +
            ((match info.font_underline_position_ with
              | some position => position
              | none => info.descent_) + d.underline_offset)
          width := info.width_
          height := info.ResolvedThickness }) ∧
    (HasFlag d.line TextDecorationLine.kOverline = true →
      info.SetOverlineLineData.GetGeometry.line =
        { x := info.local_origin_x_
          y := info.local_origin_y_ + -info.ascent_
          width := info.width_
          height := info.ResolvedThickness }) ∧
    (HasFlag d.line TextDecorationLine.kLineThrough = true →
      info.SetLineThroughLineData.GetGeometry.line =
        { x := info.local_origin_x_
          y := info.local_origin_y_ + -(2 * info.ascent_ / 3 - info.ResolvedThickness / 2)
          width := info.width_
          height := info.ResolvedThickness }) := by
  obtain ⟨hl, hu, ho, -⟩ := Reachable_CacheValid info hr d hd
  refine ⟨?_, ?_, ?_⟩
  · intro hflag
    unfold TextDecorationInfo.SetUnderlineLineData
    simp only [TextDecorationInfo.HasUnderline, hu, hflag, Bool.not_true,
      Bool.false_eq_true, if_false, TextDecorationInfo.GetGeometry, SetLineData_line, hd,
      TextDecorationInfo.ResolvedThickness]
  · intro hflag
    unfold TextDecorationInfo.SetOverlineLineData
    simp only [TextDecorationInfo.HasOverline, ho, hflag, Bool.not_true,
      Bool.false_eq_true, if_false, TextDecorationInfo.GetGeometry, SetLineData_line,
      TextDecorationInfo.ResolvedThickness]
  · intro hflag
    unfold TextDecorationInfo.SetLineThroughLineData
    simp only [TextDecorationInfo.HasLineThrough, hl, hflag, Bool.not_true,
      Bool.false_eq_true, if_false, TextDecorationInfo.GetGeometry, SetLineData_line,
      TextDecorationInfo.ResolvedThickness]

theorem C16_line_rect_witness :
    Reachable wavyAllLinesInfo ∧
    wavyAllLinesInfo.decorations_[wavyAllLinesInfo.decoration_index_]? = some wavyAllLines ∧
    wavyAllLinesInfo.SetUnderlineLineData.GetGeometry.line =
      { x := 10, y := 36, width := 100, height := 3 } ∧
    wavyAllLinesInfo.SetOverlineLineData.GetGeometry.line =
      { x := 10, y := 15, width := 100, height := 3 } ∧
    wavyAllLinesInfo.SetLineThroughLineData.GetGeometry.line =
      { x := 10, y := 43 / 2, width := 100, height := 3 } := by
  have hr : Reachable wavyAllLinesInfo :=
    Reachable.create 10 30 100 20 15 5 [wavyAllLines] 1 (some 4) (some 7)
  obtain ⟨h1, h2, h3⟩ := C16_line_rect wavyAllLinesInfo wavyAllLines hr rfl
  have hx : wavyAllLinesInfo.local_origin_x_ = 10 := rfl
  have hy : wavyAllLinesInfo.local_origin_y_ = 30 := rfl
  have hw : wavyAllLinesInfo.width_ = 100 := rfl
  have ha : wavyAllLinesInfo.ascent_ = 15 := rfl
  have hp : wavyAllLinesInfo.font_underline_position_ = some 4 := rfl
  have ho : wavyAllLines.underline_offset = 2 := rfl
  have ht : wavyAllLinesInfo.ResolvedThickness = 3 := wavyAllLinesInfo_thickness
  refine ⟨hr, rfl, ?_, ?_, ?_⟩
  · rw [h1 rfl, hx, hy, hw, hp, ho, ht]
    norm_num
  · rw [h2 rfl, hx, hy, hw, ha, ht]
    norm_num
  · rw [h3 rfl, hx, hy, hw, ha, ht]
    norm_num

/-- C17: for a TextDecorationInfo built by the constructor and any public
method calls whose current decoration has the wavy style, the geometry produced
for its underline, overline or line-through has wave parameters
wavelength = 1 + 2*round(2*max(1,t) + 0.5),
controlPointDistance = 0.5 + round(3*max(1,t) + 0.5) and phase = -wavelength,
where t is the resolved thickness; and building the info from the same
decorations with any other colours and making the same calls gives the same
geometry. -/
theorem C17_wavy_wave (info : TextDecorationInfo) (d : TextDecoration)
    (hr : Reachable info) (hd : info.decorations_[info.decoration_index_]? = some d)
    (hw : d.style = TextDecorationStyle.kWavy) :
    (HasFlag d.line TextDecorationLine.kUnderline = true →
      info.SetUnderlineLineData.GetGeometry.wavy_wave =
        { wavelength := 1 + 2 * cround (2 * max 1 info.ResolvedThickness + 1 / 2)
          control_point_distance := 1 / 2 + cround (3 * max 1 info.ResolvedThickness + 1 / 2)
          phase := -(1 + 2 * cround (2 * max 1 info.ResolvedThickness + 1 / 2)) }) ∧
    (HasFlag d.line TextDecorationLine.kOverline = true →
      info.SetOverlineLineData.GetGeometry.wavy_wave =
        { wavelength := 1 + 2 * cround (2 * max 1 info.ResolvedThickness + 1 / 2)
          control_point_distance := 1 / 2 + cround (3 * max 1 info.ResolvedThickness + 1 / 2)
          phase := -(1 + 2 * cround (2 * max 1 info.ResolvedThickness + 1 / 2)) }) ∧
    (HasFlag d.line TextDecorationLine.kLineThrough = true →
      info.SetLineThroughLineData.GetGeometry.wavy_wave =
        { wavelength := 1 + 2 * cround (2 * max 1 info.ResolvedThickness + 1 / 2)
          control_point_distance := 1 / 2 + cround (3 * max 1 info.ResolvedThickness + 1 / 2)
          phase := -(1 + 2 * cround (2 * max 1 info.ResolvedThickness + 1 / 2)) }) ∧
    (∀ (f : TextDecoration → Color) (calls : List InfoCall)
        (x y w fs a de : ℚ) (ds : List TextDecoration) (sf : ℚ) (pos th : Option ℚ),
      (runCalls calls
          (TextDecorationInfo.create x y w fs a de (recolour f ds) sf pos th)).GetGeometry =
        (runCalls calls (TextDecorationInfo.create x y w fs a de ds sf pos th)).GetGeometry) := by
  obtain ⟨hl, hu, ho, -⟩ := Reachable_CacheValid info hr d hd
  refine ⟨?_, ?_, ?_, ?_⟩
  · intro hflag
    unfold TextDecorationInfo.SetUnderlineLineData
    simp only [TextDecorationInfo.HasUnderline, hu, hflag, Bool.not_true,
      Bool.false_eq_true, if_false, TextDecorationInfo.GetGeometry,
      SetLineData_wave info _ _ d hd hw, TextDecorationInfo.ResolvedThickness, MakeWave]
  · intro hflag
    unfold TextDecorationInfo.SetOverlineLineData
    simp only [TextDecorationInfo.HasOverline, ho, hflag, Bool.not_true,
      Bool.false_eq_true, if_false, TextDecorationInfo.GetGeometry,
      SetLineData_wave info _ _ d hd hw, TextDecorationInfo.ResolvedThickness, MakeWave]
  · intro hflag
    unfold TextDecorationInfo.SetLineThroughLineData
    simp only [TextDecorationInfo.HasLineThrough, hl, hflag, Bool.not_true,
      Bool.false_eq_true, if_false, TextDecorationInfo.GetGeometry,
      SetLineData_wave info _ _ d hd hw, TextDecorationInfo.ResolvedThickness, MakeWave]
  · intro f calls x y w fs a de ds sf pos th
    rw [create_recolour, runCalls_recolourInfo]
    rfl

theorem C17_wavy_wave_witness :
    Reachable wavyAllLinesInfo ∧
    wavyAllLinesInfo.decorations_[wavyAllLinesInfo.decoration_index_]? = some wavyAllLines ∧
    wavyAllLines.style = TextDecorationStyle.kWavy ∧
    wavyAllLinesInfo.SetUnderlineLineData.GetGeometry.wavy_wave =
      { wavelength := 15, control_point_distance := 21 / 2, phase := -15 } ∧
    (runCalls [InfoCall.SetUnderlineLineData]
        (TextDecorationInfo.create 10 30 100 20 15 5
          (recolour (fun _ => Color.Black) [wavyAllLines]) 1 (some 4) (some 7))).GetGeometry =
      wavyAllLinesInfo.SetUnderlineLineData.GetGeometry := by
  have hr : Reachable wavyAllLinesInfo :=
    Reachable.create 10 30 100 20 15 5 [wavyAllLines] 1 (some 4) (some 7)
  obtain ⟨h1, -, -, h4⟩ := C17_wavy_wave wavyAllLinesInfo wavyAllLines hr rfl rfl
  have ht : wavyAllLinesInfo.ResolvedThickness = 3 := wavyAllLinesInfo_thickness
  refine ⟨hr, rfl, rfl, ?_, ?_⟩
  · rw [h1 rfl, ht]
    exact MakeWave_three
  · exact h4 (fun _ => Color.Black) [InfoCall.SetUnderlineLineData] 10 30 100 20 15 5
      [wavyAllLines] 1 (some 4) (some 7)

/-- C18: PaintWithTextShadow with a non-empty shadow list appends one
DrawShadowOp per shadow in reverse order, each with that shadow's offsets and
colour and blur sigma blur/2, then runs the shadow-phase paint, appends one
ClearShadowOp and runs the foreground-phase paint; with an absent or empty list
it only runs the foreground-phase paint.  For the decoration painter the two
paints add line operations only, so each of the under/over group and the
line-through group holds exactly that one ClearShadowOp when shadows are
present and none otherwise, and a fragment's output holds at most two. -/
theorem C18_shadow_protocol {α : Type}
    (paint_proc : TextShadowPaintPhase → PaintOpList × α → PaintOpList × α)
    (ops : PaintOpList) (a : α) (painter : TextDecorationPainter)
    (m : FloatMath) (input : TextPaintInput) :
    (∀ list, list ≠ [] →
      PaintWithTextShadow paint_proc (ops, a) (some list) =
        paint_proc TextShadowPaintPhase.kForeground
          ((paint_proc TextShadowPaintPhase.kShadow
              (ops ++ list.reverse.map shadowOp, a)).1 ++ [PaintOp.ClearShadow],
           (paint_proc TextShadowPaintPhase.kShadow
              (ops ++ list.reverse.map shadowOp, a)).2)) ∧
    PaintWithTextShadow paint_proc (ops, a) none =
      paint_proc TextShadowPaintPhase.kForeground (ops, a) ∧
    PaintWithTextShadow paint_proc (ops, a) (some []) =
      paint_proc TextShadowPaintPhase.kForeground (ops, a) ∧
    (∀ list lines, painter.shadows_ = some list → list ≠ [] →
      ∃ S F, (painter.PaintUnderOrOverLineDecorations lines).ops_ =
          painter.ops_ ++ list.reverse.map shadowOp ++ S ++ [PaintOp.ClearShadow] ++ F ∧
        (∀ op ∈ S, op.isLineOp = true) ∧ (∀ op ∈ F, op.isLineOp = true)) ∧
    (∀ list, painter.shadows_ = some list → list ≠ [] →
      ∃ S F, painter.PaintLineThroughDecorations.ops_ =
          painter.ops_ ++ list.reverse.map shadowOp ++ S ++ [PaintOp.ClearShadow] ++ F ∧
        (∀ op ∈ S, op.isLineOp = true) ∧ (∀ op ∈ F, op.isLineOp = true)) ∧
    (∀ lines, HasTextShadow painter.shadows_ = false →
      ∃ F, (painter.PaintUnderOrOverLineDecorations lines).ops_ = painter.ops_ ++ F ∧
        (∀ op ∈ F, op.isLineOp = true)) ∧
    (HasTextShadow painter.shadows_ = false →
      ∃ F, painter.PaintLineThroughDecorations.ops_ = painter.ops_ ++ F ∧
        (∀ op ∈ F, op.isLineOp = true)) ∧
    (∃ extra, painter.PaintExceptLineThrough.ops_ = painter.ops_ ++ extra ∧
      extra.countP PaintOp.isClearShadow ≤ 1) ∧
    (∃ extra, painter.PaintOnlyLineThrough.ops_ = painter.ops_ ++ extra ∧
      extra.countP PaintOp.isClearShadow ≤ 1) ∧
    (Paint m input).countP PaintOp.isClearShadow ≤ 2 := by
  refine ⟨fun list h => PaintWithTextShadow_some paint_proc ops a list h,
    PaintWithTextShadow_none paint_proc ops a, PaintWithTextShadow_empty paint_proc ops a,
    ?_, ?_, ?_, ?_, ?_, ?_, Paint_clear_count m input⟩
  · intro list lines hs hne
    unfold TextDecorationPainter.PaintUnderOrOverLineDecorations
    rw [hs]
    exact PaintWithTextShadow_shadowed PaintOp.isLineOp _
      (fun phase st => UnderOrOver_paint_decorations_extends _ _ phase st) _ _ list hne
  · intro list hs hne
    unfold TextDecorationPainter.PaintLineThroughDecorations
    rw [hs]
    exact PaintWithTextShadow_shadowed PaintOp.isLineOp _
      (fun phase st => LineThrough_paint_decorations_extends _ phase st) _ _ list hne
  · intro lines hs
    unfold TextDecorationPainter.PaintUnderOrOverLineDecorations
    exact PaintWithTextShadow_unshadowed PaintOp.isLineOp _
      (fun phase st => UnderOrOver_paint_decorations_extends _ _ phase st) _ _ _ hs
  · intro hs
    unfold TextDecorationPainter.PaintLineThroughDecorations
    exact PaintWithTextShadow_unshadowed PaintOp.isLineOp _
      (fun phase st => LineThrough_paint_decorations_extends _ phase st) _ _ _ hs
  · obtain ⟨extra, h1, -, h3⟩ := PaintExceptLineThrough_summary painter
    exact ⟨extra, h1, h3⟩
  · obtain ⟨extra, h1, -, h3⟩ := PaintOnlyLineThrough_summary painter
    exact ⟨extra, h1, h3⟩

theorem C18_shadow_protocol_witness :
    shadowedPainter.shadows_ = some [shadowA, shadowB] ∧
    ∃ S F, (shadowedPainter.PaintUnderOrOverLineDecorations
          TextDecorationPainter.exceptLineThroughLines).ops_ =
        shadowedPainter.ops_ ++ [shadowOp shadowB, shadowOp shadowA] ++ S ++
          [PaintOp.ClearShadow] ++ F ∧
      (∀ op ∈ S, op.isLineOp = true) ∧ (∀ op ∈ F, op.isLineOp = true) :=
  ⟨rfl, (C18_shadow_protocol
      (TextDecorationPainter.PaintLineThroughDecorations_paint_decorations {}) []
      shadowedPainter.decoration_info_ shadowedPainter sampleMath decoratedInput).2.2.2.1
    [shadowA, shadowB] TextDecorationPainter.exceptLineThroughLines rfl (by simp)⟩

/-- C19: TextPainter::Paint returns the empty operation list for every input
whose visibility is not visible, whatever the other fields hold. -/
theorem C19_not_visible_empty (m : FloatMath) (input : TextPaintInput)
    (h : input.visibility ≠ Visibility.kVisible) : Paint m input = [] :=
  Paint_hidden m input h

theorem C19_not_visible_empty_witness :
    hiddenTextInput.visibility ≠ Visibility.kVisible ∧
    hiddenTextInput.symbol_marker.isSome = true ∧
    hiddenTextInput.decorations ≠ [] ∧
    Paint sampleMath hiddenTextInput = [] :=
  ⟨by decide, rfl, by simp [hiddenTextInput],
    C19_not_visible_empty sampleMath hiddenTextInput (by decide)⟩

/-- C20: for a fragment that passes the gates (visible, no symbol marker to
paint, from < to, a shape result or a line break, not flow control) the output
is, in this order: the transform operations; the group of the underline,
overline and spelling/grammar decorations (present iff some decoration carries
one of those lines); the text shadows; the single DrawTextBlobOp; the group of
the line-through decorations (present iff some decoration carries that line);
the emphasis marks; the closing RestoreOp if the state was saved.  Each group
is its foreground operations F, wrapped by the shadow protocol when shadows are
present, and F lists the entries in order.  Before the blob, an entry yields
the line painter output for its spelling/grammar geometry if it is so flagged,
and otherwise for its underline geometry and then its overline geometry, as
flagged; after the blob, an entry yields the line painter output for its
line-through geometry if it is so flagged.  The output holds exactly one
DrawTextBlobOp, and a DrawEmphasisMarksOp is present iff an emphasis mark with
a non-empty mark string is present and the fragment is not an ellipsis. -/
theorem C20_paint_order (m : FloatMath) (input : TextPaintInput)
    (hv : input.visibility = Visibility.kVisible)
    (hm : input.symbol_marker.filter
      (fun marker => marker.type != SymbolMarkerType.kNone) = none)
    (hft : input.fragment.from_ < input.fragment.to_)
    (hs : input.fragment.HasShapeResult = true ∨ input.is_line_break = true)
    (hfc : input.is_flow_control = false) :
    (Paint m input).countP PaintOp.isDrawTextBlob = 1 ∧
    ((∃ op ∈ Paint m input, op.isDrawEmphasisMarks = true) ↔
      ((∃ e, input.emphasis_mark = some e ∧ e.mark ≠ "") ∧ input.is_ellipsis = false)) ∧
    (∃ (blob : DrawTextBlobOp) (emph : PaintOpList),
      Paint m input =
        transformOps m input ++
        (if input.decorations.any (fun d =>
            HasFlag d.line TextDecorationPainter.exceptLineThroughLines) = true then
          shadowGroupOps (effectiveStyle input).shadow
            ((List.range input.decorations.length).flatMap
              (underOverEntryOps input.state_ids TextDecorationPainter.exceptLineThroughLines
                TextShadowPaintPhase.kForeground (decorationInfo input)))
         else []) ++
        textShadowOps input ++ [PaintOp.DrawTextBlob blob] ++
        (if input.decorations.any (fun d =>
            HasFlag d.line TextDecorationLine.kLineThrough) = true then
          shadowGroupOps (effectiveStyle input).shadow
            ((List.range input.decorations.length).flatMap
              (lineThroughEntryOps input.state_ids TextShadowPaintPhase.kForeground
                (decorationInfo input)))
         else []) ++
        emph ++ (if stateSaved input = true then [PaintOp.Restore] else []) ∧
      (((∃ e, input.emphasis_mark = some e ∧ e.mark ≠ "") ∧ input.is_ellipsis = false) →
        ∃ op, emph = [PaintOp.DrawEmphasisMarks op]) ∧
      (¬ ((∃ e, input.emphasis_mark = some e ∧ e.mark ≠ "") ∧ input.is_ellipsis = false) →
        emph = [])) ∧
    (∀ op ∈ transformOps m input, op.isTransformOp = true) ∧
    (∀ op ∈ textShadowOps input, op.isDrawShadow = true) ∧
    (∀ i d, input.decorations[i]? = some d →
      underOverEntryOps input.state_ids TextDecorationPainter.exceptLineThroughLines
          TextShadowPaintPhase.kForeground (decorationInfo input) i =
        (if HasFlag d.line
            (TextDecorationLine.kSpellingError ||| TextDecorationLine.kGrammarError) = true then
          DecorationLinePainter.Paint input.state_ids []
            ((decorationInfo input).SetDecorationIndex
              i).SetSpellingOrGrammarErrorLineData.GetGeometry d.color
         else
          (if HasFlag d.line TextDecorationLine.kUnderline = true then
            DecorationLinePainter.Paint input.state_ids []
              ((decorationInfo input).SetDecorationIndex i).SetUnderlineLineData.GetGeometry
              d.color
           else []) ++
          (if HasFlag d.line TextDecorationLine.kOverline = true then
            DecorationLinePainter.Paint input.state_ids []
              ((decorationInfo input).SetDecorationIndex i).SetOverlineLineData.GetGeometry
              d.color
           else [])) ∧
      lineThroughEntryOps input.state_ids TextShadowPaintPhase.kForeground
          (decorationInfo input) i =
        (if HasFlag d.line TextDecorationLine.kLineThrough = true then
          DecorationLinePainter.Paint input.state_ids []
            ((decorationInfo input).SetDecorationIndex i).SetLineThroughLineData.GetGeometry
            d.color
         else [])) := by
  obtain ⟨blob, emph, hEq, c1, c2, hemph⟩ := Paint_sequence m input hv hm hft hs hfc
  obtain ⟨k1, k0⟩ := Paint_emphasis_count m input hv hm hft hs hfc
  have hinfo : CacheValid (decorationInfo input) := CacheValid_create _ _ _ _ _ _ _ _ _ _
  have hds : (decorationInfo input).decorations_ = input.decorations :=
    (inputs_create _ _ _ _ _ _ _ _ _ _).1
  refine ⟨c1, ?_, ⟨blob, emph, hEq, ?_, ?_⟩, transformOps_isTransformOp m input,
    textShadowOps_isDrawShadow input, ?_⟩
  · constructor
    · rintro ⟨op, hop, hE⟩
      by_contra hc
      have hpos : 0 < (Paint m input).countP PaintOp.isDrawEmphasisMarks :=
        List.countP_pos_iff.2 ⟨op, hop, hE⟩
      rw [k0 hc] at hpos
      exact absurd hpos (lt_irrefl _)
    · intro hc
      have hpos : 0 < (Paint m input).countP PaintOp.isDrawEmphasisMarks := by
        rw [k1 hc]; exact Nat.one_pos
      obtain ⟨op, hop, hE⟩ := List.countP_pos_iff.1 hpos
      exact ⟨op, hop, hE⟩
  · intro hc
    rcases hemph with h | h
    · rw [k1 hc, h] at c2
      exact absurd c2 (by simp)
    · exact h
  · intro hc
    rcases hemph with h | ⟨op, h⟩
    · exact h
    · rw [k0 hc, h] at c2
      exact absurd c2 (by simp)
  · intro i d hd
    exact ⟨underOverEntryOps_explicit input.state_ids (decorationInfo input) i d hinfo
        (by rw [hds]; exact hd),
      lineThroughEntryOps_explicit input.state_ids (decorationInfo input) i d hinfo
        (by rw [hds]; exact hd)⟩

/-- Witness for C20: decoratedInput has a red underline, a green line-through,
the shadow A, an emphasis mark and scaling factor 2.  Its output is SaveOp,
ScaleOp(1/2, 1/2), the shadow A, the underline in black, ClearShadowOp, the
underline in red, the DrawTextBlobOp, the shadow A, the line-through in black,
ClearShadowOp, the line-through in green, the DrawEmphasisMarksOp and
RestoreOp. -/
theorem C20_paint_order_witness :
    decoratedInput.decorations = [autoUnderline, plainLineThrough] ∧
    ∃ (u l : DrawLineOp) (blob : DrawTextBlobOp) (e : DrawEmphasisMarksOp),
      u.color = { r := 255 } ∧ l.color = { g := 255 } ∧
      Paint sampleMath decoratedInput =
        [PaintOp.Save, PaintOp.Scale { sx := 1 / 2, sy := 1 / 2 },
         shadowOp shadowA, PaintOp.DrawLine { u with color := Color.Black },
         PaintOp.ClearShadow, PaintOp.DrawLine u,
         PaintOp.DrawTextBlob blob,
         shadowOp shadowA, PaintOp.DrawLine { l with color := Color.Black },
         PaintOp.ClearShadow, PaintOp.DrawLine l,
         PaintOp.DrawEmphasisMarks e, PaintOp.Restore] := by
  obtain ⟨-, -, ⟨blob, emph, hEq, hemph, -⟩, -, -, hentries⟩ :=
    C20_paint_order sampleMath decoratedInput rfl rfl (by decide) (Or.inl rfl) rfl
  obtain ⟨e, he⟩ := hemph ⟨⟨_, rfl, by decide⟩, rfl⟩
  have hinfo : CacheValid (decorationInfo decoratedInput) :=
    CacheValid_create _ _ _ _ _ _ _ _ _ _
  have hds : (decorationInfo decoratedInput).decorations_ =
      [autoUnderline, plainLineThrough] := (inputs_create _ _ _ _ _ _ _ _ _ _).1
  have hw : 0 < (decorationInfo decoratedInput).width_ := by
    rw [show (decorationInfo decoratedInput).width_ = 100 from
      (inputs_create _ _ _ _ _ _ _ _ _ _).2]
    norm_num
  obtain ⟨u, hu, huc⟩ := underline_solid_op decoratedInput.state_ids
    (decorationInfo decoratedInput) 0 autoUnderline autoUnderline.color hinfo
    (by rw [hds]; rfl) (by decide) rfl hw
  obtain ⟨l, hl, hlc⟩ := lineThrough_solid_op decoratedInput.state_ids
    (decorationInfo decoratedInput) 1 plainLineThrough plainLineThrough.color hinfo
    (by rw [hds]; rfl) (by decide) rfl hw
  obtain ⟨hU0, hL0⟩ := hentries 0 autoUnderline rfl
  obtain ⟨hU1, hL1⟩ := hentries 1 plainLineThrough rfl
  have a1 : HasFlag autoUnderline.line
      (TextDecorationLine.kSpellingError ||| TextDecorationLine.kGrammarError) = false := by
    decide
  have a2 : HasFlag autoUnderline.line TextDecorationLine.kUnderline = true := by decide
  have a3 : HasFlag autoUnderline.line TextDecorationLine.kOverline = false := by decide
  have a4 : HasFlag autoUnderline.line TextDecorationLine.kLineThrough = false := by decide
  have b1 : HasFlag plainLineThrough.line
      (TextDecorationLine.kSpellingError ||| TextDecorationLine.kGrammarError) = false := by
    decide
  have b2 : HasFlag plainLineThrough.line TextDecorationLine.kUnderline = false := by decide
  have b3 : HasFlag plainLineThrough.line TextDecorationLine.kOverline = false := by decide
  have b4 : HasFlag plainLineThrough.line TextDecorationLine.kLineThrough = true := by decide
  simp only [a1, a2, a3, Bool.false_eq_true, if_false, if_true, hu, List.append_nil] at hU0
  simp only [a4, Bool.false_eq_true, if_false] at hL0
  simp only [b1, b2, b3, Bool.false_eq_true, if_false, List.append_nil] at hU1
  simp only [b4, if_true, hl] at hL1
  have hsf : scalingFactor decoratedInput = 2 := rfl
  have hss : stateSaved decoratedInput = true :=
    (stateSaved_iff decoratedInput).2 (Or.inl (by rw [hsf]; norm_num))
  have htr : transformOps sampleMath decoratedInput =
      [PaintOp.Save, PaintOp.Scale { sx := 1 / 2, sy := 1 / 2 }] := by
    rw [transformOps_saved _ _ hss, hsf, if_pos (by norm_num)]
    rfl
  have hts : textShadowOps decoratedInput = [] := by
    unfold textShadowOps
    rw [if_neg (by decide)]
  have hsh : (effectiveStyle decoratedInput).shadow = some [shadowA] := by
    rw [effectiveStyle_other decoratedInput (by decide)]
    rfl
  have hgroup : ∀ F, shadowGroupOps (some [shadowA]) F =
      [shadowOp shadowA] ++ F.map (PaintOp.withLineColor Color.Black) ++
        [PaintOp.ClearShadow] ++ F := by
    intro F
    have hh : HasTextShadow (some [shadowA]) = true := rfl
    unfold shadowGroupOps
    rw [if_pos hh]
    rfl
  have hlen : decoratedInput.decorations.length = 2 := rfl
  refine ⟨rfl, u, l, blob, e, huc, hlc, ?_⟩
  rw [hEq, htr, hts, hsh, hlen, if_pos (by decide), if_pos (by decide), hgroup, hgroup,
    flatMap_range_two, flatMap_range_two, hU0, hU1, hL0, hL1, he, if_pos hss]
  rfl

/-- C21: for a visible fragment whose symbol marker has a type other than
none, Paint returns exactly one operation: a FillEllipseOp for disc, a
StrokeEllipseOp with stroke width 1 for circle, a FillRectOp for square, and
for either disclosure type a FillPathOp with three points, which for a marker
with is_open set are the ends of the base at height 0.07 of the rect and the
apex at its horizontal middle at height 0.93 (pointing down), and otherwise
the ends of the base on the left side of the rect and the apex at 0.86 of its
width at its vertical middle (pointing right).  Each operation carries the
marker's rect (or the points mapped into it), the marker's colour and the
input's state ids. -/
theorem C21_symbol_marker (m : FloatMath) (input : TextPaintInput)
    (marker : SymbolMarkerInfo)
    (hv : input.visibility = Visibility.kVisible)
    (hmk : input.symbol_marker = some marker)
    (ht : marker.type ≠ SymbolMarkerType.kNone) :
    (Paint m input).length = 1 ∧
    (marker.type = SymbolMarkerType.kDisc →
      Paint m input = [PaintOp.FillEllipse
        { rect := marker.marker_rect, color := marker.color
          transform_id := input.state_ids.transform_id
          clip_id := input.state_ids.clip_id
          effect_id := input.state_ids.effect_id }]) ∧
    (marker.type = SymbolMarkerType.kCircle →
      Paint m input = [PaintOp.StrokeEllipse
        { rect := marker.marker_rect, color := marker.color, stroke_width := 1
          transform_id := input.state_ids.transform_id
          clip_id := input.state_ids.clip_id
          effect_id := input.state_ids.effect_id }]) ∧
    (marker.type = SymbolMarkerType.kSquare →
      Paint m input = [PaintOp.FillRect
        { rect := marker.marker_rect, color := marker.color
          transform_id := input.state_ids.transform_id
          clip_id := input.state_ids.clip_id
          effect_id := input.state_ids.effect_id }]) ∧
    (marker.type = SymbolMarkerType.kDisclosureOpen ∨
        marker.type = SymbolMarkerType.kDisclosureClosed →
      (marker.is_open = true →
        Paint m input = [PaintOp.FillPath
          { points :=
              [{ x := marker.marker_rect.x
                 y := marker.marker_rect.y + 7 / 100 * marker.marker_rect.height },
               { x := marker.marker_rect.x + 1 / 2 * marker.marker_rect.width
                 y := marker.marker_rect.y + 93 / 100 * marker.marker_rect.height },
               { x := marker.marker_rect.x + marker.marker_rect.width
                 y := marker.marker_rect.y + 7 / 100 * marker.marker_rect.height }]
            color := marker.color
            transform_id := input.state_ids.transform_id
            clip_id := input.state_ids.clip_id
            effect_id := input.state_ids.effect_id }]) ∧
      (marker.is_open = false →
        Paint m input = [PaintOp.FillPath
          { points :=
              [{ x := marker.marker_rect.x, y := marker.marker_rect.y },
               { x := marker.marker_rect.x + 86 / 100 * marker.marker_rect.width
                 y := marker.marker_rect.y + 1 / 2 * marker.marker_rect.height },
               { x := marker.marker_rect.x
                 y := marker.marker_rect.y + marker.marker_rect.height }]
            color := marker.color
            transform_id := input.state_ids.transform_id
            clip_id := input.state_ids.clip_id
            effect_id := input.state_ids.effect_id }])) := by
  rw [Paint_marker m input hv marker (filter_marker_some input marker hmk ht)]
  refine ⟨?_, ?_, ?_, ?_, ?_⟩
  · unfold PaintSymbolMarker
    rcases h : marker.type with _ | _ | _ | _ | _ | _
    · exact absurd h ht
    all_goals rfl
  · intro h
    simp only [PaintSymbolMarker, h, PaintOpList.FillEllipse, List.nil_append]
  · intro h
    simp only [PaintSymbolMarker, h, PaintOpList.StrokeEllipse, List.nil_append]
  · intro h
    simp only [PaintSymbolMarker, h, PaintOpList.FillRect, List.nil_append]
  · intro h
    constructor
    · intro ho
      rcases h with h | h <;>
        simp [PaintSymbolMarker, h, ho, PaintOpList.FillPath, GetDisclosurePathPoints]
    · intro ho
      rcases h with h | h <;>
        simp [PaintSymbolMarker, h, ho, PaintOpList.FillPath, GetDisclosurePathPoints]

/-- Witness for C21: an open disclosure marker in the rect {10, 20, 8, 8} on a
fragment that also has a decoration, a shadow and an SVG scale yields the
single triangle (10, 20.56), (14, 27.44), (18, 20.56). -/
theorem C21_symbol_marker_witness :
    disclosureInput.visibility = Visibility.kVisible ∧
    Paint sampleMath disclosureInput = [PaintOp.FillPath
      { points := [{ x := 10, y := 514 / 25 }, { x := 14, y := 686 / 25 },
          { x := 18, y := 514 / 25 }]
        color := { r := 9 }
        transform_id := 3, clip_id := 5, effect_id := 7 }] := by
  have h := (C21_symbol_marker sampleMath disclosureInput
    { type := SymbolMarkerType.kDisclosureOpen
      marker_rect := { x := 10, y := 20, width := 8, height := 8 }
      color := { r := 9 }
      is_open := true } rfl rfl (by decide)).2.2.2.2 (Or.inl rfl)
  refine ⟨rfl, ?_⟩
  rw [h.1 rfl]
  simp only [disclosureInput]
  norm_num

/-- C22: for a visible fragment with no symbol marker to paint, Paint returns
the empty list when the glyph range is empty (from >= to) and when the
fragment is a flow-control fragment, with or without decorations. -/
theorem C22_empty_range_flow_control (m : FloatMath) (input : TextPaintInput)
    (hv : input.visibility = Visibility.kVisible)
    (hm : input.symbol_marker.filter
      (fun marker => marker.type != SymbolMarkerType.kNone) = none) :
    (input.fragment.from_ ≥ input.fragment.to_ → Paint m input = []) ∧
    (input.is_flow_control = true → Paint m input = []) :=
  ⟨fun h => Paint_gated m input hv hm (Or.inl h),
    fun h => Paint_gated m input hv hm (Or.inr (Or.inr h))⟩

/-- Witness for C22: a flow-control fragment with a non-empty range, a shape
result and a decoration yields no operation. -/
theorem C22_empty_range_flow_control_witness :
    flowControlInput.visibility = Visibility.kVisible ∧
    flowControlInput.symbol_marker = none ∧
    flowControlInput.is_flow_control = true ∧
    Paint sampleMath flowControlInput = [] :=
  ⟨rfl, rfl, rfl, (C22_empty_range_flow_control sampleMath flowControlInput rfl rfl).2 rfl⟩

/-- C27: for a TextDecorationInfo obtained from the constructor and public
method calls whose current decoration d is flagged spelling-error or
grammar-error, SetSpellingOrGrammarErrorLineData produces a geometry with the
wavy stroke style whatever d.style is, wave parameters wavelength 4, control
point distance 2.5 and phase 0, line rect {origin.x, origin.y + descent +
d.underline_offset, width, resolvedThickness} (the font-supplied underline
position does not enter), and doubleOffset = wavyOffset =
resolvedThickness + 1. -/
theorem C27_spelling_grammar_geometry (info : TextDecorationInfo) (d : TextDecoration)
    (hr : Reachable info) (hd : info.decorations_[info.decoration_index_]? = some d)
    (hflag : HasFlag d.line
      (TextDecorationLine.kSpellingError ||| TextDecorationLine.kGrammarError) = true) :
    info.SetSpellingOrGrammarErrorLineData.GetGeometry.style = StrokeStyle.kWavyStroke ∧
    info.SetSpellingOrGrammarErrorLineData.GetGeometry.wavy_wave =
      { wavelength := 4, control_point_distance := 5 / 2, phase := 0 } ∧
    info.SetSpellingOrGrammarErrorLineData.GetGeometry.line =
      { x := info.local_origin_x_
        y := info.local_origin_y_ + (info.descent_ + d.underline_offset)
        width := info.width_
        height := info.ResolvedThickness } ∧
    info.SetSpellingOrGrammarErrorLineData.GetGeometry.double_offset =
      info.ResolvedThickness + 1 ∧
    info.SetSpellingOrGrammarErrorLineData.GetGeometry.wavy_offset =
      info.ResolvedThickness + 1 := by
  obtain ⟨hl, -, -, -⟩ := Reachable_CacheValid info hr d hd
  have hhas : info.HasSpellingOrGrammarError = true := by
    unfold TextDecorationInfo.HasSpellingOrGrammarError
    rw [hl]
    exact hflag
  unfold TextDecorationInfo.SetSpellingOrGrammarErrorLineData
  simp only [hhas, Bool.not_true, Bool.false_eq_true, if_false, hd,
    TextDecorationInfo.GetGeometry, DecorationGeometry.Make, if_true,
    TextDecorationInfo.ResolvedThickness, and_self]

/-- Witness for C27: a solid-style spelling decoration of thickness 3 with
offset adjustment 2, font underline position 4, descent 5 and origin (10, 30)
gets a wavy geometry with wave (4, 2.5, 0), line rect {10, 37, 100, 3} and
both offsets 4. -/
theorem C27_spelling_grammar_geometry_witness :
    Reachable spellingInfo ∧
    spellingInfo.decorations_[spellingInfo.decoration_index_]? = some spellingDecoration ∧
    spellingDecoration.style = TextDecorationStyle.kSolid ∧
    spellingInfo.SetSpellingOrGrammarErrorLineData.GetGeometry.style =
      StrokeStyle.kWavyStroke ∧
    spellingInfo.SetSpellingOrGrammarErrorLineData.GetGeometry.wavy_wave =
      { wavelength := 4, control_point_distance := 5 / 2, phase := 0 } ∧
    spellingInfo.SetSpellingOrGrammarErrorLineData.GetGeometry.line =
      { x := 10, y := 37, width := 100, height := 3 } ∧
    spellingInfo.SetSpellingOrGrammarErrorLineData.GetGeometry.double_offset = 4 := by
  have hr : Reachable spellingInfo :=
    Reachable.create 10 30 100 20 15 5 [spellingDecoration] 1 (some 4) (some 7)
  obtain ⟨h1, h2, h3, h4, -⟩ :=
    C27_spelling_grammar_geometry spellingInfo spellingDecoration hr rfl rfl
  have ht : spellingInfo.ResolvedThickness = 3 := by
    have h := (Reachable_CacheValid spellingInfo hr spellingDecoration rfl).2.2.2
    show spellingInfo.resolved_thickness_ = 3
    rw [h]
    have h3 : spellingDecoration.thickness = 3 := rfl
    rw [h3, if_pos (by norm_num)]
    exact cround_three
  have hx : spellingInfo.local_origin_x_ = 10 := rfl
  have hy : spellingInfo.local_origin_y_ = 30 := rfl
  have hw : spellingInfo.width_ = 100 := rfl
  have hde : spellingInfo.descent_ = 5 := rfl
  have ho : spellingDecoration.underline_offset = 2 := rfl
  refine ⟨hr, rfl, rfl, h1, h2, ?_, ?_⟩
  · rw [h3, hx, hy, hw, hde, ho, ht]
    norm_num
  · rw [h4, ht]
    norm_num

/-- C28: SetLineData sets the geometry's doubleOffset to t + 1 for underline,
-(t + 1) for overline and floor(t + 1) for line-through, t being the resolved
thickness, and for a current decoration of wavy style the wavyOffset to t + 1
for underline, -(t + 1) for overline and 0 for line-through; the three public
setters pass these lines on a reachable info whose current decoration carries
the respective flag. -/
theorem C28_double_and_wavy_offsets (info : TextDecorationInfo) (d : TextDecoration)
    (hr : Reachable info) (hd : info.decorations_[info.decoration_index_]? = some d) :
    (∀ off,
      (info.SetLineData TextDecorationLine.kUnderline off).GetGeometry.double_offset =
        info.ResolvedThickness + 1 ∧
      (info.SetLineData TextDecorationLine.kOverline off).GetGeometry.double_offset =
        -(info.ResolvedThickness + 1) ∧
      (info.SetLineData TextDecorationLine.kLineThrough off).GetGeometry.double_offset =
        cfloor (info.ResolvedThickness + 1) ∧
      (d.style = TextDecorationStyle.kWavy →
        (info.SetLineData TextDecorationLine.kUnderline off).GetGeometry.wavy_offset =
          info.ResolvedThickness + 1 ∧
        (info.SetLineData TextDecorationLine.kOverline off).GetGeometry.wavy_offset =
          -(info.ResolvedThickness + 1) ∧
        (info.SetLineData TextDecorationLine.kLineThrough off).GetGeometry.wavy_offset =
          0)) ∧
    (HasFlag d.line TextDecorationLine.kUnderline = true →
      info.SetUnderlineLineData.GetGeometry.double_offset = info.ResolvedThickness + 1 ∧
      (d.style = TextDecorationStyle.kWavy →
        info.SetUnderlineLineData.GetGeometry.wavy_offset = info.ResolvedThickness + 1)) ∧
    (HasFlag d.line TextDecorationLine.kOverline = true →
      info.SetOverlineLineData.GetGeometry.double_offset = -(info.ResolvedThickness + 1) ∧
      (d.style = TextDecorationStyle.kWavy →
        info.SetOverlineLineData.GetGeometry.wavy_offset =
          -(info.ResolvedThickness + 1))) ∧
    (HasFlag d.line TextDecorationLine.kLineThrough = true →
      info.SetLineThroughLineData.GetGeometry.double_offset =
        cfloor (info.ResolvedThickness + 1) ∧
      (d.style = TextDecorationStyle.kWavy →
        info.SetLineThroughLineData.GetGeometry.wavy_offset = 0)) := by
  obtain ⟨hl, hu, ho, -⟩ := Reachable_CacheValid info hr d hd
  have hU := fun off => SetLineData_offsets info TextDecorationLine.kUnderline off
  have hO := fun off => SetLineData_offsets info TextDecorationLine.kOverline off
  have hL := fun off => SetLineData_offsets info TextDecorationLine.kLineThrough off
  have e1 : TextDecorationLine.kOverline ≠ TextDecorationLine.kUnderline := by decide
  have e2 : TextDecorationLine.kLineThrough ≠ TextDecorationLine.kUnderline := by decide
  have e3 : TextDecorationLine.kLineThrough ≠ TextDecorationLine.kOverline := by decide
  simp only [if_true, if_neg e1, if_neg e2, if_neg e3] at hU hO hL
  refine ⟨fun off => ⟨(hU off).1, (hO off).1, (hL off).1, fun hw =>
      ⟨(hU off).2 d hd hw, (hO off).2 d hd hw, (hL off).2 d hd hw⟩⟩, ?_, ?_, ?_⟩
  · intro hflag
    unfold TextDecorationInfo.SetUnderlineLineData
    simp only [TextDecorationInfo.HasUnderline, hu, hflag, Bool.not_true,
      Bool.false_eq_true, if_false]
    exact ⟨(hU _).1, fun hw => (hU _).2 d hd hw⟩
  · intro hflag
    unfold TextDecorationInfo.SetOverlineLineData
    simp only [TextDecorationInfo.HasOverline, ho, hflag, Bool.not_true,
      Bool.false_eq_true, if_false]
    exact ⟨(hO _).1, fun hw => (hO _).2 d hd hw⟩
  · intro hflag
    unfold TextDecorationInfo.SetLineThroughLineData
    simp only [TextDecorationInfo.HasLineThrough, hl, hflag, Bool.not_true,
      Bool.false_eq_true, if_false]
    exact ⟨(hL _).1, fun hw => (hL _).2 d hd hw⟩

/-- Witness for C28: the wavy decoration of thickness 3 carrying all three
lines gets double offsets 4, -4 and 4 and wavy offsets 4, -4 and 0. -/
theorem C28_double_and_wavy_offsets_witness :
    Reachable wavyAllLinesInfo ∧
    wavyAllLinesInfo.decorations_[wavyAllLinesInfo.decoration_index_]? = some wavyAllLines ∧
    wavyAllLinesInfo.SetUnderlineLineData.GetGeometry.double_offset = 4 ∧
    wavyAllLinesInfo.SetUnderlineLineData.GetGeometry.wavy_offset = 4 ∧
    wavyAllLinesInfo.SetOverlineLineData.GetGeometry.double_offset = -4 ∧
    wavyAllLinesInfo.SetOverlineLineData.GetGeometry.wavy_offset = -4 ∧
    wavyAllLinesInfo.SetLineThroughLineData.GetGeometry.double_offset = 4 ∧
    wavyAllLinesInfo.SetLineThroughLineData.GetGeometry.wavy_offset = 0 := by
  have hr : Reachable wavyAllLinesInfo :=
    Reachable.create 10 30 100 20 15 5 [wavyAllLines] 1 (some 4) (some 7)
  obtain ⟨-, h1, h2, h3⟩ := C28_double_and_wavy_offsets wavyAllLinesInfo wavyAllLines hr rfl
  have ht : wavyAllLinesInfo.ResolvedThickness = 3 := wavyAllLinesInfo_thickness
  have hf : cfloor (3 + 1) = 4 := by
    unfold cfloor
    have : ⌊(3 : ℚ) + 1⌋ = 4 := by
      rw [Int.floor_eq_iff]; norm_num
    rw [this]; norm_num
  refine ⟨hr, rfl, ?_, ?_, ?_, ?_, ?_, ?_⟩
  · rw [(h1 rfl).1, ht]; norm_num
  · rw [(h1 rfl).2 rfl, ht]; norm_num
  · rw [(h2 rfl).1, ht]; norm_num
  · rw [(h2 rfl).2 rfl, ht]; norm_num
  · rw [(h3 rfl).1, ht]; exact hf
  · exact (h3 rfl).2 rfl

/-- C29: for a geometry of positive width, DecorationLinePainter::Paint
appends for the solid style exactly one DrawLineOp with rect
{x, floor(y + 0.5), width, max(floor(height), 1)}, and for the double style
exactly two: that one followed by
{x, floor(y + doubleOffset + 0.5), width, max(floor(height), 1)}; x and width
are those of the geometry and the emitted height is an integer >= 1. -/
theorem C29_solid_double_lines (state_ids : GraphicsStateIds) (ops : PaintOpList)
    (geometry : DecorationGeometry) (color : Color)
    (hw : 0 < geometry.line.width) :
    (geometry.style = StrokeStyle.kSolidStroke →
      DecorationLinePainter.Paint state_ids ops geometry color =
        ops ++ [PaintOp.DrawLine
          { rect :=
              { x := geometry.line.x
                y := cfloor (geometry.line.y + 1 / 2)
                width := geometry.line.width
                height := max (cfloor geometry.line.height) 1 }
            color := color
            snapped := true
            transform_id := state_ids.transform_id
            clip_id := state_ids.clip_id
            effect_id := state_ids.effect_id }]) ∧
    (geometry.style = StrokeStyle.kDoubleStroke →
      DecorationLinePainter.Paint state_ids ops geometry color =
        ops ++ [PaintOp.DrawLine
          { rect :=
              { x := geometry.line.x
                y := cfloor (geometry.line.y + 1 / 2)
                width := geometry.line.width
                height := max (cfloor geometry.line.height) 1 }
            color := color
            snapped := true
            transform_id := state_ids.transform_id
            clip_id := state_ids.clip_id
            effect_id := state_ids.effect_id },
          PaintOp.DrawLine
          { rect :=
              { x := geometry.line.x
                y := cfloor (geometry.line.y + geometry.double_offset + 1 / 2)
                width := geometry.line.width
                height := max (cfloor geometry.line.height) 1 }
            color := color
            snapped := true
            transform_id := state_ids.transform_id
            clip_id := state_ids.clip_id
            effect_id := state_ids.effect_id }]) ∧
    ∃ n : ℤ, 1 ≤ n ∧ max (cfloor geometry.line.height) 1 = (n : ℚ) := by
  have hnw : ¬ geometry.line.width ≤ 0 := not_le.2 hw
  refine ⟨?_, ?_, ?_⟩
  · intro hs
    unfold DecorationLinePainter.Paint
    rw [if_neg hnw, hs]
    simp [SnapYAxis, RoundDownThickness]
  · intro hs
    unfold DecorationLinePainter.Paint
    rw [if_neg hnw, hs]
    simp [SnapYAxis, RoundDownThickness]
  · refine ⟨max ⌊geometry.line.height⌋ 1, le_max_right _ _, ?_⟩
    unfold cfloor
    push_cast
    rfl

/-- Witness for C29: the double geometry with line {10, 12.5, 100, 2.7} and
double offset 3.7 yields the rects {10, 13, 100, 2} and {10, 16, 100, 2}. -/
theorem C29_solid_double_lines_witness :
    0 < doubleGeometry.line.width ∧
    DecorationLinePainter.Paint {} [] doubleGeometry Color.Black =
      [PaintOp.DrawLine
        { rect := { x := 10, y := 13, width := 100, height := 2 }
          color := Color.Black, snapped := true },
       PaintOp.DrawLine
        { rect := { x := 10, y := 16, width := 100, height := 2 }
          color := Color.Black, snapped := true }] := by
  have hw : 0 < doubleGeometry.line.width := by
    simp only [doubleGeometry]; norm_num
  have h := (C29_solid_double_lines {} [] doubleGeometry Color.Black hw).2.1 rfl
  refine ⟨hw, ?_⟩
  rw [h]
  have f1 : cfloor ((25 : ℚ) / 2 + 1 / 2) = 13 := by
    unfold cfloor
    have : ⌊(25 : ℚ) / 2 + 1 / 2⌋ = 13 := by rw [Int.floor_eq_iff]; norm_num
    rw [this]; norm_num
  have f2 : cfloor ((25 : ℚ) / 2 + 37 / 10 + 1 / 2) = 16 := by
    unfold cfloor
    have : ⌊(25 : ℚ) / 2 + 37 / 10 + 1 / 2⌋ = 16 := by rw [Int.floor_eq_iff]; norm_num
    rw [this]; norm_num
  have f3 : cfloor ((27 : ℚ) / 10) = 2 := by
    unfold cfloor
    have : ⌊(27 : ℚ) / 10⌋ = 2 := by rw [Int.floor_eq_iff]; norm_num
    rw [this]; norm_num
  simp only [doubleGeometry, f1, f2, f3, List.nil_append]
  norm_num

/-- C30: for a dotted or dashed geometry of positive width,
DecorationLinePainter::Paint appends exactly one DrawStrokeLineOp whose
thickness is the integer T = round(height) and whose two endpoints have the
same y, which is floor(y + max(height/2, 0.5)) + 0.5 when T is odd and
floor(y + max(height/2, 0.5)) when it is not. -/
theorem C30_dotted_dashed_line (state_ids : GraphicsStateIds) (ops : PaintOpList)
    (geometry : DecorationGeometry) (color : Color)
    (hw : 0 < geometry.line.width)
    (hs : geometry.style = StrokeStyle.kDottedStroke ∨
      geometry.style = StrokeStyle.kDashedStroke) :
    ∃ (op : DrawStrokeLineOp) (T : ℤ),
      DecorationLinePainter.Paint state_ids ops geometry color =
        ops ++ [PaintOp.DrawStrokeLine op] ∧
      cround geometry.line.height = (T : ℚ) ∧
      op.thickness = (T : ℚ) ∧
      op.p1.y = op.p2.y ∧
      (Odd T → op.p1.y =
        cfloor (geometry.line.y + max (geometry.line.height / 2) (1 / 2)) + 1 / 2) ∧
      (¬ Odd T → op.p1.y =
        cfloor (geometry.line.y + max (geometry.line.height / 2) (1 / 2))) := by
  have hnw : ¬ geometry.line.width ≤ 0 := not_le.2 hw
  obtain ⟨T, hT⟩ := cround_eq_intCast geometry.line.height
  have hT' : cround geometry.Thickness = (T : ℚ) := hT
  have hodd : decide (Int.tmod (ctrunc (cround geometry.Thickness)) 2 ≠ 0) = decide (Odd T) := by
    rw [hT', ctrunc_intCast]
    exact decide_eq_decide.2 (tmod_two_ne_zero_iff T)
  have key : ∀ style, style = StrokeStyle.kDottedStroke ∨ style = StrokeStyle.kDashedStroke →
      geometry.style = style →
      ∃ (op : DrawStrokeLineOp),
        DecorationLinePainter.Paint state_ids ops geometry color =
          ops ++ [PaintOp.DrawStrokeLine op] ∧
        op.thickness = cround geometry.Thickness ∧
        op.p1.y = op.p2.y ∧
        op.p1.y = (if decide (Odd T) = true then
          cfloor (geometry.line.y + max (geometry.line.height / 2) (1 / 2)) + 1 / 2
          else cfloor (geometry.line.y + max (geometry.line.height / 2) (1 / 2))) := by
    intro style hstyle hgs
    unfold DecorationLinePainter.Paint
    rw [if_neg hnw, hgs]
    rcases hstyle with rfl | rfl
    · refine ⟨_, rfl, rfl, ?_, ?_⟩
      · simp only [GetSnappedPointsForTextLine]
        split_ifs <;> rfl
      · simp only [GetSnappedPointsForTextLine, hodd]
        split_ifs <;> rfl
    · refine ⟨_, rfl, rfl, ?_, ?_⟩
      · simp only [GetSnappedPointsForTextLine]
        split_ifs <;> rfl
      · simp only [GetSnappedPointsForTextLine, hodd]
        split_ifs <;> rfl
  obtain ⟨op, h1, h2, h3, h4⟩ := key geometry.style hs rfl
  refine ⟨op, T, h1, hT, by rw [h2, hT'], h3, ?_, ?_⟩
  · intro ho
    rw [h4, if_pos (by simpa using ho)]
  · intro ho
    rw [h4, if_neg (by simpa using ho)]

/-- Witness for C30: the dotted geometry with line {10, 12, 100, 3} yields one
stroke line of thickness 3 whose endpoints lie at y = 13.5. -/
theorem C30_dotted_dashed_line_witness :
    0 < dottedGeometry.line.width ∧
    ∃ op : DrawStrokeLineOp,
      DecorationLinePainter.Paint {} [] dottedGeometry Color.Black =
        [PaintOp.DrawStrokeLine op] ∧
      op.thickness = 3 ∧ op.p1.y = 27 / 2 ∧ op.p2.y = 27 / 2 := by
  have hw : 0 < dottedGeometry.line.width := by
    simp only [dottedGeometry]; norm_num
  obtain ⟨op, T, h1, h2, h3, h4, h5, -⟩ :=
    C30_dotted_dashed_line {} [] dottedGeometry Color.Black hw (Or.inl rfl)
  have hh : dottedGeometry.line.height = 3 := rfl
  have hy : dottedGeometry.line.y = 12 := rfl
  have hT : T = 3 := by
    rw [hh, cround_three] at h2
    exact_mod_cast h2.symm
  have hodd : Odd T := by rw [hT]; decide
  have hf : cfloor ((12 : ℚ) + max (3 / 2) (1 / 2)) = 13 := by
    have hm : max ((3 : ℚ) / 2) (1 / 2) = 3 / 2 := by norm_num
    unfold cfloor
    have : ⌊(12 : ℚ) + 3 / 2⌋ = 13 := by rw [Int.floor_eq_iff]; norm_num
    rw [hm, this]; norm_num
  have hp1 : op.p1.y = 27 / 2 := by
    rw [h5 hodd, hy, hh, hf]; norm_num
  refine ⟨hw, op, h1, ?_, hp1, ?_⟩
  · rw [h3, hT]; norm_num
  · rw [← h4, hp1]

/-- C31 (amended): for a dotted or dashed geometry of positive width, with T
the rounded thickness, the two endpoints of the emitted stroked line are moved
inward by T/2 (p1.x = x + T/2 and p2.x = x + width - T/2) exactly when the
style is dotted and T >= 2; when the style is dashed, or dotted with T < 2,
the endpoints stay at x and x + width. -/
theorem C31_endpoint_inset (state_ids : GraphicsStateIds) (ops : PaintOpList)
    (geometry : DecorationGeometry) (color : Color)
    (hw : 0 < geometry.line.width)
    (hs : geometry.style = StrokeStyle.kDottedStroke ∨
      geometry.style = StrokeStyle.kDashedStroke) :
    ∃ op : DrawStrokeLineOp,
      DecorationLinePainter.Paint state_ids ops geometry color =
        ops ++ [PaintOp.DrawStrokeLine op] ∧
      op.thickness = cround geometry.line.height ∧
      (geometry.style = StrokeStyle.kDottedStroke ∧ 2 ≤ cround geometry.line.height →
        op.p1.x = geometry.line.x + cround geometry.line.height / 2 ∧
        op.p2.x = geometry.line.x + geometry.line.width - cround geometry.line.height / 2) ∧
      (geometry.style = StrokeStyle.kDashedStroke ∨ cround geometry.line.height < 2 →
        op.p1.x = geometry.line.x ∧
        op.p2.x = geometry.line.x + geometry.line.width) := by
  obtain ⟨op, h1, h2, -, -, h5, h6⟩ :=
    LinePainter_stroke_eq state_ids ops geometry color hw hs
  refine ⟨op, h1, h2, ?_, ?_⟩
  · rintro ⟨hd, hT⟩
    have hnd : StrokeIsDashed (cround geometry.line.height) geometry.style = false := by
      simp [StrokeIsDashed, hd, hT]
    rw [h5, h6, hnd]
    simp
  · intro h
    have hd : StrokeIsDashed (cround geometry.line.height) geometry.style = true := by
      rcases h with h | h
      · simp [StrokeIsDashed, h]
      · rcases hs with hs | hs
        · simp [StrokeIsDashed, hs, h]
        · simp [StrokeIsDashed, hs]
    rw [h5, h6, hd]
    simp

/-- Witness for C31 (amended): the dotted geometry with line {10, 12, 100, 3}
has rounded thickness 3 and its endpoints move inward to x = 11.5 and
x = 108.5. -/
theorem C31_endpoint_inset_witness :
    0 < dottedGeometry.line.width ∧
    ∃ op : DrawStrokeLineOp,
      DecorationLinePainter.Paint {} [] dottedGeometry Color.Black =
        [PaintOp.DrawStrokeLine op] ∧
      op.thickness = 3 ∧ op.p1.x = 23 / 2 ∧ op.p2.x = 217 / 2 := by
  have hw : 0 < dottedGeometry.line.width := by
    simp only [dottedGeometry]; norm_num
  obtain ⟨op, h1, h2, h3, -⟩ :=
    C31_endpoint_inset {} [] dottedGeometry Color.Black hw (Or.inl rfl)
  have hh : dottedGeometry.line.height = 3 := rfl
  have hx : dottedGeometry.line.x = 10 := rfl
  have hwd : dottedGeometry.line.width = 100 := rfl
  rw [hh, cround_three] at h2 h3
  obtain ⟨h4, h5⟩ := h3 ⟨rfl, by norm_num⟩
  refine ⟨hw, op, h1, h2, ?_, ?_⟩
  · rw [h4, hx]; norm_num
  · rw [h5, hx, hwd]; norm_num

/-- Counterexample to C31 as stated: the dashed geometry with line
{10, 12, 100, 3} has rounded thickness 3, and the endpoints of its stroked
line stay at x = 10 and x = 110 instead of moving inward to 11.5 and 108.5. -/
theorem C31_counterexample :
    0 < dashedGeometry.line.width ∧
    dashedGeometry.style = StrokeStyle.kDashedStroke ∧
    ∃ op : DrawStrokeLineOp,
      DecorationLinePainter.Paint {} [] dashedGeometry Color.Black =
        [PaintOp.DrawStrokeLine op] ∧
      op.thickness = 3 ∧ op.p1.x = 10 ∧ op.p2.x = 110 ∧
      op.p1.x ≠ dashedGeometry.line.x + op.thickness / 2 := by
  have hw : 0 < dashedGeometry.line.width := by
    simp only [dashedGeometry]; norm_num
  obtain ⟨op, h1, h2, -, -, h5, h6⟩ :=
    LinePainter_stroke_eq {} [] dashedGeometry Color.Black hw (Or.inr rfl)
  have hh : dashedGeometry.line.height = 3 := rfl
  have hx : dashedGeometry.line.x = 10 := rfl
  have hwd : dashedGeometry.line.width = 100 := rfl
  have hd : StrokeIsDashed (cround dashedGeometry.line.height) dashedGeometry.style = true := by
    simp [StrokeIsDashed, dashedGeometry]
  rw [hd, if_pos rfl, hx] at h5
  rw [hd, if_pos rfl, hx, hwd] at h6
  rw [hh, cround_three] at h2
  refine ⟨hw, rfl, op, h1, h2, h5, ?_, ?_⟩
  · rw [h6]; norm_num
  · rw [h5, h2, hx]; norm_num

/-- C32: for a wavy geometry of positive width, Paint appends exactly one
DrawWavyLineOp. Its tile path is a move to (phase, 1/2) followed by three
cubic segments, the k-th starting at phase + k * wavelength, with control
points at (start + wavelength/2, 1/2 + d) and (start + wavelength/2, 1/2 - d)
and end point (start + wavelength, 1/2), d being the control point distance.
With top = floor(1/2 - d - thickness/2) and bottom = ceil(1/2 + d +
thickness/2), the tile rect is {0, 0, wavelength, bottom - top} and the paint
rect is {line.x, line.y + top + wavy_offset, line.width, bottom - top}. -/
theorem C32_wavy_line_op (state_ids : GraphicsStateIds) (ops : PaintOpList)
    (geometry : DecorationGeometry) (color : Color)
    (hw : 0 < geometry.line.width) (hs : geometry.style = StrokeStyle.kWavyStroke) :
    ∃ op : DrawWavyLineOp,
      DecorationLinePainter.Paint state_ids ops geometry color =
        ops ++ [PaintOp.DrawWavyLine op] ∧
      op.tile_path.commands =
        [PathCommand.MoveTo geometry.wavy_wave.phase (1 / 2),
         PathCommand.CubicTo
           (geometry.wavy_wave.phase + geometry.wavy_wave.wavelength / 2)
           (1 / 2 + geometry.wavy_wave.control_point_distance)
           (geometry.wavy_wave.phase + geometry.wavy_wave.wavelength / 2)
           (1 / 2 - geometry.wavy_wave.control_point_distance)
           (geometry.wavy_wave.phase + geometry.wavy_wave.wavelength) (1 / 2),
         PathCommand.CubicTo
           (geometry.wavy_wave.phase + geometry.wavy_wave.wavelength +
             geometry.wavy_wave.wavelength / 2)
           (1 / 2 + geometry.wavy_wave.control_point_distance)
           (geometry.wavy_wave.phase + geometry.wavy_wave.wavelength +
             geometry.wavy_wave.wavelength / 2)
           (1 / 2 - geometry.wavy_wave.control_point_distance)
           (geometry.wavy_wave.phase + 2 * geometry.wavy_wave.wavelength) (1 / 2),
         PathCommand.CubicTo
           (geometry.wavy_wave.phase + 2 * geometry.wavy_wave.wavelength +
             geometry.wavy_wave.wavelength / 2)
           (1 / 2 + geometry.wavy_wave.control_point_distance)
           (geometry.wavy_wave.phase + 2 * geometry.wavy_wave.wavelength +
             geometry.wavy_wave.wavelength / 2)
           (1 / 2 - geometry.wavy_wave.control_point_distance)
           (geometry.wavy_wave.phase + 3 * geometry.wavy_wave.wavelength) (1 / 2)] ∧
      op.tile_rect =
        { x := 0, y := 0, width := geometry.wavy_wave.wavelength
          height :=
            cceil (1 / 2 + geometry.wavy_wave.control_point_distance +
              geometry.line.height / 2) -
            cfloor (1 / 2 - geometry.wavy_wave.control_point_distance -
              geometry.line.height / 2) } ∧
      op.paint_rect =
        { x := geometry.line.x
          y := geometry.line.y +
            cfloor (1 / 2 - geometry.wavy_wave.control_point_distance -
              geometry.line.height / 2) + geometry.wavy_offset
          width := geometry.line.width
          height :=
            cceil (1 / 2 + geometry.wavy_wave.control_point_distance +
              geometry.line.height / 2) -
            cfloor (1 / 2 - geometry.wavy_wave.control_point_distance -
              geometry.line.height / 2) } ∧
      op.stroke_thickness = geometry.line.height ∧
      op.color = color ∧ op.wave = geometry.wavy_wave := by
  rw [LinePainter_wavy_eq state_ids ops geometry color hw hs]
  refine ⟨_, rfl, ?_, ?_, ?_, rfl, rfl, rfl⟩
  · simp only [WavyPath, Path.MoveTo, Path.CubicTo, PathCommand.MoveTo, PathCommand.CubicTo,
      List.nil_append, List.cons_append]
    ring_nf
  · simp only [ComputeWavyPatternRect, DecorationGeometry.Thickness]
  · simp only [ComputeWavyPaintRect, ComputeWavyPatternRect, DecorationGeometry.Thickness,
      add_zero]

/-- Witness for C32: the wavy geometry with line {10, 12, 100, 3}, wavy offset
4 and wave (15, 10.5, -15) has top = -12 and bottom = 13, so the tile rect is
{0, 0, 15, 25} and the paint rect is {10, 4, 100, 25}. -/
theorem C32_wavy_line_op_witness :
    0 < wavyGeometry.line.width ∧
    ∃ op : DrawWavyLineOp,
      DecorationLinePainter.Paint {} [] wavyGeometry Color.Black =
        [PaintOp.DrawWavyLine op] ∧
      op.tile_rect = { x := 0, y := 0, width := 15, height := 25 } ∧
      op.paint_rect = { x := 10, y := 4, width := 100, height := 25 } := by
  have hw : 0 < wavyGeometry.line.width := by
    simp only [wavyGeometry]; norm_num
  obtain ⟨op, h1, -, h3, h4, -⟩ :=
    C32_wavy_line_op {} [] wavyGeometry Color.Black hw rfl
  have hf : cfloor ((1 : ℚ) / 2 - 21 / 2 - 3 / 2) = -12 := by
    simp only [cfloor]
    have : ⌊((1 : ℚ) / 2 - 21 / 2 - 3 / 2)⌋ = -12 := by
      rw [Int.floor_eq_iff]; constructor <;> norm_num
    rw [this]; norm_num
  have hc : cceil ((1 : ℚ) / 2 + 21 / 2 + 3 / 2) = 13 := by
    simp only [cceil]
    have : ⌈((1 : ℚ) / 2 + 21 / 2 + 3 / 2)⌉ = 13 := by
      rw [Int.ceil_eq_iff]; constructor <;> norm_num
    rw [this]; norm_num
  simp only [wavyGeometry, hf, hc] at h3 h4
  refine ⟨hw, op, h1, ?_, ?_⟩
  · rw [h3]; norm_num
  · rw [h4]; norm_num

/-- C33: DecorationLinePainter::Bounds returns the line rect unchanged for the
solid and no-stroke styles; {x, m - T/2, width, T} for dotted and dashed, with
m = floor(y + max(height/2, 1/2)) and T = round(height); for wavy, the paint
rect of the DrawWavyLineOp that Paint emits for the same geometry when the
width is positive; and for double, the line rect with its height increased by
|double_offset| and its y lowered by |double_offset| when double_offset < 0,
a rect that contains the line rect and the line rect shifted by
double_offset. -/
theorem C33_bounds (geometry : DecorationGeometry) :
    (geometry.style = StrokeStyle.kSolidStroke ∨ geometry.style = StrokeStyle.kNoStroke →
      DecorationLinePainter.Bounds geometry = geometry.line) ∧
    (geometry.style = StrokeStyle.kDottedStroke ∨
        geometry.style = StrokeStyle.kDashedStroke →
      DecorationLinePainter.Bounds geometry =
        { x := geometry.line.x
          y := cfloor (geometry.line.y + max (geometry.line.height / 2) (1 / 2)) -
            cround geometry.line.height / 2
          width := geometry.line.width
          height := cround geometry.line.height }) ∧
    (geometry.style = StrokeStyle.kWavyStroke →
      ∀ (state_ids : GraphicsStateIds) (ops : PaintOpList) (color : Color),
        0 < geometry.line.width →
        ∃ op : DrawWavyLineOp,
          DecorationLinePainter.Paint state_ids ops geometry color =
            ops ++ [PaintOp.DrawWavyLine op] ∧
          DecorationLinePainter.Bounds geometry = op.paint_rect) ∧
    (geometry.style = StrokeStyle.kDoubleStroke →
      DecorationLinePainter.Bounds geometry =
        { x := geometry.line.x
          y := if geometry.double_offset < 0
            then geometry.line.y - |geometry.double_offset| else geometry.line.y
          width := geometry.line.width
          height := geometry.line.height + |geometry.double_offset| } ∧
      (DecorationLinePainter.Bounds geometry).Contains geometry.line ∧
      (DecorationLinePainter.Bounds geometry).Contains
        { geometry.line with y := geometry.line.y + geometry.double_offset }) := by
  refine ⟨?_, ?_, ?_, ?_⟩
  · rintro (h | h) <;> simp only [DecorationLinePainter.Bounds, h]
  · rintro (h | h) <;>
      simp only [DecorationLinePainter.Bounds, h, GetSnappedPointsForTextLine,
        DecorationGeometry.Thickness, add_sub_cancel_left]
  · intro h state_ids ops color hw
    rw [LinePainter_wavy_eq state_ids ops geometry color hw h]
    refine ⟨_, rfl, ?_⟩
    simp only [DecorationLinePainter.Bounds, h]
  · intro h
    have hB : DecorationLinePainter.Bounds geometry =
        { x := geometry.line.x
          y := if geometry.double_offset < 0
            then geometry.line.y - |geometry.double_offset| else geometry.line.y
          width := geometry.line.width
          height := geometry.line.height + |geometry.double_offset| } := by
      simp only [DecorationLinePainter.Bounds, h]
      by_cases hd : geometry.double_offset < 0
      · simp only [hd, if_true, abs_of_neg hd, sub_neg_eq_add]
      · simp only [hd, if_false]
    refine ⟨hB, ?_, ?_⟩
    · rw [hB]
      simp only [RectF.Contains]
      by_cases hd : geometry.double_offset < 0
      · simp only [hd, if_true, abs_of_neg hd]
        refine ⟨le_refl _, ?_, le_refl _, ?_⟩ <;> linarith
      · simp only [hd, if_false, abs_of_nonneg (not_lt.1 hd)]
        refine ⟨le_refl _, le_refl _, le_refl _, ?_⟩
        linarith [not_lt.1 hd]
    · rw [hB]
      simp only [RectF.Contains]
      by_cases hd : geometry.double_offset < 0
      · simp only [hd, if_true, abs_of_neg hd]
        refine ⟨le_refl _, ?_, le_refl _, ?_⟩ <;> linarith
      · simp only [hd, if_false, abs_of_nonneg (not_lt.1 hd)]
        refine ⟨le_refl _, ?_, le_refl _, ?_⟩ <;> linarith [not_lt.1 hd]

/-- Witness for C33: the double geometry with line {10, 12.5, 100, 2.7} and
double offset 3.7 has bounds {10, 12.5, 100, 6.4}, which contain the line rect
shifted by the double offset. -/
theorem C33_bounds_witness :
    doubleGeometry.style = StrokeStyle.kDoubleStroke ∧
    DecorationLinePainter.Bounds doubleGeometry =
      { x := 10, y := 25 / 2, width := 100, height := 32 / 5 } ∧
    (DecorationLinePainter.Bounds doubleGeometry).Contains
      { doubleGeometry.line with y := doubleGeometry.line.y + doubleGeometry.double_offset } := by
  obtain ⟨h1, -, h3⟩ := (C33_bounds doubleGeometry).2.2.2 rfl
  refine ⟨rfl, ?_, h3⟩
  rw [h1]
  simp only [doubleGeometry]
  rw [abs_of_nonneg (by norm_num)]
  norm_num

/-- C34: when the paint phase is text-clip, the output of TextPainter::Paint
contains no DrawShadowOp and no ClearShadowOp, whatever shadows the style
declares and whatever the other fields of the input hold, and every
DrawTextBlobOp and every DrawEmphasisMarksOp in it carries opaque black. -/
theorem C34_text_clip_no_shadow (m : FloatMath) (input : TextPaintInput)
    (hc : input.paint_phase = PaintPhase.kTextClip) :
    ∀ op ∈ Paint m input,
      op.isDrawShadow = false ∧ op.isClearShadow = false ∧
      (∀ blob, op = PaintOp.DrawTextBlob blob → blob.flags.color = Color.Black) ∧
      (∀ e, op = PaintOp.DrawEmphasisMarks e → e.color = Color.Black) := by
  intro op hop
  by_cases hv : input.visibility = Visibility.kVisible
  · rcases hm : input.symbol_marker.filter
        (fun marker => marker.type != SymbolMarkerType.kNone) with _ | marker
    · by_cases hg : input.fragment.from_ ≥ input.fragment.to_ ∨
          (!input.fragment.HasShapeResult && !input.is_line_break) = true ∨
          input.is_flow_control = true
      · rw [Paint_gated m input hv hm hg] at hop
        exact absurd hop (List.not_mem_nil _)
      · obtain ⟨hft, hs, hfc⟩ := gates_split input hg
        exact clip_op_facts op input.decorations
          (Paint_clip_ops m input hc hv hm hft hs hfc op hop)
    · rw [Paint_marker m input hv marker hm] at hop
      obtain ⟨a1, a2, a3, a4⟩ := PaintSymbolMarker_ops marker input.state_ids op hop
      refine ⟨a1, a2, ?_, ?_⟩
      · intro blob h0
        rw [h0] at a3
        exact absurd a3 (by simp [PaintOp.isDrawTextBlob])
      · intro e h0
        rw [h0] at a4
        exact absurd a4 (by simp [PaintOp.isDrawEmphasisMarks])
  · rw [Paint_hidden m input hv] at hop
    exact absurd hop (List.not_mem_nil _)

/-- Witness for C34: the text-clip fragment textClipInput declares a shadow, a
red fill colour and a green emphasis mark colour; its output has no shadow
operation and its text blob and emphasis marks are black. -/
theorem C34_text_clip_no_shadow_witness :
    textClipInput.paint_phase = PaintPhase.kTextClip ∧
    textClipInput.style.shadow = some [shadowA] ∧
    textClipInput.style.fill_color ≠ Color.Black ∧
    ∀ op ∈ Paint sampleMath textClipInput,
      op.isDrawShadow = false ∧ op.isClearShadow = false ∧
      (∀ blob, op = PaintOp.DrawTextBlob blob → blob.flags.color = Color.Black) ∧
      (∀ e, op = PaintOp.DrawEmphasisMarks e → e.color = Color.Black) :=
  ⟨rfl, rfl, by decide, C34_text_clip_no_shadow sampleMath textClipInput rfl⟩

/-- C35 (amended): when the paint phase is text-clip and the fragment passes
the gates, only the colours of the style are forced to opaque black: the
DrawTextBlobOp and the DrawEmphasisMarksOp carry opaque black, while every
decoration operation (DrawLineOp, DrawStrokeLineOp, DrawWavyLineOp) carries
the declared colour of one of the decorations of the input.  Every operation
of the output is a transform or restore operation, the text blob, the emphasis
marks or such a decoration operation. -/
theorem C35_text_clip_colours (m : FloatMath) (input : TextPaintInput)
    (hc : input.paint_phase = PaintPhase.kTextClip)
    (hv : input.visibility = Visibility.kVisible)
    (hm : input.symbol_marker.filter
      (fun marker => marker.type != SymbolMarkerType.kNone) = none)
    (hft : input.fragment.from_ < input.fragment.to_)
    (hs : input.fragment.HasShapeResult = true ∨ input.is_line_break = true)
    (hfc : input.is_flow_control = false) :
    ∀ op ∈ Paint m input,
      (op.isTransformOp = true ∨ op.isRestore = true) ∨
      (∃ blob, op = PaintOp.DrawTextBlob blob ∧ blob.flags.color = Color.Black) ∨
      (∃ e, op = PaintOp.DrawEmphasisMarks e ∧ e.color = Color.Black) ∨
      (∃ d ∈ input.decorations, op.lineColor = some d.color) :=
  Paint_clip_ops m input hc hv hm hft hs hfc

/-- Witness for C35 (amended): every operation of the output for textClipInput
is a transform or restore operation, a black text blob, black emphasis marks,
or a line operation in the colour of its spelling-error decoration. -/
theorem C35_text_clip_colours_witness :
    textClipInput.paint_phase = PaintPhase.kTextClip ∧
    textClipInput.decorations = [spellingDecoration] ∧
    ∀ op ∈ Paint sampleMath textClipInput,
      (op.isTransformOp = true ∨ op.isRestore = true) ∨
      (∃ blob, op = PaintOp.DrawTextBlob blob ∧ blob.flags.color = Color.Black) ∨
      (∃ e, op = PaintOp.DrawEmphasisMarks e ∧ e.color = Color.Black) ∨
      (∃ d ∈ textClipInput.decorations, op.lineColor = some d.color) :=
  ⟨rfl, rfl, C35_text_clip_colours sampleMath textClipInput rfl rfl rfl (by decide)
    (Or.inl rfl) rfl⟩

/-- Counterexample to C35 as stated: the text-clip fragment textClipInput
passes the gates, and its output contains a DrawWavyLineOp that carries the
grey of its spelling-error decoration, not opaque black. -/
theorem C35_counterexample :
    textClipInput.paint_phase = PaintPhase.kTextClip ∧
    ∃ op : DrawWavyLineOp,
      PaintOp.DrawWavyLine op ∈ Paint sampleMath textClipInput ∧
      op.color = { r := 128, g := 128, b := 128 } ∧ op.color ≠ Color.Black := by
  obtain ⟨under, lt, emph, blob, fs, asc, desc, hEq, hU, -, -, -⟩ :=
    Paint_detail sampleMath textClipInput rfl rfl (by decide) (Or.inl rfl) rfl
  have hsh : HasTextShadow (effectiveStyle textClipInput).shadow = false := by
    rw [(effectiveStyle_clip textClipInput rfl).1]; rfl
  have hw : 0 < textClipInput.box.width := by
    show (0 : ℚ) < 100
    norm_num
  obtain ⟨op, h1, h2⟩ := PaintDecorationsExceptLineThrough_spelling
    (transformOps sampleMath textClipInput) textClipInput.box fs asc desc
    textClipInput.state_ids _ (scalingFactor textClipInput) hsh hw
  have hu : under = [PaintOp.DrawWavyLine op] :=
    List.append_cancel_left (hU.symm.trans h1)
  refine ⟨rfl, op, ?_, h2, ?_⟩
  · rw [hEq, hu]
    simp
  · rw [h2]
    decide

/-- C37 (amended): in the under/over decoration pass the entries are painted
in list order: the pass appends the operations of entry 0, then of entry 1,
and so on.  An entry flagged spelling-error or grammar-error yields, in each
phase, the output of the line painter for its spelling/grammar geometry and
nothing for its underline or overline flag: exactly one wavy operation when
the decoration width is positive, and no operation at all when the width is
zero or negative.  An entry without those flags yields its underline
operations (if flagged underline) followed by its overline operations (if
flagged overline). -/
theorem C37_under_over_entries (ids : GraphicsStateIds) (phase : TextShadowPaintPhase)
    (ops : PaintOpList) (a : TextDecorationInfo) (hv : CacheValid a) :
    (TextDecorationPainter.PaintUnderOrOverLineDecorations_paint_decorations ids
        TextDecorationPainter.exceptLineThroughLines phase (ops, a)).1 =
      ops ++ (List.range a.DecorationCount).flatMap
        (underOverEntryOps ids TextDecorationPainter.exceptLineThroughLines phase a) ∧
    ∀ i d, a.decorations_[i]? = some d →
      (HasFlag d.line
          (TextDecorationLine.kSpellingError ||| TextDecorationLine.kGrammarError) = true →
        underOverEntryOps ids TextDecorationPainter.exceptLineThroughLines phase a i =
          DecorationLinePainter.Paint ids []
            (a.SetDecorationIndex i).SetSpellingOrGrammarErrorLineData.GetGeometry
            (if phase = TextShadowPaintPhase.kShadow then Color.Black else d.color) ∧
        (0 < a.width_ → ∃ op : DrawWavyLineOp,
          underOverEntryOps ids TextDecorationPainter.exceptLineThroughLines phase a i =
            [PaintOp.DrawWavyLine op] ∧
          op.color =
            (if phase = TextShadowPaintPhase.kShadow then Color.Black else d.color)) ∧
        (a.width_ ≤ 0 →
          underOverEntryOps ids TextDecorationPainter.exceptLineThroughLines phase a i =
            [])) ∧
      (HasFlag d.line
          (TextDecorationLine.kSpellingError ||| TextDecorationLine.kGrammarError) = false →
        underOverEntryOps ids TextDecorationPainter.exceptLineThroughLines phase a i =
          (if HasFlag d.line TextDecorationLine.kUnderline = true then
            DecorationLinePainter.Paint ids []
              (a.SetDecorationIndex i).SetUnderlineLineData.GetGeometry
              (if phase = TextShadowPaintPhase.kShadow then Color.Black else d.color)
           else []) ++
          (if HasFlag d.line TextDecorationLine.kOverline = true then
            DecorationLinePainter.Paint ids []
              (a.SetDecorationIndex i).SetOverlineLineData.GetGeometry
              (if phase = TextShadowPaintPhase.kShadow then Color.Black else d.color)
           else [])) := by
  refine ⟨(UnderOrOver_paint_decorations_eq ids _ phase ops a a rfl hv hv).1, ?_⟩
  intro i d hd
  refine ⟨fun hsp => ⟨underOverEntryOps_spelling ids phase a i d hv hd hsp,
    underOverEntryOps_spelling_wide ids phase a i d hv hd hsp,
    underOverEntryOps_spelling_narrow ids phase a i d hv hd hsp⟩,
    underOverEntryOps_plain ids phase a i d hv hd⟩

/-- Witness for C37 (amended): over the single spelling-error decoration of
spellingInfo, of width 100, the foreground pass emits exactly one wavy
operation, in the colour of the decoration. -/
theorem C37_under_over_entries_witness :
    CacheValid spellingInfo ∧
    ∃ op : DrawWavyLineOp,
      (TextDecorationPainter.PaintUnderOrOverLineDecorations_paint_decorations {}
          TextDecorationPainter.exceptLineThroughLines TextShadowPaintPhase.kForeground
          ([], spellingInfo)).1 = [PaintOp.DrawWavyLine op] ∧
      op.color = spellingDecoration.color := by
  have hv : CacheValid spellingInfo :=
    CacheValid_create 10 30 100 20 15 5 [spellingDecoration] 1 (some 4) (some 7)
  obtain ⟨h1, h2⟩ := C37_under_over_entries {} TextShadowPaintPhase.kForeground []
    spellingInfo hv
  have hds : spellingInfo.decorations_ = [spellingDecoration] :=
    (inputs_create 10 30 100 20 15 5 [spellingDecoration] 1 (some 4) (some 7)).1
  have hwd : spellingInfo.width_ = 100 :=
    (inputs_create 10 30 100 20 15 5 [spellingDecoration] 1 (some 4) (some 7)).2
  have hd : spellingInfo.decorations_[0]? = some spellingDecoration := by rw [hds]; rfl
  obtain ⟨op, h3, h4⟩ := ((h2 0 spellingDecoration hd).1 (by decide)).2.1
    (by rw [hwd]; norm_num)
  rw [if_neg (by decide)] at h4
  refine ⟨hv, op, ?_, h4⟩
  have hn : spellingInfo.DecorationCount = 1 := by
    unfold TextDecorationInfo.DecorationCount
    rw [hds]; rfl
  rw [h1, hn, flatMap_range_one, h3]
  rfl

/-- Counterexample to C37 as stated: over the single spelling-error decoration
of narrowSpellingInfo, whose width is 0, neither phase of the under/over pass
emits a wavy operation. -/
theorem C37_counterexample :
    CacheValid narrowSpellingInfo ∧
    narrowSpellingInfo.decorations_ = [spellingDecoration] ∧
    HasFlag spellingDecoration.line
      (TextDecorationLine.kSpellingError ||| TextDecorationLine.kGrammarError) = true ∧
    (TextDecorationPainter.PaintUnderOrOverLineDecorations_paint_decorations {}
        TextDecorationPainter.exceptLineThroughLines TextShadowPaintPhase.kForeground
        ([], narrowSpellingInfo)).1 = [] ∧
    (TextDecorationPainter.PaintUnderOrOverLineDecorations_paint_decorations {}
        TextDecorationPainter.exceptLineThroughLines TextShadowPaintPhase.kShadow
        ([], narrowSpellingInfo)).1 = [] := by
  have hv : CacheValid narrowSpellingInfo :=
    CacheValid_create 10 30 0 20 15 5 [spellingDecoration] 1 (some 4) (some 7)
  have hds : narrowSpellingInfo.decorations_ = [spellingDecoration] :=
    (inputs_create 10 30 0 20 15 5 [spellingDecoration] 1 (some 4) (some 7)).1
  have hwd : narrowSpellingInfo.width_ = 0 :=
    (inputs_create 10 30 0 20 15 5 [spellingDecoration] 1 (some 4) (some 7)).2
  have hd : narrowSpellingInfo.decorations_[0]? = some spellingDecoration := by
    rw [hds]; rfl
  have hn : narrowSpellingInfo.DecorationCount = 1 := by
    unfold TextDecorationInfo.DecorationCount
    rw [hds]; rfl
  have hentry : ∀ phase,
      (TextDecorationPainter.PaintUnderOrOverLineDecorations_paint_decorations {}
        TextDecorationPainter.exceptLineThroughLines phase ([], narrowSpellingInfo)).1 =
        [] := by
    intro phase
    rw [(UnderOrOver_paint_decorations_eq {} _ phase [] narrowSpellingInfo
      narrowSpellingInfo rfl hv hv).1, hn, flatMap_range_one, List.nil_append]
    exact underOverEntryOps_spelling_narrow {} phase narrowSpellingInfo 0 spellingDecoration
      hv hd (by decide) (by rw [hwd])
  exact ⟨hv, hds, by decide, hentry _, hentry _⟩

/-- C38: for a fragment that passes the gates outside the text-clip phase,
with a non-empty shadow list.  When the decoration list is empty, the output
is the transform operations, then the DrawShadowOps of the list in reverse
declaration order, then the DrawTextBlobOp, then operations that are neither
DrawShadowOp nor DrawTextBlobOp.  When the decoration list is non-empty,
whatever line types it holds, the output is the list built by
PaintDecorationsExceptLineThrough from the transform operations, directly
followed by the DrawTextBlobOp: no DrawShadowOp is emitted for the glyph run,
and the last operation before the DrawTextBlobOp, if there is one, is not a
DrawShadowOp. -/
theorem C38_glyph_shadows (m : FloatMath) (input : TextPaintInput)
    (list : List ShadowData)
    (hv : input.visibility = Visibility.kVisible)
    (hm : input.symbol_marker.filter
      (fun marker => marker.type != SymbolMarkerType.kNone) = none)
    (hft : input.fragment.from_ < input.fragment.to_)
    (hs : input.fragment.HasShapeResult = true ∨ input.is_line_break = true)
    (hfc : input.is_flow_control = false)
    (hph : input.paint_phase ≠ PaintPhase.kTextClip)
    (hsh : input.style.shadow = some list) (hne : list ≠ []) :
    (∀ op ∈ transformOps m input, op.isTransformOp = true) ∧
    (input.decorations = [] →
      ∃ blob post, Paint m input =
        transformOps m input ++ list.reverse.map shadowOp ++
          [PaintOp.DrawTextBlob blob] ++ post ∧
        ∀ op ∈ post, op.isDrawShadow = false ∧ op.isDrawTextBlob = false) ∧
    (input.decorations ≠ [] →
      ∃ before blob post, Paint m input = before ++ [PaintOp.DrawTextBlob blob] ++ post ∧
        (∃ fs asc desc, before =
          PaintDecorationsExceptLineThrough (transformOps m input) input.decorations
            input.box fs asc desc input.state_ids (some list) (scalingFactor input)) ∧
        (∀ op, before.getLast? = some op → op.isDrawShadow = false) ∧
        (∀ op ∈ before, op.isDrawTextBlob = false)) := by
  obtain ⟨under, lt, emph, blob, fs, asc, desc, hEq, hU, hL, -, hemph⟩ :=
    Paint_detail m input hv hm hft hs hfc
  have hes : (effectiveStyle input).shadow = some list := by
    rw [effectiveStyle_other input hph, hsh]
  have hhas : HasTextShadow (some list) = true :=
    (HasTextShadow_true_iff _).2 ⟨list, rfl, hne⟩
  rw [hes] at hU hL
  have hemph2 : ∀ op ∈ emph, op.isDrawShadow = false ∧ op.isDrawTextBlob = false := by
    intro op hop
    rcases hemph with h0 | ⟨e, h0, -⟩
    · rw [h0] at hop
      exact absurd hop (List.not_mem_nil _)
    · rw [h0, List.mem_singleton] at hop
      rw [hop]; exact ⟨rfl, rfl⟩
  have hrest : ∀ op ∈ (if stateSaved input = true then [PaintOp.Restore] else []),
      op.isDrawShadow = false ∧ op.isDrawTextBlob = false := by
    intro op hop
    split_ifs at hop
    · rw [List.mem_singleton] at hop
      rw [hop]; exact ⟨rfl, rfl⟩
    · exact absurd hop (List.not_mem_nil _)
  refine ⟨transformOps_isTransformOp m input, ?_, ?_⟩
  · intro hd
    have he : input.decorations.isEmpty = true := by rw [hd]; rfl
    have hu : under = [] := by
      unfold PaintDecorationsExceptLineThrough at hU
      rw [if_pos he] at hU
      exact (List.append_cancel_left (hU.symm.trans (List.append_nil _).symm)).symm ▸ rfl
    have hl : lt = [] := by
      unfold PaintDecorationsLineThrough at hL
      rw [if_pos he] at hL
      exact (List.append_cancel_left (hL.symm.trans (List.append_nil _).symm)).symm ▸ rfl
    have hts : textShadowOps input = list.reverse.map shadowOp := by
      unfold textShadowOps
      rw [hes, hhas, he]
      rfl
    refine ⟨blob, emph ++ (if stateSaved input = true then [PaintOp.Restore] else []),
      ?_, ?_⟩
    · rw [hEq, hu, hl, hts]
      simp only [List.append_nil, List.append_assoc]
    · intro op hop
      rcases List.mem_append.1 hop with h | h
      · exact hemph2 op h
      · exact hrest op h
  · intro hd
    have he : input.decorations.isEmpty = false := by
      cases h : input.decorations with
      | nil => exact absurd h hd
      | cons d ds => rfl
    have hts : textShadowOps input = [] := by
      unfold textShadowOps
      rw [he]
      simp
    obtain ⟨extra, hX, hlast⟩ := PaintDecorationsExceptLineThrough_last (transformOps m input)
      input.decorations input.box fs asc desc input.state_ids (some list)
      (scalingFactor input)
    obtain ⟨F, hF, hFd, -⟩ := PaintDecorationsExceptLineThrough_summary (transformOps m input)
      input.decorations input.box fs asc desc input.state_ids (some list)
      (scalingFactor input)
    have hu : under = extra := List.append_cancel_left (hU.symm.trans hX)
    have hu2 : under = F := List.append_cancel_left (hU.symm.trans hF)
    refine ⟨transformOps m input ++ under, blob,
      lt ++ emph ++ (if stateSaved input = true then [PaintOp.Restore] else []), ?_,
      ⟨fs, asc, desc, hU.symm⟩, ?_, ?_⟩
    · rw [hEq, hts]
      simp only [List.append_nil, List.append_assoc]
    · intro op hop
      by_cases hnil : under = []
      · rw [hnil, List.append_nil] at hop
        exact isTransformOp_not_shadow op
          (transformOps_isTransformOp m input op (List.mem_of_mem_getLast? hop))
      · rw [List.getLast?_append_of_ne_nil _ hnil, hu] at hop
        exact hlast op hop
    · intro op hop
      rcases List.mem_append.1 hop with h | h
      · exact (isTransformOp_not op (transformOps_isTransformOp m input op h)).1
      · exact (isDecorationOp_not op (hFd op (hu2 ▸ h))).1

/-- Witness for C38: shadowedTextInput has no decoration and the shadows A and
B; its DrawTextBlobOp is directly preceded by the DrawShadowOp of B and then
of A.  -/
theorem C38_glyph_shadows_witness :
    shadowedTextInput.style.shadow = some [shadowA, shadowB] ∧
    shadowedTextInput.decorations = [] ∧
    ∃ blob post, Paint sampleMath shadowedTextInput =
      transformOps sampleMath shadowedTextInput ++ [shadowOp shadowB, shadowOp shadowA] ++
        [PaintOp.DrawTextBlob blob] ++ post ∧
      ∀ op ∈ post, op.isDrawShadow = false ∧ op.isDrawTextBlob = false :=
  ⟨rfl, rfl, (C38_glyph_shadows sampleMath shadowedTextInput [shadowA, shadowB] rfl rfl
    (by decide) (Or.inl rfl) rfl (by decide) rfl (by simp)).2.1 rfl⟩

/-- C39: for a decoration painter with a non-empty shadow list, each of the two
decoration groups (underline/overline/spelling/grammar, and line-through)
emits in its shadow phase exactly the operations F of its foreground phase
with the colour replaced by opaque black, in the same number and order: the
shadow phase turns ops ++ shadows into ops ++ shadows ++ F.map (black), and the
whole group is that list followed by the ClearShadowOp and F.  Every operation
of F is a line operation, and putting its own colour back into its black copy
gives the operation itself, so geometry, thickness, style and state ids are
the same.  The cached members of the decoration info are assumed to agree with
its current entry, which holds for every info built by the constructor and
its methods. -/
theorem C39_shadow_phase_mirrors_foreground (painter : TextDecorationPainter)
    (lines : TextDecorationLine) (list : List ShadowData)
    (hs : painter.shadows_ = some list) (hne : list ≠ [])
    (hv : CacheValid painter.decoration_info_) :
    (∃ F : PaintOpList,
      (TextDecorationPainter.PaintUnderOrOverLineDecorations_paint_decorations
          painter.state_ids_ lines TextShadowPaintPhase.kShadow
          (painter.ops_ ++ list.reverse.map shadowOp, painter.decoration_info_)).1 =
        painter.ops_ ++ list.reverse.map shadowOp ++
          F.map (PaintOp.withLineColor Color.Black) ∧
      (painter.PaintUnderOrOverLineDecorations lines).ops_ =
        painter.ops_ ++ list.reverse.map shadowOp ++
          F.map (PaintOp.withLineColor Color.Black) ++ [PaintOp.ClearShadow] ++ F ∧
      (F.map (PaintOp.withLineColor Color.Black)).length = F.length ∧
      ∀ op ∈ F, ∃ c, op.lineColor = some c ∧
        (op.withLineColor Color.Black).withLineColor c = op) ∧
    (∃ F : PaintOpList,
      (TextDecorationPainter.PaintLineThroughDecorations_paint_decorations
          painter.state_ids_ TextShadowPaintPhase.kShadow
          (painter.ops_ ++ list.reverse.map shadowOp, painter.decoration_info_)).1 =
        painter.ops_ ++ list.reverse.map shadowOp ++
          F.map (PaintOp.withLineColor Color.Black) ∧
      painter.PaintLineThroughDecorations.ops_ =
        painter.ops_ ++ list.reverse.map shadowOp ++
          F.map (PaintOp.withLineColor Color.Black) ++ [PaintOp.ClearShadow] ++ F ∧
      (F.map (PaintOp.withLineColor Color.Black)).length = F.length ∧
      ∀ op ∈ F, ∃ c, op.lineColor = some c ∧
        (op.withLineColor Color.Black).withLineColor c = op) := by
  obtain ⟨u1, u2⟩ := PaintUnderOrOver_shadowed painter lines list hs hne hv
  obtain ⟨l1, l2⟩ := PaintLineThrough_shadowed painter list hs hne hv
  refine ⟨⟨_, u1, ?_, List.length_map _ _, ?_⟩, ⟨_, l1, ?_, List.length_map _ _, ?_⟩⟩
  · rw [u2, u1]
  · exact entries_recolour _ _ (fun i op hop =>
      ⟨_, underOverEntryOps_color _ _ _ _ i op hop⟩)
  · rw [l2, l1]
  · exact entries_recolour _ _ (fun i op hop =>
      ⟨_, lineThroughEntryOps_color _ _ _ i op hop⟩)

/-- Witness for C39: the painter over two underlines with the shadows A and B
emits, for its under/over group, the two shadows in reverse order, the black
copies of its foreground operations, the ClearShadowOp and the foreground
operations. -/
theorem C39_shadow_phase_mirrors_foreground_witness :
    shadowedPainter.shadows_ = some [shadowA, shadowB] ∧
    CacheValid shadowedPainter.decoration_info_ ∧
    ∃ F : PaintOpList,
      (shadowedPainter.PaintUnderOrOverLineDecorations
          TextDecorationPainter.exceptLineThroughLines).ops_ =
        [shadowOp shadowB, shadowOp shadowA] ++
          F.map (PaintOp.withLineColor Color.Black) ++ [PaintOp.ClearShadow] ++ F ∧
      (F.map (PaintOp.withLineColor Color.Black)).length = F.length := by
  have hv : CacheValid shadowedPainter.decoration_info_ :=
    CacheValid_create 10 30 100 20 15 5 [autoUnderline, thickUnderline] 1 none none
  obtain ⟨F, -, h2, h3, -⟩ := (C39_shadow_phase_mirrors_foreground shadowedPainter
    TextDecorationPainter.exceptLineThroughLines [shadowA, shadowB] rfl (by simp) hv).1
  exact ⟨rfl, hv, F, h2, h3⟩

end TextPainter
